import Mathlib

/- ==========================================================================
   Verification development for the micro-scheme interpreter
   (sources: MEMORY.C, MAGIC.C, MAIN.C, HELP.C, PARSER.C, BUILTIN module).

   The C data word (an `ipointer`) is either the NULL pointer, a pointer into
   the cons-box region, a pointer into the storage region, or a "zap special
   value" whose special bits (bits 1-2) are set to ZAP_SPECIAL = 3 and whose
   payload occupies the higher bits.  We embed the four cases as the four
   constructors of `Val`; a `special` value carries the raw machine word
   (with bits 1-2 already set, bit 0 clear), a `cell` carries the index of a
   cons box, a `stor` carries the longword address of a storage block inside
   the storage region.  The model machine has 32-bit words and 32-bit
   `long int` (the code assumes `sizeof(pointer) = sizeof(ulong) >= 4`).
   ========================================================================== -/

namespace MicroScheme

inductive Val where
  | nil : Val
  | special (w : Nat) : Val
  | cell (i : Nat) : Val
  | stor (a : Nat) : Val
deriving DecidableEq, Repr

/-- `special_p` from MEMORY.C: the special bits (1-2) of the word are set;
NULL and region pointers (quadword aligned) have them clear, zap words have
them equal to `ZAP_SPECIAL = 3`. -/
def specialP : Val → Bool
  | .special _ => true
  | _ => false

/-! ## Zap-value bit manipulation (MAGIC.C lines 754-803, MEMORY.C 634-637).
These operate on the raw 32-bit word of a zap special value.
`wandnot cur m` renders the C idiom `cur & ~m` on a 32-bit ulong. -/

def wandnot (cur m : Nat) : Nat := cur &&& (0xFFFFFFFF ^^^ m)

/-- `set_zap_type` (MAGIC.C). -/
def setZapType (cur ty : Nat) : Nat :=
  wandnot cur 0xF8 ||| ((ty &&& 0x1F) <<< 3)

/-- `get_zap_type` (MAGIC.C). -/
def getZapType (cur : Nat) : Nat := (cur >>> 3) &&& 0x1F

/-- `set_zap_dataA` (MAGIC.C). -/
def setZapDataA (cur ch : Nat) : Nat :=
  wandnot cur 0xFF00 ||| ((ch &&& 0xFF) <<< 8)

/-- `set_zap_dataB0` (MAGIC.C). -/
def setZapDataB0 (cur ch : Nat) : Nat :=
  wandnot cur 0xFF0000 ||| ((ch &&& 0xFF) <<< 16)

/-- `set_zap_dataB1` (MAGIC.C). -/
def setZapDataB1 (cur ch : Nat) : Nat :=
  wandnot cur 0xFF000000 ||| ((ch &&& 0xFF) <<< 24)

/-- `set_zap_dataB` (MAGIC.C); the argument is first cast to `uint`,
modelled by taking the value modulo 2^16 (`& 0xFFFF`). -/
def setZapDataB (cur v : Nat) : Nat :=
  wandnot cur 0xFFFF0000 ||| ((v &&& 0xFFFF) <<< 16)

/-- `get_zap_dataA` (MAGIC.C). -/
def getZapDataA (cur : Nat) : Nat := (cur >>> 8) &&& 0xFF

/-- `get_zap_dataB0` (MAGIC.C). -/
def getZapDataB0 (cur : Nat) : Nat := (cur >>> 16) &&& 0xFF

/-- `get_zap_dataB1` (MAGIC.C). -/
def getZapDataB1 (cur : Nat) : Nat := (cur >>> 24) &&& 0xFF

/-- `get_zap_dataB` (MAGIC.C). -/
def getZapDataB (cur : Nat) : Nat := (cur >>> 16) &&& 0xFFFF

/-- `set_zap_special` (MEMORY.C): force the special bits to `ZAP_SPECIAL<<1 = 6`
and wrap the word as a special `Val`. -/
def setZapSpecial (cur : Nat) : Val :=
  .special (wandnot cur 0x06 ||| 0x06)

/-! ## PARSER.C: the overflow-guarded digit accumulation of `parse_integer`
(lines 721-729).  Characters are bytes; `value` on a decimal digit char is
`ch - '0'`.  `LONG_MIN`/`LONG_MAX` are the 32-bit limits of the machine the
code was written for.  C integer division truncates toward zero, which is
also the behaviour of `Int./` in Lean. -/

def LONGMAX : Int := 2147483647
def LONGMIN : Int := -2147483648

/-- `digit_p` (PARSER.C). -/
def digitP (ch : Nat) : Bool := 0x30 ≤ ch ∧ ch ≤ 0x39

/-- `value` (PARSER.C) restricted to decimal digits: `ch - '0'`. -/
def digitValue (ch : Nat) : Int := (ch : Int) - 48

/-- The digit-folding loop of `parse_integer` (PARSER.C lines 721-729):
before each digit is folded into the accumulator `val`, the pending value is
checked against `LONG_MIN`/`LONG_MAX`; on failure the loop prints
"integer too large" and returns the error status.  C `/` on `long int`
truncates toward zero, which is `Int.tdiv`. -/
def parseIntLoop (sign : Int) : Int → List Nat → Except String Int
  | val, [] => .ok val
  | val, ch :: rest =>
      if ¬((sign = -1 ∧ Int.tdiv (LONGMIN + digitValue ch) 10 ≤ val) ∨
           (sign = 1 ∧ val ≤ Int.tdiv (LONGMAX - digitValue ch) 10)) then
        .error "integer too large"
      else
        parseIntLoop sign (val * 10 + sign * digitValue ch) rest

/-- Mathematical value of a digit string (most significant first). -/
def digitsVal : List Nat → Int
  | [] => 0
  | ch :: rest => digitValue ch * 10 ^ rest.length + digitsVal rest

lemma digitsVal_nonneg {ds : List Nat} (h : ∀ ch ∈ ds, digitP ch) :
    0 ≤ digitsVal ds := by
  induction ds with
  | nil => simp [digitsVal]
  | cons ch rest ih =>
      have hch := h ch (by simp)
      have hrest := ih (fun c hc => h c (by simp [hc]))
      have h48 : (48 : Int) ≤ (ch : Int) := by
        simp only [digitP, decide_eq_true_eq] at hch; exact_mod_cast hch.1
      have : (0 : Int) ≤ digitValue ch := by simp only [digitValue]; omega
      have hp : (0 : Int) ≤ digitValue ch * 10 ^ rest.length :=
        mul_nonneg this (by positivity)
      simp only [digitsVal]; omega

lemma digitsVal_append (l₁ l₂ : List Nat) :
    digitsVal (l₁ ++ l₂) = digitsVal l₁ * 10 ^ l₂.length + digitsVal l₂ := by
  induction l₁ with
  | nil => simp [digitsVal]
  | cons ch rest ih =>
      simp only [List.cons_append, digitsVal, List.append_eq, ih, List.length_append]
      ring

/-- The negative-side guard of `parse_integer` is exact: with a digit value
`d`, `(LONG_MIN + d) / 10 ≤ val` (C truncating division) holds iff folding the
digit keeps the accumulator at or above `LONG_MIN`. -/
lemma tdiv_guard_neg (d val : Int) (h0 : 0 ≤ d) (h9 : d ≤ 9) :
    (Int.tdiv (LONGMIN + d) 10 ≤ val) ↔ LONGMIN ≤ val * 10 - d := by
  have h1 : Int.tdiv (LONGMIN + d) 10 = -(Int.tdiv (-(LONGMIN + d)) 10) := by
    have := Int.neg_tdiv (-(LONGMIN + d)) 10
    simpa using this
  have h2 : Int.tdiv (-(LONGMIN + d)) 10 = (-(LONGMIN + d)) / 10 :=
    Int.tdiv_eq_ediv (by simp only [LONGMIN]; omega) (by omega)
  rw [h1, h2]
  simp only [LONGMIN] at *
  omega

/-- The positive-side guard of `parse_integer` is exact. -/
lemma tdiv_guard_pos (d val : Int) (h0 : 0 ≤ d) (h9 : d ≤ 9) :
    (val ≤ Int.tdiv (LONGMAX - d) 10) ↔ val * 10 + d ≤ LONGMAX := by
  have h2 : Int.tdiv (LONGMAX - d) 10 = (LONGMAX - d) / 10 :=
    Int.tdiv_eq_ediv (by simp only [LONGMAX]; omega) (by omega)
  rw [h2]
  simp only [LONGMAX] at *
  omega

lemma digitValue_bounds {ch : Nat} (h : digitP ch) :
    0 ≤ digitValue ch ∧ digitValue ch ≤ 9 := by
  simp only [digitP, decide_eq_true_eq] at h
  have h1 : (48 : Int) ≤ (ch : Int) := by exact_mod_cast h.1
  have h2 : (ch : Int) ≤ 57 := by exact_mod_cast h.2
  simp only [digitValue]; omega

/-- Characterization of the positive accumulation loop: starting from an
in-range nonnegative accumulator it returns the denoted value when that value
fits under `LONG_MAX`, and the overflow error otherwise. -/
lemma parseIntLoop_pos (ds : List Nat) : ∀ val : Int, 0 ≤ val → val ≤ LONGMAX →
    (∀ ch ∈ ds, digitP ch) →
    parseIntLoop 1 val ds =
      if val * 10 ^ ds.length + digitsVal ds ≤ LONGMAX then
        .ok (val * 10 ^ ds.length + digitsVal ds)
      else .error "integer too large" := by
  induction ds with
  | nil =>
      intro val hval hvmax _
      simp only [parseIntLoop, List.length_nil, digitsVal, pow_zero, mul_one, add_zero]
      rw [if_pos hvmax]
  | cons ch rest ih =>
      intro val hval hvmax hd
      have hch := hd ch (by simp)
      obtain ⟨hd0, hd9⟩ := digitValue_bounds hch
      have hrest : ∀ c ∈ rest, digitP c := fun c hc => hd c (by simp [hc])
      have hvrest := digitsVal_nonneg hrest
      set d := digitValue ch with hdd
      have hkey : val * 10 ^ (ch :: rest).length + digitsVal (ch :: rest) =
          (val * 10 + d) * 10 ^ rest.length + digitsVal rest := by
        simp only [List.length_cons, digitsVal, pow_succ, ← hdd]
        ring
      rw [hkey]
      by_cases hg : val * 10 + d ≤ LONGMAX
      · -- the guard passes
        have hcond : ((1 : Int) = -1 ∧ Int.tdiv (LONGMIN + d) 10 ≤ val ∨
            (1 : Int) = 1 ∧ val ≤ Int.tdiv (LONGMAX - d) 10) :=
          Or.inr ⟨rfl, (tdiv_guard_pos d val hd0 hd9).2 hg⟩
        rw [parseIntLoop, if_neg (not_not_intro hcond)]
        simp only [one_mul, ← hdd]
        exact ih (val * 10 + d) (by omega) hg hrest
      · -- the guard fails; the denoted value is out of range as well
        have hcond : ¬((1 : Int) = -1 ∧ Int.tdiv (LONGMIN + d) 10 ≤ val ∨
            (1 : Int) = 1 ∧ val ≤ Int.tdiv (LONGMAX - d) 10) := by
          rintro (⟨h1, -⟩ | ⟨-, h2⟩)
          · exact absurd h1 (by norm_num)
          · exact hg ((tdiv_guard_pos d val hd0 hd9).1 h2)
        rw [parseIntLoop, if_pos hcond]
        have hpow : (0 : Int) < 10 ^ rest.length := pow_pos (by norm_num) _
        have h1 : (val * 10 + d) ≤ (val * 10 + d) * 10 ^ rest.length :=
          le_mul_of_one_le_right (by omega) (by omega)
        rw [if_neg (by omega)]

/-- Characterization of the negative accumulation loop. -/
lemma parseIntLoop_neg (ds : List Nat) : ∀ val : Int, val ≤ 0 → LONGMIN ≤ val →
    (∀ ch ∈ ds, digitP ch) →
    parseIntLoop (-1) val ds =
      if LONGMIN ≤ val * 10 ^ ds.length - digitsVal ds then
        .ok (val * 10 ^ ds.length - digitsVal ds)
      else .error "integer too large" := by
  induction ds with
  | nil =>
      intro val hval hvmin _
      simp only [parseIntLoop, List.length_nil, digitsVal, pow_zero, mul_one, sub_zero]
      rw [if_pos hvmin]
  | cons ch rest ih =>
      intro val hval hvmin hd
      have hch := hd ch (by simp)
      obtain ⟨hd0, hd9⟩ := digitValue_bounds hch
      have hrest : ∀ c ∈ rest, digitP c := fun c hc => hd c (by simp [hc])
      have hvrest := digitsVal_nonneg hrest
      set d := digitValue ch with hdd
      have hkey : val * 10 ^ (ch :: rest).length - digitsVal (ch :: rest) =
          (val * 10 - d) * 10 ^ rest.length - digitsVal rest := by
        simp only [List.length_cons, digitsVal, pow_succ, ← hdd]
        ring
      rw [hkey]
      by_cases hg : LONGMIN ≤ val * 10 - d
      · have hcond : ((-1 : Int) = -1 ∧ Int.tdiv (LONGMIN + d) 10 ≤ val ∨
            (-1 : Int) = 1 ∧ val ≤ Int.tdiv (LONGMAX - d) 10) :=
          Or.inl ⟨rfl, (tdiv_guard_neg d val hd0 hd9).2 hg⟩
        rw [parseIntLoop, if_neg (not_not_intro hcond)]
        have heq : val * 10 + (-1) * d = val * 10 - d := by ring
        rw [heq]
        exact ih (val * 10 - d) (by omega) hg hrest
      · have hcond : ¬((-1 : Int) = -1 ∧ Int.tdiv (LONGMIN + d) 10 ≤ val ∨
            (-1 : Int) = 1 ∧ val ≤ Int.tdiv (LONGMAX - d) 10) := by
          rintro (⟨-, h1⟩ | ⟨h2, -⟩)
          · exact hg ((tdiv_guard_neg d val hd0 hd9).1 h1)
          · exact absurd h2 (by norm_num)
        rw [parseIntLoop, if_pos hcond]
        have hpow : (0 : Int) < 10 ^ rest.length := pow_pos (by norm_num) _
        have h1 : (val * 10 - d) * 10 ^ rest.length ≤ val * 10 - d := by
          have h2 : (val * 10 - d) * 10 ^ rest.length ≤ (val * 10 - d) * 1 :=
            mul_le_mul_of_nonpos_left (by omega) (by simp only [LONGMIN] at hg; omega)
          simpa using h2
        rw [if_neg (by omega)]

/-- C8: during integer parsing, `parse_integer` checks the pending value
against `LONG_MIN`/`LONG_MAX` before each digit is folded into the
accumulator, so the accumulator never leaves the representable range: any
successfully returned value — and the value accumulated at every
intermediate prefix of the digit string — lies within the limits, and
whenever the digit string denotes a value outside the representable range
(for either sign) the loop returns the error status with the diagnostic
"integer too large". -/
theorem c8_parse_overflow (sign : Int) (ds : List Nat)
    (hs : sign = 1 ∨ sign = -1) (hd : ∀ ch ∈ ds, digitP ch) :
    (∀ v, parseIntLoop sign 0 ds = .ok v →
        v = sign * digitsVal ds ∧ LONGMIN ≤ v ∧ v ≤ LONGMAX) ∧
    ((sign * digitsVal ds < LONGMIN ∨ LONGMAX < sign * digitsVal ds) →
        parseIntLoop sign 0 ds = .error "integer too large") ∧
    (∀ pre post, ds = pre ++ post →
        (∃ v, parseIntLoop sign 0 ds = .ok v) →
        ∃ w, parseIntLoop sign 0 pre = .ok w ∧ LONGMIN ≤ w ∧ w ≤ LONGMAX) := by
  have hV := digitsVal_nonneg hd
  rcases hs with hs | hs <;> subst hs
  · have hch := parseIntLoop_pos ds 0 le_rfl (by simp [LONGMAX]) hd
    simp only [zero_mul, zero_add] at hch
    refine ⟨?_, ?_, ?_⟩
    · intro v hv
      rw [hch] at hv
      by_cases hle : digitsVal ds ≤ LONGMAX
      · rw [if_pos hle] at hv
        cases hv
        exact ⟨(one_mul _).symm, by simp only [LONGMIN]; omega, hle⟩
      · rw [if_neg hle] at hv; cases hv
    · intro hout
      rw [hch]
      rcases hout with hout | hout
      · exfalso; simp only [one_mul, LONGMIN] at hout; omega
      · rw [if_neg (by simp only [one_mul] at hout; omega)]
    · intro pre post hsplit hok
      obtain ⟨v, hv⟩ := hok
      rw [hch] at hv
      by_cases hle : digitsVal ds ≤ LONGMAX
      · have hdpre : ∀ ch ∈ pre, digitP ch := fun c hc => hd c (by simp [hsplit, hc])
        have hdpost : ∀ ch ∈ post, digitP ch := fun c hc => hd c (by simp [hsplit, hc])
        have hVpre := digitsVal_nonneg hdpre
        have hVpost := digitsVal_nonneg hdpost
        have hsp : digitsVal ds = digitsVal pre * 10 ^ post.length + digitsVal post := by
          rw [hsplit, digitsVal_append]
        have hpow : (0 : Int) < 10 ^ post.length := pow_pos (by norm_num) _
        have hmono : digitsVal pre ≤ digitsVal pre * 10 ^ post.length :=
          le_mul_of_one_le_right hVpre (by omega)
        have hpre : digitsVal pre ≤ LONGMAX := by omega
        have := parseIntLoop_pos pre 0 le_rfl (by simp [LONGMAX]) hdpre
        simp only [zero_mul, zero_add] at this
        rw [if_pos hpre] at this
        exact ⟨digitsVal pre, this, by simp only [LONGMIN]; omega, hpre⟩
      · rw [if_neg hle] at hv; cases hv
  · have hch := parseIntLoop_neg ds 0 le_rfl (by simp [LONGMIN]) hd
    simp only [zero_mul, zero_sub] at hch
    refine ⟨?_, ?_, ?_⟩
    · intro v hv
      rw [hch] at hv
      by_cases hle : LONGMIN ≤ -digitsVal ds
      · rw [if_pos hle] at hv
        cases hv
        exact ⟨by ring, hle, by simp only [LONGMAX]; omega⟩
      · rw [if_neg hle] at hv; cases hv
    · intro hout
      rw [hch]
      rcases hout with hout | hout
      · rw [if_neg (by simp only [neg_one_mul] at hout; omega)]
      · exfalso; simp only [neg_one_mul, LONGMAX] at hout; omega
    · intro pre post hsplit hok
      obtain ⟨v, hv⟩ := hok
      rw [hch] at hv
      by_cases hle : LONGMIN ≤ -digitsVal ds
      · have hdpre : ∀ ch ∈ pre, digitP ch := fun c hc => hd c (by simp [hsplit, hc])
        have hdpost : ∀ ch ∈ post, digitP ch := fun c hc => hd c (by simp [hsplit, hc])
        have hVpre := digitsVal_nonneg hdpre
        have hVpost := digitsVal_nonneg hdpost
        have hsp : digitsVal ds = digitsVal pre * 10 ^ post.length + digitsVal post := by
          rw [hsplit, digitsVal_append]
        have hpow : (0 : Int) < 10 ^ post.length := pow_pos (by norm_num) _
        have hmono : digitsVal pre ≤ digitsVal pre * 10 ^ post.length :=
          le_mul_of_one_le_right hVpre (by omega)
        have hpre : LONGMIN ≤ -digitsVal pre := by omega
        have := parseIntLoop_neg pre 0 le_rfl (by simp [LONGMIN]) hdpre
        simp only [zero_mul, zero_sub] at this
        rw [if_pos hpre] at this
        exact ⟨-digitsVal pre, this, hpre, by simp only [LONGMAX]; omega⟩
      · rw [if_neg hle] at hv; cases hv

/-- Witness for `c8_parse_overflow` at sign `+1` and digit string "39". -/
theorem c8_parse_overflow_witness :
    ((1 : Int) = 1 ∨ (1 : Int) = -1) ∧
    (∀ ch ∈ [0x33, 0x39], digitP ch) ∧
    (∀ v, parseIntLoop 1 0 [0x33, 0x39] = .ok v →
        v = 1 * digitsVal [0x33, 0x39] ∧ LONGMIN ≤ v ∧ v ≤ LONGMAX) :=
  ⟨Or.inl rfl, by decide,
    (c8_parse_overflow 1 [0x33, 0x39] (Or.inl rfl) (by decide)).1⟩

/- ==========================================================================
   ## MEMORY.C: the managed heap

   A cons box is two machine words; bit 0 of each word is a mark bit, bits
   1-2 are the special bits.  We model a cons box as a record holding the
   `car` and `cdr` values (the word with bits 0-2 stripped, or the full zap
   word when the special bits are ZAP), the two mark bits, and `hintb`, the
   special bits of the cdr word when the cdr holds a pointer (0, ENV_SPECIAL
   = 1 or PROC_SPECIAL = 2; when the cdr holds a zap value the bits are the
   value's own ZAP_SPECIAL = 3).

   The storage region is a tiling by variable-size blocks; a block's header
   word carries a mark bit, a 15-bit typedescriptor and the size in
   longwords (even, 2..65536, `0` in the 16-bit field encoding 65536 — we
   store the size as a plain Nat).  The longword after the header holds the
   payload of an allocated block (`bdata`) or the next-free pointer of a
   free block (`blink`); the C overlays the two, the model keeps both
   fields.  Block addresses are longword offsets of block headers from the
   region base.
   ========================================================================== -/

structure Cell where
  car : Val := .nil
  cdr : Val := .nil
  hintb : Nat := 0
  cmark : Bool := false
  dmark : Bool := false
deriving DecidableEq, Repr

inductive BlockData where
  | nodata : BlockData
  | intD (z : Int) : BlockData
  | strD (s : List Nat) : BlockData
deriving DecidableEq, Repr

structure Block where
  bsize : Nat
  btd : Nat := 0
  bmark : Bool := false
  bdata : BlockData := .nodata
  blink : Val := .nil
deriving DecidableEq, Repr

structure Heap where
  ncells : Nat
  cells : Nat → Cell
  blocks : List Block
  cboxFree : Val := .nil
  storFree : Val := .nil

/-- The slot content of a cons box that survives collection: both value
words and the hint bits; the mark bits are excluded. -/
def cellSlots (h : Heap) (i : Nat) : Val × Val × Nat :=
  ((h.cells i).car, (h.cells i).cdr, (h.cells i).hintb)

/-- Update one cons box. -/
def updCell (h : Heap) (i : Nat) (f : Cell → Cell) : Heap :=
  { h with cells := Function.update h.cells i (f (h.cells i)) }

/-- `set_car` (MEMORY.C): writes the whole car word, hence also clears the
car's mark bit. -/
def setCar (h : Heap) (i : Nat) (v : Val) : Heap :=
  updCell h i fun c => { c with car := v, cmark := false }

/-- `set_cdr` (MEMORY.C): writes the whole cdr word; the special bits become
those of the stored value and the mark bit is cleared. -/
def setCdr (h : Heap) (i : Nat) (v : Val) : Heap :=
  updCell h i fun c =>
    { c with cdr := v, dmark := false, hintb := if specialP v then 3 else 0 }

/-- `set_car_nomodify` (MEMORY.C): stores a pointer in the car slot keeping
the lowermost three bits (mark bit and special bits) of the slot. -/
def setCarNomod (h : Heap) (i : Nat) (v : Val) : Heap :=
  updCell h i fun c => { c with car := v }

/-- `set_cdr_nomodify` (MEMORY.C). -/
def setCdrNomod (h : Heap) (i : Nat) (v : Val) : Heap :=
  updCell h i fun c => { c with cdr := v }

/-- `set_car_mark` (MEMORY.C). -/
def setCmark (h : Heap) (i : Nat) : Heap :=
  updCell h i fun c => { c with cmark := true }

/-- `set_cdr_mark` (MEMORY.C). -/
def setDmark (h : Heap) (i : Nat) : Heap :=
  updCell h i fun c => { c with dmark := true }

/-- `set_hint_procedure` (MEMORY.C): set the cdr's special bits to
`PROC_SPECIAL = 2`. -/
def setHintProc (h : Heap) (i : Nat) : Heap :=
  updCell h i fun c => { c with hintb := 2 }

/-- `set_hint_environment` (MEMORY.C). -/
def setHintEnv (h : Heap) (i : Nat) : Heap :=
  updCell h i fun c => { c with hintb := 1 }

/-! ### storage blocks, addressed by longword offset of their header -/

/-- `storage_unmarked_p` negated, generalized over the base address of the
remaining tiling: the mark bit of the block whose header sits at address
`a`. -/
def smarkAux : List Block → Nat → Nat → Bool
  | [], _, _ => false
  | b :: rest, base, a => if a = base then b.bmark else smarkAux rest (base + b.bsize) a

def smarkAt (h : Heap) (a : Nat) : Bool := smarkAux h.blocks 0 a

/-- `set_storage_mark` (MEMORY.C). -/
def setSmarkAux : List Block → Nat → Nat → List Block
  | [], _, _ => []
  | b :: rest, base, a =>
      if a = base then { b with bmark := true } :: rest
      else b :: setSmarkAux rest (base + b.bsize) a

def setSmarkAt (h : Heap) (a : Nat) : Heap :=
  { h with blocks := setSmarkAux h.blocks 0 a }

/-- The set of valid block header addresses. -/
def blockStarts : List Block → Nat → List Nat
  | [], _ => []
  | b :: rest, base => base :: blockStarts rest (base + b.bsize)

/-- Everything about the storage region except the mark bits. -/
def blocksShape (bs : List Block) : List (Nat × Nat × BlockData × Val) :=
  bs.map fun b => (b.bsize, b.btd, b.bdata, b.blink)

/-! ### the Deutsch-Schorr-Waite mark algorithm (MEMORY.C lines 897-969) -/

/-- One-to-one rendering of the body of `mark`.  `fuel` only bounds the
number of iterations of the C do-while loop; we prove below that
`2*(number of unmarked slot marks)+1` iterations always suffice. -/
def markLoop (h : Heap) (cur prev : Val) : Nat → Option Heap
  | 0 => none
  | fuel + 1 =>
    match cur with
    | .stor a =>
        -- storage blocks hold no pointers: mark and stop (cur is a storage
        -- pointer only on entry, where prev = NIL)
        let h1 := setSmarkAt h a
        if prev = .nil then some h1 else markLoop h1 cur prev fuel
    | .cell i =>
        if (h.cells i).cmark = false then
          -- advance over car
          let h1 := setCmark h i
          match (h1.cells i).car with
          | .nil => markLoop h1 cur prev fuel
          | .special _ => markLoop h1 cur prev fuel
          | .cell nxt =>
              if (h1.cells nxt).cmark = false then
                markLoop (setCarNomod h1 i prev) (.cell nxt) (.cell i) fuel
              else markLoop h1 cur prev fuel
          | .stor a => markLoop (setSmarkAt h1 a) cur prev fuel
        else if (h.cells i).dmark = false then
          -- advance over cdr
          let h1 := setDmark h i
          match (h1.cells i).cdr with
          | .nil => markLoop h1 cur prev fuel
          | .special _ => markLoop h1 cur prev fuel
          | .cell nxt =>
              if (h1.cells nxt).cmark = false then
                markLoop (setCdrNomod h1 i prev) (.cell nxt) (.cell i) fuel
              else markLoop h1 cur prev fuel
          | .stor a => markLoop (setSmarkAt h1 a) cur prev fuel
        else
          match prev with
          | .nil => some h
          | .cell p =>
              if (h.cells p).dmark = false then
                -- retreat over car
                markLoop (setCarNomod h p (.cell i)) (.cell p) (h.cells p).car fuel
              else
                -- retreat over cdr
                markLoop (setCdrNomod h p (.cell i)) (.cell p) (h.cells p).cdr fuel
          | _ => some h      -- impossible: prev is NIL or a cons box
    | _ => some h            -- impossible: mark is never entered on NIL/specials

/-- `mark(cur)` (MEMORY.C): the loop started with `prev = NIL`. -/
def markFrom (h : Heap) (root : Val) (fuel : Nat) : Option Heap :=
  markLoop h root .nil fuel

/-! ### invariants of the pointer-reversal traversal -/

/-- A value stored in a heap slot is structurally valid. -/
def validVal (h : Heap) : Val → Prop
  | .cell j => j < h.ncells
  | .stor a => a ∈ blockStarts h.blocks 0
  | _ => True

/-- Global heap well-formedness used by the collector: the cdr mark implies
the car mark (the algorithm always sets the car mark first), and all slots
hold valid values. -/
def goodHeap (h : Heap) : Prop :=
  ∀ i, i < h.ncells →
    ((h.cells i).dmark = true → (h.cells i).cmark = true) ∧
    validVal h (h.cells i).car ∧ validVal h (h.cells i).cdr

/-- The reversed-pointer chain from `prev` back to the root: each cell on it
has its car mark set and holds the next back-link in the slot indicated by
its cdr mark (car slot while the cdr is unexplored, cdr slot afterwards). -/
inductive Chain (h : Heap) : Val → List Nat → Prop where
  | nil : Chain h .nil []
  | cons (p : Nat) (rest : List Nat) :
      p < h.ncells → (h.cells p).cmark = true →
      Chain h (if (h.cells p).dmark then (h.cells p).cdr else (h.cells p).car) rest →
      Chain h (.cell p) (p :: rest)

/-- Undo the pointer reversal along the chain: restore each chain cell's
reversed slot with the value it pointed to (namely the previous `cur`). -/
def unwind (h : Heap) : List Nat → Val → Heap
  | [], _ => h
  | p :: rest, v =>
      unwind (if (h.cells p).dmark then setCdrNomod h p v else setCarNomod h p v)
        rest (.cell p)

/-- Reachability through cons-box slots (storage blocks have no outgoing
pointers). -/
inductive ReachV (h : Heap) : Val → Val → Prop where
  | refl (v : Val) : ReachV h v v
  | viaCar {r : Val} {i : Nat} : ReachV h r (.cell i) → ReachV h r (h.cells i).car
  | viaCdr {r : Val} {i : Nat} : ReachV h r (.cell i) → ReachV h r (h.cells i).cdr

/-- The mark bit guarding a given child value. -/
def childMarked (h : Heap) : Val → Prop
  | .cell j => (h.cells j).cmark = true
  | .stor a => smarkAt h a = true
  | _ => True

/-- Number of unset mark bits of one cons box. -/
def cellPend (c : Cell) : Nat :=
  (if c.cmark then 0 else 1) + (if c.dmark then 0 else 1)

/-- Total number of unset slot marks in the cons-box region. -/
def unmarkedCount (h : Heap) : Nat :=
  ∑ i ∈ Finset.range h.ncells, cellPend (h.cells i)

/-- Termination measure of the mark loop. -/
def dswMeas (h : Heap) (stk : List Nat) : Nat :=
  2 * unmarkedCount h + stk.length

/-! ### basic lemmas about heap updates -/

@[simp] lemma updCell_cells_self (h : Heap) (i : Nat) (f : Cell → Cell) :
    (updCell h i f).cells i = f (h.cells i) := by
  simp [updCell]

lemma updCell_cells_ne (h : Heap) (i : Nat) (f : Cell → Cell) {j : Nat}
    (hij : j ≠ i) : (updCell h i f).cells j = h.cells j := by
  simp [updCell, Function.update_noteq hij]

@[simp] lemma updCell_ncells (h : Heap) (i : Nat) (f : Cell → Cell) :
    (updCell h i f).ncells = h.ncells := rfl

@[simp] lemma updCell_blocks (h : Heap) (i : Nat) (f : Cell → Cell) :
    (updCell h i f).blocks = h.blocks := rfl

@[simp] lemma updCell_cboxFree (h : Heap) (i : Nat) (f : Cell → Cell) :
    (updCell h i f).cboxFree = h.cboxFree := rfl

@[simp] lemma updCell_storFree (h : Heap) (i : Nat) (f : Cell → Cell) :
    (updCell h i f).storFree = h.storFree := rfl

@[simp] lemma setSmarkAt_cells (h : Heap) (a : Nat) :
    (setSmarkAt h a).cells = h.cells := rfl

@[simp] lemma setSmarkAt_ncells (h : Heap) (a : Nat) :
    (setSmarkAt h a).ncells = h.ncells := rfl

@[simp] lemma setSmarkAt_cboxFree (h : Heap) (a : Nat) :
    (setSmarkAt h a).cboxFree = h.cboxFree := rfl

@[simp] lemma setSmarkAt_storFree (h : Heap) (a : Nat) :
    (setSmarkAt h a).storFree = h.storFree := rfl

lemma blocksShape_setSmarkAux (bs : List Block) (base a : Nat) :
    blocksShape (setSmarkAux bs base a) = blocksShape bs := by
  induction bs generalizing base with
  | nil => rfl
  | cons b rest ih =>
      by_cases hab : a = base
      · simp [setSmarkAux, hab, blocksShape]
      · simp [setSmarkAux, hab, blocksShape] at *
        exact ih (base + b.bsize)

lemma setSmarkAux_bsize (bs : List Block) (base a : Nat) :
    (setSmarkAux bs base a).map Block.bsize = bs.map Block.bsize := by
  induction bs generalizing base with
  | nil => rfl
  | cons b rest ih =>
      by_cases hab : a = base
      · simp [setSmarkAux, hab]
      · simp [setSmarkAux, hab]
        exact ih (base + b.bsize)

lemma blockStarts_eq_of_sizes {bs bs' : List Block}
    (hsz : bs.map Block.bsize = bs'.map Block.bsize) (base : Nat) :
    blockStarts bs base = blockStarts bs' base := by
  induction bs generalizing bs' base with
  | nil => cases bs' with
      | nil => rfl
      | cons b r => simp at hsz
  | cons b rest ih =>
      cases bs' with
      | nil => simp at hsz
      | cons b' rest' =>
          simp only [List.map_cons, List.cons.injEq] at hsz
          simp only [blockStarts, hsz.1]
          rw [ih hsz.2]

lemma blockStarts_setSmarkAux (bs : List Block) (base a base' : Nat) :
    blockStarts (setSmarkAux bs base a) base' = blockStarts bs base' :=
  blockStarts_eq_of_sizes (setSmarkAux_bsize bs base a) base'

lemma smarkAux_setSmarkAux_self (bs : List Block) (base a : Nat)
    (hv : a ∈ blockStarts bs base) :
    smarkAux (setSmarkAux bs base a) base a = true := by
  induction bs generalizing base with
  | nil => simp [blockStarts] at hv
  | cons b rest ih =>
      by_cases hab : a = base
      · simp [setSmarkAux, smarkAux, hab]
      · simp only [blockStarts, List.mem_cons] at hv
        rcases hv with hv | hv
        · exact absurd hv hab
        · simp only [setSmarkAux, if_neg hab, smarkAux, if_neg hab]
          exact ih (base + b.bsize) hv

lemma smarkAux_setSmarkAux_mono (bs : List Block) (base a b' : Nat)
    (hm : smarkAux bs base b' = true) :
    smarkAux (setSmarkAux bs base a) base b' = true := by
  induction bs generalizing base with
  | nil => simp [smarkAux] at hm
  | cons b rest ih =>
      by_cases hab : a = base
      · subst hab
        by_cases hb : b' = a
        · simp [setSmarkAux, smarkAux, hb]
        · simp only [smarkAux, if_neg hb] at hm
          simp only [setSmarkAux, if_pos rfl, smarkAux, if_neg hb]
          exact hm
      · by_cases hb : b' = base
        · simp only [smarkAux, if_pos hb] at hm
          simp only [setSmarkAux, if_neg hab, smarkAux, if_pos hb]
          exact hm
        · simp only [smarkAux, if_neg hb] at hm
          simp only [setSmarkAux, if_neg hab, smarkAux, if_neg hb]
          exact ih (base + b.bsize) hm

lemma smarkAt_setSmarkAt_self (h : Heap) (a : Nat)
    (hv : a ∈ blockStarts h.blocks 0) : smarkAt (setSmarkAt h a) a = true :=
  smarkAux_setSmarkAux_self h.blocks 0 a hv

lemma smarkAt_setSmarkAt_mono (h : Heap) (a b : Nat)
    (hm : smarkAt h b = true) : smarkAt (setSmarkAt h a) b = true :=
  smarkAux_setSmarkAux_mono h.blocks 0 a b hm

@[simp] lemma smarkAt_updCell (h : Heap) (i : Nat) (f : Cell → Cell) (a : Nat) :
    smarkAt (updCell h i f) a = smarkAt h a := rfl

lemma unmarkedCount_updCell (h : Heap) (i : Nat) (f : Cell → Cell)
    (hi : i < h.ncells) :
    unmarkedCount (updCell h i f) + cellPend (h.cells i) =
      unmarkedCount h + cellPend (f (h.cells i)) := by
  unfold unmarkedCount
  simp only [updCell_ncells]
  rw [← Finset.add_sum_erase _ (fun j => cellPend ((updCell h i f).cells j))
        (Finset.mem_range.2 hi),
      ← Finset.add_sum_erase _ (fun j => cellPend (h.cells j))
        (Finset.mem_range.2 hi)]
  have hcong : ∀ j ∈ (Finset.range h.ncells).erase i,
      cellPend ((updCell h i f).cells j) = cellPend (h.cells j) := by
    intro j hj
    rw [updCell_cells_ne h i f (Finset.ne_of_mem_erase hj)]
  rw [Finset.sum_congr rfl hcong, updCell_cells_self]
  ring

@[simp] lemma unmarkedCount_setSmarkAt (h : Heap) (a : Nat) :
    unmarkedCount (setSmarkAt h a) = unmarkedCount h := rfl

lemma smarkAux_setSmarkAux_cases (bs : List Block) (base a b : Nat)
    (hm : smarkAux (setSmarkAux bs base a) base b = true) :
    b = a ∨ smarkAux bs base b = true := by
  induction bs generalizing base with
  | nil => simp [setSmarkAux, smarkAux] at hm
  | cons blk rest ih =>
      by_cases hab : a = base
      · subst hab
        by_cases hb : b = a
        · exact Or.inl hb
        · simp only [setSmarkAux, if_pos rfl, smarkAux, if_neg hb] at hm
          exact Or.inr (by simp only [smarkAux, if_neg hb]; exact hm)
      · by_cases hb : b = base
        · simp only [setSmarkAux, if_neg hab, smarkAux, if_pos hb] at hm
          exact Or.inr (by simp only [smarkAux, if_pos hb]; exact hm)
        · simp only [setSmarkAux, if_neg hab, smarkAux, if_neg hb] at hm
          rcases ih (base + blk.bsize) hm with h | h
          · exact Or.inl h
          · exact Or.inr (by simp only [smarkAux, if_neg hb]; exact h)

lemma smarkAt_setSmarkAt_cases (h : Heap) (a b : Nat)
    (hm : smarkAt (setSmarkAt h a) b = true) : b = a ∨ smarkAt h b = true :=
  smarkAux_setSmarkAux_cases h.blocks 0 a b hm

/-! cell-level read lemmas for the five mutators -/

lemma cells_setCmark_self (h : Heap) (i : Nat) :
    (setCmark h i).cells i = { h.cells i with cmark := true } := by
  simp [setCmark]

lemma cells_setCmark_ne (h : Heap) (i : Nat) {j : Nat} (hj : j ≠ i) :
    (setCmark h i).cells j = h.cells j := updCell_cells_ne h i _ hj

lemma cells_setDmark_self (h : Heap) (i : Nat) :
    (setDmark h i).cells i = { h.cells i with dmark := true } := by
  simp [setDmark]

lemma cells_setDmark_ne (h : Heap) (i : Nat) {j : Nat} (hj : j ≠ i) :
    (setDmark h i).cells j = h.cells j := updCell_cells_ne h i _ hj

lemma cells_setCarNomod_self (h : Heap) (i : Nat) (v : Val) :
    (setCarNomod h i v).cells i = { h.cells i with car := v } := by
  simp [setCarNomod]

lemma cells_setCarNomod_ne (h : Heap) (i : Nat) (v : Val) {j : Nat} (hj : j ≠ i) :
    (setCarNomod h i v).cells j = h.cells j := updCell_cells_ne h i _ hj

lemma cells_setCdrNomod_self (h : Heap) (i : Nat) (v : Val) :
    (setCdrNomod h i v).cells i = { h.cells i with cdr := v } := by
  simp [setCdrNomod]

lemma cells_setCdrNomod_ne (h : Heap) (i : Nat) (v : Val) {j : Nat} (hj : j ≠ i) :
    (setCdrNomod h i v).cells j = h.cells j := updCell_cells_ne h i _ hj

/-! transfer lemmas -/

lemma childMarked_mono {h h' : Heap}
    (hc : ∀ j, (h.cells j).cmark = true → (h'.cells j).cmark = true)
    (hs : ∀ a, smarkAt h a = true → smarkAt h' a = true) :
    ∀ {v : Val}, childMarked h v → childMarked h' v := by
  intro v hv
  cases v with
  | nil => trivial
  | special w => trivial
  | cell j => exact hc j hv
  | stor a => exact hs a hv

lemma Chain.stackMarked {h : Heap} {v : Val} {l : List Nat} (hc : Chain h v l) :
    ∀ p ∈ l, (h.cells p).cmark = true := by
  induction hc with
  | nil => intro p hp; cases hp
  | cons q rest hq hm _ ih =>
      intro p hp
      rcases List.mem_cons.1 hp with rfl | hp
      · exact hm
      · exact ih p hp

lemma Chain.stackLt {h : Heap} {v : Val} {l : List Nat} (hc : Chain h v l) :
    ∀ p ∈ l, p < h.ncells := by
  induction hc with
  | nil => intro p hp; cases hp
  | cons q rest hq hm _ ih =>
      intro p hp
      rcases List.mem_cons.1 hp with rfl | hp
      · exact hq
      · exact ih p hp

lemma Chain.nil_inv {h : Heap} {l : List Nat} (hc : Chain h .nil l) : l = [] := by
  cases hc; rfl

lemma Chain.cell_inv {h : Heap} {p : Nat} {l : List Nat}
    (hc : Chain h (.cell p) l) :
    ∃ rest, l = p :: rest ∧ p < h.ncells ∧ (h.cells p).cmark = true ∧
      Chain h (if (h.cells p).dmark then (h.cells p).cdr else (h.cells p).car)
        rest := by
  cases hc with
  | cons p rest hq hm hrest => exact ⟨rest, rfl, hq, hm, hrest⟩

lemma Chain.transfer {h h' : Heap} {v : Val} {l : List Nat} (hc : Chain h v l)
    (hn : h'.ncells = h.ncells)
    (hagree : ∀ p ∈ l, h'.cells p = h.cells p) : Chain h' v l := by
  induction hc with
  | nil => exact .nil
  | cons q rest hq hm hrest ih =>
      have hcq : h'.cells q = h.cells q := hagree q (by simp)
      refine .cons q rest (by omega) (by rw [hcq]; exact hm) ?_
      rw [hcq]
      exact ih (fun p hp => hagree p (by simp [hp]))

lemma ReachV.trans {h : Heap} {a b c : Val} (h1 : ReachV h a b)
    (h2 : ReachV h b c) : ReachV h a c := by
  induction h2 with
  | refl => exact h1
  | viaCar _ ih => exact .viaCar ih
  | viaCdr _ ih => exact .viaCdr ih

lemma ReachV_congr {h h' : Heap}
    (hs : ∀ i, cellSlots h i = cellSlots h' i) {r v : Val}
    (hr : ReachV h r v) : ReachV h' r v := by
  induction hr with
  | refl => exact .refl _
  | viaCar hx ih =>
      rename_i i
      have hcar : (h.cells i).car = (h'.cells i).car :=
        congrArg (fun t => t.1) (hs i)
      rw [hcar]
      exact .viaCar ih
  | viaCdr hx ih =>
      rename_i i
      have hcdr : (h.cells i).cdr = (h'.cells i).cdr :=
        congrArg (fun t => t.2.1) (hs i)
      rw [hcdr]
      exact .viaCdr ih

/-! unwind lemmas -/

lemma unwind_ncells (l : List Nat) : ∀ (h : Heap) (v : Val),
    (unwind h l v).ncells = h.ncells := by
  induction l with
  | nil => intro h v; rfl
  | cons p rest ih =>
      intro h v
      simp only [unwind]
      by_cases hd : (h.cells p).dmark
      · rw [if_pos hd, ih]; rfl
      · rw [if_neg hd, ih]; rfl

lemma unwind_blocks (l : List Nat) : ∀ (h : Heap) (v : Val),
    (unwind h l v).blocks = h.blocks := by
  induction l with
  | nil => intro h v; rfl
  | cons p rest ih =>
      intro h v
      simp only [unwind]
      by_cases hd : (h.cells p).dmark
      · rw [if_pos hd, ih]; rfl
      · rw [if_neg hd, ih]; rfl

lemma unwind_cells_notin (l : List Nat) : ∀ (h : Heap) (v : Val) (i : Nat),
    i ∉ l → (unwind h l v).cells i = h.cells i := by
  induction l with
  | nil => intro h v i _; rfl
  | cons p rest ih =>
      intro h v i hi
      have hip : i ≠ p := fun hc => hi (hc ▸ List.mem_cons_self p rest)
      have hir : i ∉ rest := fun hc => hi (List.mem_cons_of_mem p hc)
      simp only [unwind]
      by_cases hd : (h.cells p).dmark
      · rw [if_pos hd, ih _ _ _ hir, cells_setCdrNomod_ne h p _ hip]
      · rw [if_neg hd, ih _ _ _ hir, cells_setCarNomod_ne h p _ hip]

lemma unwind_marks (l : List Nat) : ∀ (h : Heap) (v : Val) (i : Nat),
    ((unwind h l v).cells i).cmark = (h.cells i).cmark ∧
    ((unwind h l v).cells i).dmark = (h.cells i).dmark := by
  induction l with
  | nil => intro h v i; exact ⟨rfl, rfl⟩
  | cons p rest ih =>
      intro h v i
      simp only [unwind]
      by_cases hd : (h.cells p).dmark
      · rw [if_pos hd]
        have h1 := ih (setCdrNomod h p v) (.cell p) i
        rcases eq_or_ne i p with rfl | hip
        · rw [h1.1, h1.2, cells_setCdrNomod_self]; exact ⟨rfl, rfl⟩
        · rw [h1.1, h1.2, cells_setCdrNomod_ne h p _ hip]; exact ⟨rfl, rfl⟩
      · rw [if_neg hd]
        have h1 := ih (setCarNomod h p v) (.cell p) i
        rcases eq_or_ne i p with rfl | hip
        · rw [h1.1, h1.2, cells_setCarNomod_self]; exact ⟨rfl, rfl⟩
        · rw [h1.1, h1.2, cells_setCarNomod_ne h p _ hip]; exact ⟨rfl, rfl⟩

lemma unwind_slots_congr (l : List Nat) : ∀ (h1 h2 : Heap) (v : Val),
    (∀ i, cellSlots h1 i = cellSlots h2 i) →
    (∀ p ∈ l, (h1.cells p).dmark = (h2.cells p).dmark) →
    ∀ i, cellSlots (unwind h1 l v) i = cellSlots (unwind h2 l v) i := by
  induction l with
  | nil => intro h1 h2 v hs _ i; exact hs i
  | cons p rest ih =>
      intro h1 h2 v hs hd i
      have hdp : (h1.cells p).dmark = (h2.cells p).dmark := hd p (by simp)
      simp only [unwind]
      by_cases hdm : (h1.cells p).dmark
      · rw [if_pos hdm, if_pos (hdp ▸ hdm)]
        refine ih _ _ _ ?_ ?_ i
        · intro j
          rcases eq_or_ne j p with rfl | hjp
          · have hsp := hs j
            simp only [cellSlots, cells_setCdrNomod_self, Prod.mk.injEq] at hsp ⊢
            exact ⟨hsp.1, trivial, hsp.2.2⟩
          · simp only [cellSlots, cells_setCdrNomod_ne h1 p _ hjp,
              cells_setCdrNomod_ne h2 p _ hjp]
            exact hs j
        · intro q hq
          rcases eq_or_ne q p with rfl | hqp
          · rw [cells_setCdrNomod_self, cells_setCdrNomod_self]
            exact hdp
          · rw [cells_setCdrNomod_ne h1 p _ hqp, cells_setCdrNomod_ne h2 p _ hqp]
            exact hd q (by simp [hq])
      · rw [if_neg hdm, if_neg (hdp ▸ hdm)]
        refine ih _ _ _ ?_ ?_ i
        · intro j
          rcases eq_or_ne j p with rfl | hjp
          · have hsp := hs j
            simp only [cellSlots, cells_setCarNomod_self, Prod.mk.injEq] at hsp ⊢
            exact ⟨trivial, hsp.2.1, hsp.2.2⟩
          · simp only [cellSlots, cells_setCarNomod_ne h1 p _ hjp,
              cells_setCarNomod_ne h2 p _ hjp]
            exact hs j
        · intro q hq
          rcases eq_or_ne q p with rfl | hqp
          · rw [cells_setCarNomod_self, cells_setCarNomod_self]
            exact hdp
          · rw [cells_setCarNomod_ne h1 p _ hqp, cells_setCarNomod_ne h2 p _ hqp]
            exact hd q (by simp [hq])

/-! measure bookkeeping -/

lemma unmarkedCount_setCmark (h : Heap) (cur : Nat) (hlt : cur < h.ncells)
    (hc : (h.cells cur).cmark = false) :
    unmarkedCount (setCmark h cur) + 1 = unmarkedCount h := by
  have key := unmarkedCount_updCell h cur (fun c => { c with cmark := true }) hlt
  simp only [cellPend, hc, Bool.false_eq_true, if_false, if_true] at key
  rw [show setCmark h cur = updCell h cur (fun c => { c with cmark := true }) from rfl]
  omega

lemma unmarkedCount_setDmark (h : Heap) (cur : Nat) (hlt : cur < h.ncells)
    (hc : (h.cells cur).dmark = false) :
    unmarkedCount (setDmark h cur) + 1 = unmarkedCount h := by
  have key := unmarkedCount_updCell h cur (fun c => { c with dmark := true }) hlt
  simp only [cellPend, hc, Bool.false_eq_true, if_false, if_true] at key
  rw [show setDmark h cur = updCell h cur (fun c => { c with dmark := true }) from rfl]
  omega

lemma unmarkedCount_setCarNomod (h : Heap) (i : Nat) (v : Val)
    (hi : i < h.ncells) :
    unmarkedCount (setCarNomod h i v) = unmarkedCount h := by
  have key := unmarkedCount_updCell h i (fun c => { c with car := v }) hi
  simp only [cellPend] at key
  rw [show setCarNomod h i v = updCell h i (fun c => { c with car := v }) from rfl]
  omega

lemma unmarkedCount_setCdrNomod (h : Heap) (i : Nat) (v : Val)
    (hi : i < h.ncells) :
    unmarkedCount (setCdrNomod h i v) = unmarkedCount h := by
  have key := unmarkedCount_updCell h i (fun c => { c with cdr := v }) hi
  simp only [cellPend] at key
  rw [show setCdrNomod h i v = updCell h i (fun c => { c with cdr := v }) from rfl]
  omega

/-! goodHeap preservation -/

lemma validVal_congr {h h' : Heap} (hn : h'.ncells = h.ncells)
    (hb : blockStarts h'.blocks 0 = blockStarts h.blocks 0) {v : Val}
    (hv : validVal h v) : validVal h' v := by
  cases v with
  | nil => trivial
  | special w => trivial
  | cell j => simpa [validVal, hn] using hv
  | stor a => simpa [validVal, hb] using hv

lemma goodHeap_setCmark (h : Heap) (i : Nat) (hg : goodHeap h)
    (hc : (h.cells i).cmark = false → (h.cells i).dmark = false) :
    goodHeap (setCmark h i) := by
  intro j hj
  rcases eq_or_ne j i with rfl | hji
  · obtain ⟨hdc, hcv, hdv⟩ := hg j hj
    rw [cells_setCmark_self]
    exact ⟨fun _ => rfl, validVal_congr rfl rfl hcv, validVal_congr rfl rfl hdv⟩
  · obtain ⟨hdc, hcv, hdv⟩ := hg j hj
    rw [cells_setCmark_ne h i hji]
    exact ⟨hdc, validVal_congr rfl rfl hcv, validVal_congr rfl rfl hdv⟩

lemma goodHeap_setDmark (h : Heap) (i : Nat) (hg : goodHeap h)
    (hc : (h.cells i).cmark = true) : goodHeap (setDmark h i) := by
  intro j hj
  rcases eq_or_ne j i with rfl | hji
  · obtain ⟨hdc, hcv, hdv⟩ := hg j hj
    rw [cells_setDmark_self]
    exact ⟨fun _ => hc, validVal_congr rfl rfl hcv, validVal_congr rfl rfl hdv⟩
  · obtain ⟨hdc, hcv, hdv⟩ := hg j hj
    rw [cells_setDmark_ne h i hji]
    exact ⟨hdc, validVal_congr rfl rfl hcv, validVal_congr rfl rfl hdv⟩

lemma goodHeap_setCarNomod (h : Heap) (i : Nat) (v : Val) (hg : goodHeap h)
    (hv : validVal h v) : goodHeap (setCarNomod h i v) := by
  intro j hj
  rcases eq_or_ne j i with rfl | hji
  · obtain ⟨hdc, hcv, hdv⟩ := hg j hj
    rw [cells_setCarNomod_self]
    exact ⟨hdc, validVal_congr rfl rfl hv, validVal_congr rfl rfl hdv⟩
  · obtain ⟨hdc, hcv, hdv⟩ := hg j hj
    rw [cells_setCarNomod_ne h i v hji]
    exact ⟨hdc, validVal_congr rfl rfl hcv, validVal_congr rfl rfl hdv⟩

lemma goodHeap_setCdrNomod (h : Heap) (i : Nat) (v : Val) (hg : goodHeap h)
    (hv : validVal h v) : goodHeap (setCdrNomod h i v) := by
  intro j hj
  rcases eq_or_ne j i with rfl | hji
  · obtain ⟨hdc, hcv, hdv⟩ := hg j hj
    rw [cells_setCdrNomod_self]
    exact ⟨hdc, validVal_congr rfl rfl hcv, validVal_congr rfl rfl hv⟩
  · obtain ⟨hdc, hcv, hdv⟩ := hg j hj
    rw [cells_setCdrNomod_ne h i v hji]
    exact ⟨hdc, validVal_congr rfl rfl hcv, validVal_congr rfl rfl hdv⟩

lemma blockStarts_setSmarkAt (h : Heap) (a : Nat) :
    blockStarts (setSmarkAt h a).blocks 0 = blockStarts h.blocks 0 :=
  blockStarts_setSmarkAux h.blocks 0 a 0

lemma goodHeap_setSmarkAt (h : Heap) (a : Nat) (hg : goodHeap h) :
    goodHeap (setSmarkAt h a) := by
  intro j hj
  obtain ⟨hdc, hcv, hdv⟩ := hg j hj
  rw [show (setSmarkAt h a).cells j = h.cells j from rfl]
  exact ⟨hdc,
    validVal_congr (show (setSmarkAt h a).ncells = h.ncells from rfl)
      (blockStarts_setSmarkAt h a) hcv,
    validVal_congr (show (setSmarkAt h a).ncells = h.ncells from rfl)
      (blockStarts_setSmarkAt h a) hdv⟩

/-! the pre- and postcondition of one run of the mark loop -/

/-- Invariant at the head of the do-while loop of `mark`, with `stk` the
list of cells holding reversed back-links (head first). -/
structure DswPre (h : Heap) (stk : List Nat) (cur : Nat) (prev : Val) : Prop where
  good : goodHeap h
  curlt : cur < h.ncells
  chain : Chain h prev stk
  curnotin : cur ∉ stk
  nodup : stk.Nodup
  finished : ∀ d, d < h.ncells → d ∉ stk → d ≠ cur → (h.cells d).cmark = true →
      (h.cells d).dmark = true ∧ childMarked h (h.cells d).car ∧
        childMarked h (h.cells d).cdr
  stkCar : ∀ p ∈ stk, (h.cells p).dmark = true → childMarked h (h.cells p).car
  curCar : (h.cells cur).cmark = true → childMarked h (h.cells cur).car
  curCdr : (h.cells cur).dmark = true → childMarked h (h.cells cur).cdr

/-- What one complete run of the mark loop guarantees. -/
structure DswPost (h : Heap) (stk : List Nat) (cur : Nat) (h' : Heap) : Prop where
  hnc : h'.ncells = h.ncells
  shape : blocksShape h'.blocks = blocksShape h.blocks
  cfree : h'.cboxFree = h.cboxFree
  sfree : h'.storFree = h.storFree
  slots : ∀ i, cellSlots h' i = cellSlots (unwind h stk (.cell cur)) i
  cmono : ∀ i, (h.cells i).cmark = true → (h'.cells i).cmark = true
  dmono : ∀ i, (h.cells i).dmark = true → (h'.cells i).dmark = true
  smono : ∀ a, smarkAt h a = true → smarkAt h' a = true
  curC : (h'.cells cur).cmark = true
  curD : (h'.cells cur).dmark = true
  stkDone : ∀ p ∈ stk, (h'.cells p).cmark = true ∧ (h'.cells p).dmark = true
  closed : ∀ d, d < h.ncells → (h'.cells d).cmark = true →
      (h'.cells d).dmark = true ∧ childMarked h' (h'.cells d).car ∧
        childMarked h' (h'.cells d).cdr
  csound : ∀ d, (h'.cells d).cmark = true → (h.cells d).cmark = true ∨
      ReachV (unwind h stk (.cell cur)) (.cell cur) (.cell d) ∨
      ∃ p ∈ stk, ReachV (unwind h stk (.cell cur)) (.cell p) (.cell d)
  ssound : ∀ a, smarkAt h' a = true → smarkAt h a = true ∨
      ReachV (unwind h stk (.cell cur)) (.cell cur) (.stor a) ∨
      ∃ p ∈ stk, ReachV (unwind h stk (.cell cur)) (.cell p) (.stor a)

/-- Converting the postcondition across an iteration that only set marks
(the `cur` cell's marks and possibly one storage mark) without moving. -/
lemma DswPost.absorb {h h1 h' : Heap} {stk : List Nat} {cur : Nat}
    (post : DswPost h1 stk cur h')
    (hnc : h1.ncells = h.ncells)
    (hshape : blocksShape h1.blocks = blocksShape h.blocks)
    (hcf : h1.cboxFree = h.cboxFree) (hsf : h1.storFree = h.storFree)
    (hslots : ∀ i, cellSlots h1 i = cellSlots h i)
    (hdstk : ∀ p ∈ stk, (h1.cells p).dmark = (h.cells p).dmark)
    (hcm1 : ∀ i, (h.cells i).cmark = true → (h1.cells i).cmark = true)
    (hdm1 : ∀ i, (h.cells i).dmark = true → (h1.cells i).dmark = true)
    (hsm1 : ∀ a, smarkAt h a = true → smarkAt h1 a = true)
    (hcm2 : ∀ i, (h1.cells i).cmark = true → (h.cells i).cmark = true ∨ i = cur)
    (hsm2 : ∀ a, smarkAt h1 a = true → smarkAt h a = true ∨
        ReachV (unwind h stk (.cell cur)) (.cell cur) (.stor a)) :
    DswPost h stk cur h' := by
  have huw : ∀ i, cellSlots (unwind h1 stk (.cell cur)) i =
      cellSlots (unwind h stk (.cell cur)) i :=
    unwind_slots_congr stk h1 h (.cell cur) hslots hdstk
  refine ⟨post.hnc.trans hnc, post.shape.trans hshape, post.cfree.trans hcf,
    post.sfree.trans hsf, fun i => (post.slots i).trans (huw i),
    fun i hi => post.cmono i (hcm1 i hi),
    fun i hi => post.dmono i (hdm1 i hi),
    fun a ha => post.smono a (hsm1 a ha),
    post.curC, post.curD, post.stkDone, ?_, ?_, ?_⟩
  · intro d hd hcd
    exact post.closed d (by omega) hcd
  · intro d hcd
    rcases post.csound d hcd with hc | hc | hc
    · rcases hcm2 d hc with hc' | rfl
      · exact Or.inl hc'
      · exact Or.inr (Or.inl (.refl _))
    · exact Or.inr (Or.inl (ReachV_congr huw hc))
    · obtain ⟨p, hp, hr⟩ := hc
      exact Or.inr (Or.inr ⟨p, hp, ReachV_congr huw hr⟩)
  · intro a ha
    rcases post.ssound a ha with hc | hc | hc
    · rcases hsm2 a hc with hc' | hc'
      · exact Or.inl hc'
      · exact Or.inr (Or.inl hc')
    · exact Or.inr (Or.inl (ReachV_congr huw hc))
    · obtain ⟨p, hp, hr⟩ := hc
      exact Or.inr (Or.inr ⟨p, hp, ReachV_congr huw hr⟩)

/-- Converting the postcondition across a descend-over-car iteration: the
cell `cur` gets its car mark, its car slot is reversed to hold `prev`, and
the loop continues at the car child `nxt` with `cur` pushed on the chain. -/
lemma DswPost.pushCar {h h' : Heap} {stk : List Nat} {cur nxt : Nat}
    {prev : Val}
    (hdmf : (h.cells cur).dmark = false)
    (hcar : (h.cells cur).car = .cell nxt)
    (hnotin : cur ∉ stk)
    (post : DswPost (setCarNomod (setCmark h cur) cur prev) (cur :: stk) nxt h') :
    DswPost h stk cur h' := by
  set h2 := setCarNomod (setCmark h cur) cur prev with hh2
  set h3 := setCarNomod h2 cur (.cell nxt) with hh3
  have hc2cur : h2.cells cur = { h.cells cur with cmark := true, car := prev } := by
    rw [hh2, cells_setCarNomod_self, cells_setCmark_self]
  have hc2ne : ∀ j, j ≠ cur → h2.cells j = h.cells j := by
    intro j hj
    rw [hh2, cells_setCarNomod_ne _ _ _ hj, cells_setCmark_ne _ _ hj]
  have hc3cur : h3.cells cur = { h.cells cur with cmark := true, car := .cell nxt } := by
    rw [hh3, cells_setCarNomod_self, hc2cur]
  have hc3ne : ∀ j, j ≠ cur → h3.cells j = h.cells j := by
    intro j hj
    rw [hh3, cells_setCarNomod_ne _ _ _ hj]
    exact hc2ne j hj
  have huind : unwind h2 (cur :: stk) (.cell nxt) = unwind h3 stk (.cell cur) := by
    simp only [unwind]
    rw [if_neg (by rw [hc2cur]; simpa using hdmf)]
  have hslots3 : ∀ i, cellSlots h3 i = cellSlots h i := by
    intro i
    rcases eq_or_ne i cur with rfl | hic
    · simp only [cellSlots, hc3cur, hcar]
    · simp only [cellSlots, hc3ne i hic]
  have hd3 : ∀ p ∈ stk, (h3.cells p).dmark = (h.cells p).dmark := by
    intro p hp
    rw [hc3ne p (fun hc => hnotin (hc ▸ hp))]
  have huw : ∀ i, cellSlots (unwind h2 (cur :: stk) (.cell nxt)) i =
      cellSlots (unwind h stk (.cell cur)) i := by
    intro i
    rw [huind]
    exact unwind_slots_congr stk h3 h (.cell cur) hslots3 hd3 i
  have hrcar : ReachV (unwind h stk (.cell cur)) (.cell cur) (.cell nxt) := by
    have h0 : ((unwind h stk (.cell cur)).cells cur).car = .cell nxt := by
      rw [unwind_cells_notin stk h (.cell cur) cur hnotin, hcar]
    have hb : ReachV (unwind h stk (.cell cur)) (.cell cur) (.cell cur) :=
      .refl _
    have := hb.viaCar
    rwa [h0] at this
  have hcm2 : ∀ i, (h2.cells i).cmark = true → (h.cells i).cmark = true ∨ i = cur := by
    intro i hi
    rcases eq_or_ne i cur with rfl | hic
    · exact Or.inr rfl
    · rw [hc2ne i hic] at hi; exact Or.inl hi
  refine ⟨post.hnc, post.shape, post.cfree, post.sfree,
    fun i => (post.slots i).trans (huw i), ?_, ?_, ?_,
    (post.stkDone cur (by simp)).1, (post.stkDone cur (by simp)).2,
    fun p hp => post.stkDone p (by simp [hp]), ?_, ?_, ?_⟩
  · intro i hi
    refine post.cmono i ?_
    rcases eq_or_ne i cur with rfl | hic
    · rw [hc2cur]
    · rw [hc2ne i hic]; exact hi
  · intro i hi
    refine post.dmono i ?_
    rcases eq_or_ne i cur with rfl | hic
    · rw [hc2cur]; exact hi
    · rw [hc2ne i hic]; exact hi
  · intro a ha
    exact post.smono a ha
  · intro d hd hcd
    exact post.closed d hd hcd
  · intro d hcd
    rcases post.csound d hcd with hc | hc | hc
    · rcases hcm2 d hc with hc' | rfl
      · exact Or.inl hc'
      · exact Or.inr (Or.inl (.refl _))
    · exact Or.inr (Or.inl (hrcar.trans (ReachV_congr huw hc)))
    · obtain ⟨p, hp, hr⟩ := hc
      rcases List.mem_cons.1 hp with rfl | hp'
      · exact Or.inr (Or.inl (ReachV_congr huw hr))
      · exact Or.inr (Or.inr ⟨p, hp', ReachV_congr huw hr⟩)
  · intro a ha
    rcases post.ssound a ha with hc | hc | hc
    · exact Or.inl hc
    · exact Or.inr (Or.inl (hrcar.trans (ReachV_congr huw hc)))
    · obtain ⟨p, hp, hr⟩ := hc
      rcases List.mem_cons.1 hp with rfl | hp'
      · exact Or.inr (Or.inl (ReachV_congr huw hr))
      · exact Or.inr (Or.inr ⟨p, hp', ReachV_congr huw hr⟩)

/-- Converting the postcondition across a descend-over-cdr iteration. -/
lemma DswPost.pushCdr {h h' : Heap} {stk : List Nat} {cur nxt : Nat}
    {prev : Val}
    (hcmt : (h.cells cur).cmark = true)
    (hcdr : (h.cells cur).cdr = .cell nxt)
    (hnotin : cur ∉ stk)
    (post : DswPost (setCdrNomod (setDmark h cur) cur prev) (cur :: stk) nxt h') :
    DswPost h stk cur h' := by
  set h2 := setCdrNomod (setDmark h cur) cur prev with hh2
  set h3 := setCdrNomod h2 cur (.cell nxt) with hh3
  have hc2cur : h2.cells cur = { h.cells cur with dmark := true, cdr := prev } := by
    rw [hh2, cells_setCdrNomod_self, cells_setDmark_self]
  have hc2ne : ∀ j, j ≠ cur → h2.cells j = h.cells j := by
    intro j hj
    rw [hh2, cells_setCdrNomod_ne _ _ _ hj, cells_setDmark_ne _ _ hj]
  have hc3cur : h3.cells cur = { h.cells cur with dmark := true, cdr := .cell nxt } := by
    rw [hh3, cells_setCdrNomod_self, hc2cur]
  have hc3ne : ∀ j, j ≠ cur → h3.cells j = h.cells j := by
    intro j hj
    rw [hh3, cells_setCdrNomod_ne _ _ _ hj]
    exact hc2ne j hj
  have huind : unwind h2 (cur :: stk) (.cell nxt) = unwind h3 stk (.cell cur) := by
    simp only [unwind]
    rw [if_pos (by rw [hc2cur])]
  have hslots3 : ∀ i, cellSlots h3 i = cellSlots h i := by
    intro i
    rcases eq_or_ne i cur with rfl | hic
    · simp only [cellSlots, hc3cur, hcdr]
    · simp only [cellSlots, hc3ne i hic]
  have hd3 : ∀ p ∈ stk, (h3.cells p).dmark = (h.cells p).dmark := by
    intro p hp
    rw [hc3ne p (fun hc => hnotin (hc ▸ hp))]
  have huw : ∀ i, cellSlots (unwind h2 (cur :: stk) (.cell nxt)) i =
      cellSlots (unwind h stk (.cell cur)) i := by
    intro i
    rw [huind]
    exact unwind_slots_congr stk h3 h (.cell cur) hslots3 hd3 i
  have hrcdr : ReachV (unwind h stk (.cell cur)) (.cell cur) (.cell nxt) := by
    have h0 : ((unwind h stk (.cell cur)).cells cur).cdr = .cell nxt := by
      rw [unwind_cells_notin stk h (.cell cur) cur hnotin, hcdr]
    have hb : ReachV (unwind h stk (.cell cur)) (.cell cur) (.cell cur) :=
      .refl _
    have := hb.viaCdr
    rwa [h0] at this
  have hcm2 : ∀ i, (h2.cells i).cmark = true → (h.cells i).cmark = true ∨ i = cur := by
    intro i hi
    rcases eq_or_ne i cur with rfl | hic
    · exact Or.inr rfl
    · rw [hc2ne i hic] at hi; exact Or.inl hi
  refine ⟨post.hnc, post.shape, post.cfree, post.sfree,
    fun i => (post.slots i).trans (huw i), ?_, ?_, ?_,
    (post.stkDone cur (by simp)).1, (post.stkDone cur (by simp)).2,
    fun p hp => post.stkDone p (by simp [hp]), ?_, ?_, ?_⟩
  · intro i hi
    refine post.cmono i ?_
    rcases eq_or_ne i cur with rfl | hic
    · rw [hc2cur]; exact hi
    · rw [hc2ne i hic]; exact hi
  · intro i hi
    refine post.dmono i ?_
    rcases eq_or_ne i cur with rfl | hic
    · rw [hc2cur]
    · rw [hc2ne i hic]; exact hi
  · intro a ha
    exact post.smono a ha
  · intro d hd hcd
    exact post.closed d hd hcd
  · intro d hcd
    rcases post.csound d hcd with hc | hc | hc
    · rcases hcm2 d hc with hc' | rfl
      · exact Or.inl hc'
      · exact Or.inr (Or.inl (.refl _))
    · exact Or.inr (Or.inl (hrcdr.trans (ReachV_congr huw hc)))
    · obtain ⟨p, hp, hr⟩ := hc
      rcases List.mem_cons.1 hp with rfl | hp'
      · exact Or.inr (Or.inl (ReachV_congr huw hr))
      · exact Or.inr (Or.inr ⟨p, hp', ReachV_congr huw hr⟩)
  · intro a ha
    rcases post.ssound a ha with hc | hc | hc
    · exact Or.inl hc
    · exact Or.inr (Or.inl (hrcdr.trans (ReachV_congr huw hc)))
    · obtain ⟨p, hp, hr⟩ := hc
      rcases List.mem_cons.1 hp with rfl | hp'
      · exact Or.inr (Or.inl (ReachV_congr huw hr))
      · exact Or.inr (Or.inr ⟨p, hp', ReachV_congr huw hr⟩)

/-- Converting the postcondition across a retreat-over-car iteration: the
back-link stored in the chain head `p` is replaced by the (finished) cell
`cur`, and the loop continues at `p` with the chain popped. -/
lemma DswPost.popCar {h h' : Heap} {rest : List Nat} {p cur : Nat}
    (hdp : (h.cells p).dmark = false)
    (hcurC : (h.cells cur).cmark = true) (hcurD : (h.cells cur).dmark = true)
    (post : DswPost (setCarNomod h p (.cell cur)) rest p h') :
    DswPost h (p :: rest) cur h' := by
  have huind : unwind h (p :: rest) (.cell cur) =
      unwind (setCarNomod h p (.cell cur)) rest (.cell p) := by
    simp only [unwind]
    rw [if_neg (by simpa using hdp)]
  have hcne : ∀ j, j ≠ p → (setCarNomod h p (.cell cur)).cells j = h.cells j :=
    fun j hj => cells_setCarNomod_ne h p _ hj
  have hcm12 : ∀ i, (h.cells i).cmark = ((setCarNomod h p (.cell cur)).cells i).cmark := by
    intro i
    rcases eq_or_ne i p with rfl | hip
    · rw [cells_setCarNomod_self]
    · rw [hcne i hip]
  have hdm12 : ∀ i, (h.cells i).dmark = ((setCarNomod h p (.cell cur)).cells i).dmark := by
    intro i
    rcases eq_or_ne i p with rfl | hip
    · rw [cells_setCarNomod_self]
    · rw [hcne i hip]
  refine ⟨post.hnc, post.shape, post.cfree, post.sfree, ?_, ?_, ?_, post.smono,
    ?_, ?_, ?_, ?_, ?_, ?_⟩
  · intro i
    rw [huind]
    exact post.slots i
  · intro i hi
    exact post.cmono i ((hcm12 i) ▸ hi)
  · intro i hi
    exact post.dmono i ((hdm12 i) ▸ hi)
  · exact post.cmono cur ((hcm12 cur) ▸ hcurC)
  · exact post.dmono cur ((hdm12 cur) ▸ hcurD)
  · intro q hq
    rcases List.mem_cons.1 hq with rfl | hq'
    · exact ⟨post.curC, post.curD⟩
    · exact post.stkDone q hq'
  · intro d hd hcd
    exact post.closed d hd hcd
  · intro d hcd
    rcases post.csound d hcd with hc | hc | hc
    · exact Or.inl ((hcm12 d) ▸ hc)
    · refine Or.inr (Or.inr ⟨p, by simp, ?_⟩)
      rw [huind]; exact hc
    · obtain ⟨q, hq, hr⟩ := hc
      refine Or.inr (Or.inr ⟨q, by simp [hq], ?_⟩)
      rw [huind]; exact hr
  · intro a ha
    rcases post.ssound a ha with hc | hc | hc
    · exact Or.inl hc
    · refine Or.inr (Or.inr ⟨p, by simp, ?_⟩)
      rw [huind]; exact hc
    · obtain ⟨q, hq, hr⟩ := hc
      refine Or.inr (Or.inr ⟨q, by simp [hq], ?_⟩)
      rw [huind]; exact hr

/-- Converting the postcondition across a retreat-over-cdr iteration. -/
lemma DswPost.popCdr {h h' : Heap} {rest : List Nat} {p cur : Nat}
    (hdp : (h.cells p).dmark = true)
    (hcurC : (h.cells cur).cmark = true) (hcurD : (h.cells cur).dmark = true)
    (post : DswPost (setCdrNomod h p (.cell cur)) rest p h') :
    DswPost h (p :: rest) cur h' := by
  have huind : unwind h (p :: rest) (.cell cur) =
      unwind (setCdrNomod h p (.cell cur)) rest (.cell p) := by
    simp only [unwind]
    rw [if_pos hdp]
  have hcne : ∀ j, j ≠ p → (setCdrNomod h p (.cell cur)).cells j = h.cells j :=
    fun j hj => cells_setCdrNomod_ne h p _ hj
  have hcm12 : ∀ i, (h.cells i).cmark = ((setCdrNomod h p (.cell cur)).cells i).cmark := by
    intro i
    rcases eq_or_ne i p with rfl | hip
    · rw [cells_setCdrNomod_self]
    · rw [hcne i hip]
  have hdm12 : ∀ i, (h.cells i).dmark = ((setCdrNomod h p (.cell cur)).cells i).dmark := by
    intro i
    rcases eq_or_ne i p with rfl | hip
    · rw [cells_setCdrNomod_self]
    · rw [hcne i hip]
  refine ⟨post.hnc, post.shape, post.cfree, post.sfree, ?_, ?_, ?_, post.smono,
    ?_, ?_, ?_, ?_, ?_, ?_⟩
  · intro i
    rw [huind]
    exact post.slots i
  · intro i hi
    exact post.cmono i ((hcm12 i) ▸ hi)
  · intro i hi
    exact post.dmono i ((hdm12 i) ▸ hi)
  · exact post.cmono cur ((hcm12 cur) ▸ hcurC)
  · exact post.dmono cur ((hdm12 cur) ▸ hcurD)
  · intro q hq
    rcases List.mem_cons.1 hq with rfl | hq'
    · exact ⟨post.curC, post.curD⟩
    · exact post.stkDone q hq'
  · intro d hd hcd
    exact post.closed d hd hcd
  · intro d hcd
    rcases post.csound d hcd with hc | hc | hc
    · exact Or.inl ((hcm12 d) ▸ hc)
    · refine Or.inr (Or.inr ⟨p, by simp, ?_⟩)
      rw [huind]; exact hc
    · obtain ⟨q, hq, hr⟩ := hc
      refine Or.inr (Or.inr ⟨q, by simp [hq], ?_⟩)
      rw [huind]; exact hr
  · intro a ha
    rcases post.ssound a ha with hc | hc | hc
    · exact Or.inl hc
    · refine Or.inr (Or.inr ⟨p, by simp, ?_⟩)
      rw [huind]; exact hc
    · obtain ⟨q, hq, hr⟩ := hc
      refine Or.inr (Or.inr ⟨q, by simp [hq], ?_⟩)
      rw [huind]; exact hr

lemma Chain.validPrev {h : Heap} {prev : Val} {stk : List Nat}
    (hc : Chain h prev stk) : validVal h prev := by
  cases hc with
  | nil => trivial
  | cons p rest hp _ _ => exact hp

/-! Precondition-propagation helpers, one per loop iteration kind. -/

lemma DswPre.stayA {h : Heap} {stk : List Nat} {cur : Nat} {prev : Val}
    (pre : DswPre h stk cur prev)
    (hcm : (h.cells cur).cmark = false) (hdm : (h.cells cur).dmark = false)
    (hcc : childMarked (setCmark h cur) (h.cells cur).car) :
    DswPre (setCmark h cur) stk cur prev := by
  have hne : ∀ j, j ≠ cur → (setCmark h cur).cells j = h.cells j :=
    fun j hj => cells_setCmark_ne h cur hj
  have hmono : ∀ j, (h.cells j).cmark = true → ((setCmark h cur).cells j).cmark = true := by
    intro j hj
    rcases eq_or_ne j cur with rfl | hjc
    · rw [cells_setCmark_self]
    · rw [hne j hjc]; exact hj
  have hsm : ∀ a, smarkAt h a = true → smarkAt (setCmark h cur) a = true :=
    fun a ha => ha
  refine ⟨goodHeap_setCmark h cur pre.good (fun _ => hdm), pre.curlt,
    pre.chain.transfer rfl (fun p hp => hne p (fun hc => pre.curnotin (hc ▸ hp))),
    pre.curnotin, pre.nodup, ?_, ?_, ?_, ?_⟩
  · intro d hd hds hdc hcd
    have hcd' : (h.cells d).cmark = true := by rwa [hne d hdc] at hcd
    obtain ⟨h1, h2, h3⟩ := pre.finished d hd hds hdc hcd'
    rw [hne d hdc]
    exact ⟨h1, childMarked_mono hmono hsm h2, childMarked_mono hmono hsm h3⟩
  · intro p hp hdp
    have hpc : p ≠ cur := fun hc => pre.curnotin (hc ▸ hp)
    rw [hne p hpc] at hdp ⊢
    exact childMarked_mono hmono hsm (pre.stkCar p hp hdp)
  · intro _
    rw [cells_setCmark_self]
    exact hcc
  · intro hdc
    rw [cells_setCmark_self] at hdc
    simp only at hdc
    rw [hdm] at hdc
    cases hdc

lemma DswPre.stayB {h : Heap} {stk : List Nat} {cur : Nat} {prev : Val}
    (pre : DswPre h stk cur prev)
    (hcm : (h.cells cur).cmark = true) (hdm : (h.cells cur).dmark = false)
    (hcc : childMarked (setDmark h cur) (h.cells cur).cdr) :
    DswPre (setDmark h cur) stk cur prev := by
  have hne : ∀ j, j ≠ cur → (setDmark h cur).cells j = h.cells j :=
    fun j hj => cells_setDmark_ne h cur hj
  have hmono : ∀ j, (h.cells j).cmark = true → ((setDmark h cur).cells j).cmark = true := by
    intro j hj
    rcases eq_or_ne j cur with rfl | hjc
    · rw [cells_setDmark_self]; exact hj
    · rw [hne j hjc]; exact hj
  have hsm : ∀ a, smarkAt h a = true → smarkAt (setDmark h cur) a = true :=
    fun a ha => ha
  refine ⟨goodHeap_setDmark h cur pre.good hcm, pre.curlt,
    pre.chain.transfer rfl (fun p hp => hne p (fun hc => pre.curnotin (hc ▸ hp))),
    pre.curnotin, pre.nodup, ?_, ?_, ?_, ?_⟩
  · intro d hd hds hdc hcd
    have hcd' : (h.cells d).cmark = true := by rwa [hne d hdc] at hcd
    obtain ⟨h1, h2, h3⟩ := pre.finished d hd hds hdc hcd'
    rw [hne d hdc]
    exact ⟨h1, childMarked_mono hmono hsm h2, childMarked_mono hmono hsm h3⟩
  · intro p hp hdp
    have hpc : p ≠ cur := fun hc => pre.curnotin (hc ▸ hp)
    rw [hne p hpc] at hdp ⊢
    exact childMarked_mono hmono hsm (pre.stkCar p hp hdp)
  · intro _
    rw [cells_setDmark_self]
    exact childMarked_mono hmono hsm (pre.curCar hcm)
  · intro _
    rw [cells_setDmark_self]
    exact hcc

/-- Marking a storage block (no cell changes): the precondition transfers,
with the cur-child obligations updated by the caller through
`childMarked`. -/
lemma DswPre.smarked {h : Heap} {stk : List Nat} {cur : Nat} {prev : Val}
    (pre : DswPre h stk cur prev) (a : Nat)
    (hcc : (h.cells cur).cmark = true → childMarked (setSmarkAt h a) (h.cells cur).car)
    (hcd : (h.cells cur).dmark = true → childMarked (setSmarkAt h a) (h.cells cur).cdr) :
    DswPre (setSmarkAt h a) stk cur prev := by
  have hcells : ∀ j, (setSmarkAt h a).cells j = h.cells j := fun _ => rfl
  have hmono : ∀ j, (h.cells j).cmark = true → ((setSmarkAt h a).cells j).cmark = true :=
    fun j hj => hj
  have hsm : ∀ b, smarkAt h b = true → smarkAt (setSmarkAt h a) b = true :=
    fun b hb => smarkAt_setSmarkAt_mono h a b hb
  refine ⟨goodHeap_setSmarkAt h a pre.good, pre.curlt,
    pre.chain.transfer rfl (fun p _ => rfl), pre.curnotin, pre.nodup,
    ?_, ?_, hcc, hcd⟩
  · intro d hd hds hdc hcd'
    obtain ⟨h1, h2, h3⟩ := pre.finished d hd hds hdc hcd'
    exact ⟨h1, childMarked_mono hmono hsm h2, childMarked_mono hmono hsm h3⟩
  · intro p hp hdp
    exact childMarked_mono hmono hsm (pre.stkCar p hp hdp)

lemma DswPre.descendCar {h : Heap} {stk : List Nat} {cur nxt : Nat} {prev : Val}
    (pre : DswPre h stk cur prev)
    (hcm : (h.cells cur).cmark = false) (hdm : (h.cells cur).dmark = false)
    (hcar : (h.cells cur).car = .cell nxt)
    (hnm : ((setCmark h cur).cells nxt).cmark = false) :
    DswPre (setCarNomod (setCmark h cur) cur prev) (cur :: stk) nxt (.cell cur) := by
  set h2 := setCarNomod (setCmark h cur) cur prev with hh2
  have hc2cur : h2.cells cur = { h.cells cur with cmark := true, car := prev } := by
    rw [hh2, cells_setCarNomod_self, cells_setCmark_self]
  have hc2ne : ∀ j, j ≠ cur → h2.cells j = h.cells j := by
    intro j hj
    rw [hh2, cells_setCarNomod_ne _ _ _ hj, cells_setCmark_ne _ _ hj]
  have hnxtcur : nxt ≠ cur := by
    intro hc
    rw [hc, cells_setCmark_self] at hnm
    simp at hnm
  have hnm0 : (h.cells nxt).cmark = false := by
    rwa [cells_setCmark_ne h cur hnxtcur] at hnm
  have hmono : ∀ j, (h.cells j).cmark = true → (h2.cells j).cmark = true := by
    intro j hj
    rcases eq_or_ne j cur with rfl | hjc
    · rw [hc2cur]
    · rw [hc2ne j hjc]; exact hj
  have hsm : ∀ a, smarkAt h a = true → smarkAt h2 a = true := fun a ha => ha
  have hnxtlt : nxt < h.ncells := by
    have hv := (pre.good cur pre.curlt).2.1
    rw [hcar] at hv
    exact hv
  have hnxtstk : nxt ∉ stk := by
    intro hmem
    have := pre.chain.stackMarked nxt hmem
    rw [hnm0] at this
    cases this
  have hgood2 : goodHeap h2 :=
    goodHeap_setCarNomod (setCmark h cur) cur prev
      (goodHeap_setCmark h cur pre.good (fun _ => hdm))
      (validVal_congr rfl rfl pre.chain.validPrev)
  refine ⟨hgood2, hnxtlt, ?_, ?_, List.nodup_cons.2 ⟨pre.curnotin, pre.nodup⟩,
    ?_, ?_, ?_, ?_⟩
  · have hslot :
        (if (h2.cells cur).dmark then (h2.cells cur).cdr else (h2.cells cur).car) =
          prev := by
      rw [hc2cur]
      simp [hdm]
    refine Chain.cons cur stk pre.curlt (by rw [hc2cur]) ?_
    rw [hslot]
    exact pre.chain.transfer rfl
      (fun p hp => hc2ne p (fun hc => pre.curnotin (hc ▸ hp)))
  · intro hmem
    rcases List.mem_cons.1 hmem with hc | hc
    · exact hnxtcur hc
    · exact hnxtstk hc
  · intro d hd hds hdn hcd
    have hdc : d ≠ cur := fun hc => hds (by simp [hc])
    have hdstk : d ∉ stk := fun hc => hds (by simp [hc])
    have hcd' : (h.cells d).cmark = true := by rwa [hc2ne d hdc] at hcd
    obtain ⟨h1, hx2, hx3⟩ := pre.finished d hd hdstk hdc hcd'
    rw [hc2ne d hdc]
    exact ⟨h1, childMarked_mono hmono hsm hx2, childMarked_mono hmono hsm hx3⟩
  · intro q hq hdq
    rcases List.mem_cons.1 hq with rfl | hq'
    · rw [hc2cur] at hdq
      simp only at hdq
      rw [hdm] at hdq
      cases hdq
    · have hqc : q ≠ cur := fun hc => pre.curnotin (hc ▸ hq')
      rw [hc2ne q hqc] at hdq ⊢
      exact childMarked_mono hmono hsm (pre.stkCar q hq' hdq)
  · intro hc
    rw [hc2ne nxt hnxtcur] at hc
    rw [hnm0] at hc
    cases hc
  · intro hc
    rw [hc2ne nxt hnxtcur] at hc
    have := (pre.good nxt hnxtlt).1 hc
    rw [hnm0] at this
    cases this

lemma DswPre.descendCdr {h : Heap} {stk : List Nat} {cur nxt : Nat} {prev : Val}
    (pre : DswPre h stk cur prev)
    (hcm : (h.cells cur).cmark = true) (hdm : (h.cells cur).dmark = false)
    (hcdr : (h.cells cur).cdr = .cell nxt)
    (hnm : ((setDmark h cur).cells nxt).cmark = false) :
    DswPre (setCdrNomod (setDmark h cur) cur prev) (cur :: stk) nxt (.cell cur) := by
  set h2 := setCdrNomod (setDmark h cur) cur prev with hh2
  have hc2cur : h2.cells cur = { h.cells cur with dmark := true, cdr := prev } := by
    rw [hh2, cells_setCdrNomod_self, cells_setDmark_self]
  have hc2ne : ∀ j, j ≠ cur → h2.cells j = h.cells j := by
    intro j hj
    rw [hh2, cells_setCdrNomod_ne _ _ _ hj, cells_setDmark_ne _ _ hj]
  have hnxtcur : nxt ≠ cur := by
    intro hc
    rw [hc, cells_setDmark_self] at hnm
    simp only at hnm
    rw [hnm] at hcm
    cases hcm
  have hnm0 : (h.cells nxt).cmark = false := by
    rwa [cells_setDmark_ne h cur hnxtcur] at hnm
  have hmono : ∀ j, (h.cells j).cmark = true → (h2.cells j).cmark = true := by
    intro j hj
    rcases eq_or_ne j cur with rfl | hjc
    · rw [hc2cur]; exact hj
    · rw [hc2ne j hjc]; exact hj
  have hsm : ∀ a, smarkAt h a = true → smarkAt h2 a = true := fun a ha => ha
  have hnxtlt : nxt < h.ncells := by
    have hv := (pre.good cur pre.curlt).2.2
    rw [hcdr] at hv
    exact hv
  have hnxtstk : nxt ∉ stk := by
    intro hmem
    have := pre.chain.stackMarked nxt hmem
    rw [hnm0] at this
    cases this
  have hgood2 : goodHeap h2 :=
    goodHeap_setCdrNomod (setDmark h cur) cur prev
      (goodHeap_setDmark h cur pre.good hcm)
      (validVal_congr rfl rfl pre.chain.validPrev)
  refine ⟨hgood2, hnxtlt, ?_, ?_, List.nodup_cons.2 ⟨pre.curnotin, pre.nodup⟩,
    ?_, ?_, ?_, ?_⟩
  · have hslot :
        (if (h2.cells cur).dmark then (h2.cells cur).cdr else (h2.cells cur).car) =
          prev := by
      rw [hc2cur]
      simp
    refine Chain.cons cur stk pre.curlt (by rw [hc2cur]; exact hcm) ?_
    rw [hslot]
    exact pre.chain.transfer rfl
      (fun p hp => hc2ne p (fun hc => pre.curnotin (hc ▸ hp)))
  · intro hmem
    rcases List.mem_cons.1 hmem with hc | hc
    · exact hnxtcur hc
    · exact hnxtstk hc
  · intro d hd hds hdn hcd
    have hdc : d ≠ cur := fun hc => hds (by simp [hc])
    have hdstk : d ∉ stk := fun hc => hds (by simp [hc])
    have hcd' : (h.cells d).cmark = true := by rwa [hc2ne d hdc] at hcd
    obtain ⟨h1, hx2, hx3⟩ := pre.finished d hd hdstk hdc hcd'
    rw [hc2ne d hdc]
    exact ⟨h1, childMarked_mono hmono hsm hx2, childMarked_mono hmono hsm hx3⟩
  · intro q hq hdq
    rcases List.mem_cons.1 hq with rfl | hq'
    · rw [hc2cur]
      simp only
      exact childMarked_mono hmono hsm (pre.curCar hcm)
    · have hqc : q ≠ cur := fun hc => pre.curnotin (hc ▸ hq')
      rw [hc2ne q hqc] at hdq ⊢
      exact childMarked_mono hmono hsm (pre.stkCar q hq' hdq)
  · intro hc
    rw [hc2ne nxt hnxtcur] at hc
    rw [hnm0] at hc
    cases hc
  · intro hc
    rw [hc2ne nxt hnxtcur] at hc
    have := (pre.good nxt hnxtlt).1 hc
    rw [hnm0] at this
    cases this

lemma DswPre.retreatCar {h : Heap} {rest : List Nat} {cur p : Nat}
    (pre : DswPre h (p :: rest) cur (.cell p))
    (hcmt : (h.cells cur).cmark = true) (hdmt : (h.cells cur).dmark = true)
    (hdp : (h.cells p).dmark = false) :
    DswPre (setCarNomod h p (.cell cur)) rest p ((h.cells p).car) := by
  obtain ⟨rest', hre, hplt, hpm, hch⟩ := pre.chain.cell_inv
  obtain ⟨rfl⟩ : rest' = rest := by
    cases hre
    rfl
  rw [if_neg (by simp [hdp])] at hch
  set h2 := setCarNomod h p (.cell cur) with hh2
  have hc2p : h2.cells p = { h.cells p with car := .cell cur } := by
    rw [hh2, cells_setCarNomod_self]
  have hc2ne : ∀ j, j ≠ p → h2.cells j = h.cells j := by
    intro j hj
    rw [hh2, cells_setCarNomod_ne _ _ _ hj]
  have hcurp : cur ≠ p := fun hc => pre.curnotin (by simp [hc])
  have hcurrest : cur ∉ rest := fun hc => pre.curnotin (by simp [hc])
  have hprest : p ∉ rest := (List.nodup_cons.1 pre.nodup).1
  have hmono : ∀ j, (h.cells j).cmark = true → (h2.cells j).cmark = true := by
    intro j hj
    rcases eq_or_ne j p with rfl | hjp
    · rw [hc2p]; exact hj
    · rw [hc2ne j hjp]; exact hj
  have hsm : ∀ a, smarkAt h a = true → smarkAt h2 a = true := fun a ha => ha
  refine ⟨goodHeap_setCarNomod h p (.cell cur) pre.good pre.curlt, hplt,
    hch.transfer rfl (fun q hq => hc2ne q (fun hc => hprest (hc ▸ hq))),
    hprest, (List.nodup_cons.1 pre.nodup).2, ?_, ?_, ?_, ?_⟩
  · intro d hd hds hdn hcd
    rcases eq_or_ne d cur with rfl | hdcur
    · rw [hc2ne d hcurp]
      refine ⟨hdmt, ?_, ?_⟩
      · exact childMarked_mono hmono hsm (pre.curCar hcmt)
      · exact childMarked_mono hmono hsm (pre.curCdr hdmt)
    · have hds' : d ∉ p :: rest := by
        intro hc
        rcases List.mem_cons.1 hc with hc' | hc'
        · exact hdn hc'
        · exact hds hc'
      have hcd' : (h.cells d).cmark = true := by rwa [hc2ne d hdn] at hcd
      obtain ⟨h1, hx2, hx3⟩ := pre.finished d hd hds' hdcur hcd'
      rw [hc2ne d hdn]
      exact ⟨h1, childMarked_mono hmono hsm hx2, childMarked_mono hmono hsm hx3⟩
  · intro q hq hdq
    have hqp : q ≠ p := fun hc => hprest (hc ▸ hq)
    rw [hc2ne q hqp] at hdq ⊢
    exact childMarked_mono hmono hsm (pre.stkCar q (by simp [hq]) hdq)
  · intro _
    rw [hc2p]
    simp only [childMarked]
    rcases eq_or_ne cur p with hc | hc
    · exact absurd hc hcurp
    · rw [hc2ne cur hcurp]
      exact hcmt
  · intro hc
    rw [hc2p] at hc
    simp only at hc
    rw [hdp] at hc
    cases hc

lemma DswPre.retreatCdr {h : Heap} {rest : List Nat} {cur p : Nat}
    (pre : DswPre h (p :: rest) cur (.cell p))
    (hcmt : (h.cells cur).cmark = true) (hdmt : (h.cells cur).dmark = true)
    (hdp : (h.cells p).dmark = true) :
    DswPre (setCdrNomod h p (.cell cur)) rest p ((h.cells p).cdr) := by
  obtain ⟨rest', hre, hplt, hpm, hch⟩ := pre.chain.cell_inv
  obtain ⟨rfl⟩ : rest' = rest := by
    cases hre
    rfl
  rw [if_pos hdp] at hch
  set h2 := setCdrNomod h p (.cell cur) with hh2
  have hc2p : h2.cells p = { h.cells p with cdr := .cell cur } := by
    rw [hh2, cells_setCdrNomod_self]
  have hc2ne : ∀ j, j ≠ p → h2.cells j = h.cells j := by
    intro j hj
    rw [hh2, cells_setCdrNomod_ne _ _ _ hj]
  have hcurp : cur ≠ p := fun hc => pre.curnotin (by simp [hc])
  have hcurrest : cur ∉ rest := fun hc => pre.curnotin (by simp [hc])
  have hprest : p ∉ rest := (List.nodup_cons.1 pre.nodup).1
  have hmono : ∀ j, (h.cells j).cmark = true → (h2.cells j).cmark = true := by
    intro j hj
    rcases eq_or_ne j p with rfl | hjp
    · rw [hc2p]; exact hj
    · rw [hc2ne j hjp]; exact hj
  have hsm : ∀ a, smarkAt h a = true → smarkAt h2 a = true := fun a ha => ha
  refine ⟨goodHeap_setCdrNomod h p (.cell cur) pre.good pre.curlt, hplt,
    hch.transfer rfl (fun q hq => hc2ne q (fun hc => hprest (hc ▸ hq))),
    hprest, (List.nodup_cons.1 pre.nodup).2, ?_, ?_, ?_, ?_⟩
  · intro d hd hds hdn hcd
    rcases eq_or_ne d cur with rfl | hdcur
    · rw [hc2ne d hcurp]
      refine ⟨hdmt, ?_, ?_⟩
      · exact childMarked_mono hmono hsm (pre.curCar hcmt)
      · exact childMarked_mono hmono hsm (pre.curCdr hdmt)
    · have hds' : d ∉ p :: rest := by
        intro hc
        rcases List.mem_cons.1 hc with hc' | hc'
        · exact hdn hc'
        · exact hds hc'
      have hcd' : (h.cells d).cmark = true := by rwa [hc2ne d hdn] at hcd
      obtain ⟨h1, hx2, hx3⟩ := pre.finished d hd hds' hdcur hcd'
      rw [hc2ne d hdn]
      exact ⟨h1, childMarked_mono hmono hsm hx2, childMarked_mono hmono hsm hx3⟩
  · intro q hq hdq
    have hqp : q ≠ p := fun hc => hprest (hc ▸ hq)
    rw [hc2ne q hqp] at hdq ⊢
    exact childMarked_mono hmono hsm (pre.stkCar q (by simp [hq]) hdq)
  · intro hcp
    have hcar : (h2.cells p).car = (h.cells p).car := by rw [hc2p]
    rw [hcar]
    exact childMarked_mono hmono hsm (pre.stkCar p (by simp) hdp)
  · intro _
    rw [hc2p]
    simp only [childMarked]
    rcases eq_or_ne cur p with hc | hc
    · exact absurd hc hcurp
    · rw [hc2ne cur hcurp]
      exact hcmt

lemma cellSlots_setCmark (h : Heap) (cur : Nat) (i : Nat) :
    cellSlots (setCmark h cur) i = cellSlots h i := by
  rcases eq_or_ne i cur with rfl | hic
  · simp [cellSlots, cells_setCmark_self]
  · simp [cellSlots, cells_setCmark_ne h cur hic]

lemma cellSlots_setDmark (h : Heap) (cur : Nat) (i : Nat) :
    cellSlots (setDmark h cur) i = cellSlots h i := by
  rcases eq_or_ne i cur with rfl | hic
  · simp [cellSlots, cells_setDmark_self]
  · simp [cellSlots, cells_setDmark_ne h cur hic]

lemma dmark_setCmark (h : Heap) (cur : Nat) (j : Nat) :
    ((setCmark h cur).cells j).dmark = (h.cells j).dmark := by
  rcases eq_or_ne j cur with rfl | hjc
  · rw [cells_setCmark_self]
  · rw [cells_setCmark_ne h cur hjc]

lemma cmark_setDmark (h : Heap) (cur : Nat) (j : Nat) :
    ((setDmark h cur).cells j).cmark = (h.cells j).cmark := by
  rcases eq_or_ne j cur with rfl | hjc
  · rw [cells_setDmark_self]
  · rw [cells_setDmark_ne h cur hjc]

lemma cmark_setCmark_cases (h : Heap) (cur : Nat) (j : Nat)
    (hc : ((setCmark h cur).cells j).cmark = true) :
    (h.cells j).cmark = true ∨ j = cur := by
  rcases eq_or_ne j cur with rfl | hjc
  · exact Or.inr rfl
  · rw [cells_setCmark_ne h cur hjc] at hc
    exact Or.inl hc

lemma cmark_setCmark_mono (h : Heap) (cur : Nat) (j : Nat)
    (hc : (h.cells j).cmark = true) : ((setCmark h cur).cells j).cmark = true := by
  rcases eq_or_ne j cur with rfl | hjc
  · rw [cells_setCmark_self]
  · rw [cells_setCmark_ne h cur hjc]; exact hc

lemma dmark_setDmark_mono (h : Heap) (cur : Nat) (j : Nat)
    (hc : (h.cells j).dmark = true) : ((setDmark h cur).cells j).dmark = true := by
  rcases eq_or_ne j cur with rfl | hjc
  · rw [cells_setDmark_self]
  · rw [cells_setDmark_ne h cur hjc]; exact hc

lemma reach_car_child {h : Heap} {stk : List Nat} {cur : Nat}
    (hnotin : cur ∉ stk) {v : Val} (hcar : (h.cells cur).car = v) :
    ReachV (unwind h stk (.cell cur)) (.cell cur) v := by
  have h0 : ((unwind h stk (.cell cur)).cells cur).car = v := by
    rw [unwind_cells_notin stk h (.cell cur) cur hnotin, hcar]
  have hb : ReachV (unwind h stk (.cell cur)) (.cell cur) (.cell cur) := .refl _
  have := hb.viaCar
  rwa [h0] at this

lemma reach_cdr_child {h : Heap} {stk : List Nat} {cur : Nat}
    (hnotin : cur ∉ stk) {v : Val} (hcdr : (h.cells cur).cdr = v) :
    ReachV (unwind h stk (.cell cur)) (.cell cur) v := by
  have h0 : ((unwind h stk (.cell cur)).cells cur).cdr = v := by
    rw [unwind_cells_notin stk h (.cell cur) cur hnotin, hcdr]
  have hb : ReachV (unwind h stk (.cell cur)) (.cell cur) (.cell cur) := .refl _
  have := hb.viaCdr
  rwa [h0] at this

lemma DswPre.stayAStor {h : Heap} {stk : List Nat} {cur : Nat} {prev : Val}
    {a : Nat} (pre : DswPre h stk cur prev)
    (hcm : (h.cells cur).cmark = false) (hdm : (h.cells cur).dmark = false)
    (hcar : (h.cells cur).car = .stor a) :
    DswPre (setSmarkAt (setCmark h cur) a) stk cur prev := by
  have hvalid : a ∈ blockStarts h.blocks 0 := by
    have hv := (pre.good cur pre.curlt).2.1
    rw [hcar] at hv
    exact hv
  set h2 := setSmarkAt (setCmark h cur) a with hh2
  have hcells : ∀ j, h2.cells j = (setCmark h cur).cells j := fun _ => rfl
  have hne : ∀ j, j ≠ cur → h2.cells j = h.cells j := by
    intro j hj
    rw [hcells, cells_setCmark_ne h cur hj]
  have hcur2 : h2.cells cur = { h.cells cur with cmark := true } := by
    rw [hcells, cells_setCmark_self]
  have hmono : ∀ j, (h.cells j).cmark = true → (h2.cells j).cmark = true := by
    intro j hj
    rw [hcells]
    exact cmark_setCmark_mono h cur j hj
  have hsm : ∀ b, smarkAt h b = true → smarkAt h2 b = true := by
    intro b hb
    exact smarkAt_setSmarkAt_mono (setCmark h cur) a b hb
  have hgood : goodHeap h2 :=
    goodHeap_setSmarkAt _ a (goodHeap_setCmark h cur pre.good (fun _ => hdm))
  refine ⟨hgood, pre.curlt,
    pre.chain.transfer rfl (fun p hp => hne p (fun hc => pre.curnotin (hc ▸ hp))),
    pre.curnotin, pre.nodup, ?_, ?_, ?_, ?_⟩
  · intro d hd hds hdc hcd
    have hcd' : (h.cells d).cmark = true := by rwa [hne d hdc] at hcd
    obtain ⟨h1, h2x, h3x⟩ := pre.finished d hd hds hdc hcd'
    rw [hne d hdc]
    exact ⟨h1, childMarked_mono hmono hsm h2x, childMarked_mono hmono hsm h3x⟩
  · intro p hp hdp
    have hpc : p ≠ cur := fun hc => pre.curnotin (hc ▸ hp)
    rw [hne p hpc] at hdp ⊢
    exact childMarked_mono hmono hsm (pre.stkCar p hp hdp)
  · intro _
    have hc2car : (h2.cells cur).car = .stor a := by
      rw [hcur2]
      exact hcar
    rw [hc2car]
    exact smarkAt_setSmarkAt_self (setCmark h cur) a hvalid
  · intro hc
    rw [hcur2] at hc
    simp only at hc
    rw [hdm] at hc
    cases hc

lemma DswPre.stayBStor {h : Heap} {stk : List Nat} {cur : Nat} {prev : Val}
    {a : Nat} (pre : DswPre h stk cur prev)
    (hcm : (h.cells cur).cmark = true) (hdm : (h.cells cur).dmark = false)
    (hcdr : (h.cells cur).cdr = .stor a) :
    DswPre (setSmarkAt (setDmark h cur) a) stk cur prev := by
  have hvalid : a ∈ blockStarts h.blocks 0 := by
    have hv := (pre.good cur pre.curlt).2.2
    rw [hcdr] at hv
    exact hv
  set h2 := setSmarkAt (setDmark h cur) a with hh2
  have hcells : ∀ j, h2.cells j = (setDmark h cur).cells j := fun _ => rfl
  have hne : ∀ j, j ≠ cur → h2.cells j = h.cells j := by
    intro j hj
    rw [hcells, cells_setDmark_ne h cur hj]
  have hcur2 : h2.cells cur = { h.cells cur with dmark := true } := by
    rw [hcells, cells_setDmark_self]
  have hmono : ∀ j, (h.cells j).cmark = true → (h2.cells j).cmark = true := by
    intro j hj
    rw [hcells, cmark_setDmark]
    exact hj
  have hsm : ∀ b, smarkAt h b = true → smarkAt h2 b = true := by
    intro b hb
    exact smarkAt_setSmarkAt_mono (setDmark h cur) a b hb
  have hgood : goodHeap h2 :=
    goodHeap_setSmarkAt _ a (goodHeap_setDmark h cur pre.good hcm)
  refine ⟨hgood, pre.curlt,
    pre.chain.transfer rfl (fun p hp => hne p (fun hc => pre.curnotin (hc ▸ hp))),
    pre.curnotin, pre.nodup, ?_, ?_, ?_, ?_⟩
  · intro d hd hds hdc hcd
    have hcd' : (h.cells d).cmark = true := by rwa [hne d hdc] at hcd
    obtain ⟨h1, h2x, h3x⟩ := pre.finished d hd hds hdc hcd'
    rw [hne d hdc]
    exact ⟨h1, childMarked_mono hmono hsm h2x, childMarked_mono hmono hsm h3x⟩
  · intro p hp hdp
    have hpc : p ≠ cur := fun hc => pre.curnotin (hc ▸ hp)
    rw [hne p hpc] at hdp ⊢
    exact childMarked_mono hmono hsm (pre.stkCar p hp hdp)
  · intro _
    have hc2car : (h2.cells cur).car = (h.cells cur).car := by
      rw [hcur2]
    rw [hc2car]
    exact childMarked_mono hmono hsm (pre.curCar hcm)
  · intro _
    have hc2cdr : (h2.cells cur).cdr = .stor a := by
      rw [hcur2]
      exact hcdr
    rw [hc2cdr]
    exact smarkAt_setSmarkAt_self (setDmark h cur) a hvalid

lemma bool_ne_false {b : Bool} (h : ¬b = false) : b = true := by
  cases b with
  | false => exact absurd rfl h
  | true => rfl

/-- Main lemma on the Deutsch-Schorr-Waite loop: under the traversal
invariant and with fuel exceeding the measure `2*unmarked + chain length`,
the loop terminates and satisfies the full postcondition (pointer
restoration, mark monotonicity and soundness, closure of the final mark
set). -/
theorem dswMain (fuel : Nat) :
    ∀ (h : Heap) (cur : Nat) (prev : Val) (stk : List Nat),
      DswPre h stk cur prev → dswMeas h stk < fuel →
      ∃ h', markLoop h (.cell cur) prev fuel = some h' ∧ DswPost h stk cur h' := by
  induction fuel with
  | zero =>
      intro h cur prev stk _ hm
      omega
  | succ fuel ih =>
      intro h cur prev stk pre hm
      by_cases hcm : (h.cells cur).cmark = false
      · -- advance over car
        have hdm : (h.cells cur).dmark = false := by
          by_contra hd
          have hd' := bool_ne_false hd
          have := (pre.good cur pre.curlt).1 hd'
          rw [hcm] at this
          cases this
        have hcount := unmarkedCount_setCmark h cur pre.curlt hcm
        rcases hcar : (h.cells cur).car with _ | w | nxt | a
        · -- car is NIL
          have pre1 := pre.stayA hcm hdm (by rw [hcar]; exact trivial)
          have hm1 : dswMeas (setCmark h cur) stk < fuel := by
            simp only [dswMeas] at hm ⊢
            omega
          obtain ⟨h', hrun, post⟩ := ih (setCmark h cur) cur prev stk pre1 hm1
          refine ⟨h', ?_, ?_⟩
          · have hscrut : ((setCmark h cur).cells cur).car = Val.nil := by
              rw [cells_setCmark_self]
              exact hcar
            simp only [markLoop]
            rw [if_pos hcm, hscrut]
            exact hrun
          · exact post.absorb rfl rfl rfl rfl (cellSlots_setCmark h cur)
              (fun p _ => dmark_setCmark h cur p)
              (cmark_setCmark_mono h cur)
              (fun i hi => by rw [dmark_setCmark]; exact hi)
              (fun a ha => ha)
              (cmark_setCmark_cases h cur)
              (fun b hb => Or.inl hb)
        · -- car is a zap special value
          have pre1 := pre.stayA hcm hdm (by rw [hcar]; exact trivial)
          have hm1 : dswMeas (setCmark h cur) stk < fuel := by
            simp only [dswMeas] at hm ⊢
            omega
          obtain ⟨h', hrun, post⟩ := ih (setCmark h cur) cur prev stk pre1 hm1
          refine ⟨h', ?_, ?_⟩
          · have hscrut : ((setCmark h cur).cells cur).car = Val.special w := by
              rw [cells_setCmark_self]
              exact hcar
            simp only [markLoop]
            rw [if_pos hcm, hscrut]
            exact hrun
          · exact post.absorb rfl rfl rfl rfl (cellSlots_setCmark h cur)
              (fun p _ => dmark_setCmark h cur p)
              (cmark_setCmark_mono h cur)
              (fun i hi => by rw [dmark_setCmark]; exact hi)
              (fun a ha => ha)
              (cmark_setCmark_cases h cur)
              (fun b hb => Or.inl hb)
        · -- car is a cons box
          by_cases hnmk : ((setCmark h cur).cells nxt).cmark = false
          · -- unmarked: advance into it, reversing the car slot
            have pre1 := pre.descendCar hcm hdm hcar hnmk
            have hm1 : dswMeas (setCarNomod (setCmark h cur) cur prev)
                (cur :: stk) < fuel := by
              have hc2 := unmarkedCount_setCarNomod (setCmark h cur) cur prev
                (show cur < (setCmark h cur).ncells from pre.curlt)
              simp only [dswMeas, List.length_cons] at hm ⊢
              omega
            obtain ⟨h', hrun, post⟩ :=
              ih (setCarNomod (setCmark h cur) cur prev) nxt (.cell cur)
                (cur :: stk) pre1 hm1
            refine ⟨h', ?_, post.pushCar hdm hcar pre.curnotin⟩
            have hscrut : ((setCmark h cur).cells cur).car = Val.cell nxt := by
              rw [cells_setCmark_self]
              exact hcar
            simp only [markLoop, hcm, hscrut, hnmk]
            exact hrun
          · -- already marked: continue at cur
            have hnmk' := bool_ne_false hnmk
            have pre1 := pre.stayA hcm hdm (by rw [hcar]; exact hnmk')
            have hm1 : dswMeas (setCmark h cur) stk < fuel := by
              simp only [dswMeas] at hm ⊢
              omega
            obtain ⟨h', hrun, post⟩ := ih (setCmark h cur) cur prev stk pre1 hm1
            refine ⟨h', ?_, ?_⟩
            · have hscrut : ((setCmark h cur).cells cur).car = Val.cell nxt := by
                rw [cells_setCmark_self]
                exact hcar
              simp only [markLoop, hcm, hscrut, hnmk']
              exact hrun
            · exact post.absorb rfl rfl rfl rfl (cellSlots_setCmark h cur)
                (fun p _ => dmark_setCmark h cur p)
                (cmark_setCmark_mono h cur)
                (fun i hi => by rw [dmark_setCmark]; exact hi)
                (fun a ha => ha)
                (cmark_setCmark_cases h cur)
                (fun b hb => Or.inl hb)
        · -- car is a storage block: mark it in place
          have pre1 := pre.stayAStor hcm hdm hcar
          have hm1 : dswMeas (setSmarkAt (setCmark h cur) a) stk < fuel := by
            simp only [dswMeas, unmarkedCount_setSmarkAt] at hm ⊢
            omega
          obtain ⟨h', hrun, post⟩ :=
            ih (setSmarkAt (setCmark h cur) a) cur prev stk pre1 hm1
          refine ⟨h', ?_, ?_⟩
          · have hscrut : ((setCmark h cur).cells cur).car = Val.stor a := by
              rw [cells_setCmark_self]
              exact hcar
            simp only [markLoop]
            rw [if_pos hcm, hscrut]
            exact hrun
          · refine post.absorb rfl (blocksShape_setSmarkAux h.blocks 0 a) rfl rfl
              (cellSlots_setCmark h cur)
              (fun p _ => dmark_setCmark h cur p)
              (cmark_setCmark_mono h cur)
              (fun i hi => by
                show ((setCmark h cur).cells i).dmark = true
                rw [dmark_setCmark]
                exact hi)
              (fun b hb => smarkAt_setSmarkAt_mono (setCmark h cur) a b hb)
              (cmark_setCmark_cases h cur)
              ?_
            intro b hb
            rcases smarkAt_setSmarkAt_cases (setCmark h cur) a b hb with rfl | hb'
            · exact Or.inr (reach_car_child pre.curnotin hcar)
            · exact Or.inl hb'
      · -- car mark already set
        have hcmt : (h.cells cur).cmark = true := bool_ne_false hcm
        by_cases hdmf : (h.cells cur).dmark = false
        · -- advance over cdr
          have hcount := unmarkedCount_setDmark h cur pre.curlt hdmf
          rcases hcdr : (h.cells cur).cdr with _ | w | nxt | a
          · -- cdr is NIL
            have pre1 := pre.stayB hcmt hdmf (by rw [hcdr]; exact trivial)
            have hm1 : dswMeas (setDmark h cur) stk < fuel := by
              simp only [dswMeas] at hm ⊢
              omega
            obtain ⟨h', hrun, post⟩ := ih (setDmark h cur) cur prev stk pre1 hm1
            refine ⟨h', ?_, ?_⟩
            · have hscrut : ((setDmark h cur).cells cur).cdr = Val.nil := by
                rw [cells_setDmark_self]
                exact hcdr
              simp only [markLoop]
              rw [if_neg (by rw [hcmt]; simp), if_pos hdmf, hscrut]
              exact hrun
            · exact post.absorb rfl rfl rfl rfl (cellSlots_setDmark h cur)
                (fun p hp => by
                  rw [cells_setDmark_ne h cur (fun hc => pre.curnotin (hc ▸ hp))])
                (fun i hi => by rw [cmark_setDmark]; exact hi)
                (dmark_setDmark_mono h cur)
                (fun b hb => hb)
                (fun i hi => Or.inl (by rwa [cmark_setDmark] at hi))
                (fun b hb => Or.inl hb)
          · -- cdr is a zap special value
            have pre1 := pre.stayB hcmt hdmf (by rw [hcdr]; exact trivial)
            have hm1 : dswMeas (setDmark h cur) stk < fuel := by
              simp only [dswMeas] at hm ⊢
              omega
            obtain ⟨h', hrun, post⟩ := ih (setDmark h cur) cur prev stk pre1 hm1
            refine ⟨h', ?_, ?_⟩
            · have hscrut : ((setDmark h cur).cells cur).cdr = Val.special w := by
                rw [cells_setDmark_self]
                exact hcdr
              simp only [markLoop]
              rw [if_neg (by rw [hcmt]; simp), if_pos hdmf, hscrut]
              exact hrun
            · exact post.absorb rfl rfl rfl rfl (cellSlots_setDmark h cur)
                (fun p hp => by
                  rw [cells_setDmark_ne h cur (fun hc => pre.curnotin (hc ▸ hp))])
                (fun i hi => by rw [cmark_setDmark]; exact hi)
                (dmark_setDmark_mono h cur)
                (fun b hb => hb)
                (fun i hi => Or.inl (by rwa [cmark_setDmark] at hi))
                (fun b hb => Or.inl hb)
          · -- cdr is a cons box
            by_cases hnmk : ((setDmark h cur).cells nxt).cmark = false
            · have pre1 := pre.descendCdr hcmt hdmf hcdr hnmk
              have hm1 : dswMeas (setCdrNomod (setDmark h cur) cur prev)
                  (cur :: stk) < fuel := by
                have hc2 := unmarkedCount_setCdrNomod (setDmark h cur) cur prev
                  (show cur < (setDmark h cur).ncells from pre.curlt)
                simp only [dswMeas, List.length_cons] at hm ⊢
                omega
              obtain ⟨h', hrun, post⟩ :=
                ih (setCdrNomod (setDmark h cur) cur prev) nxt (.cell cur)
                  (cur :: stk) pre1 hm1
              refine ⟨h', ?_, post.pushCdr hcmt hcdr pre.curnotin⟩
              have hscrut : ((setDmark h cur).cells cur).cdr = Val.cell nxt := by
                rw [cells_setDmark_self]
                exact hcdr
              simp only [markLoop, hcmt, hdmf, hscrut, hnmk]
              exact hrun
            · have hnmk' := bool_ne_false hnmk
              have pre1 := pre.stayB hcmt hdmf (by rw [hcdr]; exact hnmk')
              have hm1 : dswMeas (setDmark h cur) stk < fuel := by
                simp only [dswMeas] at hm ⊢
                omega
              obtain ⟨h', hrun, post⟩ := ih (setDmark h cur) cur prev stk pre1 hm1
              refine ⟨h', ?_, ?_⟩
              · have hscrut : ((setDmark h cur).cells cur).cdr = Val.cell nxt := by
                  rw [cells_setDmark_self]
                  exact hcdr
                simp only [markLoop, hcmt, hdmf, hscrut, hnmk']
                exact hrun
              · exact post.absorb rfl rfl rfl rfl (cellSlots_setDmark h cur)
                  (fun p hp => by
                    rw [cells_setDmark_ne h cur (fun hc => pre.curnotin (hc ▸ hp))])
                  (fun i hi => by rw [cmark_setDmark]; exact hi)
                  (dmark_setDmark_mono h cur)
                  (fun b hb => hb)
                  (fun i hi => Or.inl (by rwa [cmark_setDmark] at hi))
                  (fun b hb => Or.inl hb)
          · -- cdr is a storage block
            have pre1 := pre.stayBStor hcmt hdmf hcdr
            have hm1 : dswMeas (setSmarkAt (setDmark h cur) a) stk < fuel := by
              simp only [dswMeas, unmarkedCount_setSmarkAt] at hm ⊢
              omega
            obtain ⟨h', hrun, post⟩ :=
              ih (setSmarkAt (setDmark h cur) a) cur prev stk pre1 hm1
            refine ⟨h', ?_, ?_⟩
            · have hscrut : ((setDmark h cur).cells cur).cdr = Val.stor a := by
                rw [cells_setDmark_self]
                exact hcdr
              simp only [markLoop]
              rw [if_neg (by rw [hcmt]; simp), if_pos hdmf, hscrut]
              exact hrun
            · refine post.absorb rfl (blocksShape_setSmarkAux h.blocks 0 a) rfl rfl
                (cellSlots_setDmark h cur)
                (fun p hp => by
                  show ((setDmark h cur).cells p).dmark = (h.cells p).dmark
                  rw [cells_setDmark_ne h cur (fun hc => pre.curnotin (hc ▸ hp))])
                (fun i hi => by
                  show ((setDmark h cur).cells i).cmark = true
                  rw [cmark_setDmark]
                  exact hi)
                (dmark_setDmark_mono h cur)
                (fun b hb => smarkAt_setSmarkAt_mono (setDmark h cur) a b hb)
                (fun i hi => Or.inl (by
                  have hi' : ((setDmark h cur).cells i).cmark = true := hi
                  rwa [cmark_setDmark] at hi'))
                ?_
              intro b hb
              rcases smarkAt_setSmarkAt_cases (setDmark h cur) a b hb with rfl | hb'
              · exact Or.inr (reach_cdr_child pre.curnotin hcdr)
              · exact Or.inl hb'
        · -- both marks set: stop or retreat
          have hdmt : (h.cells cur).dmark = true := bool_ne_false hdmf
          rcases hprev : prev with _ | w | p | a
          · -- prev NIL: the traversal is complete
            rw [hprev] at pre
            have hstk : stk = [] := pre.chain.nil_inv
            subst hstk
            refine ⟨h, ?_, ?_⟩
            · simp only [markLoop, hcmt, hdmt]
              rfl
            · refine ⟨rfl, rfl, rfl, rfl, fun i => rfl, fun i hi => hi,
                fun i hi => hi, fun b hb => hb, hcmt, hdmt, ?_, ?_, ?_, ?_⟩
              · intro q hq
                cases hq
              · intro d hd hcd
                rcases eq_or_ne d cur with rfl | hdc
                · exact ⟨hdmt, pre.curCar hcmt, pre.curCdr hdmt⟩
                · exact pre.finished d hd (by simp) hdc hcd
              · intro d hcd
                exact Or.inl hcd
              · intro b hb
                exact Or.inl hb
          · -- prev a zap value: impossible, the chain starts at NIL or a box
            rw [hprev] at pre
            cases pre.chain
          · -- prev is a cons box: retreat
            rw [hprev] at pre
            obtain ⟨rest, hstk, hplt, hpm, hch⟩ := pre.chain.cell_inv
            subst hstk
            by_cases hdp : (h.cells p).dmark = false
            · -- retreat over car
              have pre1 := pre.retreatCar hcmt hdmt hdp
              have hm1 : dswMeas (setCarNomod h p (.cell cur)) rest < fuel := by
                have hc2 := unmarkedCount_setCarNomod h p (.cell cur) hplt
                simp only [dswMeas, List.length_cons] at hm ⊢
                omega
              obtain ⟨h', hrun, post⟩ :=
                ih (setCarNomod h p (.cell cur)) p ((h.cells p).car) rest pre1 hm1
              refine ⟨h', ?_, post.popCar hdp hcmt hdmt⟩
              simp only [markLoop, hcmt, hdmt, hdp]
              exact hrun
            · -- retreat over cdr
              have hdpt : (h.cells p).dmark = true := bool_ne_false hdp
              have pre1 := pre.retreatCdr hcmt hdmt hdpt
              have hm1 : dswMeas (setCdrNomod h p (.cell cur)) rest < fuel := by
                have hc2 := unmarkedCount_setCdrNomod h p (.cell cur) hplt
                simp only [dswMeas, List.length_cons] at hm ⊢
                omega
              obtain ⟨h', hrun, post⟩ :=
                ih (setCdrNomod h p (.cell cur)) p ((h.cells p).cdr) rest pre1 hm1
              refine ⟨h', ?_, post.popCdr hdpt hcmt hdmt⟩
              simp only [markLoop, hcmt, hdmt, hdpt]
              exact hrun
          · -- prev a storage pointer: impossible
            rw [hprev] at pre
            cases pre.chain

/-! ### counting how often the loop inspects one particular cons box -/

/-- `markLoop` instrumented to count the iterations whose current value is
the cons box `c` (each such iteration is one "visit" of that pair). -/
def markLoopC (h : Heap) (cur prev : Val) (c : Nat) : Nat → Option (Heap × Nat)
  | 0 => none
  | fuel + 1 =>
    match cur with
    | .stor a =>
        let h1 := setSmarkAt h a
        if prev = .nil then some (h1, 0) else markLoopC h1 cur prev c fuel
    | .cell i =>
        let r :=
          if (h.cells i).cmark = false then
            let h1 := setCmark h i
            match (h1.cells i).car with
            | .nil => markLoopC h1 cur prev c fuel
            | .special _ => markLoopC h1 cur prev c fuel
            | .cell nxt =>
                if (h1.cells nxt).cmark = false then
                  markLoopC (setCarNomod h1 i prev) (.cell nxt) (.cell i) c fuel
                else markLoopC h1 cur prev c fuel
            | .stor a => markLoopC (setSmarkAt h1 a) cur prev c fuel
          else if (h.cells i).dmark = false then
            let h1 := setDmark h i
            match (h1.cells i).cdr with
            | .nil => markLoopC h1 cur prev c fuel
            | .special _ => markLoopC h1 cur prev c fuel
            | .cell nxt =>
                if (h1.cells nxt).cmark = false then
                  markLoopC (setCdrNomod h1 i prev) (.cell nxt) (.cell i) c fuel
                else markLoopC h1 cur prev c fuel
            | .stor a => markLoopC (setSmarkAt h1 a) cur prev c fuel
          else
            match prev with
            | .nil => some (h, 0)
            | .cell p =>
                if (h.cells p).dmark = false then
                  markLoopC (setCarNomod h p (.cell i)) (.cell p) (h.cells p).car
                    c fuel
                else
                  markLoopC (setCdrNomod h p (.cell i)) (.cell p) (h.cells p).cdr
                    c fuel
            | _ => some (h, 0)
        if i = c then r.map (fun q => (q.1, q.2 + 1)) else r
    | _ => some (h, 0)

/-- Number of visits the traversal can still pay to box `c` from a given
configuration. -/
def visitsLeft (h : Heap) (cur : Nat) (stk : List Nat) (c : Nat) : Nat :=
  if (h.cells c).cmark = false then 3
  else if (h.cells c).dmark = false then 2
  else if c = cur ∨ c ∈ stk then 1 else 0

lemma cmark_setCmark_self (h : Heap) (i : Nat) :
    ((setCmark h i).cells i).cmark = true := by
  rw [cells_setCmark_self]

lemma dmark_setDmark_self (h : Heap) (i : Nat) :
    ((setDmark h i).cells i).dmark = true := by
  rw [cells_setDmark_self]

lemma cmark_setCarNomod (h : Heap) (i : Nat) (v : Val) (j : Nat) :
    ((setCarNomod h i v).cells j).cmark = (h.cells j).cmark := by
  rcases eq_or_ne j i with rfl | hji
  · rw [cells_setCarNomod_self]
  · rw [cells_setCarNomod_ne h i v hji]

lemma dmark_setCarNomod (h : Heap) (i : Nat) (v : Val) (j : Nat) :
    ((setCarNomod h i v).cells j).dmark = (h.cells j).dmark := by
  rcases eq_or_ne j i with rfl | hji
  · rw [cells_setCarNomod_self]
  · rw [cells_setCarNomod_ne h i v hji]

lemma cmark_setCdrNomod (h : Heap) (i : Nat) (v : Val) (j : Nat) :
    ((setCdrNomod h i v).cells j).cmark = (h.cells j).cmark := by
  rcases eq_or_ne j i with rfl | hji
  · rw [cells_setCdrNomod_self]
  · rw [cells_setCdrNomod_ne h i v hji]

lemma dmark_setCdrNomod (h : Heap) (i : Nat) (v : Val) (j : Nat) :
    ((setCdrNomod h i v).cells j).dmark = (h.cells j).dmark := by
  rcases eq_or_ne j i with rfl | hji
  · rw [cells_setCdrNomod_self]
  · rw [cells_setCdrNomod_ne h i v hji]

lemma visitsLeft_le_three (h : Heap) (cur : Nat) (stk : List Nat) (c : Nat) :
    visitsLeft h cur stk c ≤ 3 := by
  unfold visitsLeft
  split_ifs <;> omega

lemma visitsLeft_of_unmarked {h : Heap} {cur : Nat} {stk : List Nat} {c : Nat}
    (hc : (h.cells c).cmark = false) : visitsLeft h cur stk c = 3 := by
  unfold visitsLeft
  rw [if_pos hc]

lemma visitsLeft_of_half {h : Heap} {cur : Nat} {stk : List Nat} {c : Nat}
    (hc : (h.cells c).cmark = true) (hd : (h.cells c).dmark = false) :
    visitsLeft h cur stk c = 2 := by
  unfold visitsLeft
  rw [if_neg (by rw [hc]; simp), if_pos hd]

lemma visitsLeft_of_done_in {h : Heap} {cur : Nat} {stk : List Nat} {c : Nat}
    (hc : (h.cells c).cmark = true) (hd : (h.cells c).dmark = true)
    (hmem : c = cur ∨ c ∈ stk) : visitsLeft h cur stk c = 1 := by
  unfold visitsLeft
  rw [if_neg (by rw [hc]; simp), if_neg (by rw [hd]; simp), if_pos hmem]

lemma visitsLeft_of_done_out {h : Heap} {cur : Nat} {stk : List Nat} {c : Nat}
    (hc : (h.cells c).cmark = true) (hd : (h.cells c).dmark = true)
    (hmem : ¬(c = cur ∨ c ∈ stk)) : visitsLeft h cur stk c = 0 := by
  unfold visitsLeft
  rw [if_neg (by rw [hc]; simp), if_neg (by rw [hd]; simp), if_neg hmem]

/-- Monotonicity of `visitsLeft` across a step that does not touch the mark
bits of `c` and only narrows the membership side condition. -/
lemma visitsLeft_mono_aux {h h' : Heap} {cur cur' c : Nat}
    {stk stk' : List Nat}
    (hcmk : (h'.cells c).cmark = (h.cells c).cmark)
    (hdmk : (h'.cells c).dmark = (h.cells c).dmark)
    (hmem : (h.cells c).cmark = true → (h.cells c).dmark = true →
      (c = cur' ∨ c ∈ stk') → (c = cur ∨ c ∈ stk)) :
    visitsLeft h' cur' stk' c ≤ visitsLeft h cur stk c := by
  unfold visitsLeft
  rw [hcmk, hdmk]
  by_cases h1 : (h.cells c).cmark = false
  · rw [if_pos h1, if_pos h1]
  · have h1' := bool_ne_false h1
    rw [if_neg h1, if_neg h1]
    by_cases h2 : (h.cells c).dmark = false
    · rw [if_pos h2, if_pos h2]
    · have h2' := bool_ne_false h2
      rw [if_neg h2, if_neg h2]
      by_cases h3 : c = cur' ∨ c ∈ stk'
      · rw [if_pos h3, if_pos (hmem h1' h2' h3)]
      · rw [if_neg h3]
        split_ifs <;> omega

/-- The counting companion of the main lemma: the instrumented loop computes
the same heap, and the number of iterations spent on any fixed box `c` is
bounded by `visitsLeft`. -/
theorem dswCount (fuel : Nat) :
    ∀ (h : Heap) (cur : Nat) (prev : Val) (stk : List Nat) (c : Nat),
      DswPre h stk cur prev → dswMeas h stk < fuel →
      ∃ h' k, markLoop h (.cell cur) prev fuel = some h' ∧
        markLoopC h (.cell cur) prev c fuel = some (h', k) ∧
        k ≤ visitsLeft h cur stk c := by
  induction fuel with
  | zero =>
      intro h cur prev stk c _ hm
      omega
  | succ fuel ih =>
      intro h cur prev stk c pre hm
      by_cases hcm : (h.cells cur).cmark = false
      · have hdm : (h.cells cur).dmark = false := by
          by_contra hd
          have hd' := bool_ne_false hd
          have := (pre.good cur pre.curlt).1 hd'
          rw [hcm] at this
          cases this
        have hcount := unmarkedCount_setCmark h cur pre.curlt hcm
        rcases hcar : (h.cells cur).car with _ | w | nxt | a
        · -- car is NIL
          have pre1 := pre.stayA hcm hdm (by rw [hcar]; exact trivial)
          have hm1 : dswMeas (setCmark h cur) stk < fuel := by
            simp only [dswMeas] at hm ⊢
            omega
          obtain ⟨h', k, hrun, hrunC, hk⟩ :=
            ih (setCmark h cur) cur prev stk c pre1 hm1
          have hscrut : ((setCmark h cur).cells cur).car = Val.nil := by
            rw [cells_setCmark_self]
            exact hcar
          rcases eq_or_ne cur c with rfl | hcc
          · refine ⟨h', k + 1, ?_, ?_, ?_⟩
            · simp only [markLoop, hcm, hscrut]
              exact hrun
            · simp only [markLoopC, hcm, hscrut]
              rw [if_pos trivial, hrunC]
              rfl
            · rw [visitsLeft_of_half (cmark_setCmark_self h cur)
                (by rw [dmark_setCmark]; exact hdm)] at hk
              rw [visitsLeft_of_unmarked hcm]
              omega
          · refine ⟨h', k, ?_, ?_, ?_⟩
            · simp only [markLoop, hcm, hscrut]
              exact hrun
            · simp only [markLoopC, hcm, hscrut]
              rw [if_neg hcc]
              exact hrunC
            · refine le_trans hk (visitsLeft_mono_aux ?_ ?_ (fun _ _ h3 => h3))
              · rw [cells_setCmark_ne h cur (Ne.symm hcc)]
              · rw [cells_setCmark_ne h cur (Ne.symm hcc)]
        · -- car is a zap special value
          have pre1 := pre.stayA hcm hdm (by rw [hcar]; exact trivial)
          have hm1 : dswMeas (setCmark h cur) stk < fuel := by
            simp only [dswMeas] at hm ⊢
            omega
          obtain ⟨h', k, hrun, hrunC, hk⟩ :=
            ih (setCmark h cur) cur prev stk c pre1 hm1
          have hscrut : ((setCmark h cur).cells cur).car = Val.special w := by
            rw [cells_setCmark_self]
            exact hcar
          rcases eq_or_ne cur c with rfl | hcc
          · refine ⟨h', k + 1, ?_, ?_, ?_⟩
            · simp only [markLoop, hcm, hscrut]
              exact hrun
            · simp only [markLoopC, hcm, hscrut]
              rw [if_pos trivial, hrunC]
              rfl
            · rw [visitsLeft_of_half (cmark_setCmark_self h cur)
                (by rw [dmark_setCmark]; exact hdm)] at hk
              rw [visitsLeft_of_unmarked hcm]
              omega
          · refine ⟨h', k, ?_, ?_, ?_⟩
            · simp only [markLoop, hcm, hscrut]
              exact hrun
            · simp only [markLoopC, hcm, hscrut]
              rw [if_neg hcc]
              exact hrunC
            · refine le_trans hk (visitsLeft_mono_aux ?_ ?_ (fun _ _ h3 => h3))
              · rw [cells_setCmark_ne h cur (Ne.symm hcc)]
              · rw [cells_setCmark_ne h cur (Ne.symm hcc)]
        · -- car is a cons box
          by_cases hnmk : ((setCmark h cur).cells nxt).cmark = false
          · -- advance into it
            have pre1 := pre.descendCar hcm hdm hcar hnmk
            have hm1 : dswMeas (setCarNomod (setCmark h cur) cur prev)
                (cur :: stk) < fuel := by
              have hc2 := unmarkedCount_setCarNomod (setCmark h cur) cur prev
                (show cur < (setCmark h cur).ncells from pre.curlt)
              simp only [dswMeas, List.length_cons] at hm ⊢
              omega
            obtain ⟨h', k, hrun, hrunC, hk⟩ :=
              ih (setCarNomod (setCmark h cur) cur prev) nxt (.cell cur)
                (cur :: stk) c pre1 hm1
            have hscrut : ((setCmark h cur).cells cur).car = Val.cell nxt := by
              rw [cells_setCmark_self]
              exact hcar
            rcases eq_or_ne cur c with rfl | hcc
            · refine ⟨h', k + 1, ?_, ?_, ?_⟩
              · simp only [markLoop, hcm, hscrut, hnmk]
                exact hrun
              · simp only [markLoopC, hcm, hscrut, hnmk]
                rw [if_pos trivial, hrunC]
                rfl
              · rw [visitsLeft_of_half
                  (by rw [cmark_setCarNomod]; exact cmark_setCmark_self h cur)
                  (by rw [dmark_setCarNomod, dmark_setCmark]; exact hdm)] at hk
                rw [visitsLeft_of_unmarked hcm]
                omega
            · refine ⟨h', k, ?_, ?_, ?_⟩
              · simp only [markLoop, hcm, hscrut, hnmk]
                exact hrun
              · simp only [markLoopC, hcm, hscrut, hnmk]
                rw [if_neg hcc]
                exact hrunC
              · refine le_trans hk (visitsLeft_mono_aux ?_ ?_ ?_)
                · rw [cmark_setCarNomod, cells_setCmark_ne h cur (Ne.symm hcc)]
                · rw [dmark_setCarNomod, dmark_setCmark]
                · intro hc1 _ h3
                  rcases h3 with rfl | h3
                  · rw [cells_setCmark_ne h cur (Ne.symm hcc), hc1] at hnmk
                    cases hnmk
                  · exact List.mem_cons.mp h3
          · -- already marked: continue at cur
            have hnmk' := bool_ne_false hnmk
            have pre1 := pre.stayA hcm hdm (by rw [hcar]; exact hnmk')
            have hm1 : dswMeas (setCmark h cur) stk < fuel := by
              simp only [dswMeas] at hm ⊢
              omega
            obtain ⟨h', k, hrun, hrunC, hk⟩ :=
              ih (setCmark h cur) cur prev stk c pre1 hm1
            have hscrut : ((setCmark h cur).cells cur).car = Val.cell nxt := by
              rw [cells_setCmark_self]
              exact hcar
            rcases eq_or_ne cur c with rfl | hcc
            · refine ⟨h', k + 1, ?_, ?_, ?_⟩
              · simp only [markLoop, hcm, hscrut, hnmk']
                exact hrun
              · simp only [markLoopC, hcm, hscrut, hnmk']
                rw [if_pos trivial, hrunC]
                rfl
              · rw [visitsLeft_of_half (cmark_setCmark_self h cur)
                  (by rw [dmark_setCmark]; exact hdm)] at hk
                rw [visitsLeft_of_unmarked hcm]
                omega
            · refine ⟨h', k, ?_, ?_, ?_⟩
              · simp only [markLoop, hcm, hscrut, hnmk']
                exact hrun
              · simp only [markLoopC, hcm, hscrut, hnmk']
                rw [if_neg hcc]
                exact hrunC
              · refine le_trans hk (visitsLeft_mono_aux ?_ ?_ (fun _ _ h3 => h3))
                · rw [cells_setCmark_ne h cur (Ne.symm hcc)]
                · rw [cells_setCmark_ne h cur (Ne.symm hcc)]
        · -- car is a storage block
          have pre1 := pre.stayAStor hcm hdm hcar
          have hm1 : dswMeas (setSmarkAt (setCmark h cur) a) stk < fuel := by
            simp only [dswMeas, unmarkedCount_setSmarkAt] at hm ⊢
            omega
          obtain ⟨h', k, hrun, hrunC, hk⟩ :=
            ih (setSmarkAt (setCmark h cur) a) cur prev stk c pre1 hm1
          have hscrut : ((setCmark h cur).cells cur).car = Val.stor a := by
            rw [cells_setCmark_self]
            exact hcar
          rcases eq_or_ne cur c with rfl | hcc
          · refine ⟨h', k + 1, ?_, ?_, ?_⟩
            · simp only [markLoop, hcm, hscrut]
              exact hrun
            · simp only [markLoopC, hcm, hscrut]
              rw [if_pos trivial, hrunC]
              rfl
            · rw [visitsLeft_of_half
                (by rw [setSmarkAt_cells]; exact cmark_setCmark_self h cur)
                (by rw [setSmarkAt_cells, dmark_setCmark]; exact hdm)] at hk
              rw [visitsLeft_of_unmarked hcm]
              omega
          · refine ⟨h', k, ?_, ?_, ?_⟩
            · simp only [markLoop, hcm, hscrut]
              exact hrun
            · simp only [markLoopC, hcm, hscrut]
              rw [if_neg hcc]
              exact hrunC
            · refine le_trans hk (visitsLeft_mono_aux ?_ ?_ (fun _ _ h3 => h3))
              · rw [setSmarkAt_cells, cells_setCmark_ne h cur (Ne.symm hcc)]
              · rw [setSmarkAt_cells, cells_setCmark_ne h cur (Ne.symm hcc)]
      · -- car mark already set
        have hcmt : (h.cells cur).cmark = true := bool_ne_false hcm
        by_cases hdmf : (h.cells cur).dmark = false
        · -- advance over cdr
          have hcount := unmarkedCount_setDmark h cur pre.curlt hdmf
          rcases hcdr : (h.cells cur).cdr with _ | w | nxt | a
          · -- cdr is NIL
            have pre1 := pre.stayB hcmt hdmf (by rw [hcdr]; exact trivial)
            have hm1 : dswMeas (setDmark h cur) stk < fuel := by
              simp only [dswMeas] at hm ⊢
              omega
            obtain ⟨h', k, hrun, hrunC, hk⟩ :=
              ih (setDmark h cur) cur prev stk c pre1 hm1
            have hscrut : ((setDmark h cur).cells cur).cdr = Val.nil := by
              rw [cells_setDmark_self]
              exact hcdr
            rcases eq_or_ne cur c with rfl | hcc
            · refine ⟨h', k + 1, ?_, ?_, ?_⟩
              · simp only [markLoop, hcmt, hdmf, hscrut]
                exact hrun
              · simp only [markLoopC, hcmt, hdmf, hscrut]
                rw [if_pos trivial, hrunC]
                rfl
              · rw [visitsLeft_of_done_in
                  (by rw [cmark_setDmark]; exact hcmt)
                  (dmark_setDmark_self h cur) (Or.inl rfl)] at hk
                rw [visitsLeft_of_half hcmt hdmf]
                omega
            · refine ⟨h', k, ?_, ?_, ?_⟩
              · simp only [markLoop, hcmt, hdmf, hscrut]
                exact hrun
              · simp only [markLoopC, hcmt, hdmf, hscrut]
                rw [if_neg hcc]
                exact hrunC
              · refine le_trans hk (visitsLeft_mono_aux ?_ ?_ (fun _ _ h3 => h3))
                · rw [cells_setDmark_ne h cur (Ne.symm hcc)]
                · rw [cells_setDmark_ne h cur (Ne.symm hcc)]
          · -- cdr is a zap special value
            have pre1 := pre.stayB hcmt hdmf (by rw [hcdr]; exact trivial)
            have hm1 : dswMeas (setDmark h cur) stk < fuel := by
              simp only [dswMeas] at hm ⊢
              omega
            obtain ⟨h', k, hrun, hrunC, hk⟩ :=
              ih (setDmark h cur) cur prev stk c pre1 hm1
            have hscrut : ((setDmark h cur).cells cur).cdr = Val.special w := by
              rw [cells_setDmark_self]
              exact hcdr
            rcases eq_or_ne cur c with rfl | hcc
            · refine ⟨h', k + 1, ?_, ?_, ?_⟩
              · simp only [markLoop, hcmt, hdmf, hscrut]
                exact hrun
              · simp only [markLoopC, hcmt, hdmf, hscrut]
                rw [if_pos trivial, hrunC]
                rfl
              · rw [visitsLeft_of_done_in
                  (by rw [cmark_setDmark]; exact hcmt)
                  (dmark_setDmark_self h cur) (Or.inl rfl)] at hk
                rw [visitsLeft_of_half hcmt hdmf]
                omega
            · refine ⟨h', k, ?_, ?_, ?_⟩
              · simp only [markLoop, hcmt, hdmf, hscrut]
                exact hrun
              · simp only [markLoopC, hcmt, hdmf, hscrut]
                rw [if_neg hcc]
                exact hrunC
              · refine le_trans hk (visitsLeft_mono_aux ?_ ?_ (fun _ _ h3 => h3))
                · rw [cells_setDmark_ne h cur (Ne.symm hcc)]
                · rw [cells_setDmark_ne h cur (Ne.symm hcc)]
          · -- cdr is a cons box
            by_cases hnmk : ((setDmark h cur).cells nxt).cmark = false
            · have pre1 := pre.descendCdr hcmt hdmf hcdr hnmk
              have hm1 : dswMeas (setCdrNomod (setDmark h cur) cur prev)
                  (cur :: stk) < fuel := by
                have hc2 := unmarkedCount_setCdrNomod (setDmark h cur) cur prev
                  (show cur < (setDmark h cur).ncells from pre.curlt)
                simp only [dswMeas, List.length_cons] at hm ⊢
                omega
              obtain ⟨h', k, hrun, hrunC, hk⟩ :=
                ih (setCdrNomod (setDmark h cur) cur prev) nxt (.cell cur)
                  (cur :: stk) c pre1 hm1
              have hscrut : ((setDmark h cur).cells cur).cdr = Val.cell nxt := by
                rw [cells_setDmark_self]
                exact hcdr
              rcases eq_or_ne cur c with rfl | hcc
              · refine ⟨h', k + 1, ?_, ?_, ?_⟩
                · simp only [markLoop, hcmt, hdmf, hscrut, hnmk]
                  exact hrun
                · simp only [markLoopC, hcmt, hdmf, hscrut, hnmk]
                  rw [if_pos trivial, hrunC]
                  rfl
                · rw [visitsLeft_of_done_in
                    (by rw [cmark_setCdrNomod, cmark_setDmark]; exact hcmt)
                    (by rw [dmark_setCdrNomod]; exact dmark_setDmark_self h cur)
                    (Or.inr (List.mem_cons_self cur stk))] at hk
                  rw [visitsLeft_of_half hcmt hdmf]
                  omega
              · refine ⟨h', k, ?_, ?_, ?_⟩
                · simp only [markLoop, hcmt, hdmf, hscrut, hnmk]
                  exact hrun
                · simp only [markLoopC, hcmt, hdmf, hscrut, hnmk]
                  rw [if_neg hcc]
                  exact hrunC
                · refine le_trans hk (visitsLeft_mono_aux ?_ ?_ ?_)
                  · rw [cmark_setCdrNomod, cmark_setDmark]
                  · rw [dmark_setCdrNomod, cells_setDmark_ne h cur (Ne.symm hcc)]
                  · intro hc1 _ h3
                    rcases h3 with rfl | h3
                    · rw [cmark_setDmark, hc1] at hnmk
                      cases hnmk
                    · exact List.mem_cons.mp h3
            · have hnmk' := bool_ne_false hnmk
              have pre1 := pre.stayB hcmt hdmf (by rw [hcdr]; exact hnmk')
              have hm1 : dswMeas (setDmark h cur) stk < fuel := by
                simp only [dswMeas] at hm ⊢
                omega
              obtain ⟨h', k, hrun, hrunC, hk⟩ :=
                ih (setDmark h cur) cur prev stk c pre1 hm1
              have hscrut : ((setDmark h cur).cells cur).cdr = Val.cell nxt := by
                rw [cells_setDmark_self]
                exact hcdr
              rcases eq_or_ne cur c with rfl | hcc
              · refine ⟨h', k + 1, ?_, ?_, ?_⟩
                · simp only [markLoop, hcmt, hdmf, hscrut, hnmk']
                  exact hrun
                · simp only [markLoopC, hcmt, hdmf, hscrut, hnmk']
                  rw [if_pos trivial, hrunC]
                  rfl
                · rw [visitsLeft_of_done_in
                    (by rw [cmark_setDmark]; exact hcmt)
                    (dmark_setDmark_self h cur) (Or.inl rfl)] at hk
                  rw [visitsLeft_of_half hcmt hdmf]
                  omega
              · refine ⟨h', k, ?_, ?_, ?_⟩
                · simp only [markLoop, hcmt, hdmf, hscrut, hnmk']
                  exact hrun
                · simp only [markLoopC, hcmt, hdmf, hscrut, hnmk']
                  rw [if_neg hcc]
                  exact hrunC
                · refine le_trans hk (visitsLeft_mono_aux ?_ ?_ (fun _ _ h3 => h3))
                  · rw [cells_setDmark_ne h cur (Ne.symm hcc)]
                  · rw [cells_setDmark_ne h cur (Ne.symm hcc)]
          · -- cdr is a storage block
            have pre1 := pre.stayBStor hcmt hdmf hcdr
            have hm1 : dswMeas (setSmarkAt (setDmark h cur) a) stk < fuel := by
              simp only [dswMeas, unmarkedCount_setSmarkAt] at hm ⊢
              omega
            obtain ⟨h', k, hrun, hrunC, hk⟩ :=
              ih (setSmarkAt (setDmark h cur) a) cur prev stk c pre1 hm1
            have hscrut : ((setDmark h cur).cells cur).cdr = Val.stor a := by
              rw [cells_setDmark_self]
              exact hcdr
            rcases eq_or_ne cur c with rfl | hcc
            · refine ⟨h', k + 1, ?_, ?_, ?_⟩
              · simp only [markLoop, hcmt, hdmf, hscrut]
                exact hrun
              · simp only [markLoopC, hcmt, hdmf, hscrut]
                rw [if_pos trivial, hrunC]
                rfl
              · rw [visitsLeft_of_done_in
                  (by rw [setSmarkAt_cells, cmark_setDmark]; exact hcmt)
                  (by rw [setSmarkAt_cells]; exact dmark_setDmark_self h cur)
                  (Or.inl rfl)] at hk
                rw [visitsLeft_of_half hcmt hdmf]
                omega
            · refine ⟨h', k, ?_, ?_, ?_⟩
              · simp only [markLoop, hcmt, hdmf, hscrut]
                exact hrun
              · simp only [markLoopC, hcmt, hdmf, hscrut]
                rw [if_neg hcc]
                exact hrunC
              · refine le_trans hk (visitsLeft_mono_aux ?_ ?_ (fun _ _ h3 => h3))
                · rw [setSmarkAt_cells, cells_setDmark_ne h cur (Ne.symm hcc)]
                · rw [setSmarkAt_cells, cells_setDmark_ne h cur (Ne.symm hcc)]
        · -- both marks set: stop or retreat
          have hdmt : (h.cells cur).dmark = true := bool_ne_false hdmf
          rcases hprev : prev with _ | w | p | a
          · -- prev NIL: the traversal is complete
            rw [hprev] at pre
            have hstk : stk = [] := pre.chain.nil_inv
            subst hstk
            rcases eq_or_ne cur c with rfl | hcc
            · refine ⟨h, 1, ?_, ?_, ?_⟩
              · simp only [markLoop, hcmt, hdmt]
                rfl
              · simp only [markLoopC, hcmt, hdmt]
                rw [if_pos trivial]
                rfl
              · rw [visitsLeft_of_done_in hcmt hdmt (Or.inl rfl)]
            · refine ⟨h, 0, ?_, ?_, Nat.zero_le _⟩
              · simp only [markLoop, hcmt, hdmt]
                rfl
              · simp only [markLoopC, hcmt, hdmt]
                rw [if_neg hcc]
                rfl
          · -- prev a zap value: impossible
            rw [hprev] at pre
            cases pre.chain
          · -- prev is a cons box: retreat
            rw [hprev] at pre
            obtain ⟨rest, hstk, hplt, hpm, hch⟩ := pre.chain.cell_inv
            subst hstk
            by_cases hdp : (h.cells p).dmark = false
            · -- retreat over car
              have pre1 := pre.retreatCar hcmt hdmt hdp
              have hm1 : dswMeas (setCarNomod h p (.cell cur)) rest < fuel := by
                have hc2 := unmarkedCount_setCarNomod h p (.cell cur) hplt
                simp only [dswMeas, List.length_cons] at hm ⊢
                omega
              obtain ⟨h', k, hrun, hrunC, hk⟩ :=
                ih (setCarNomod h p (.cell cur)) p ((h.cells p).car) rest c
                  pre1 hm1
              rcases eq_or_ne cur c with rfl | hcc
              · refine ⟨h', k + 1, ?_, ?_, ?_⟩
                · simp only [markLoop, hcmt, hdmt, hdp]
                  exact hrun
                · simp only [markLoopC, hcmt, hdmt, hdp]
                  rw [if_pos trivial, hrunC]
                  rfl
                · rw [visitsLeft_of_done_out
                    (by rw [cmark_setCarNomod]; exact hcmt)
                    (by rw [dmark_setCarNomod]; exact hdmt)
                    (by
                      intro h4
                      rcases h4 with rfl | h4
                      · exact pre.curnotin (List.mem_cons_self _ _)
                      · exact pre.curnotin (List.mem_cons_of_mem _ h4))] at hk
                  rw [visitsLeft_of_done_in hcmt hdmt (Or.inl rfl)]
                  omega
              · refine ⟨h', k, ?_, ?_, ?_⟩
                · simp only [markLoop, hcmt, hdmt, hdp]
                  exact hrun
                · simp only [markLoopC, hcmt, hdmt, hdp]
                  rw [if_neg hcc]
                  exact hrunC
                · refine le_trans hk (visitsLeft_mono_aux ?_ ?_ ?_)
                  · rw [cmark_setCarNomod]
                  · rw [dmark_setCarNomod]
                  · intro _ _ h3
                    rcases h3 with rfl | h3
                    · exact Or.inr (List.mem_cons_self _ _)
                    · exact Or.inr (List.mem_cons_of_mem _ h3)
            · -- retreat over cdr
              have hdpt : (h.cells p).dmark = true := bool_ne_false hdp
              have pre1 := pre.retreatCdr hcmt hdmt hdpt
              have hm1 : dswMeas (setCdrNomod h p (.cell cur)) rest < fuel := by
                have hc2 := unmarkedCount_setCdrNomod h p (.cell cur) hplt
                simp only [dswMeas, List.length_cons] at hm ⊢
                omega
              obtain ⟨h', k, hrun, hrunC, hk⟩ :=
                ih (setCdrNomod h p (.cell cur)) p ((h.cells p).cdr) rest c
                  pre1 hm1
              rcases eq_or_ne cur c with rfl | hcc
              · refine ⟨h', k + 1, ?_, ?_, ?_⟩
                · simp only [markLoop, hcmt, hdmt, hdpt]
                  exact hrun
                · simp only [markLoopC, hcmt, hdmt, hdpt]
                  rw [if_pos trivial, hrunC]
                  rfl
                · rw [visitsLeft_of_done_out
                    (by rw [cmark_setCdrNomod]; exact hcmt)
                    (by rw [dmark_setCdrNomod]; exact hdmt)
                    (by
                      intro h4
                      rcases h4 with rfl | h4
                      · exact pre.curnotin (List.mem_cons_self _ _)
                      · exact pre.curnotin (List.mem_cons_of_mem _ h4))] at hk
                  rw [visitsLeft_of_done_in hcmt hdmt (Or.inl rfl)]
                  omega
              · refine ⟨h', k, ?_, ?_, ?_⟩
                · simp only [markLoop, hcmt, hdmt, hdpt]
                  exact hrun
                · simp only [markLoopC, hcmt, hdmt, hdpt]
                  rw [if_neg hcc]
                  exact hrunC
                · refine le_trans hk (visitsLeft_mono_aux ?_ ?_ ?_)
                  · rw [cmark_setCdrNomod]
                  · rw [dmark_setCdrNomod]
                  · intro _ _ h3
                    rcases h3 with rfl | h3
                    · exact Or.inr (List.mem_cons_self _ _)
                    · exact Or.inr (List.mem_cons_of_mem _ h3)
          · -- prev a storage pointer: impossible
            rw [hprev] at pre
            cases pre.chain

/-! ### the mark entry point -/

/-- Between two calls of `mark` during one collection the marked boxes form
a closed set: a marked box is fully processed and its children are marked.
A freshly swept heap (all marks clear) satisfies this vacuously, and each
completed `mark` run re-establishes it. -/
def marksClosed (h : Heap) : Prop :=
  ∀ d, d < h.ncells → (h.cells d).cmark = true →
    (h.cells d).dmark = true ∧ childMarked h (h.cells d).car ∧
      childMarked h (h.cells d).cdr

/-- The loop invariant holds on entry to `mark` at a cons-box root. -/
lemma dswPre_initial (h : Heap) (i : Nat) (hg : goodHeap h)
    (hi : i < h.ncells) (hc : marksClosed h) : DswPre h [] i .nil where
  good := hg
  curlt := hi
  chain := .nil
  curnotin := List.not_mem_nil i
  nodup := List.nodup_nil
  finished := fun d hd _ _ hcd => hc d hd hcd
  stkCar := fun p hp => absurd hp (List.not_mem_nil p)
  curCar := fun hcm => (hc i hi hcm).2.1
  curCdr := fun hdm => (hc i hi ((hg i hi).1 hdm)).2.2

/-- A heap with one cons box whose slots are both NIL, used to instantiate
the theorems below on a concrete input. -/
def dswDemoHeap : Heap where
  ncells := 1
  cells := fun _ => ⟨Val.nil, Val.nil, 0, false, false⟩
  blocks := []
  cboxFree := Val.nil
  storFree := Val.nil

/-- **C2.** The Deutsch-Schorr-Waite mark procedure of MEMORY.C, started on
any non-NIL, non-special root of a well-formed (possibly cyclic) heap,
terminates — at most `2·(number of unset slot marks) + 1` loop iterations
are ever executed — and it allocates nothing: the number of cons boxes, the
storage-block layout, both free lists and every cons-box slot (car, cdr and
hint bits) are the same after the run as before it.  Moreover each pair
cell is processed at most three times (advance over car, advance over cdr,
retreat/stop). -/
theorem c2_mark_dsw (h : Heap) (root : Val)
    (hg : goodHeap h) (hc : marksClosed h) (hv : validVal h root)
    (hnonnil : root ≠ Val.nil) (hnospec : ∀ w, root ≠ Val.special w) :
    ∃ h', markFrom h root (2 * unmarkedCount h + 1) = some h' ∧
      h'.ncells = h.ncells ∧
      blocksShape h'.blocks = blocksShape h.blocks ∧
      h'.cboxFree = h.cboxFree ∧
      h'.storFree = h.storFree ∧
      (∀ j, cellSlots h' j = cellSlots h j) ∧
      (∀ c, ∃ k, k ≤ 3 ∧
        markLoopC h root .nil c (2 * unmarkedCount h + 1) = some (h', k)) := by
  rcases root with _ | w | i | a
  · exact absurd rfl hnonnil
  · exact absurd rfl (hnospec w)
  · -- cons-box root
    have pre := dswPre_initial h i hg hv hc
    have hm : dswMeas h [] < 2 * unmarkedCount h + 1 := by
      simp only [dswMeas, List.length_nil]
      omega
    obtain ⟨h', hrun, post⟩ := dswMain (2 * unmarkedCount h + 1) h i .nil [] pre hm
    refine ⟨h', hrun, post.hnc, post.shape, post.cfree, post.sfree, ?_, ?_⟩
    · intro j
      exact post.slots j
    · intro c
      obtain ⟨h2, k, hrun2, hrunC, hk⟩ :=
        dswCount (2 * unmarkedCount h + 1) h i .nil [] c pre hm
      have hh : h2 = h' := by
        rw [hrun] at hrun2
        exact (Option.some.inj hrun2).symm
      subst hh
      exact ⟨k, le_trans hk (visitsLeft_le_three h i [] c), hrunC⟩
  · -- storage root: one iteration, mark the block and stop
    refine ⟨setSmarkAt h a, rfl, rfl, blocksShape_setSmarkAux h.blocks 0 a,
      rfl, rfl, fun j => rfl, fun c => ⟨0, Nat.zero_le 3, rfl⟩⟩

/-- The mark loop preserves the hardware invariant that a set cdr mark
implies a set car mark (the loop sets the car mark strictly first). -/
lemma markLoop_dm_cm (fuel : Nat) :
    ∀ (h : Heap) (cur prev : Val) (h' : Heap),
      markLoop h cur prev fuel = some h' →
      (∀ i, (h.cells i).dmark = true → (h.cells i).cmark = true) →
      (∀ i, (h'.cells i).dmark = true → (h'.cells i).cmark = true) := by
  induction fuel with
  | zero =>
      intro h cur prev h' hrun
      simp only [markLoop] at hrun
      cases hrun
  | succ fuel ih =>
      intro h cur prev h' hrun hinv
      rcases cur with _ | w | i | a
      · simp only [markLoop] at hrun
        cases hrun
        exact hinv
      · simp only [markLoop] at hrun
        cases hrun
        exact hinv
      · by_cases hcm : (h.cells i).cmark = false
        · have hinv1 : ∀ j, ((setCmark h i).cells j).dmark = true →
              ((setCmark h i).cells j).cmark = true := by
            intro j hd
            rw [dmark_setCmark] at hd
            exact cmark_setCmark_mono h i j (hinv j hd)
          rcases hcar : ((setCmark h i).cells i).car with _ | w | nxt | a
          · have heq : markLoop h (.cell i) prev (fuel + 1) =
                markLoop (setCmark h i) (.cell i) prev fuel := by
              simp only [markLoop, hcm, hcar]
              rfl
            rw [heq] at hrun
            exact ih (setCmark h i) (.cell i) prev h' hrun hinv1
          · have heq : markLoop h (.cell i) prev (fuel + 1) =
                markLoop (setCmark h i) (.cell i) prev fuel := by
              simp only [markLoop, hcm, hcar]
              rfl
            rw [heq] at hrun
            exact ih (setCmark h i) (.cell i) prev h' hrun hinv1
          · by_cases hnmk : ((setCmark h i).cells nxt).cmark = false
            · have heq : markLoop h (.cell i) prev (fuel + 1) =
                  markLoop (setCarNomod (setCmark h i) i prev) (.cell nxt)
                    (.cell i) fuel := by
                simp only [markLoop, hcm, hcar, hnmk]
                rfl
              rw [heq] at hrun
              refine ih _ _ _ h' hrun ?_
              intro j hd
              rw [dmark_setCarNomod] at hd
              rw [cmark_setCarNomod]
              exact hinv1 j hd
            · have hnmk' := bool_ne_false hnmk
              have heq : markLoop h (.cell i) prev (fuel + 1) =
                  markLoop (setCmark h i) (.cell i) prev fuel := by
                simp only [markLoop, hcm, hcar, hnmk']
                rfl
              rw [heq] at hrun
              exact ih (setCmark h i) (.cell i) prev h' hrun hinv1
          · have heq : markLoop h (.cell i) prev (fuel + 1) =
                markLoop (setSmarkAt (setCmark h i) a) (.cell i) prev fuel := by
              simp only [markLoop, hcm, hcar]
              rfl
            rw [heq] at hrun
            exact ih _ _ _ h' hrun hinv1
        · have hcmt := bool_ne_false hcm
          by_cases hdm : (h.cells i).dmark = false
          · have hinv1 : ∀ j, ((setDmark h i).cells j).dmark = true →
                ((setDmark h i).cells j).cmark = true := by
              intro j hd
              rw [cmark_setDmark]
              rcases eq_or_ne j i with rfl | hji
              · exact hcmt
              · rw [cells_setDmark_ne h i hji] at hd
                exact hinv j hd
            rcases hcdr : ((setDmark h i).cells i).cdr with _ | w | nxt | a
            · have heq : markLoop h (.cell i) prev (fuel + 1) =
                  markLoop (setDmark h i) (.cell i) prev fuel := by
                simp only [markLoop, hcmt, hdm, hcdr]
                rfl
              rw [heq] at hrun
              exact ih (setDmark h i) (.cell i) prev h' hrun hinv1
            · have heq : markLoop h (.cell i) prev (fuel + 1) =
                  markLoop (setDmark h i) (.cell i) prev fuel := by
                simp only [markLoop, hcmt, hdm, hcdr]
                rfl
              rw [heq] at hrun
              exact ih (setDmark h i) (.cell i) prev h' hrun hinv1
            · by_cases hnmk : ((setDmark h i).cells nxt).cmark = false
              · have heq : markLoop h (.cell i) prev (fuel + 1) =
                    markLoop (setCdrNomod (setDmark h i) i prev) (.cell nxt)
                      (.cell i) fuel := by
                  simp only [markLoop, hcmt, hdm, hcdr, hnmk]
                  rfl
                rw [heq] at hrun
                refine ih _ _ _ h' hrun ?_
                intro j hd
                rw [dmark_setCdrNomod] at hd
                rw [cmark_setCdrNomod]
                exact hinv1 j hd
              · have hnmk' := bool_ne_false hnmk
                have heq : markLoop h (.cell i) prev (fuel + 1) =
                    markLoop (setDmark h i) (.cell i) prev fuel := by
                  simp only [markLoop, hcmt, hdm, hcdr, hnmk']
                  rfl
                rw [heq] at hrun
                exact ih (setDmark h i) (.cell i) prev h' hrun hinv1
            · have heq : markLoop h (.cell i) prev (fuel + 1) =
                  markLoop (setSmarkAt (setDmark h i) a) (.cell i) prev fuel := by
                simp only [markLoop, hcmt, hdm, hcdr]
                rfl
              rw [heq] at hrun
              exact ih _ _ _ h' hrun hinv1
          · have hdmt := bool_ne_false hdm
            rcases prev with _ | w | p | a
            · have heq : markLoop h (.cell i) Val.nil (fuel + 1) = some h := by
                simp only [markLoop, hcmt, hdmt]
                rfl
              rw [heq] at hrun
              cases hrun
              exact hinv
            · have heq : markLoop h (.cell i) (Val.special w) (fuel + 1) =
                  some h := by
                simp only [markLoop, hcmt, hdmt]
                rfl
              rw [heq] at hrun
              cases hrun
              exact hinv
            · have hpres : ∀ (hp : Heap) (q : Nat) (v : Val),
                  (∀ j, ((hp.cells j)).dmark = true → ((hp.cells j)).cmark = true) →
                  ∀ j, ((setCarNomod hp q v).cells j).dmark = true →
                    ((setCarNomod hp q v).cells j).cmark = true := by
                intro hp q v hin j hd
                rw [dmark_setCarNomod] at hd
                rw [cmark_setCarNomod]
                exact hin j hd
              by_cases hdp : (h.cells p).dmark = false
              · have heq : markLoop h (.cell i) (Val.cell p) (fuel + 1) =
                    markLoop (setCarNomod h p (.cell i)) (.cell p)
                      ((h.cells p).car) fuel := by
                  simp only [markLoop, hcmt, hdmt, hdp]
                  rfl
                rw [heq] at hrun
                exact ih _ _ _ h' hrun (hpres h p (.cell i) hinv)
              · have hdpt := bool_ne_false hdp
                have heq : markLoop h (.cell i) (Val.cell p) (fuel + 1) =
                    markLoop (setCdrNomod h p (.cell i)) (.cell p)
                      ((h.cells p).cdr) fuel := by
                  simp only [markLoop, hcmt, hdmt, hdpt]
                  rfl
                rw [heq] at hrun
                refine ih _ _ _ h' hrun ?_
                intro j hd
                rw [dmark_setCdrNomod] at hd
                rw [cmark_setCdrNomod]
                exact hinv j hd
            · have heq : markLoop h (.cell i) (Val.stor a) (fuel + 1) =
                  some h := by
                simp only [markLoop, hcmt, hdmt]
                rfl
              rw [heq] at hrun
              cases hrun
              exact hinv
      · simp only [markLoop] at hrun
        by_cases hp : prev = .nil
        · rw [if_pos hp] at hrun
          cases hrun
          exact hinv
        · rw [if_neg hp] at hrun
          exact ih _ _ _ h' hrun hinv

lemma map_bsize_of_shape {bs bs' : List Block}
    (hs : blocksShape bs = blocksShape bs') :
    bs.map Block.bsize = bs'.map Block.bsize := by
  have := congrArg (List.map fun q : Nat × Nat × BlockData × Val => q.1) hs
  simpa [blocksShape, List.map_map, Function.comp] using this

lemma blockStarts_of_shape {bs bs' : List Block}
    (hs : blocksShape bs = blocksShape bs') (base : Nat) :
    blockStarts bs base = blockStarts bs' base :=
  blockStarts_eq_of_sizes (map_bsize_of_shape hs) base

/-- The mark phase of `garbage_collect` (MEMORY.C lines 778-825): call
`mark` for every root that is neither NIL nor a special value. -/
def markRoots : Heap → List Val → Option Heap
  | h, [] => some h
  | h, .nil :: rs => markRoots h rs
  | h, .special _ :: rs => markRoots h rs
  | h, r :: rs =>
      (markFrom h r (2 * unmarkedCount h + 1)).bind fun h1 => markRoots h1 rs

/-- A value is transitively reachable from the root set. -/
def Reachable (h : Heap) (roots : List Val) (v : Val) : Prop :=
  ∃ r ∈ roots, ReachV h r v

/-- Everything one completed `mark` call guarantees. -/
structure MarkPost (h : Heap) (r : Val) (h' : Heap) : Prop where
  hnc : h'.ncells = h.ncells
  shape : blocksShape h'.blocks = blocksShape h.blocks
  cfree : h'.cboxFree = h.cboxFree
  sfree : h'.storFree = h.storFree
  slots : ∀ i, cellSlots h' i = cellSlots h i
  cmono : ∀ i, (h.cells i).cmark = true → (h'.cells i).cmark = true
  smono : ∀ a, smarkAt h a = true → smarkAt h' a = true
  rootMarked : childMarked h' r
  csound : ∀ d, (h'.cells d).cmark = true →
      (h.cells d).cmark = true ∨ ReachV h r (.cell d)
  ssound : ∀ a, smarkAt h' a = true →
      smarkAt h a = true ∨ ReachV h r (.stor a)
  closed : marksClosed h'
  good : goodHeap h'
  gdmcm : ∀ i, (h'.cells i).dmark = true → (h'.cells i).cmark = true

lemma markFrom_spec (h : Heap) (r : Val) (hg : goodHeap h) (hc : marksClosed h)
    (hdc : ∀ i, (h.cells i).dmark = true → (h.cells i).cmark = true)
    (hv : validVal h r)
    (hform : (∃ i, r = Val.cell i) ∨ ∃ a, r = Val.stor a) :
    ∃ h', markFrom h r (2 * unmarkedCount h + 1) = some h' ∧
      MarkPost h r h' := by
  rcases hform with ⟨i, rfl⟩ | ⟨a, rfl⟩
  · have pre := dswPre_initial h i hg hv hc
    have hm : dswMeas h [] < 2 * unmarkedCount h + 1 := by
      simp only [dswMeas, List.length_nil]
      omega
    obtain ⟨h', hrun, post⟩ :=
      dswMain (2 * unmarkedCount h + 1) h i .nil [] pre hm
    have hbs : blockStarts h'.blocks 0 = blockStarts h.blocks 0 :=
      blockStarts_of_shape post.shape 0
    have hslots : ∀ j, cellSlots h' j = cellSlots h j := post.slots
    have hgdm : ∀ j, (h'.cells j).dmark = true → (h'.cells j).cmark = true :=
      markLoop_dm_cm (2 * unmarkedCount h + 1) h (.cell i) .nil h' hrun hdc
    refine ⟨h', hrun,
      { hnc := post.hnc
        shape := post.shape
        cfree := post.cfree
        sfree := post.sfree
        slots := hslots
        cmono := post.cmono
        smono := post.smono
        rootMarked := post.curC
        csound := ?_
        ssound := ?_
        closed := ?_
        good := ?_
        gdmcm := hgdm }⟩
    · intro d hd
      rcases post.csound d hd with hprev | hreach | ⟨p, hp, _⟩
      · exact Or.inl hprev
      · exact Or.inr hreach
      · cases hp
    · intro b hb
      rcases post.ssound b hb with hprev | hreach | ⟨p, hp, _⟩
      · exact Or.inl hprev
      · exact Or.inr hreach
      · cases hp
    · intro d hd hcm
      rw [post.hnc] at hd
      exact post.closed d hd hcm
    · intro j hj
      rw [post.hnc] at hj
      obtain ⟨_, hcv, hdv⟩ := hg j hj
      have hcar : (h'.cells j).car = (h.cells j).car :=
        congrArg (fun q : Val × Val × Nat => q.1) (hslots j)
      have hcdr : (h'.cells j).cdr = (h.cells j).cdr :=
        congrArg (fun q : Val × Val × Nat => q.2.1) (hslots j)
      refine ⟨hgdm j, ?_, ?_⟩
      · rw [hcar]
        exact validVal_congr post.hnc hbs hcv
      · rw [hcdr]
        exact validVal_congr post.hnc hbs hdv
  · refine ⟨setSmarkAt h a, rfl,
      { hnc := rfl
        shape := blocksShape_setSmarkAux h.blocks 0 a
        cfree := rfl
        sfree := rfl
        slots := fun j => rfl
        cmono := fun j hj => hj
        smono := fun b hb => smarkAt_setSmarkAt_mono h a b hb
        rootMarked := smarkAt_setSmarkAt_self h a hv
        csound := fun d hd => Or.inl hd
        ssound := ?_
        closed := ?_
        good := goodHeap_setSmarkAt h a hg
        gdmcm := hdc }⟩
    · intro b hb
      rcases smarkAt_setSmarkAt_cases h a b hb with rfl | hb'
      · exact Or.inr (.refl _)
      · exact Or.inl hb'
    · intro d hd hcm
      obtain ⟨hdm, hcar, hcdr⟩ := hc d hd hcm
      exact ⟨hdm,
        @childMarked_mono h (setSmarkAt h a) (fun j hj => hj)
          (fun b hb => smarkAt_setSmarkAt_mono h a b hb) _ hcar,
        @childMarked_mono h (setSmarkAt h a) (fun j hj => hj)
          (fun b hb => smarkAt_setSmarkAt_mono h a b hb) _ hcdr⟩

/-- What the whole mark phase guarantees relative to the entry heap. -/
structure RootsPost (h : Heap) (roots : List Val) (h' : Heap) : Prop where
  hnc : h'.ncells = h.ncells
  shape : blocksShape h'.blocks = blocksShape h.blocks
  cfree : h'.cboxFree = h.cboxFree
  sfree : h'.storFree = h.storFree
  slots : ∀ i, cellSlots h' i = cellSlots h i
  cmono : ∀ i, (h.cells i).cmark = true → (h'.cells i).cmark = true
  smono : ∀ a, smarkAt h a = true → smarkAt h' a = true
  rootsMarked : ∀ r ∈ roots, childMarked h' r
  csound : ∀ d, (h'.cells d).cmark = true →
      (h.cells d).cmark = true ∨ Reachable h roots (.cell d)
  ssound : ∀ a, smarkAt h' a = true →
      smarkAt h a = true ∨ Reachable h roots (.stor a)
  closed : marksClosed h'
  good : goodHeap h'
  gdmcm : ∀ i, (h'.cells i).dmark = true → (h'.cells i).cmark = true

lemma markRoots_spec :
    ∀ (roots : List Val) (h : Heap), goodHeap h → marksClosed h →
      (∀ i, (h.cells i).dmark = true → (h.cells i).cmark = true) →
      (∀ r ∈ roots, validVal h r) →
      ∃ h', markRoots h roots = some h' ∧ RootsPost h roots h' := by
  intro roots
  induction roots with
  | nil =>
      intro h hg hc hdc _
      exact ⟨h, rfl,
        { hnc := rfl, shape := rfl, cfree := rfl, sfree := rfl
          slots := fun i => rfl
          cmono := fun i hi => hi
          smono := fun a ha => ha
          rootsMarked := fun r hr => absurd hr (List.not_mem_nil r)
          csound := fun d hd => Or.inl hd
          ssound := fun a ha => Or.inl ha
          closed := hc, good := hg, gdmcm := hdc }⟩
  | cons r rs ih =>
      intro h hg hc hdc hv
      have hvtail : ∀ r' ∈ rs, validVal h r' :=
        fun r' hr' => hv r' (List.mem_cons_of_mem r hr')
      rcases r with _ | w | i | a
      · -- NIL root is skipped
        obtain ⟨h', hrun, post⟩ := ih h hg hc hdc hvtail
        refine ⟨h', hrun, ?_⟩
        exact
          { hnc := post.hnc, shape := post.shape, cfree := post.cfree
            sfree := post.sfree, slots := post.slots, cmono := post.cmono
            smono := post.smono
            rootsMarked := fun r' hr' => by
              rcases List.mem_cons.mp hr' with rfl | hr'
              · exact trivial
              · exact post.rootsMarked r' hr'
            csound := fun d hd => by
              rcases post.csound d hd with hold | ⟨r', hr', hre⟩
              · exact Or.inl hold
              · exact Or.inr ⟨r', List.mem_cons_of_mem _ hr', hre⟩
            ssound := fun b hb => by
              rcases post.ssound b hb with hold | ⟨r', hr', hre⟩
              · exact Or.inl hold
              · exact Or.inr ⟨r', List.mem_cons_of_mem _ hr', hre⟩
            closed := post.closed, good := post.good, gdmcm := post.gdmcm }
      · -- special root is skipped
        obtain ⟨h', hrun, post⟩ := ih h hg hc hdc hvtail
        refine ⟨h', hrun, ?_⟩
        exact
          { hnc := post.hnc, shape := post.shape, cfree := post.cfree
            sfree := post.sfree, slots := post.slots, cmono := post.cmono
            smono := post.smono
            rootsMarked := fun r' hr' => by
              rcases List.mem_cons.mp hr' with rfl | hr'
              · exact trivial
              · exact post.rootsMarked r' hr'
            csound := fun d hd => by
              rcases post.csound d hd with hold | ⟨r', hr', hre⟩
              · exact Or.inl hold
              · exact Or.inr ⟨r', List.mem_cons_of_mem _ hr', hre⟩
            ssound := fun b hb => by
              rcases post.ssound b hb with hold | ⟨r', hr', hre⟩
              · exact Or.inl hold
              · exact Or.inr ⟨r', List.mem_cons_of_mem _ hr', hre⟩
            closed := post.closed, good := post.good, gdmcm := post.gdmcm }
      · -- cons-box root
        obtain ⟨h1, hrun1, mp⟩ :=
          markFrom_spec h (.cell i) hg hc hdc (hv _ (List.mem_cons_self _ _))
            (Or.inl ⟨i, rfl⟩)
        have hbs1 : blockStarts h1.blocks 0 = blockStarts h.blocks 0 :=
          blockStarts_of_shape mp.shape 0
        obtain ⟨h2, hrun2, post⟩ := ih h1 mp.good mp.closed mp.gdmcm
          (fun r' hr' => validVal_congr mp.hnc hbs1 (hvtail r' hr'))
        refine ⟨h2, ?_, ?_⟩
        · simp only [markRoots]
          rw [hrun1]
          exact hrun2
        · exact
            { hnc := post.hnc.trans mp.hnc
              shape := post.shape.trans mp.shape
              cfree := post.cfree.trans mp.cfree
              sfree := post.sfree.trans mp.sfree
              slots := fun j => (post.slots j).trans (mp.slots j)
              cmono := fun j hj => post.cmono j (mp.cmono j hj)
              smono := fun b hb => post.smono b (mp.smono b hb)
              rootsMarked := fun r' hr' => by
                rcases List.mem_cons.mp hr' with rfl | hr'
                · exact @childMarked_mono h1 h2 post.cmono post.smono _
                    mp.rootMarked
                · exact post.rootsMarked r' hr'
              csound := fun d hd => by
                rcases post.csound d hd with hold | ⟨r', hr', hre⟩
                · rcases mp.csound d hold with holder | hre
                  · exact Or.inl holder
                  · exact Or.inr ⟨_, List.mem_cons_self _ _, hre⟩
                · exact Or.inr ⟨r', List.mem_cons_of_mem _ hr',
                    ReachV_congr mp.slots hre⟩
              ssound := fun b hb => by
                rcases post.ssound b hb with hold | ⟨r', hr', hre⟩
                · rcases mp.ssound b hold with holder | hre
                  · exact Or.inl holder
                  · exact Or.inr ⟨_, List.mem_cons_self _ _, hre⟩
                · exact Or.inr ⟨r', List.mem_cons_of_mem _ hr',
                    ReachV_congr mp.slots hre⟩
              closed := post.closed, good := post.good, gdmcm := post.gdmcm }
      · -- storage root
        obtain ⟨h1, hrun1, mp⟩ :=
          markFrom_spec h (.stor a) hg hc hdc (hv _ (List.mem_cons_self _ _))
            (Or.inr ⟨a, rfl⟩)
        have hbs1 : blockStarts h1.blocks 0 = blockStarts h.blocks 0 :=
          blockStarts_of_shape mp.shape 0
        obtain ⟨h2, hrun2, post⟩ := ih h1 mp.good mp.closed mp.gdmcm
          (fun r' hr' => validVal_congr mp.hnc hbs1 (hvtail r' hr'))
        refine ⟨h2, ?_, ?_⟩
        · simp only [markRoots]
          rw [hrun1]
          exact hrun2
        · exact
            { hnc := post.hnc.trans mp.hnc
              shape := post.shape.trans mp.shape
              cfree := post.cfree.trans mp.cfree
              sfree := post.sfree.trans mp.sfree
              slots := fun j => (post.slots j).trans (mp.slots j)
              cmono := fun j hj => post.cmono j (mp.cmono j hj)
              smono := fun b hb => post.smono b (mp.smono b hb)
              rootsMarked := fun r' hr' => by
                rcases List.mem_cons.mp hr' with rfl | hr'
                · exact @childMarked_mono h1 h2 post.cmono post.smono _
                    mp.rootMarked
                · exact post.rootsMarked r' hr'
              csound := fun d hd => by
                rcases post.csound d hd with hold | ⟨r', hr', hre⟩
                · rcases mp.csound d hold with holder | hre
                  · exact Or.inl holder
                  · exact Or.inr ⟨_, List.mem_cons_self _ _, hre⟩
                · exact Or.inr ⟨r', List.mem_cons_of_mem _ hr',
                    ReachV_congr mp.slots hre⟩
              ssound := fun b hb => by
                rcases post.ssound b hb with hold | ⟨r', hr', hre⟩
                · rcases mp.ssound b hold with holder | hre
                  · exact Or.inl holder
                  · exact Or.inr ⟨_, List.mem_cons_self _ _, hre⟩
                · exact Or.inr ⟨r', List.mem_cons_of_mem _ hr',
                    ReachV_congr mp.slots hre⟩
              closed := post.closed, good := post.good, gdmcm := post.gdmcm }

/-! ### the sweep phase for the cons-box area (MEMORY.C lines 837-855) -/

/-- Sweep the cons boxes with indices `0 ≤ i < k` in ascending order:
an unmarked box is pushed on the rebuilt free list (car := NIL, cdr := the
previous list head), a marked one survives with both marks cleared. -/
def sweepCboxGo (h : Heap) (free : Val) : Nat → Heap × Val
  | 0 => (h, free)
  | k + 1 =>
      let r := sweepCboxGo h free k
      if (r.1.cells k).cmark = false then
        (setCdr (setCar r.1 k .nil) k r.2, .cell k)
      else
        (updCell r.1 k (fun c => { c with cmark := false, dmark := false }), r.2)

/-- `sweep_cbox`: rebuild the cons-box free list from scratch. -/
def sweepCbox (h : Heap) : Heap :=
  { (sweepCboxGo h .nil h.ncells).1 with
      cboxFree := (sweepCboxGo h .nil h.ncells).2 }

/-- The free list of cons boxes: a NIL-terminated chain through the cdr
slots whose members all have a NIL car. -/
def FreeCellChain (h : Heap) : Val → List Nat → Prop
  | v, [] => v = Val.nil
  | v, i :: rest => v = Val.cell i ∧ (h.cells i).car = Val.nil ∧
      FreeCellChain h ((h.cells i).cdr) rest

lemma FreeCellChain.carryover {h h' : Heap} {v : Val} {l : List Nat}
    (hch : FreeCellChain h v l) (hag : ∀ i ∈ l, h'.cells i = h.cells i) :
    FreeCellChain h' v l := by
  induction l generalizing v with
  | nil => exact hch
  | cons i rest ih =>
      obtain ⟨hv, hcar, htail⟩ := hch
      have hci : h'.cells i = h.cells i := hag i (List.mem_cons_self _ _)
      refine ⟨hv, by rw [hci]; exact hcar, ?_⟩
      rw [hci]
      exact ih htail (fun j hj => hag j (List.mem_cons_of_mem _ hj))

/-- The indices below `k` that are unmarked, listed in the order the sweep
links them (descending). -/
def deadBelow (h : Heap) (k : Nat) : List Nat :=
  ((List.range k).filter fun i => (h.cells i).cmark = false).reverse

lemma sweepCboxGo_fields (h : Heap) (free : Val) (k : Nat) :
    (sweepCboxGo h free k).1.ncells = h.ncells ∧
    (sweepCboxGo h free k).1.blocks = h.blocks ∧
    (sweepCboxGo h free k).1.cboxFree = h.cboxFree ∧
    (sweepCboxGo h free k).1.storFree = h.storFree := by
  induction k with
  | zero => exact ⟨rfl, rfl, rfl, rfl⟩
  | succ k ih =>
      simp only [sweepCboxGo]
      split_ifs <;>
        simpa only [setCdr, setCar, updCell_ncells, updCell_blocks,
          updCell_cboxFree, updCell_storFree, updCell] using ih

lemma sweepCboxGo_cells_ge (h : Heap) (free : Val) (k : Nat) :
    ∀ j, k ≤ j → (sweepCboxGo h free k).1.cells j = h.cells j := by
  induction k with
  | zero => intro j _; rfl
  | succ k ih =>
      intro j hj
      have hjk : j ≠ k := by omega
      simp only [sweepCboxGo]
      split_ifs with hc
      · show (setCdr (setCar (sweepCboxGo h free k).1 k .nil) k
            (sweepCboxGo h free k).2).cells j = h.cells j
        rw [setCdr, updCell_cells_ne _ _ _ hjk, setCar,
          updCell_cells_ne _ _ _ hjk]
        exact ih j (by omega)
      · show (updCell (sweepCboxGo h free k).1 k
            (fun c => { c with cmark := false, dmark := false })).cells j =
            h.cells j
        rw [updCell_cells_ne _ _ _ hjk]
        exact ih j (by omega)

lemma sweepCboxGo_spec (h : Heap) (k : Nat) :
    (∀ j, j < k → (h.cells j).cmark = true →
      (sweepCboxGo h .nil k).1.cells j =
        { h.cells j with cmark := false, dmark := false }) ∧
    (∀ j, j < k → (h.cells j).cmark = false →
      ((sweepCboxGo h .nil k).1.cells j).car = Val.nil) ∧
    FreeCellChain (sweepCboxGo h .nil k).1 (sweepCboxGo h .nil k).2
      (deadBelow h k) := by
  induction k with
  | zero =>
      refine ⟨fun j hj => absurd hj (Nat.not_lt_zero j), fun j hj => absurd hj
        (Nat.not_lt_zero j), ?_⟩
      simp only [deadBelow, List.range_zero, List.filter_nil,
        List.reverse_nil]
      rfl
  | succ k ih =>
      obtain ⟨ihm, ihd, ihc⟩ := ih
      have hcellk : (sweepCboxGo h .nil k).1.cells k = h.cells k :=
        sweepCboxGo_cells_ge h .nil k k (le_refl k)
      have hdead : deadBelow h (k + 1) =
          if (h.cells k).cmark = false then k :: deadBelow h k
          else deadBelow h k := by
        by_cases hck : (h.cells k).cmark = false
        · rw [if_pos hck]
          simp [deadBelow, List.range_succ, hck]
        · rw [if_neg hck]
          simp [deadBelow, List.range_succ, hck]
      by_cases hc : (h.cells k).cmark = false
      · -- box k is dead: pushed on the free list
        have hred : sweepCboxGo h .nil (k + 1) =
            (setCdr (setCar (sweepCboxGo h .nil k).1 k .nil) k
              (sweepCboxGo h .nil k).2, .cell k) := by
          simp only [sweepCboxGo]
          rw [if_pos (by rw [hcellk]; exact hc)]
        refine ⟨?_, ?_, ?_⟩
        · intro j hj hm
          have hjk : j ≠ k := fun he => by
            rw [he] at hm
            rw [hm] at hc
            cases hc
          rw [hred]
          show ((setCdr (setCar _ k .nil) k _).cells j) = _
          rw [setCdr, updCell_cells_ne _ _ _ hjk, setCar,
            updCell_cells_ne _ _ _ hjk]
          exact ihm j (by omega) hm
        · intro j hj hm
          rcases eq_or_ne j k with rfl | hjk
          · rw [hred]
            show ((setCdr (setCar _ j .nil) j _).cells j).car = Val.nil
            rw [setCdr, updCell_cells_self]
            show ((setCar _ j .nil).cells j).car = Val.nil
            rw [setCar, updCell_cells_self]
          · rw [hred]
            show ((setCdr (setCar _ k .nil) k _).cells j).car = Val.nil
            rw [setCdr, updCell_cells_ne _ _ _ hjk, setCar,
              updCell_cells_ne _ _ _ hjk]
            exact ihd j (by omega) hm
        · rw [hred, hdead, if_pos hc]
          have hcellsk :
              ((setCdr (setCar (sweepCboxGo h .nil k).1 k .nil) k
                (sweepCboxGo h .nil k).2).cells k) =
              { (sweepCboxGo h .nil k).1.cells k with
                  car := Val.nil, cmark := false,
                  cdr := (sweepCboxGo h .nil k).2, dmark := false,
                  hintb := if specialP (sweepCboxGo h .nil k).2 then 3
                    else 0 } := by
            rw [setCdr, updCell_cells_self, setCar, updCell_cells_self]
          refine ⟨rfl, ?_, ?_⟩
          · rw [hcellsk]
          · rw [hcellsk]
            show FreeCellChain _ (sweepCboxGo h .nil k).2 (deadBelow h k)
            refine ihc.carryover ?_
            intro i hi
            have hik : i ≠ k := by
              have : i ∈ List.range k := by
                have := List.mem_reverse.mp hi
                exact List.mem_of_mem_filter this
              have := List.mem_range.mp this
              omega
            show ((setCdr (setCar _ k .nil) k _).cells i) = _
            rw [setCdr, updCell_cells_ne _ _ _ hik, setCar,
              updCell_cells_ne _ _ _ hik]
      · -- box k survives: marks cleared
        have hred : sweepCboxGo h .nil (k + 1) =
            (updCell (sweepCboxGo h .nil k).1 k
              (fun c => { c with cmark := false, dmark := false }),
              (sweepCboxGo h .nil k).2) := by
          simp only [sweepCboxGo]
          rw [if_neg (by rw [hcellk]; exact hc)]
        refine ⟨?_, ?_, ?_⟩
        · intro j hj hm
          rcases eq_or_ne j k with rfl | hjk
          · rw [hred]
            show (updCell (sweepCboxGo h .nil j).1 j
              (fun c => { c with cmark := false, dmark := false })).cells j = _
            rw [updCell_cells_self, hcellk]
          · rw [hred]
            show (updCell (sweepCboxGo h .nil k).1 k
              (fun c => { c with cmark := false, dmark := false })).cells j = _
            rw [updCell_cells_ne _ _ _ hjk]
            exact ihm j (by omega) hm
        · intro j hj hm
          have hjk : j ≠ k := fun he => by rw [he] at hm; exact hc hm
          rw [hred]
          show ((updCell (sweepCboxGo h .nil k).1 k
            (fun c => { c with cmark := false, dmark := false })).cells j).car =
            Val.nil
          rw [updCell_cells_ne _ _ _ hjk]
          exact ihd j (by omega) hm
        · rw [hred, hdead, if_neg hc]
          refine ihc.carryover ?_
          intro i hi
          have hik : i ≠ k := by
            have : i ∈ List.range k := by
              have := List.mem_reverse.mp hi
              exact List.mem_of_mem_filter this
            have := List.mem_range.mp this
            omega
          show (updCell (sweepCboxGo h .nil k).1 k
            (fun c => { c with cmark := false, dmark := false })).cells i = _
          rw [updCell_cells_ne _ _ _ hik]

lemma deadBelow_nodup (h : Heap) (k : Nat) : (deadBelow h k).Nodup :=
  List.nodup_reverse.mpr ((List.nodup_range k).filter _)

lemma deadBelow_mem (h : Heap) (k i : Nat) :
    i ∈ deadBelow h k ↔ i < k ∧ (h.cells i).cmark = false := by
  simp [deadBelow, List.mem_reverse, List.mem_filter, List.mem_range]

/-! ### the sweep phase for the storage area (MEMORY.C lines 859-894) -/

def totalSize (bs : List Block) : Nat := (bs.map Block.bsize).sum

/-- The inner coalescing loop of `sweep_storage`: accumulate the sizes of
consecutive unmarked blocks while the accumulated size has not yet passed
65536; return the accumulated size and the unconsumed remainder. -/
def takeRun : List Block → Nat → Nat × List Block
  | [], s => (s, [])
  | b :: rest, s =>
      if b.bmark = false ∧ s ≤ 65536 then takeRun rest (s + b.bsize)
      else (s, b :: rest)

lemma takeRun_sizes : ∀ (l : List Block) (s : Nat),
    (takeRun l s).1 + totalSize (takeRun l s).2 = s + totalSize l := by
  intro l
  induction l with
  | nil => intro s; simp [takeRun, totalSize]
  | cons b rest ih =>
      intro s
      simp only [takeRun]
      split_ifs with hb
      · rw [ih (s + b.bsize)]
        simp [totalSize]
        omega
      · simp [totalSize]

lemma takeRun_len : ∀ (l : List Block) (s : Nat),
    (takeRun l s).2.length ≤ l.length := by
  intro l
  induction l with
  | nil => intro s; simp [takeRun]
  | cons b rest ih =>
      intro s
      simp only [takeRun]
      split_ifs with hb
      · exact le_trans (ih (s + b.bsize)) (by simp)
      · simp

lemma takeRun_len_cons (b : Block) (rest : List Block)
    (hb : b.bmark = false) :
    (takeRun (b :: rest) 0).2.length ≤ rest.length := by
  have hcond : b.bmark = false ∧ 0 ≤ 65536 := ⟨hb, by omega⟩
  simp only [takeRun, if_pos hcond]
  exact takeRun_len rest (0 + b.bsize)

/-- `sweep_storage`: walk the blocks in address order; a marked block
survives with its mark cleared, a maximal run of unmarked blocks is
coalesced into a single block pushed on the rebuilt free list, split at the
65536-long cap (the cap split cannot occur while the whole region is
smaller than 65536 longs, as in the shipped configuration: DSLD = 16382). -/
def sweepStorGo : List Block → Nat → Val → List Block × Val
  | [], _, free => ([], free)
  | b :: rest, base, free =>
      if b.bmark = true then
        let r := sweepStorGo rest (base + b.bsize) free
        ({ b with bmark := false } :: r.1, r.2)
      else
        if 65536 < (takeRun (b :: rest) 0).1 then
          let r := sweepStorGo
            ({ bsize := (takeRun (b :: rest) 0).1 - 65536, btd := 0,
               bmark := false, bdata := .nodata, blink := .nil } ::
              (takeRun (b :: rest) 0).2)
            (base + 65536) (.stor base)
          ({ bsize := 65536, btd := b.btd, bmark := false, bdata := b.bdata,
             blink := free } :: r.1, r.2)
        else
          let r := sweepStorGo (takeRun (b :: rest) 0).2
            (base + (takeRun (b :: rest) 0).1) (.stor base)
          ({ bsize := (takeRun (b :: rest) 0).1, btd := b.btd, bmark := false,
             bdata := b.bdata, blink := free } :: r.1, r.2)
  termination_by bs _ _ => totalSize bs + bs.length
  decreasing_by
  · simp only [totalSize, List.map_cons, List.sum_cons, List.length_cons]
    omega
  · have h1 := takeRun_sizes (b :: rest) 0
    have h2 := takeRun_len_cons b rest (by
      rcases hb : b.bmark with _ | _
      · rfl
      · rename_i hmark _
        rw [hb] at hmark
        exact absurd rfl hmark)
    simp only [totalSize, List.map_cons, List.sum_cons, List.length_cons] at h1 ⊢
    rename_i hcap
    omega
  · have h1 := takeRun_sizes (b :: rest) 0
    have h2 := takeRun_len_cons b rest (by
      rcases hb : b.bmark with _ | _
      · rfl
      · rename_i hmark _
        rw [hb] at hmark
        exact absurd rfl hmark)
    simp only [totalSize, List.map_cons, List.sum_cons, List.length_cons] at h1 ⊢
    omega

/-- Look a storage block up by its header address. -/
def blockAtAux : List Block → Nat → Nat → Option Block
  | [], _, _ => none
  | b :: rest, base, a =>
      if a = base then some b else blockAtAux rest (base + b.bsize) a

def blockAt (h : Heap) (a : Nat) : Option Block := blockAtAux h.blocks 0 a

/-- The storage free list: a chain through the first data word of each free
block, from `v` down to the terminal value `t`. -/
def StorChain (bs : List Block) (base : Nat) : Val → List Nat → Val → Prop
  | v, [], t => v = t
  | v, x :: rest, t => ∃ b, v = Val.stor x ∧ blockAtAux bs base x = some b ∧
      StorChain bs base b.blink rest t

lemma smarkAux_blockAtAux : ∀ (bs : List Block) (base a : Nat),
    smarkAux bs base a = true ↔
      ∃ b, blockAtAux bs base a = some b ∧ b.bmark = true := by
  intro bs
  induction bs with
  | nil =>
      intro base a
      simp [smarkAux, blockAtAux]
  | cons b rest ih =>
      intro base a
      simp only [smarkAux, blockAtAux]
      rcases eq_or_ne a base with rfl | hab
      · simp
      · rw [if_neg hab, if_neg hab]
        exact ih (base + b.bsize) a

lemma blockAtAux_bounds : ∀ (bs : List Block) (base a : Nat) (b : Block),
    blockAtAux bs base a = some b →
    base ≤ a ∧ a + b.bsize ≤ base + totalSize bs := by
  intro bs
  induction bs with
  | nil => intro base a b hb; cases hb
  | cons c rest ih =>
      intro base a b hb
      simp only [blockAtAux] at hb
      rcases eq_or_ne a base with rfl | hab
      · rw [if_pos rfl] at hb
        cases hb
        simp only [totalSize, List.map_cons, List.sum_cons]
        omega
      · rw [if_neg hab] at hb
        obtain ⟨h1, h2⟩ := ih (base + c.bsize) a b hb
        simp only [totalSize, List.map_cons, List.sum_cons]
        constructor
        · omega
        · simp only [totalSize] at h2
          omega

lemma blockAtAux_append : ∀ (pre suf : List Block) (base a : Nat),
    blockAtAux (pre ++ suf) base a =
      match blockAtAux pre base a with
      | some b => some b
      | none => blockAtAux suf (base + totalSize pre) a := by
  intro pre
  induction pre with
  | nil =>
      intro suf base a
      simp [blockAtAux, totalSize]
  | cons c rest ih =>
      intro suf base a
      simp only [List.cons_append, blockAtAux]
      rcases eq_or_ne a base with rfl | hab
      · rw [if_pos rfl, if_pos rfl]
      · rw [if_neg hab, if_neg hab, List.append_eq, ih suf (base + c.bsize) a]
        simp only [totalSize, List.map_cons, List.sum_cons]
        have : base + c.bsize + (rest.map Block.bsize).sum =
            base + (c.bsize + (rest.map Block.bsize).sum) := by omega
        rw [this]

lemma blockAtAux_disjoint : ∀ (bs : List Block) (base x y : Nat)
    (bx bY : Block), (∀ b ∈ bs, 1 ≤ b.bsize) →
    blockAtAux bs base x = some bx → blockAtAux bs base y = some bY →
    x < y → x + bx.bsize ≤ y := by
  intro bs
  induction bs with
  | nil => intro base x y bx bY _ hx; cases hx
  | cons c rest ih =>
      intro base x y bx bY hpos hx hy hxy
      simp only [blockAtAux] at hx hy
      rcases eq_or_ne x base with rfl | hxb
      · rw [if_pos rfl] at hx
        cases hx
        have hyb : y ≠ x := by omega
        rw [if_neg hyb] at hy
        exact (blockAtAux_bounds rest (x + c.bsize) y bY hy).1
      · rw [if_neg hxb] at hx
        have hxlow := (blockAtAux_bounds rest (base + c.bsize) x bx hx).1
        rcases eq_or_ne y base with rfl | hyb
        · omega
        · rw [if_neg hyb] at hy
          exact ih (base + c.bsize) x y bx bY
            (fun b hb => hpos b (List.mem_cons_of_mem _ hb)) hx hy hxy

lemma blockAtAux_shape : ∀ (bs bs' : List Block),
    blocksShape bs = blocksShape bs' →
    ∀ (base a : Nat) (b : Block), blockAtAux bs base a = some b →
    ∃ b', blockAtAux bs' base a = some b' ∧ b'.bsize = b.bsize ∧
      b'.btd = b.btd ∧ b'.bdata = b.bdata ∧ b'.blink = b.blink := by
  intro bs
  induction bs with
  | nil =>
      intro bs' hs base a b hb
      cases hb
  | cons c rest ih =>
      intro bs' hs base a b hb
      cases bs' with
      | nil => cases hs
      | cons c' rest' =>
          simp only [blocksShape, List.map_cons, List.cons.injEq] at hs
          obtain ⟨hhead, htail⟩ := hs
          have hsz : c.bsize = c'.bsize := congrArg Prod.fst hhead
          have htd : c.btd = c'.btd := congrArg (fun q => q.2.1) hhead
          have hdat : c.bdata = c'.bdata := congrArg (fun q => q.2.2.1) hhead
          have hlink : c.blink = c'.blink := congrArg (fun q => q.2.2.2) hhead
          simp only [blockAtAux] at hb ⊢
          rcases eq_or_ne a base with rfl | hab
          · rw [if_pos rfl] at hb ⊢
            cases hb
            exact ⟨c', rfl, hsz.symm, htd.symm, hdat.symm, hlink.symm⟩
          · rw [if_neg hab] at hb ⊢
            rw [← hsz]
            exact ih rest' htail (base + c.bsize) a b hb

lemma takeRun_decomp : ∀ (l : List Block) (s : Nat),
    ∃ pre, l = pre ++ (takeRun l s).2 ∧ (∀ b ∈ pre, b.bmark = false) ∧
      (takeRun l s).1 = s + totalSize pre := by
  intro l
  induction l with
  | nil =>
      intro s
      exact ⟨[], rfl, fun b hb => absurd hb (List.not_mem_nil b),
        by simp [takeRun, totalSize]⟩
  | cons b rest ih =>
      intro s
      simp only [takeRun]
      split_ifs with hb
      · obtain ⟨pre, hdec, hunm, hsz⟩ := ih (s + b.bsize)
        refine ⟨b :: pre, ?_, ?_, ?_⟩
        · rw [List.cons_append, ← hdec]
        · intro c hc
          rcases List.mem_cons.mp hc with rfl | hc
          · exact hb.1
          · exact hunm c hc
        · rw [hsz]
          simp only [totalSize, List.map_cons, List.sum_cons]
          omega
      · exact ⟨[], rfl, fun c hc => absurd hc (List.not_mem_nil c),
          by simp [totalSize]⟩

lemma blockAtAux_mem : ∀ (bs : List Block) (base a : Nat) (b : Block),
    blockAtAux bs base a = some b → b ∈ bs := by
  intro bs
  induction bs with
  | nil => intro base a b hb; cases hb
  | cons c rest ih =>
      intro base a b hb
      simp only [blockAtAux] at hb
      rcases eq_or_ne a base with rfl | hab
      · rw [if_pos rfl] at hb
        cases hb
        exact List.mem_cons_self _ _
      · rw [if_neg hab] at hb
        exact List.mem_cons_of_mem _ (ih (base + c.bsize) a b hb)

lemma StorChain.lift {c : Block} {bs : List Block} {base : Nat} :
    ∀ {v : Val} {l : List Nat} {t : Val},
    StorChain bs (base + c.bsize) v l t → (∀ x ∈ l, base + c.bsize ≤ x) →
    1 ≤ c.bsize → StorChain (c :: bs) base v l t := by
  intro v l t
  induction l generalizing v with
  | nil => intro hch _ _; exact hch
  | cons x rest ih =>
      intro hch hbd hpos
      obtain ⟨b, hv, hlook, htail⟩ := hch
      have hxb : x ≠ base := by
        have := hbd x (List.mem_cons_self _ _)
        omega
      refine ⟨b, hv, ?_, ?_⟩
      · simp only [blockAtAux]
        rw [if_neg hxb]
        exact hlook
      · exact ih htail (fun y hy => hbd y (List.mem_cons_of_mem _ hy)) hpos

lemma StorChain.snoc {bs : List Block} {base : Nat} :
    ∀ {v : Val} {l : List Nat} {x : Nat} {bx : Block},
    StorChain bs base v l (.stor x) → blockAtAux bs base x = some bx →
    StorChain bs base v (l ++ [x]) bx.blink := by
  intro v l
  induction l generalizing v with
  | nil =>
      intro x bx hch hlook
      exact ⟨bx, hch, hlook, rfl⟩
  | cons y rest ih =>
      intro x bx hch hlook
      obtain ⟨b, hv, hl, htail⟩ := hch
      exact ⟨b, hv, hl, ih htail hlook⟩

/-- What one run of the storage sweep over a segment guarantees. -/
structure StorPost (bs : List Block) (base : Nat) (free : Val)
    (out : List Block × Val) : Prop where
  sizes : totalSize out.1 = totalSize bs
  pos : ∀ b ∈ out.1, 1 ≤ b.bsize
  keep : ∀ a b, blockAtAux bs base a = some b → b.bmark = true →
      blockAtAux out.1 base a = some { b with bmark := false }
  chain : ∃ l, StorChain out.1 base out.2 l free ∧
      (∀ x ∈ l, base ≤ x) ∧ l.Nodup ∧
      (∀ a b, blockAtAux bs base a = some b → b.bmark = false →
        ∃ x ∈ l, ∃ bx, blockAtAux out.1 base x = some bx ∧
          x ≤ a ∧ a + b.bsize ≤ x + bx.bsize)

lemma sweepStorGo_spec : ∀ (n : Nat) (bs : List Block) (base : Nat)
    (free : Val), totalSize bs + bs.length ≤ n → totalSize bs ≤ 65536 →
    (∀ b ∈ bs, 1 ≤ b.bsize) →
    StorPost bs base free (sweepStorGo bs base free) := by
  intro n
  induction n with
  | zero =>
      intro bs base free hn _ _
      have hlen : bs.length = 0 := by omega
      have hbs : bs = [] := List.length_eq_zero.mp hlen
      subst hbs
      have hred : sweepStorGo [] base free = ([], free) := by
        rw [sweepStorGo]
      rw [hred]
      refine ⟨rfl, ?_, ?_, ⟨[], rfl, ?_, List.nodup_nil, ?_⟩⟩
      · intro c hc
        exact absurd hc (List.not_mem_nil c)
      · intro a c hc
        exact nomatch hc
      · intro x hx
        cases hx
      · intro a c hc
        exact nomatch hc
  | succ n ih =>
      intro bs base free hn hsz hpos
      rcases bs with _ | ⟨b, rest⟩
      · have hred : sweepStorGo [] base free = ([], free) := by
          rw [sweepStorGo]
        rw [hred]
        refine ⟨rfl, ?_, ?_, ⟨[], rfl, ?_, List.nodup_nil, ?_⟩⟩
        · intro c hc
          exact absurd hc (List.not_mem_nil c)
        · intro a c hc
          exact nomatch hc
        · intro x hx
          cases hx
        · intro a c hc
          exact nomatch hc
      · have hts : totalSize (b :: rest) = b.bsize + totalSize rest := by
          simp [totalSize]
        have hbpos : 1 ≤ b.bsize := hpos b (List.mem_cons_self _ _)
        by_cases hm : b.bmark = true
        · -- marked block survives with its mark cleared
          have hred : sweepStorGo (b :: rest) base free =
              ({ b with bmark := false } ::
                (sweepStorGo rest (base + b.bsize) free).1,
               (sweepStorGo rest (base + b.bsize) free).2) := by
            rw [sweepStorGo]
            rw [if_pos hm]
          have hrec := ih rest (base + b.bsize) free
            (by simp only [List.length_cons] at hn; omega)
            (by omega)
            (fun c hc => hpos c (List.mem_cons_of_mem _ hc))
          rw [hred]
          refine ⟨?_, ?_, ?_, ?_⟩
          · simp only [totalSize, List.map_cons, List.sum_cons]
            have := hrec.sizes
            simp only [totalSize] at this
            omega
          · intro c hc
            rcases List.mem_cons.mp hc with rfl | hc
            · exact hbpos
            · exact hrec.pos c hc
          · intro a c hla hcm
            simp only [blockAtAux] at hla ⊢
            rcases eq_or_ne a base with rfl | hab
            · rw [if_pos rfl] at hla ⊢
              cases hla
              rfl
            · rw [if_neg hab] at hla ⊢
              exact hrec.keep a c hla hcm
          · obtain ⟨l, hch, hbd, hnd, hcov⟩ := hrec.chain
            have hlift : StorChain ({ b with bmark := false } ::
                (sweepStorGo rest (base + b.bsize) free).1) base
                (sweepStorGo rest (base + b.bsize) free).2 l free :=
              StorChain.lift hch hbd hbpos
            refine ⟨l, hlift, ?_, hnd, ?_⟩
            · intro x hx
              have := hbd x hx
              omega
            · intro a c hla hcm
              simp only [blockAtAux] at hla
              rcases eq_or_ne a base with rfl | hab
              · rw [if_pos rfl] at hla
                cases hla
                rw [hcm] at hm
                exact absurd hm (by simp)
              · rw [if_neg hab] at hla
                obtain ⟨x, hxl, bx, hlook, hle, hcover⟩ := hcov a c hla hcm
                have hxb : x ≠ base := by
                  have := hbd x hxl
                  omega
                refine ⟨x, hxl, bx, ?_, hle, hcover⟩
                simp only [blockAtAux]
                rw [if_neg hxb]
                exact hlook
        · -- an unmarked block starts a coalesced run
          have hm' : b.bmark = false := by
            rcases hb : b.bmark with _ | _
            · rfl
            · rw [hb] at hm
              exact absurd rfl hm
          have hstep : takeRun (b :: rest) 0 = takeRun rest (0 + b.bsize) := by
            simp only [takeRun, if_pos (show b.bmark = false ∧ 0 ≤ 65536 from
              ⟨hm', by omega⟩)]
          obtain ⟨pre', hdec, hunm, hsum⟩ := takeRun_decomp rest (0 + b.bsize)
          rw [← hstep] at hdec hsum
          have hsizes := takeRun_sizes (b :: rest) 0
          have hrun1 : 1 ≤ (takeRun (b :: rest) 0).1 := by
            rw [hsum]
            omega
          have hcap : ¬65536 < (takeRun (b :: rest) 0).1 := by
            simp only [hts] at hsz
            omega
          have hred : sweepStorGo (b :: rest) base free =
              ({ bsize := (takeRun (b :: rest) 0).1, btd := b.btd,
                 bmark := false, bdata := b.bdata, blink := free } ::
                (sweepStorGo (takeRun (b :: rest) 0).2
                  (base + (takeRun (b :: rest) 0).1) (.stor base)).1,
               (sweepStorGo (takeRun (b :: rest) 0).2
                  (base + (takeRun (b :: rest) 0).1) (.stor base)).2) := by
            rw [sweepStorGo]
            rw [if_neg (by rw [hm']; simp), if_neg hcap]
          have htail_mem : ∀ c ∈ (takeRun (b :: rest) 0).2, c ∈ b :: rest := by
            intro c hc
            rw [hdec]
            exact List.mem_cons_of_mem _ (List.mem_append_right _ hc)
          have hrec := ih (takeRun (b :: rest) 0).2
            (base + (takeRun (b :: rest) 0).1) (.stor base)
            (by
              have hlen := takeRun_len_cons b rest hm'
              have hs2 := hsizes
              simp only [totalSize, List.map_cons, List.sum_cons,
                List.length_cons] at hn hs2 ⊢
              omega)
            (by omega)
            (fun c hc => hpos c (htail_mem c hc))
          rw [hred]
          refine ⟨?_, ?_, ?_, ?_⟩
          · have h1 := hrec.sizes
            have h2 := hsizes
            simp only [totalSize, List.map_cons, List.sum_cons] at h1 h2 ⊢
            omega
          · intro c hc
            rcases List.mem_cons.mp hc with rfl | hc
            · exact hrun1
            · exact hrec.pos c hc
          · -- marked blocks all live in the unconsumed tail
            intro a c hla hcm
            have hdecfull : b :: rest = (b :: pre') ++ (takeRun (b :: rest) 0).2 := by
              rw [List.cons_append, ← hdec]
            rw [hdecfull, blockAtAux_append] at hla
            rcases hpre : blockAtAux (b :: pre') base a with _ | bfound
            · rw [hpre] at hla
              simp only at hla
              have hpresz : totalSize (b :: pre') = (takeRun (b :: rest) 0).1 := by
                simp only [totalSize, List.map_cons, List.sum_cons]
                rw [hsum]
                simp only [totalSize]
                omega
              rw [hpresz] at hla
              have := hrec.keep a c hla hcm
              have habound :=
                (blockAtAux_bounds _ _ _ _ hla).1
              have hab : a ≠ base := by omega
              simp only [blockAtAux]
              rw [if_neg hab]
              exact this
            · rw [hpre] at hla
              simp only at hla
              cases hla
              have : c ∈ b :: pre' := blockAtAux_mem _ _ _ _ hpre
              rcases List.mem_cons.mp this with rfl | hcpre
              · rw [hm'] at hcm
                cases hcm
              · rw [hunm c hcpre] at hcm
                cases hcm
          · -- the free chain gains the coalesced run
            obtain ⟨l, hch, hbd, hnd, hcov⟩ := hrec.chain
            have hnotin : base ∉ l := by
              intro hbase
              have := hbd base hbase
              omega
            have hlook_base : blockAtAux
                ({ bsize := (takeRun (b :: rest) 0).1, btd := b.btd,
                   bmark := false, bdata := b.bdata, blink := free } ::
                  (sweepStorGo (takeRun (b :: rest) 0).2
                    (base + (takeRun (b :: rest) 0).1) (.stor base)).1)
                base base = some
                  { bsize := (takeRun (b :: rest) 0).1, btd := b.btd,
                    bmark := false, bdata := b.bdata, blink := free } := by
              rw [blockAtAux]
              rw [if_pos rfl]
            refine ⟨l ++ [base], ?_, ?_, ?_, ?_⟩
            · have hch1 : StorChain
                  ({ bsize := (takeRun (b :: rest) 0).1, btd := b.btd,
                     bmark := false, bdata := b.bdata, blink := free } ::
                    (sweepStorGo (takeRun (b :: rest) 0).2
                      (base + (takeRun (b :: rest) 0).1) (.stor base)).1) base
                  (sweepStorGo (takeRun (b :: rest) 0).2
                    (base + (takeRun (b :: rest) 0).1) (.stor base)).2 l
                  (.stor base) :=
                StorChain.lift hch hbd hrun1
              exact hch1.snoc hlook_base
            · intro x hx
              rcases List.mem_append.mp hx with hx | hx
              · have := hbd x hx
                omega
              · rcases List.mem_singleton.mp hx with rfl
                exact le_refl x
            · refine List.Nodup.append hnd (List.nodup_singleton base) ?_
              intro x hx hx'
              rcases List.mem_singleton.mp hx' with rfl
              exact hnotin hx
            · intro a c hla hcm
              have hdecfull : b :: rest =
                  (b :: pre') ++ (takeRun (b :: rest) 0).2 := by
                rw [List.cons_append, ← hdec]
              have hpresz : totalSize (b :: pre') = (takeRun (b :: rest) 0).1 := by
                simp only [totalSize, List.map_cons, List.sum_cons]
                rw [hsum]
                simp only [totalSize]
                omega
              rw [hdecfull, blockAtAux_append] at hla
              rcases hpre : blockAtAux (b :: pre') base a with _ | bfound
              · -- the block lies in the unconsumed tail: recurse
                rw [hpre] at hla
                simp only at hla
                rw [hpresz] at hla
                obtain ⟨x, hxl, bx, hlook, hle, hcover⟩ := hcov a c hla hcm
                have hxb : x ≠ base := by
                  have := hbd x hxl
                  omega
                refine ⟨x, List.mem_append_left _ hxl, bx, ?_, hle, hcover⟩
                simp only [blockAtAux]
                rw [if_neg hxb]
                exact hlook
              · -- the block was absorbed by the coalesced run
                rw [hpre] at hla
                simp only at hla
                cases hla
                obtain ⟨hge, hub⟩ := blockAtAux_bounds _ _ _ _ hpre
                rw [hpresz] at hub
                refine ⟨base, List.mem_append_right _ (List.mem_singleton.mpr
                  rfl), _, hlook_base, hge, ?_⟩
                exact hub

/-- `sweep_storage`: rebuild the storage free list from scratch. -/
def sweepStorage (h : Heap) : Heap :=
  { h with blocks := (sweepStorGo h.blocks 0 .nil).1,
           storFree := (sweepStorGo h.blocks 0 .nil).2 }

/-- `garbage_collect` (MEMORY.C lines 771-833): mark from every root, then
sweep the cons boxes and the storage area. -/
def garbageCollect (h : Heap) (roots : List Val) : Option Heap :=
  (markRoots h roots).map fun h1 => sweepStorage (sweepCbox h1)

lemma ReachV_valid {h : Heap} (hg : goodHeap h) :
    ∀ {r v : Val}, ReachV h r v → validVal h r → validVal h v := by
  intro r v hre
  induction hre with
  | refl => intro hv; exact hv
  | viaCar hx ih =>
      intro hv
      rename_i i
      exact (hg i (ih hv)).2.1
  | viaCdr hx ih =>
      intro hv
      rename_i i
      exact (hg i (ih hv)).2.2

lemma reach_marked {h : Heap} (hg : goodHeap h) (hcl : marksClosed h) :
    ∀ {r v : Val}, ReachV h r v → validVal h r → childMarked h r →
      childMarked h v := by
  intro r v hre
  induction hre with
  | refl => intro _ hm; exact hm
  | viaCar hx ih =>
      intro hv hm
      rename_i i
      have hlt : i < h.ncells := ReachV_valid hg hx hv
      exact (hcl i hlt (ih hv hm)).2.1
  | viaCdr hx ih =>
      intro hv hm
      rename_i i
      have hlt : i < h.ncells := ReachV_valid hg hx hv
      exact (hcl i hlt (ih hv hm)).2.2

lemma block_ext {b1 b2 : Block} (hs : b1.bsize = b2.bsize)
    (ht : b1.btd = b2.btd) (hm : b1.bmark = b2.bmark)
    (hd : b1.bdata = b2.bdata) (hl : b1.blink = b2.blink) : b1 = b2 := by
  cases b1
  cases b2
  simp only at hs ht hm hd hl
  rw [hs, ht, hm, hd, hl]

lemma totalSize_of_shape {bs bs' : List Block}
    (hs : blocksShape bs = blocksShape bs') : totalSize bs = totalSize bs' := by
  unfold totalSize
  rw [map_bsize_of_shape hs]

lemma pos_of_shape {bs bs' : List Block}
    (hs : blocksShape bs = blocksShape bs')
    (hpos : ∀ b ∈ bs', 1 ≤ b.bsize) : ∀ b ∈ bs, 1 ≤ b.bsize := by
  intro b hb
  have hmap := map_bsize_of_shape hs
  have : b.bsize ∈ bs'.map Block.bsize := by
    rw [← hmap]
    exact List.mem_map_of_mem Block.bsize hb
  obtain ⟨c, hc, hcb⟩ := List.mem_map.mp this
  rw [← hcb]
  exact hpos c hc

/-- **C1.** Soundness of the garbage collector: starting from a well-formed
heap with all marks clear (the state on entry to `garbage_collect`), the
collector terminates and (i) every cons box reachable from the root set
keeps its exact slot contents at the same index, and every storage block
reachable from the root set keeps its exact content at the same address
(reference identity preserved); (ii) the rebuilt cons-box free list
contains exactly the unreachable box indices, each exactly once; (iii)
every unreachable storage block is absorbed by exactly one entry of the
rebuilt storage free list (adjacent unreachable blocks coalesce into one
entry, as the sweep does).  The size bound mirrors the C region constant
(`DSLD = 16382 < 65536` longs), which keeps the sweep's cap split dead. -/
theorem c1_gc_soundness (h : Heap) (roots : List Val)
    (hg : goodHeap h)
    (hcells0 : ∀ i, (h.cells i).cmark = false ∧ (h.cells i).dmark = false)
    (hblocks0 : ∀ b ∈ h.blocks, b.bmark = false)
    (hroots : ∀ r ∈ roots, validVal h r)
    (hsz : totalSize h.blocks ≤ 65536)
    (hbpos : ∀ b ∈ h.blocks, 1 ≤ b.bsize) :
    ∃ h', garbageCollect h roots = some h' ∧
      (∀ d, Reachable h roots (.cell d) → cellSlots h' d = cellSlots h d) ∧
      (∀ a b, blockAt h a = some b → Reachable h roots (.stor a) →
        blockAt h' a = some b) ∧
      (∃ l, FreeCellChain h' h'.cboxFree l ∧ l.Nodup ∧
        ∀ d, d < h.ncells → (d ∈ l ↔ ¬Reachable h roots (.cell d))) ∧
      (∃ sl, StorChain h'.blocks 0 h'.storFree sl .nil ∧ sl.Nodup ∧
        ∀ a b, blockAt h a = some b → ¬Reachable h roots (.stor a) →
          ∃! x, x ∈ sl ∧ ∃ bx, blockAt h' x = some bx ∧ x ≤ a ∧
            a + b.bsize ≤ x + bx.bsize) := by
  have hdc : ∀ i, (h.cells i).dmark = true → (h.cells i).cmark = true := by
    intro i hd
    rw [(hcells0 i).2] at hd
    cases hd
  have hcl : marksClosed h := by
    intro d hdlt hcm
    rw [(hcells0 d).1] at hcm
    cases hcm
  obtain ⟨hM, hrunM, post⟩ := markRoots_spec roots h hg hcl hdc hroots
  have hbsM : blockStarts hM.blocks 0 = blockStarts h.blocks 0 :=
    blockStarts_of_shape post.shape 0
  have hvalM : ∀ r ∈ roots, validVal hM r :=
    fun r hr => validVal_congr post.hnc hbsM (hroots r hr)
  have hreachM : ∀ v, Reachable h roots v → childMarked hM v := by
    rintro v ⟨r, hr, hre⟩
    have hreM : ReachV hM r v := ReachV_congr (fun i => (post.slots i).symm) hre
    exact reach_marked post.good post.closed hreM (hvalM r hr)
      (post.rootsMarked r hr)
  have hcellIff : ∀ d, (hM.cells d).cmark = true ↔
      Reachable h roots (.cell d) := by
    intro d
    constructor
    · intro hm
      rcases post.csound d hm with hold | hre
      · rw [(hcells0 d).1] at hold
        cases hold
      · exact hre
    · intro hre
      exact hreachM (.cell d) hre
  have hsmark0 : ∀ a, smarkAt h a = false := by
    intro a
    rcases hsa : smarkAt h a with _ | _
    · rfl
    · obtain ⟨b, hb, hbm⟩ := (smarkAux_blockAtAux h.blocks 0 a).mp hsa
      rw [hblocks0 b (blockAtAux_mem _ _ _ _ hb)] at hbm
      cases hbm
  have hstorIff : ∀ a, smarkAt hM a = true ↔ Reachable h roots (.stor a) := by
    intro a
    constructor
    · intro hm
      rcases post.ssound a hm with hold | hre
      · rw [hsmark0 a] at hold
        cases hold
      · exact hre
    · intro hre
      exact hreachM (.stor a) hre
  obtain ⟨hsm, hsd, hsc⟩ := sweepCboxGo_spec hM hM.ncells
  have hfields := sweepCboxGo_fields hM .nil hM.ncells
  have hblocks2 : (sweepCbox hM).blocks = hM.blocks := hfields.2.1
  have key : sweepStorage (sweepCbox hM) =
      { sweepCbox hM with blocks := (sweepStorGo hM.blocks 0 .nil).1,
                          storFree := (sweepStorGo hM.blocks 0 .nil).2 } := by
    unfold sweepStorage
    rw [hblocks2]
  have hblocks' : (sweepStorage (sweepCbox hM)).blocks =
      (sweepStorGo hM.blocks 0 Val.nil).1 := by
    rw [key]
  have hstorFree' : (sweepStorage (sweepCbox hM)).storFree =
      (sweepStorGo hM.blocks 0 Val.nil).2 := by
    rw [key]
  have hszM : totalSize hM.blocks ≤ 65536 := by
    rw [totalSize_of_shape post.shape]
    exact hsz
  have hposM : ∀ b ∈ hM.blocks, 1 ≤ b.bsize := pos_of_shape post.shape hbpos
  have hstor := sweepStorGo_spec (totalSize hM.blocks + hM.blocks.length)
    hM.blocks 0 .nil (le_refl _) hszM hposM
  refine ⟨sweepStorage (sweepCbox hM), ?_, ?_, ?_, ?_, ?_⟩
  · unfold garbageCollect
    rw [hrunM]
    rfl
  · -- reachable cons boxes keep their slots
    intro d hre
    have hmark : (hM.cells d).cmark = true := (hcellIff d).mpr hre
    have hdlt : d < hM.ncells := by
      obtain ⟨r, hr, hrev⟩ := hre
      have := ReachV_valid hg hrev (hroots r hr)
      rw [post.hnc]
      exact this
    have hc2 := hsm d hdlt hmark
    have hstep : cellSlots (sweepStorage (sweepCbox hM)) d = cellSlots hM d := by
      unfold cellSlots
      rw [show (sweepStorage (sweepCbox hM)).cells d =
        (sweepCboxGo hM .nil hM.ncells).1.cells d from rfl, hc2]
    rw [hstep]
    exact post.slots d
  · -- reachable storage blocks keep their content and address
    intro a b hba hre
    obtain ⟨bM, hbM, hbsz, hbtd, hbdat, hblink⟩ :=
      blockAtAux_shape h.blocks hM.blocks post.shape.symm 0 a b hba
    have hsmM : smarkAt hM a = true := (hstorIff a).mpr hre
    obtain ⟨bb, hbb, hbbm⟩ := (smarkAux_blockAtAux hM.blocks 0 a).mp hsmM
    have hbbM : bb = bM := by
      rw [hbM] at hbb
      exact (Option.some.inj hbb).symm
    rw [hbbM] at hbbm
    have hkeep := hstor.keep a bM hbM hbbm
    have hEq : ({ bM with bmark := false } : Block) = b :=
      block_ext hbsz hbtd
        (by rw [hblocks0 b (blockAtAux_mem _ _ _ _ hba)]) hbdat hblink
    show blockAtAux (sweepStorage (sweepCbox hM)).blocks 0 a = some b
    rw [hblocks', hkeep, hEq]
  · -- dead cons boxes form the rebuilt free list, each exactly once
    refine ⟨deadBelow hM hM.ncells, ?_, deadBelow_nodup hM _, ?_⟩
    · exact hsc.carryover (fun i _ => rfl)
    · intro d hdlt
      rw [deadBelow_mem]
      constructor
      · rintro ⟨_, hcm⟩ hre
        rw [(hcellIff d).mpr hre] at hcm
        cases hcm
      · intro hnre
        refine ⟨by rw [post.hnc]; exact hdlt, ?_⟩
        rcases hcm : (hM.cells d).cmark with _ | _
        · rfl
        · exact absurd ((hcellIff d).mp hcm) hnre
  · -- dead storage is absorbed by exactly one free-list entry
    obtain ⟨sl, hch, hbd0, hnd, hcov⟩ := hstor.chain
    refine ⟨sl, ?_, hnd, ?_⟩
    · rw [hblocks', hstorFree']
      exact hch
    · intro a b hba hnre
      obtain ⟨bM, hbM, hbsz, hbtd, hbdat, hblink⟩ :=
        blockAtAux_shape h.blocks hM.blocks post.shape.symm 0 a b hba
      have hbMm : bM.bmark = false := by
        rcases hmm : bM.bmark with _ | _
        · rfl
        · have : smarkAt hM a = true :=
            (smarkAux_blockAtAux hM.blocks 0 a).mpr ⟨bM, hbM, hmm⟩
          exact absurd ((hstorIff a).mp this) hnre
      obtain ⟨x, hxsl, bx, hlook, hxa, hcover⟩ := hcov a bM hbM hbMm
      have hposb : 1 ≤ b.bsize := hbpos b (blockAtAux_mem _ _ _ _ hba)
      refine ⟨x, ⟨hxsl, bx, ?_, hxa, ?_⟩, ?_⟩
      · show blockAtAux (sweepStorage (sweepCbox hM)).blocks 0 x = some bx
        rw [hblocks']
        exact hlook
      · rw [← hbsz]
        exact hcover
      · rintro y ⟨hysl, by', hlooky, hya, hcovy⟩
        have hlooky' : blockAtAux (sweepStorGo hM.blocks 0 Val.nil).1 0 y =
            some by' := by
          rw [← hblocks']
          exact hlooky
        rcases Nat.lt_trichotomy y x with hyx | heq | hxy
        · have hdisj := blockAtAux_disjoint _ 0 y x by' bx hstor.pos
            hlooky' hlook hyx
          omega
        · exact heq
        · have hdisj := blockAtAux_disjoint _ 0 x y bx by' hstor.pos
            hlook hlooky' hxy
          omega

theorem c1_gc_soundness_witness :
    ∃ h', garbageCollect dswDemoHeap [Val.cell 0] = some h' ∧
      (∀ d, Reachable dswDemoHeap [Val.cell 0] (.cell d) →
        cellSlots h' d = cellSlots dswDemoHeap d) ∧
      (∀ a b, blockAt dswDemoHeap a = some b →
        Reachable dswDemoHeap [Val.cell 0] (.stor a) → blockAt h' a = some b) ∧
      (∃ l, FreeCellChain h' h'.cboxFree l ∧ l.Nodup ∧
        ∀ d, d < dswDemoHeap.ncells →
          (d ∈ l ↔ ¬Reachable dswDemoHeap [Val.cell 0] (.cell d))) ∧
      (∃ sl, StorChain h'.blocks 0 h'.storFree sl .nil ∧ sl.Nodup ∧
        ∀ a b, blockAt dswDemoHeap a = some b →
          ¬Reachable dswDemoHeap [Val.cell 0] (.stor a) →
          ∃! x, x ∈ sl ∧ ∃ bx, blockAt h' x = some bx ∧ x ≤ a ∧
            a + b.bsize ≤ x + bx.bsize) :=
  c1_gc_soundness dswDemoHeap [Val.cell 0]
    (by
      intro i hi
      refine ⟨?_, ?_, ?_⟩
      · intro hx
        exact nomatch hx
      · exact trivial
      · exact trivial)
    (fun i => ⟨rfl, rfl⟩)
    (by
      intro b hb
      exact absurd hb (List.not_mem_nil b))
    (by
      intro r hr
      rw [List.mem_singleton] at hr
      subst hr
      exact Nat.zero_lt_one)
    (Nat.zero_le _)
    (by
      intro b hb
      exact absurd hb (List.not_mem_nil b))

/-! ### the allocators (MEMORY.C lines 415-478) -/

/-- Detach the head of the cons-box free list: `tmp = cbox_free;
cbox_free = cdr(tmp); set_cdr(tmp, NIL)`. -/
def popCbox (h : Heap) (t : Nat) : Heap × Nat :=
  ({ setCdr h t .nil with cboxFree := (h.cells t).cdr }, t)

/-- `new_cons`: consult the free list; on exhaustion collect and retry
once; a second failure raises the out-of-memory recovery error.  The
`Bool` records whether the collector ran. -/
def newCons (h : Heap) (roots : List Val) :
    Option (Bool × Except String (Heap × Nat)) :=
  match h.cboxFree with
  | .cell t => some (false, .ok (popCbox h t))
  | .nil =>
      (garbageCollect h roots).bind fun h1 =>
        match h1.cboxFree with
        | .cell t => some (true, .ok (popCbox h1 t))
        | .nil => some (true, .error "Out of cons box space")
        | _ => none
  | _ => none

/-- `new_storage`'s size rounding: bytes to an even number of longs, two
extra longs included for the header and the free pointer
(`((((size+3)/4)+2)/2)*2` with 4-byte longs). -/
def roundSize (bytes : Nat) : Nat := ((((bytes + 3) / 4) + 2) / 2) * 2

/-- The first-fit walk along the storage free list, remembering the
previous entry; returns `some none` when the list is exhausted. -/
def storWalk (h : Heap) (size : Nat) :
    Val → Option Nat → Nat → Option (Option (Nat × Option Nat))
  | .nil, _, _ => some none
  | .stor a, last, fuel + 1 =>
      match blockAt h a with
      | some b =>
          if b.bsize < size then storWalk h size b.blink (some a) fuel
          else some (some (a, last))
      | none => none
  | _, _, _ => none

/-- Cut the tail of a free block off for allocation: the free block keeps
the bottom `bsize - size` longs, the allocated block is the top part. -/
def splitBlocks : List Block → Nat → Nat → Nat → List Block
  | [], _, _, _ => []
  | b :: rest, base, a, size =>
      if a = base then
        { b with bsize := b.bsize - size } ::
          { bsize := size, btd := 0, bmark := false, bdata := .nodata,
            blink := .nil } :: rest
      else b :: splitBlocks rest (base + b.bsize) a size

def setBlinkAt : List Block → Nat → Nat → Val → List Block
  | [], _, _, _ => []
  | b :: rest, base, a, v =>
      if a = base then { b with blink := v } :: rest
      else b :: setBlinkAt rest (base + b.bsize) a v

/-- Take the found block off the free list (splitting it when it is
larger than requested). -/
def storAllocAt (h : Heap) (a size : Nat) (last : Option Nat) :
    Option (Heap × Nat) :=
  match blockAt h a with
  | none => none
  | some b =>
      if b.bsize - size ≠ 0 then
        some ({ h with blocks := splitBlocks h.blocks 0 a size },
          a + (b.bsize - size))
      else
        match last with
        | none => some ({ h with storFree := b.blink }, a)
        | some lb =>
            some ({ h with blocks := setBlinkAt h.blocks 0 lb b.blink }, a)

/-- `new_storage`: first-fit on the free list; on exhaustion collect and
retry once; a second failure raises the out-of-memory recovery error. -/
def newStorage (h : Heap) (roots : List Val) (bytes : Nat) :
    Option (Bool × Except String (Heap × Nat)) :=
  if 65536 < roundSize bytes then
    some (false, .error "too large a block requested")
  else
    match storWalk h (roundSize bytes) h.storFree none (h.blocks.length + 1)
      with
    | none => none
    | some (some (a, last)) =>
        (storAllocAt h a (roundSize bytes) last).map fun r => (false, .ok r)
    | some none =>
        (garbageCollect h roots).bind fun h1 =>
          match storWalk h1 (roundSize bytes) h1.storFree none
            (h1.blocks.length + 1) with
          | none => none
          | some (some (a, last)) =>
              (storAllocAt h1 a (roundSize bytes) last).map fun r =>
                (true, .ok r)
          | some none => some (true, .error "Out of storage space")

lemma storWalk_found (h : Heap) (size : Nat) :
    ∀ (fuel : Nat) (v : Val) (last : Option Nat) (a : Nat)
      (res : Option Nat),
      storWalk h size v last fuel = some (some (a, res)) →
      ∃ b, blockAt h a = some b ∧ size ≤ b.bsize := by
  intro fuel
  induction fuel with
  | zero =>
      intro v last a res hw
      rcases v with _ | w | i | x
      · simp [storWalk] at hw
      · simp [storWalk] at hw
      · simp [storWalk] at hw
      · simp [storWalk] at hw
  | succ fuel ih =>
      intro v last a res hw
      rcases v with _ | w | i | x
      · simp [storWalk] at hw
      · simp [storWalk] at hw
      · simp [storWalk] at hw
      · simp only [storWalk] at hw
        rcases hb : blockAt h x with _ | b
        · rw [hb] at hw
          simp at hw
        · rw [hb] at hw
          simp only at hw
          by_cases hlt : b.bsize < size
          · rw [if_pos hlt] at hw
            exact ih b.blink (some x) a res hw
          · rw [if_neg hlt] at hw
            simp only [Option.some.injEq, Prod.mk.injEq] at hw
            obtain ⟨rfl, -⟩ := hw
            exact ⟨b, hb, by omega⟩

lemma storWalk_exhaust (h : Heap) (size : Nat) :
    ∀ (l : List Nat) (v : Val), StorChain h.blocks 0 v l .nil →
      (∀ x ∈ l, ∀ bx, blockAt h x = some bx → bx.bsize < size) →
      ∀ (fuel : Nat) (last : Option Nat), l.length < fuel →
        storWalk h size v last fuel = some none := by
  intro l
  induction l with
  | nil =>
      intro v hch _ fuel last hf
      have hv : v = Val.nil := hch
      subst hv
      rcases fuel with _ | fuel
      · omega
      · rfl
  | cons x rest ih =>
      intro v hch hunfit fuel last hf
      obtain ⟨b, rfl, hlook, htail⟩ := hch
      rcases fuel with _ | fuel
      · simp at hf
      · have hblk : blockAt h x = some b := hlook
        have hlt : b.bsize < size :=
          hunfit x (List.mem_cons_self _ _) b hblk
        simp only [storWalk]
        rw [hblk]
        simp only
        rw [if_pos hlt]
        exact ih b.blink htail
          (fun y hy bY hbY => hunfit y (List.mem_cons_of_mem _ hy) bY hbY)
          fuel (some x) (by simp at hf ⊢; omega)

lemma gc_analysis (h : Heap) (roots : List Val)
    (hg : goodHeap h)
    (hcells0 : ∀ i, (h.cells i).cmark = false ∧ (h.cells i).dmark = false)
    (hblocks0 : ∀ b ∈ h.blocks, b.bmark = false)
    (hroots : ∀ r ∈ roots, validVal h r) :
    ∃ hM, markRoots h roots = some hM ∧ RootsPost h roots hM ∧
      (∀ d, (hM.cells d).cmark = true ↔ Reachable h roots (.cell d)) ∧
      (∀ a, smarkAt hM a = true ↔ Reachable h roots (.stor a)) := by
  have hdc : ∀ i, (h.cells i).dmark = true → (h.cells i).cmark = true := by
    intro i hd
    rw [(hcells0 i).2] at hd
    cases hd
  have hcl : marksClosed h := by
    intro d hdlt hcm
    rw [(hcells0 d).1] at hcm
    cases hcm
  obtain ⟨hM, hrunM, post⟩ := markRoots_spec roots h hg hcl hdc hroots
  have hbsM : blockStarts hM.blocks 0 = blockStarts h.blocks 0 :=
    blockStarts_of_shape post.shape 0
  have hvalM : ∀ r ∈ roots, validVal hM r :=
    fun r hr => validVal_congr post.hnc hbsM (hroots r hr)
  have hreachM : ∀ v, Reachable h roots v → childMarked hM v := by
    rintro v ⟨r, hr, hre⟩
    have hreM : ReachV hM r v := ReachV_congr (fun i => (post.slots i).symm) hre
    exact reach_marked post.good post.closed hreM (hvalM r hr)
      (post.rootsMarked r hr)
  have hsmark0 : ∀ a, smarkAt h a = false := by
    intro a
    rcases hsa : smarkAt h a with _ | _
    · rfl
    · obtain ⟨b, hb, hbm⟩ := (smarkAux_blockAtAux h.blocks 0 a).mp hsa
      rw [hblocks0 b (blockAtAux_mem _ _ _ _ hb)] at hbm
      cases hbm
  refine ⟨hM, hrunM, post, ?_, ?_⟩
  · intro d
    constructor
    · intro hm
      rcases post.csound d hm with hold | hre
      · rw [(hcells0 d).1] at hold
        cases hold
      · exact hre
    · intro hre
      exact hreachM (.cell d) hre
  · intro a
    constructor
    · intro hm
      rcases post.ssound a hm with hold | hre
      · rw [hsmark0 a] at hold
        cases hold
      · exact hre
    · intro hre
      exact hreachM (.stor a) hre

lemma gc_cbox_outcome (h : Heap) (roots : List Val)
    (hg : goodHeap h)
    (hcells0 : ∀ i, (h.cells i).cmark = false ∧ (h.cells i).dmark = false)
    (hblocks0 : ∀ b ∈ h.blocks, b.bmark = false)
    (hroots : ∀ r ∈ roots, validVal h r) :
    ∃ h', garbageCollect h roots = some h' ∧
      (((∃ d, d < h.ncells ∧ ¬Reachable h roots (.cell d)) ∧
          ∃ t, h'.cboxFree = Val.cell t) ∨
        ((∀ d, d < h.ncells → Reachable h roots (.cell d)) ∧
          h'.cboxFree = Val.nil)) := by
  obtain ⟨hM, hrunM, post, hcellIff, _⟩ :=
    gc_analysis h roots hg hcells0 hblocks0 hroots
  obtain ⟨_, _, hsc⟩ := sweepCboxGo_spec hM hM.ncells
  refine ⟨sweepStorage (sweepCbox hM), ?_, ?_⟩
  · unfold garbageCollect
    rw [hrunM]
    rfl
  · rcases hd : deadBelow hM hM.ncells with _ | ⟨d0, rest⟩
    · rw [hd] at hsc
      refine Or.inr ⟨?_, hsc⟩
      intro d hdlt
      by_contra hnre
      have hcm : (hM.cells d).cmark = false := by
        rcases hc : (hM.cells d).cmark with _ | _
        · rfl
        · exact absurd ((hcellIff d).mp hc) hnre
      have hmem : d ∈ deadBelow hM hM.ncells :=
        (deadBelow_mem hM hM.ncells d).mpr
          ⟨by rw [post.hnc]; exact hdlt, hcm⟩
      rw [hd] at hmem
      exact absurd hmem (List.not_mem_nil d)
    · rw [hd] at hsc
      obtain ⟨hhead, -, -⟩ := hsc
      refine Or.inl ⟨?_, d0, hhead⟩
      have hmem : d0 ∈ deadBelow hM hM.ncells := by
        rw [hd]
        exact List.mem_cons_self _ _
      obtain ⟨hlt, hcm⟩ := (deadBelow_mem hM hM.ncells d0).mp hmem
      refine ⟨d0, by rw [← post.hnc]; exact hlt, ?_⟩
      intro hre
      rw [(hcellIff d0).mpr hre] at hcm
      cases hcm

lemma storAllocAt_some (h : Heap) (a size : Nat) (last : Option Nat)
    (b : Block) (hb : blockAt h a = some b) :
    ∃ r, storAllocAt h a size last = some r := by
  simp only [storAllocAt, hb]
  by_cases h0 : b.bsize - size ≠ 0
  · rw [if_pos h0]
    exact ⟨_, rfl⟩
  · rw [if_neg h0]
    rcases last with _ | lb
    · exact ⟨_, rfl⟩
    · exact ⟨_, rfl⟩

/-- **C3.** Both allocation entry points consult their free list first:
`new_cons` pops the head of the cons-box free list without collecting, and
`new_storage` serves the first fitting free block without collecting.  On
exhaustion each invokes the garbage collector and retries exactly once; if
the retry also finds nothing suitable (for `new_cons`: every cons box is
reachable from the roots), the out-of-memory error is raised instead of a
value being returned.  Oversized storage requests (beyond the 65536-long
cap) raise the internal error without collecting. -/
theorem c3_alloc_retry (h : Heap) (roots : List Val) (bytes : Nat)
    (hg : goodHeap h)
    (hcells0 : ∀ i, (h.cells i).cmark = false ∧ (h.cells i).dmark = false)
    (hblocks0 : ∀ b ∈ h.blocks, b.bmark = false)
    (hroots : ∀ r ∈ roots, validVal h r) :
    (∀ t, h.cboxFree = .cell t →
      newCons h roots = some (false, .ok (popCbox h t))) ∧
    (h.cboxFree = .nil →
      ∃ h1, garbageCollect h roots = some h1 ∧
        ((∃ d, d < h.ncells ∧ ¬Reachable h roots (.cell d)) →
          ∃ t, h1.cboxFree = .cell t ∧
            newCons h roots = some (true, .ok (popCbox h1 t))) ∧
        ((∀ d, d < h.ncells → Reachable h roots (.cell d)) →
          newCons h roots = some (true, .error "Out of cons box space"))) ∧
    (65536 < roundSize bytes →
      newStorage h roots bytes =
        some (false, .error "too large a block requested")) ∧
    (roundSize bytes ≤ 65536 →
      ∀ a last, storWalk h (roundSize bytes) h.storFree none
          (h.blocks.length + 1) = some (some (a, last)) →
        ∃ r, newStorage h roots bytes = some (false, .ok r)) ∧
    (roundSize bytes ≤ 65536 →
      storWalk h (roundSize bytes) h.storFree none (h.blocks.length + 1) =
        some none →
      ∃ h1, garbageCollect h roots = some h1 ∧
        (∀ a last, storWalk h1 (roundSize bytes) h1.storFree none
            (h1.blocks.length + 1) = some (some (a, last)) →
          ∃ r, newStorage h roots bytes = some (true, .ok r)) ∧
        (storWalk h1 (roundSize bytes) h1.storFree none
            (h1.blocks.length + 1) = some none →
          newStorage h roots bytes =
            some (true, .error "Out of storage space"))) := by
  obtain ⟨h1, hrun, houtcome⟩ :=
    gc_cbox_outcome h roots hg hcells0 hblocks0 hroots
  refine ⟨?_, ?_, ?_, ?_, ?_⟩
  · intro t ht
    unfold newCons
    rw [ht]
  · intro hnil
    refine ⟨h1, hrun, ?_, ?_⟩
    · intro hdead
      rcases houtcome with ⟨_, t, ht⟩ | ⟨hall, _⟩
      · refine ⟨t, ht, ?_⟩
        unfold newCons
        rw [hnil, hrun]
        simp only [Option.some_bind]
        rw [ht]
      · obtain ⟨d, hdlt, hnre⟩ := hdead
        exact absurd (hall d hdlt) hnre
    · intro hall
      rcases houtcome with ⟨⟨d, hdlt, hnre⟩, _⟩ | ⟨_, hnil1⟩
      · exact absurd (hall d hdlt) hnre
      · unfold newCons
        rw [hnil, hrun]
        simp only [Option.some_bind]
        rw [hnil1]
  · intro hbig
    unfold newStorage
    rw [if_pos hbig]
  · intro hsmall a last hw
    obtain ⟨b, hb, hfit⟩ := storWalk_found h (roundSize bytes) _ _ _ _ _ hw
    obtain ⟨r, hr⟩ := storAllocAt_some h a (roundSize bytes) last b hb
    refine ⟨r, ?_⟩
    unfold newStorage
    rw [if_neg (by omega), hw]
    show Option.map (fun r => ((false : Bool), Except.ok r))
      (storAllocAt h a (roundSize bytes) last) = some (false, Except.ok r)
    rw [hr]
    rfl
  · intro hsmall hwnone
    refine ⟨h1, hrun, ?_, ?_⟩
    · intro a last hw1
      obtain ⟨b, hb, hfit⟩ := storWalk_found h1 (roundSize bytes) _ _ _ _ _ hw1
      obtain ⟨r, hr⟩ := storAllocAt_some h1 a (roundSize bytes) last b hb
      refine ⟨r, ?_⟩
      unfold newStorage
      rw [if_neg (by omega), hwnone, hrun]
      simp only [Option.some_bind]
      rw [hw1]
      show Option.map (fun r => ((true : Bool), Except.ok r))
        (storAllocAt h1 a (roundSize bytes) last) = some (true, Except.ok r)
      rw [hr]
      rfl
    · intro hw1none
      unfold newStorage
      rw [if_neg (by omega), hwnone, hrun]
      simp only [Option.some_bind]
      rw [hw1none]

theorem c3_alloc_retry_witness :
    (∀ t, dswDemoHeap.cboxFree = .cell t →
      newCons dswDemoHeap [] = some (false, .ok (popCbox dswDemoHeap t))) ∧
    (dswDemoHeap.cboxFree = .nil →
      ∃ h1, garbageCollect dswDemoHeap [] = some h1 ∧
        ((∃ d, d < dswDemoHeap.ncells ∧
            ¬Reachable dswDemoHeap [] (.cell d)) →
          ∃ t, h1.cboxFree = .cell t ∧
            newCons dswDemoHeap [] = some (true, .ok (popCbox h1 t))) ∧
        ((∀ d, d < dswDemoHeap.ncells → Reachable dswDemoHeap [] (.cell d)) →
          newCons dswDemoHeap [] =
            some (true, .error "Out of cons box space"))) ∧
    (65536 < roundSize 0 →
      newStorage dswDemoHeap [] 0 =
        some (false, .error "too large a block requested")) ∧
    (roundSize 0 ≤ 65536 →
      ∀ a last, storWalk dswDemoHeap (roundSize 0) dswDemoHeap.storFree none
          (dswDemoHeap.blocks.length + 1) = some (some (a, last)) →
        ∃ r, newStorage dswDemoHeap [] 0 = some (false, .ok r)) ∧
    (roundSize 0 ≤ 65536 →
      storWalk dswDemoHeap (roundSize 0) dswDemoHeap.storFree none
        (dswDemoHeap.blocks.length + 1) = some none →
      ∃ h1, garbageCollect dswDemoHeap [] = some h1 ∧
        (∀ a last, storWalk h1 (roundSize 0) h1.storFree none
            (h1.blocks.length + 1) = some (some (a, last)) →
          ∃ r, newStorage dswDemoHeap [] 0 = some (true, .ok r)) ∧
        (storWalk h1 (roundSize 0) h1.storFree none
            (h1.blocks.length + 1) = some none →
          newStorage dswDemoHeap [] 0 =
            some (true, .error "Out of storage space"))) :=
  c3_alloc_retry dswDemoHeap [] 0
    (by
      intro i hi
      refine ⟨?_, ?_, ?_⟩
      · intro hx
        exact nomatch hx
      · exact trivial
      · exact trivial)
    (fun i => ⟨rfl, rfl⟩)
    (by
      intro b hb
      exact absurd hb (List.not_mem_nil b))
    (by
      intro r hr
      exact absurd hr (List.not_mem_nil r))

/-! ### arithmetic views of the zap bit fields (MAGIC.C lines 754-803) -/

lemma and_mask (x n : Nat) : x &&& (2 ^ n - 1) = x % 2 ^ n := by
  apply Nat.eq_of_testBit_eq
  intro i
  rw [Nat.testBit_land, Nat.testBit_two_pow_sub_one, Nat.testBit_mod_two_pow]
  exact Bool.and_comm _ _

lemma lor_shift_add {N x k : Nat} (hN : N < 2 ^ k) :
    N ||| x <<< k = N + 2 ^ k * x := by
  apply Nat.eq_of_testBit_eq
  intro i
  rw [Nat.testBit_lor, Nat.testBit_shiftLeft]
  rcases lt_or_ge i k with hik | hik
  · have h1 : (N + 2 ^ k * x).testBit i =
        ((N + 2 ^ k * x) % 2 ^ k).testBit i := by
      rw [Nat.testBit_mod_two_pow, decide_eq_true hik, Bool.true_and]
    have h2 : (N + 2 ^ k * x) % 2 ^ k = N := by
      rw [Nat.add_mul_mod_self_left]
      exact Nat.mod_eq_of_lt hN
    rw [h1, h2, decide_eq_false (by omega : ¬i ≥ k), Bool.false_and,
      Bool.or_false]
  · have hx : (N + 2 ^ k * x) >>> k = x := by
      rw [Nat.shiftRight_eq_div_pow,
        Nat.add_mul_div_left N x (Nat.pos_pow_of_pos k (by omega)),
        Nat.div_eq_of_lt hN, Nat.zero_add]
    have h1 : (N + 2 ^ k * x).testBit i = x.testBit (i - k) := by
      have hi : i = k + (i - k) := by omega
      conv_lhs => rw [hi]
      rw [← Nat.testBit_shiftRight, hx]
    have hN0 : N.testBit i = false :=
      Nat.testBit_lt_two_pow
        (lt_of_lt_of_le hN (Nat.pow_le_pow_right (by omega) hik))
    rw [h1, hN0, decide_eq_true hik, Bool.true_and, Bool.false_or]

lemma wandnot_low {x m k : Nat} (hx : x < 2 ^ k) (hk : k ≤ 32)
    (hm : ∀ i, i < k → m.testBit i = false) : wandnot x m = x := by
  apply Nat.eq_of_testBit_eq
  intro i
  unfold wandnot
  rw [Nat.testBit_land, Nat.testBit_xor]
  rcases lt_or_ge i k with hik | hik
  · have h32 : (0xFFFFFFFF : Nat).testBit i = true := by
      have : (0xFFFFFFFF : Nat) = 2 ^ 32 - 1 := by norm_num
      rw [this, Nat.testBit_two_pow_sub_one]
      exact decide_eq_true (by omega)
    rw [h32, hm i hik]
    simp
  · have hx0 : x.testBit i = false :=
      Nat.testBit_lt_two_pow
        (lt_of_lt_of_le hx (Nat.pow_le_pow_right (by omega) hik))
    rw [hx0, Bool.false_and]

/-- A field setter on a word that only occupies bits below the field:
the result is plain addition. -/
lemma set_field_add {x : Nat} (v k w : Nat) (hx : x < 2 ^ k)
    (hk : k ≤ 32) :
    wandnot x ((2 ^ w - 1) <<< k) ||| ((v &&& (2 ^ w - 1)) <<< k) =
      x + 2 ^ k * (v % 2 ^ w) := by
  rw [wandnot_low hx hk (by
    intro i hik
    rw [Nat.testBit_shiftLeft, decide_eq_false (by omega : ¬i ≥ k),
      Bool.false_and])]
  rw [and_mask, lor_shift_add hx]

lemma setZapSpecial_eq {x : Nat} (h8 : x % 8 = 0) (hx : x < 2 ^ 32) :
    setZapSpecial x = .special (x + 6) := by
  unfold setZapSpecial
  have hw : wandnot x 6 = x := by
    apply Nat.eq_of_testBit_eq
    intro i
    unfold wandnot
    rw [Nat.testBit_land, Nat.testBit_xor]
    rcases lt_or_ge i 32 with hik | hik
    · have h32 : (0xFFFFFFFF : Nat).testBit i = true := by
        have : (0xFFFFFFFF : Nat) = 2 ^ 32 - 1 := by norm_num
        rw [this, Nat.testBit_two_pow_sub_one]
        exact decide_eq_true (by omega)
      rw [h32]
      rcases lt_or_ge i 3 with hi3 | hi3
      · have hxlow : x.testBit i = false := by
          have h1 : x.testBit i = (x % 2 ^ 3).testBit i := by
            rw [Nat.testBit_mod_two_pow, decide_eq_true hi3, Bool.true_and]
          rw [h1]
          have : x % 2 ^ 3 = 0 := h8
          rw [this]
          exact Nat.zero_testBit i
        rw [hxlow]
        rfl
      · have h6 : (6 : Nat).testBit i = false :=
          Nat.testBit_lt_two_pow
            (lt_of_lt_of_le (by omega) (Nat.pow_le_pow_right (by omega) hi3))
        rw [h6]
        simp
    · have hx0 : x.testBit i = false :=
        Nat.testBit_lt_two_pow
          (lt_of_lt_of_le hx (Nat.pow_le_pow_right (by omega) hik))
      rw [hx0, Bool.false_and]
  rw [hw]
  have hor : x ||| 6 = x + 6 := by
    have h1 : (6 : Nat) ||| (x / 8) <<< 3 = 6 + 2 ^ 3 * (x / 8) :=
      lor_shift_add (by omega)
    have h2 : (x / 8) <<< 3 = x := by
      rw [Nat.shiftLeft_eq_mul_pow]
      omega
    rw [h2] at h1
    rw [Nat.lor_comm, h1]
    omega
  rw [hor]

lemma getZapType_eq (x : Nat) : getZapType x = x / 8 % 32 := by
  unfold getZapType
  rw [show (0x1F : Nat) = 2 ^ 5 - 1 by norm_num, and_mask,
    Nat.shiftRight_eq_div_pow]
  norm_num

lemma getZapDataA_eq (x : Nat) : getZapDataA x = x / 256 % 256 := by
  unfold getZapDataA
  rw [show (0xFF : Nat) = 2 ^ 8 - 1 by norm_num, and_mask,
    Nat.shiftRight_eq_div_pow]
  norm_num

lemma getZapDataB0_eq (x : Nat) : getZapDataB0 x = x / 65536 % 256 := by
  unfold getZapDataB0
  rw [show (0xFF : Nat) = 2 ^ 8 - 1 by norm_num, and_mask,
    Nat.shiftRight_eq_div_pow]
  norm_num

lemma getZapDataB1_eq (x : Nat) : getZapDataB1 x = x / 16777216 % 256 := by
  unfold getZapDataB1
  rw [show (0xFF : Nat) = 2 ^ 8 - 1 by norm_num, and_mask,
    Nat.shiftRight_eq_div_pow]
  norm_num

lemma getZapDataB_eq (x : Nat) : getZapDataB x = x / 65536 % 65536 := by
  unfold getZapDataB
  rw [show (0xFFFF : Nat) = 2 ^ 16 - 1 by norm_num, and_mask,
    Nat.shiftRight_eq_div_pow]
  norm_num

lemma setZapType_eq {x : Nat} (t : Nat) (hx : x < 8) :
    setZapType x t = x + 8 * (t % 32) := by
  unfold setZapType
  rw [show (0xF8 : Nat) = (2 ^ 5 - 1) <<< 3 by decide,
    show (0x1F : Nat) = 2 ^ 5 - 1 by norm_num]
  have := @set_field_add x t 3 5 (by omega) (by omega)
  simpa using this

lemma setZapDataA_eq {x : Nat} (v : Nat) (hx : x < 256) :
    setZapDataA x v = x + 256 * (v % 256) := by
  unfold setZapDataA
  rw [show (0xFF00 : Nat) = (2 ^ 8 - 1) <<< 8 by decide,
    show (0xFF : Nat) = 2 ^ 8 - 1 by norm_num]
  have := @set_field_add x v 8 8 (by omega) (by omega)
  simpa using this

lemma setZapDataB0_eq {x : Nat} (v : Nat) (hx : x < 65536) :
    setZapDataB0 x v = x + 65536 * (v % 256) := by
  unfold setZapDataB0
  rw [show (0xFF0000 : Nat) = (2 ^ 8 - 1) <<< 16 by decide,
    show (0xFF : Nat) = 2 ^ 8 - 1 by norm_num]
  have := @set_field_add x v 16 8 (by omega) (by omega)
  simpa using this

lemma setZapDataB1_eq {x : Nat} (v : Nat) (hx : x < 16777216) :
    setZapDataB1 x v = x + 16777216 * (v % 256) := by
  unfold setZapDataB1
  rw [show (0xFF000000 : Nat) = (2 ^ 8 - 1) <<< 24 by decide,
    show (0xFF : Nat) = 2 ^ 8 - 1 by norm_num]
  have := @set_field_add x v 24 8 (by omega) (by omega)
  simpa using this

lemma setZapDataB_eq {x : Nat} (v : Nat) (hx : x < 65536) :
    setZapDataB x v = x + 65536 * (v % 65536) := by
  unfold setZapDataB
  rw [show (0xFFFF0000 : Nat) = (2 ^ 16 - 1) <<< 16 by decide,
    show (0xFFFF : Nat) = 2 ^ 16 - 1 by norm_num]
  have := @set_field_add x v 16 16 (by omega) (by omega)
  simpa using this

/-! ### MAGIC.C: tagged-value constructors, accessors and type predicates.
The zap type constants (MAGIC.C lines 141-151) and the storage type
descriptors (lines 158-161). -/

def BOOL_MAGIC : Nat := 0
def CHAR_MAGIC : Nat := 1
def STRING_MAGIC_0 : Nat := 2
def STRING_MAGIC_1 : Nat := 3
def STRING_MAGIC_2 : Nat := 4
def STRING_MAGIC_3 : Nat := 5
def SHORT_MAGIC : Nat := 7
def SYM_MAGIC_1 : Nat := 8
def SYM_MAGIC_2 : Nat := 9
def SYM_MAGIC_3 : Nat := 10

def STRING_STORAGE : Nat := 0
def INTEGER_STORAGE : Nat := 1
def SYMBOL_STORAGE : Nat := 2

/-- `make_bool` (MAGIC.C 554-563): type `BOOL_MAGIC`, dataA = `(uchar)val`
with `TRUE = 1`, `FALSE = 0` (the `bool` enum of MAGIC.C line 1006). -/
def make_bool (val : Bool) : Val :=
  setZapSpecial (setZapDataA (setZapType 0 BOOL_MAGIC) (if val then 1 else 0))

/-- `true_zap` (MAGIC.C): the interned true value, `make_bool(TRUE)`. -/
def true_zap : Val := make_bool true

/-- `false_zap` (MAGIC.C): the interned false value, `make_bool(FALSE)`. -/
def false_zap : Val := make_bool false

/-- `make_char` (MAGIC.C 682-694): type `CHAR_MAGIC`, dataB = `(uint)val`;
the cast of the (16-bit-ranged, by the assert) `int` to the 32-bit `uint`
is value mod 2^32. -/
def make_char (val : Int) : Val :=
  setZapSpecial (setZapDataB (setZapType 0 CHAR_MAGIC) (val % 4294967296).toNat)

/-- The `val <= 0x7FFF && val >= -0x8000` branch of `make_int`
(MAGIC.C 659-677): type `SHORT_MAGIC`, dataB = `(uint)val`. -/
def make_int_zap (val : Int) : Val :=
  setZapSpecial (setZapDataB (setZapType 0 SHORT_MAGIC) (val % 4294967296).toNat)

/-- The `i <= 3` branch of `make_symbol` (MAGIC.C 567-596): char bytes are
packed with dataA holding the LAST character, dataB0 the one before it,
dataB1 the one before that.  A C string is a list of nonzero bytes. -/
def make_symbol_zap : List Nat → Val
  | [c0] => setZapSpecial (setZapDataA (setZapType 0 SYM_MAGIC_1) c0)
  | [c0, c1] =>
      setZapSpecial (setZapDataB0 (setZapDataA (setZapType 0 SYM_MAGIC_2) c1) c0)
  | [c0, c1, c2] =>
      setZapSpecial
        (setZapDataB1 (setZapDataB0 (setZapDataA (setZapType 0 SYM_MAGIC_3) c2) c1) c0)
  | _ => .nil

/-- The `i <= 3` branches of `make_string` (MAGIC.C 616-647): same packing
as short symbols, with the length-indexed `STRING_MAGIC_i` types and the
empty string compressed to a bare `STRING_MAGIC_0` zap. -/
def make_string_zap : List Nat → Val
  | [] => setZapSpecial (setZapType 0 STRING_MAGIC_0)
  | [c0] => setZapSpecial (setZapDataA (setZapType 0 STRING_MAGIC_1) c0)
  | [c0, c1] =>
      setZapSpecial (setZapDataB0 (setZapDataA (setZapType 0 STRING_MAGIC_2) c1) c0)
  | [c0, c1, c2] =>
      setZapSpecial
        (setZapDataB1 (setZapDataB0 (setZapDataA (setZapType 0 STRING_MAGIC_3) c2) c1) c0)
  | _ => .nil

/-- `set_data_storage_integer` (MAGIC.C 717-722): write the long at the
block's payload and set the type descriptor. -/
def set_data_storage_integer (b : Block) (val : Int) : Block :=
  { b with btd := INTEGER_STORAGE, bdata := .intD val }

/-- `set_data_storage_string` (MAGIC.C 701-706): strcpy the bytes into the
block's payload and set the type descriptor. -/
def set_data_storage_string (b : Block) (s : List Nat) : Block :=
  { b with btd := STRING_STORAGE, bdata := .strD s }

/-- `set_data_storage_symbol` (MAGIC.C 709-714). -/
def set_data_storage_symbol (b : Block) (s : List Nat) : Block :=
  { b with btd := SYMBOL_STORAGE, bdata := .strD s }

/-- `extract_data_storage_integer` (MAGIC.C 741-746): read the long stored
at the block's payload. -/
def extract_data_storage_integer (b : Block) : Int :=
  match b.bdata with
  | .intD z => z
  | _ => 0

/-- `extract_data_storage_string` (MAGIC.C 725-730). -/
def extract_data_storage_string (b : Block) : List Nat :=
  match b.bdata with
  | .strD s => s
  | _ => []

/-- `extract_data_storage_symbol` (MAGIC.C 733-738). -/
def extract_data_storage_symbol (b : Block) : List Nat :=
  match b.bdata with
  | .strD s => s
  | _ => []

/-- `get_typedesc` (MEMORY.C) of the block at longword address `a`. -/
def get_typedesc (h : Heap) (a : Nat) : Nat :=
  match blockAt h a with
  | some b => b.btd
  | none => 0

/-- `extract_zap_string` (MAGIC.C 810-826): the switch falls through from
`case 3` down to `case 0`, so the bytes come out in the order dataB1,
dataB0, dataA. -/
def extract_zap_string (w len : Nat) : List Nat :=
  match len with
  | 3 => [getZapDataB1 w, getZapDataB0 w, getZapDataA w]
  | 2 => [getZapDataB0 w, getZapDataA w]
  | 1 => [getZapDataA w]
  | _ => []

/-- The sign extension idiom of `integer_of`/`char_of` (MAGIC.C 829-840,
883-890): `if ((i & 0x8000) != 0) i |= ~0xFFFF`.  On a 32-bit
two's-complement long with `0 <= i < 2^16`, or-ing with `~0xFFFF` yields
the value `i - 2^16`. -/
def signExtend16 (i : Nat) : Int :=
  if i &&& 0x8000 ≠ 0 then (i : Int) - 65536 else (i : Int)

/-- `integer_of` (MAGIC.C 829-840). -/
def integer_of (h : Heap) (x : Val) : Int :=
  match x with
  | .special w => signExtend16 (getZapDataB w)
  | .stor a =>
      match blockAt h a with
      | some b => extract_data_storage_integer b
      | none => 0
  | _ => 0

/-- `char_of` (MAGIC.C 883-890): dataB with 16-bit sign extension. -/
def char_of (x : Val) : Int :=
  match x with
  | .special w => signExtend16 (getZapDataB w)
  | _ => 0

/-- `bool_of` (MAGIC.C 844-848): pointer comparison with `true_zap`. -/
def bool_of (x : Val) : Bool := x == true_zap

/-- `symbol_of` (MAGIC.C 851-863). -/
def symbol_of (h : Heap) (x : Val) : List Nat :=
  match x with
  | .special w =>
      if getZapType w = SYM_MAGIC_1 then extract_zap_string w 1
      else if getZapType w = SYM_MAGIC_2 then extract_zap_string w 2
      else extract_zap_string w 3
  | .stor a =>
      match blockAt h a with
      | some b => extract_data_storage_symbol b
      | none => []
  | _ => []

/-- `string_of` (MAGIC.C 866-880). -/
def string_of (h : Heap) (x : Val) : List Nat :=
  match x with
  | .special w =>
      if getZapType w = STRING_MAGIC_0 then []
      else if getZapType w = STRING_MAGIC_1 then extract_zap_string w 1
      else if getZapType w = STRING_MAGIC_2 then extract_zap_string w 2
      else extract_zap_string w 3
  | .stor a =>
      match blockAt h a with
      | some b => extract_data_storage_string b
      | none => []
  | _ => []

/-- `integer_p` (MAGIC.C 911-919): a `SHORT_MAGIC` zap or an
`INTEGER_STORAGE` block; `NIL` and cons pointers answer false. -/
def integer_p (h : Heap) (x : Val) : Bool :=
  match x with
  | .special w => getZapType w == SHORT_MAGIC
  | .stor a => get_typedesc h a == INTEGER_STORAGE
  | _ => false

/-- `string_p` (MAGIC.C 922-934). -/
def string_p (h : Heap) (x : Val) : Bool :=
  match x with
  | .special w =>
      getZapType w == STRING_MAGIC_0 || getZapType w == STRING_MAGIC_1 ||
        getZapType w == STRING_MAGIC_2 || getZapType w == STRING_MAGIC_3
  | .stor a => get_typedesc h a == STRING_STORAGE
  | _ => false

/-- `symbol_p` (MAGIC.C 937-949). -/
def symbol_p (h : Heap) (x : Val) : Bool :=
  match x with
  | .special w =>
      getZapType w == SYM_MAGIC_1 || getZapType w == SYM_MAGIC_2 ||
        getZapType w == SYM_MAGIC_3
  | .stor a => get_typedesc h a == SYMBOL_STORAGE
  | _ => false

/-- `char_p` (MAGIC.C 952-957): only a `CHAR_MAGIC` zap. -/
def char_p (x : Val) : Bool :=
  match x with
  | .special w => getZapType w == CHAR_MAGIC
  | _ => false

/-- `bool_p` (MAGIC.C 960-962): pointer comparison with the two interned
boolean zaps. -/
def bool_p (x : Val) : Bool := x == true_zap || x == false_zap

/-! ### Building zap words: the constructor pipelines in additive form -/

lemma zap_build_A (t a : Nat) (ht : t < 32) (ha : a < 256) :
    setZapSpecial (setZapDataA (setZapType 0 t) a) =
      .special (8 * t + 256 * a + 6) := by
  rw [@setZapType_eq 0 t (by omega), Nat.mod_eq_of_lt ht, Nat.zero_add,
    @setZapDataA_eq (8 * t) a (by omega), Nat.mod_eq_of_lt ha,
    @setZapSpecial_eq (8 * t + 256 * a) (by omega) (by omega)]

lemma zap_build_AB0 (t a b0 : Nat) (ht : t < 32) (ha : a < 256)
    (hb0 : b0 < 256) :
    setZapSpecial (setZapDataB0 (setZapDataA (setZapType 0 t) a) b0) =
      .special (8 * t + 256 * a + 65536 * b0 + 6) := by
  rw [@setZapType_eq 0 t (by omega), Nat.mod_eq_of_lt ht, Nat.zero_add,
    @setZapDataA_eq (8 * t) a (by omega), Nat.mod_eq_of_lt ha,
    @setZapDataB0_eq (8 * t + 256 * a) b0 (by omega), Nat.mod_eq_of_lt hb0,
    @setZapSpecial_eq (8 * t + 256 * a + 65536 * b0) (by omega) (by omega)]

lemma zap_build_AB0B1 (t a b0 b1 : Nat) (ht : t < 32) (ha : a < 256)
    (hb0 : b0 < 256) (hb1 : b1 < 256) :
    setZapSpecial
        (setZapDataB1 (setZapDataB0 (setZapDataA (setZapType 0 t) a) b0) b1) =
      .special (8 * t + 256 * a + 65536 * b0 + 16777216 * b1 + 6) := by
  rw [@setZapType_eq 0 t (by omega), Nat.mod_eq_of_lt ht, Nat.zero_add,
    @setZapDataA_eq (8 * t) a (by omega), Nat.mod_eq_of_lt ha,
    @setZapDataB0_eq (8 * t + 256 * a) b0 (by omega), Nat.mod_eq_of_lt hb0,
    @setZapDataB1_eq (8 * t + 256 * a + 65536 * b0) b1 (by omega),
    Nat.mod_eq_of_lt hb1,
    @setZapSpecial_eq (8 * t + 256 * a + 65536 * b0 + 16777216 * b1)
      (by omega) (by omega)]

lemma zap_build_B (t u : Nat) (ht : t < 32) :
    setZapSpecial (setZapDataB (setZapType 0 t) u) =
      .special (8 * t + 65536 * (u % 65536) + 6) := by
  rw [@setZapType_eq 0 t (by omega), Nat.mod_eq_of_lt ht, Nat.zero_add,
    @setZapDataB_eq (8 * t) u (by omega),
    @setZapSpecial_eq (8 * t + 65536 * (u % 65536)) (by omega) (by
      have : u % 65536 < 65536 := Nat.mod_lt u (by omega)
      omega)]

lemma zap_build_T (t : Nat) (ht : t < 32) :
    setZapSpecial (setZapType 0 t) = .special (8 * t + 6) := by
  rw [@setZapType_eq 0 t (by omega), Nat.mod_eq_of_lt ht, Nat.zero_add,
    @setZapSpecial_eq (8 * t) (by omega) (by omega)]

lemma and_pow15 (i : Nat) : i &&& 32768 = i / 32768 % 2 * 32768 := by
  have ht : (i.testBit 15).toNat = i / 2 ^ 15 % 2 := by
    rw [Nat.testBit_to_div_mod]
    rcases Nat.mod_two_eq_zero_or_one (i / 2 ^ 15) with h0 | h1
    · rw [h0]; simp
    · rw [h1]; simp
  have h := Nat.and_two_pow i 15
  rw [ht] at h
  norm_num at h
  exact h

lemma signExtend16_spec (m : Nat) (hm : m < 65536) :
    signExtend16 m = if m < 32768 then (m : Int) else (m : Int) - 65536 := by
  unfold signExtend16
  have hand := and_pow15 m
  rcases Nat.lt_or_ge m 32768 with h | h
  · rw [if_neg (by omega), if_pos h]
  · rw [if_pos (by omega), if_neg (by omega)]

/-! ### Round trips per constructor/accessor pair -/

lemma make_bool_roundtrip (v : Bool) :
    bool_of (make_bool v) = v ∧ bool_p (make_bool v) = true := by
  cases v <;> exact ⟨by decide, by decide⟩

lemma make_char_roundtrip (v : Int) (hlo : -32768 ≤ v) (hhi : v ≤ 32767) :
    char_of (make_char v) = v ∧ char_p (make_char v) = true := by
  have hb := zap_build_B CHAR_MAGIC (v % 4294967296).toNat (by decide)
  have hm : (8 * CHAR_MAGIC + 65536 * ((v % 4294967296).toNat % 65536) + 6) /
      65536 % 65536 = (v % 4294967296).toNat % 65536 := by
    simp only [CHAR_MAGIC]
    omega
  constructor
  · simp only [make_char]
    rw [hb]
    show signExtend16 (getZapDataB
      (8 * CHAR_MAGIC + 65536 * ((v % 4294967296).toNat % 65536) + 6)) = v
    rw [getZapDataB_eq, hm, signExtend16_spec _ (by omega)]
    split_ifs with hcnd <;> omega
  · simp only [make_char]
    rw [hb]
    show (getZapType
      (8 * CHAR_MAGIC + 65536 * ((v % 4294967296).toNat % 65536) + 6) ==
        CHAR_MAGIC) = true
    rw [getZapType_eq]
    simp only [CHAR_MAGIC, beq_iff_eq]
    omega

lemma make_int_zap_roundtrip (h : Heap) (v : Int) (hlo : -32768 ≤ v)
    (hhi : v ≤ 32767) :
    integer_of h (make_int_zap v) = v ∧
      integer_p h (make_int_zap v) = true := by
  have hb := zap_build_B SHORT_MAGIC (v % 4294967296).toNat (by decide)
  have hm : (8 * SHORT_MAGIC + 65536 * ((v % 4294967296).toNat % 65536) + 6) /
      65536 % 65536 = (v % 4294967296).toNat % 65536 := by
    simp only [SHORT_MAGIC]
    omega
  constructor
  · simp only [make_int_zap]
    rw [hb]
    show signExtend16 (getZapDataB
      (8 * SHORT_MAGIC + 65536 * ((v % 4294967296).toNat % 65536) + 6)) = v
    rw [getZapDataB_eq, hm, signExtend16_spec _ (by omega)]
    split_ifs with hcnd <;> omega
  · simp only [make_int_zap]
    rw [hb]
    show (getZapType
      (8 * SHORT_MAGIC + 65536 * ((v % 4294967296).toNat % 65536) + 6) ==
        SHORT_MAGIC) = true
    rw [getZapType_eq]
    simp only [SHORT_MAGIC, beq_iff_eq]
    omega

lemma make_symbol_zap_roundtrip (h : Heap) (s : List Nat)
    (hlen1 : 1 ≤ s.length) (hlen3 : s.length ≤ 3)
    (hc : ∀ c ∈ s, 0 < c ∧ c < 256) :
    symbol_of h (make_symbol_zap s) = s ∧
      symbol_p h (make_symbol_zap s) = true := by
  rcases s with _ | ⟨c0, _ | ⟨c1, _ | ⟨c2, _ | ⟨c3, rest⟩⟩⟩⟩
  · simp at hlen1
  · have hc0 := (hc c0 (by simp)).2
    have hb := zap_build_A SYM_MAGIC_1 c0 (by decide) hc0
    have hty : getZapType (8 * SYM_MAGIC_1 + 256 * c0 + 6) = SYM_MAGIC_1 := by
      rw [getZapType_eq]
      simp only [SYM_MAGIC_1]
      omega
    constructor
    · simp only [make_symbol_zap]
      rw [hb]
      simp only [symbol_of]
      rw [if_pos hty]
      simp only [extract_zap_string]
      rw [getZapDataA_eq]
      simp only [SYM_MAGIC_1, List.cons.injEq, and_true]
      omega
    · simp only [make_symbol_zap]
      rw [hb]
      show (getZapType (8 * SYM_MAGIC_1 + 256 * c0 + 6) == SYM_MAGIC_1 ||
        getZapType (8 * SYM_MAGIC_1 + 256 * c0 + 6) == SYM_MAGIC_2 ||
        getZapType (8 * SYM_MAGIC_1 + 256 * c0 + 6) == SYM_MAGIC_3) = true
      rw [hty]
      decide
  · have hc0 := (hc c0 (by simp)).2
    have hc1 := (hc c1 (by simp)).2
    have hb := zap_build_AB0 SYM_MAGIC_2 c1 c0 (by decide) hc1 hc0
    have hty : getZapType (8 * SYM_MAGIC_2 + 256 * c1 + 65536 * c0 + 6) =
        SYM_MAGIC_2 := by
      rw [getZapType_eq]
      simp only [SYM_MAGIC_2]
      omega
    constructor
    · simp only [make_symbol_zap]
      rw [hb]
      simp only [symbol_of]
      rw [hty, if_neg (by decide), if_pos rfl]
      simp only [extract_zap_string]
      rw [getZapDataB0_eq, getZapDataA_eq]
      simp only [SYM_MAGIC_2, List.cons.injEq, and_true]
      omega
    · simp only [make_symbol_zap]
      rw [hb]
      show (getZapType (8 * SYM_MAGIC_2 + 256 * c1 + 65536 * c0 + 6) ==
          SYM_MAGIC_1 ||
        getZapType (8 * SYM_MAGIC_2 + 256 * c1 + 65536 * c0 + 6) ==
          SYM_MAGIC_2 ||
        getZapType (8 * SYM_MAGIC_2 + 256 * c1 + 65536 * c0 + 6) ==
          SYM_MAGIC_3) = true
      rw [hty]
      decide
  · have hc0 := (hc c0 (by simp)).2
    have hc1 := (hc c1 (by simp)).2
    have hc2 := (hc c2 (by simp)).2
    have hb := zap_build_AB0B1 SYM_MAGIC_3 c2 c1 c0 (by decide) hc2 hc1 hc0
    have hty : getZapType
        (8 * SYM_MAGIC_3 + 256 * c2 + 65536 * c1 + 16777216 * c0 + 6) =
        SYM_MAGIC_3 := by
      rw [getZapType_eq]
      simp only [SYM_MAGIC_3]
      omega
    constructor
    · simp only [make_symbol_zap]
      rw [hb]
      simp only [symbol_of]
      rw [hty, if_neg (by decide), if_neg (by decide)]
      simp only [extract_zap_string]
      rw [getZapDataB1_eq, getZapDataB0_eq, getZapDataA_eq]
      simp only [SYM_MAGIC_3, List.cons.injEq, and_true]
      omega
    · simp only [make_symbol_zap]
      rw [hb]
      show (getZapType
          (8 * SYM_MAGIC_3 + 256 * c2 + 65536 * c1 + 16777216 * c0 + 6) ==
          SYM_MAGIC_1 ||
        getZapType
          (8 * SYM_MAGIC_3 + 256 * c2 + 65536 * c1 + 16777216 * c0 + 6) ==
          SYM_MAGIC_2 ||
        getZapType
          (8 * SYM_MAGIC_3 + 256 * c2 + 65536 * c1 + 16777216 * c0 + 6) ==
          SYM_MAGIC_3) = true
      rw [hty]
      decide
  · simp only [List.length_cons] at hlen3
    omega

lemma make_string_zap_roundtrip (h : Heap) (s : List Nat)
    (hlen3 : s.length ≤ 3) (hc : ∀ c ∈ s, 0 < c ∧ c < 256) :
    string_of h (make_string_zap s) = s ∧
      string_p h (make_string_zap s) = true := by
  rcases s with _ | ⟨c0, _ | ⟨c1, _ | ⟨c2, _ | ⟨c3, rest⟩⟩⟩⟩
  · have hb := zap_build_T STRING_MAGIC_0 (by decide)
    have hty : getZapType (8 * STRING_MAGIC_0 + 6) = STRING_MAGIC_0 := by
      rw [getZapType_eq]
      simp only [STRING_MAGIC_0]
    constructor
    · simp only [make_string_zap]
      rw [hb]
      simp only [string_of]
      rw [if_pos hty]
    · simp only [make_string_zap]
      rw [hb]
      show (getZapType (8 * STRING_MAGIC_0 + 6) == STRING_MAGIC_0 ||
        getZapType (8 * STRING_MAGIC_0 + 6) == STRING_MAGIC_1 ||
        getZapType (8 * STRING_MAGIC_0 + 6) == STRING_MAGIC_2 ||
        getZapType (8 * STRING_MAGIC_0 + 6) == STRING_MAGIC_3) = true
      rw [hty]
      decide
  · have hc0 := (hc c0 (by simp)).2
    have hb := zap_build_A STRING_MAGIC_1 c0 (by decide) hc0
    have hty : getZapType (8 * STRING_MAGIC_1 + 256 * c0 + 6) =
        STRING_MAGIC_1 := by
      rw [getZapType_eq]
      simp only [STRING_MAGIC_1]
      omega
    constructor
    · simp only [make_string_zap]
      rw [hb]
      simp only [string_of]
      rw [hty, if_neg (by decide), if_pos rfl]
      simp only [extract_zap_string]
      rw [getZapDataA_eq]
      simp only [STRING_MAGIC_1, List.cons.injEq, and_true]
      omega
    · simp only [make_string_zap]
      rw [hb]
      show (getZapType (8 * STRING_MAGIC_1 + 256 * c0 + 6) ==
          STRING_MAGIC_0 ||
        getZapType (8 * STRING_MAGIC_1 + 256 * c0 + 6) == STRING_MAGIC_1 ||
        getZapType (8 * STRING_MAGIC_1 + 256 * c0 + 6) == STRING_MAGIC_2 ||
        getZapType (8 * STRING_MAGIC_1 + 256 * c0 + 6) == STRING_MAGIC_3) =
        true
      rw [hty]
      decide
  · have hc0 := (hc c0 (by simp)).2
    have hc1 := (hc c1 (by simp)).2
    have hb := zap_build_AB0 STRING_MAGIC_2 c1 c0 (by decide) hc1 hc0
    have hty : getZapType (8 * STRING_MAGIC_2 + 256 * c1 + 65536 * c0 + 6) =
        STRING_MAGIC_2 := by
      rw [getZapType_eq]
      simp only [STRING_MAGIC_2]
      omega
    constructor
    · simp only [make_string_zap]
      rw [hb]
      simp only [string_of]
      rw [hty, if_neg (by decide), if_neg (by decide), if_pos rfl]
      simp only [extract_zap_string]
      rw [getZapDataB0_eq, getZapDataA_eq]
      simp only [STRING_MAGIC_2, List.cons.injEq, and_true]
      omega
    · simp only [make_string_zap]
      rw [hb]
      show (getZapType (8 * STRING_MAGIC_2 + 256 * c1 + 65536 * c0 + 6) ==
          STRING_MAGIC_0 ||
        getZapType (8 * STRING_MAGIC_2 + 256 * c1 + 65536 * c0 + 6) ==
          STRING_MAGIC_1 ||
        getZapType (8 * STRING_MAGIC_2 + 256 * c1 + 65536 * c0 + 6) ==
          STRING_MAGIC_2 ||
        getZapType (8 * STRING_MAGIC_2 + 256 * c1 + 65536 * c0 + 6) ==
          STRING_MAGIC_3) = true
      rw [hty]
      decide
  · have hc0 := (hc c0 (by simp)).2
    have hc1 := (hc c1 (by simp)).2
    have hc2 := (hc c2 (by simp)).2
    have hb := zap_build_AB0B1 STRING_MAGIC_3 c2 c1 c0 (by decide) hc2 hc1 hc0
    have hty : getZapType
        (8 * STRING_MAGIC_3 + 256 * c2 + 65536 * c1 + 16777216 * c0 + 6) =
        STRING_MAGIC_3 := by
      rw [getZapType_eq]
      simp only [STRING_MAGIC_3]
      omega
    constructor
    · simp only [make_string_zap]
      rw [hb]
      simp only [string_of]
      rw [hty, if_neg (by decide), if_neg (by decide), if_neg (by decide)]
      simp only [extract_zap_string]
      rw [getZapDataB1_eq, getZapDataB0_eq, getZapDataA_eq]
      simp only [STRING_MAGIC_3, List.cons.injEq, and_true]
      omega
    · simp only [make_string_zap]
      rw [hb]
      show (getZapType
          (8 * STRING_MAGIC_3 + 256 * c2 + 65536 * c1 + 16777216 * c0 + 6) ==
          STRING_MAGIC_0 ||
        getZapType
          (8 * STRING_MAGIC_3 + 256 * c2 + 65536 * c1 + 16777216 * c0 + 6) ==
          STRING_MAGIC_1 ||
        getZapType
          (8 * STRING_MAGIC_3 + 256 * c2 + 65536 * c1 + 16777216 * c0 + 6) ==
          STRING_MAGIC_2 ||
        getZapType
          (8 * STRING_MAGIC_3 + 256 * c2 + 65536 * c1 + 16777216 * c0 + 6) ==
          STRING_MAGIC_3) = true
      rw [hty]
      decide
  · simp only [List.length_cons] at hlen3
    omega

/-! ### Heap-allocated (long) forms: writing into the storage block and
reading it back through `blockAt` -/

lemma blockAtAux_none_ge : ∀ (bs : List Block) (base a : Nat),
    (∀ b ∈ bs, 1 ≤ b.bsize) → base + totalSize bs ≤ a →
    blockAtAux bs base a = none := by
  intro bs
  induction bs with
  | nil => intro base a _ _; rfl
  | cons c rest ih =>
      intro base a hpos hle
      have hc := hpos c (by simp)
      have h1 : totalSize (c :: rest) = c.bsize + totalSize rest := by
        simp only [totalSize, List.map_cons, List.sum_cons]
      simp only [blockAtAux]
      rw [if_neg (by omega)]
      exact ih (base + c.bsize) a
        (fun b hb => hpos b (List.mem_cons_of_mem _ hb)) (by omega)

lemma storage_put_get (h : Heap) (pre : List Block) (b : Block)
    (suf : List Block) (hpos : ∀ c ∈ pre, 1 ≤ c.bsize) :
    blockAt { h with blocks := pre ++ b :: suf } (totalSize pre) = some b := by
  show blockAtAux (pre ++ b :: suf) 0 (totalSize pre) = some b
  have hnone := blockAtAux_none_ge pre 0 (totalSize pre) hpos (by omega)
  rw [blockAtAux_append, hnone]
  show blockAtAux (b :: suf) (0 + totalSize pre) (totalSize pre) = some b
  simp only [blockAtAux, Nat.zero_add]
  rw [if_pos trivial]

lemma storage_integer_roundtrip (h : Heap) (pre : List Block) (b : Block)
    (suf : List Block) (v : Int) (hpos : ∀ c ∈ pre, 1 ≤ c.bsize) :
    integer_of { h with blocks := pre ++ set_data_storage_integer b v :: suf }
        (.stor (totalSize pre)) = v ∧
      integer_p { h with blocks := pre ++ set_data_storage_integer b v :: suf }
        (.stor (totalSize pre)) = true := by
  have hba := storage_put_get h pre (set_data_storage_integer b v) suf hpos
  constructor
  · simp only [integer_of]
    rw [hba]
    rfl
  · simp only [integer_p, get_typedesc]
    rw [hba]
    rfl

lemma storage_symbol_roundtrip (h : Heap) (pre : List Block) (b : Block)
    (suf : List Block) (s : List Nat) (hpos : ∀ c ∈ pre, 1 ≤ c.bsize) :
    symbol_of { h with blocks := pre ++ set_data_storage_symbol b s :: suf }
        (.stor (totalSize pre)) = s ∧
      symbol_p { h with blocks := pre ++ set_data_storage_symbol b s :: suf }
        (.stor (totalSize pre)) = true := by
  have hba := storage_put_get h pre (set_data_storage_symbol b s) suf hpos
  constructor
  · simp only [symbol_of]
    rw [hba]
    rfl
  · simp only [symbol_p, get_typedesc]
    rw [hba]
    rfl

lemma storage_string_roundtrip (h : Heap) (pre : List Block) (b : Block)
    (suf : List Block) (s : List Nat) (hpos : ∀ c ∈ pre, 1 ≤ c.bsize) :
    string_of { h with blocks := pre ++ set_data_storage_string b s :: suf }
        (.stor (totalSize pre)) = s ∧
      string_p { h with blocks := pre ++ set_data_storage_string b s :: suf }
        (.stor (totalSize pre)) = true := by
  have hba := storage_put_get h pre (set_data_storage_string b s) suf hpos
  constructor
  · simp only [string_of]
    rw [hba]
    rfl
  · simp only [string_p, get_typedesc]
    rw [hba]
    rfl

/-- **C4**: for every constructor/accessor pair of MAGIC.C — bool, char,
short (inlined) int, short symbol (lengths 1-3), short string (lengths 0-3),
and the heap-allocated long int / long symbol / long string written through
`set_data_storage_*` into their storage block — applying the accessor to the
constructed value returns the original input, and the matching type
predicate answers true on the constructed value.  Character and short-int
inputs range over the 16-bit window the code inlines; string/symbol bytes
are nonzero bytes (C strings). -/
theorem c4_roundtrip :
    (∀ v : Bool, bool_of (make_bool v) = v ∧ bool_p (make_bool v) = true) ∧
    (∀ v : Int, -32768 ≤ v → v ≤ 32767 →
      char_of (make_char v) = v ∧ char_p (make_char v) = true) ∧
    (∀ (h : Heap) (v : Int), -32768 ≤ v → v ≤ 32767 →
      integer_of h (make_int_zap v) = v ∧
        integer_p h (make_int_zap v) = true) ∧
    (∀ (h : Heap) (s : List Nat), 1 ≤ s.length → s.length ≤ 3 →
      (∀ c ∈ s, 0 < c ∧ c < 256) →
      symbol_of h (make_symbol_zap s) = s ∧
        symbol_p h (make_symbol_zap s) = true) ∧
    (∀ (h : Heap) (s : List Nat), s.length ≤ 3 →
      (∀ c ∈ s, 0 < c ∧ c < 256) →
      string_of h (make_string_zap s) = s ∧
        string_p h (make_string_zap s) = true) ∧
    (∀ (h : Heap) (pre : List Block) (b : Block) (suf : List Block) (v : Int),
      (∀ c ∈ pre, 1 ≤ c.bsize) →
      integer_of { h with blocks := pre ++ set_data_storage_integer b v :: suf }
          (.stor (totalSize pre)) = v ∧
        integer_p { h with blocks := pre ++ set_data_storage_integer b v :: suf }
          (.stor (totalSize pre)) = true) ∧
    (∀ (h : Heap) (pre : List Block) (b : Block) (suf : List Block)
        (s : List Nat), (∀ c ∈ pre, 1 ≤ c.bsize) →
      symbol_of { h with blocks := pre ++ set_data_storage_symbol b s :: suf }
          (.stor (totalSize pre)) = s ∧
        symbol_p { h with blocks := pre ++ set_data_storage_symbol b s :: suf }
          (.stor (totalSize pre)) = true) ∧
    (∀ (h : Heap) (pre : List Block) (b : Block) (suf : List Block)
        (s : List Nat), (∀ c ∈ pre, 1 ≤ c.bsize) →
      string_of { h with blocks := pre ++ set_data_storage_string b s :: suf }
          (.stor (totalSize pre)) = s ∧
        string_p { h with blocks := pre ++ set_data_storage_string b s :: suf }
          (.stor (totalSize pre)) = true) :=
  ⟨make_bool_roundtrip,
   fun v hlo hhi => make_char_roundtrip v hlo hhi,
   fun h v hlo hhi => make_int_zap_roundtrip h v hlo hhi,
   fun h s h1 h3 hc => make_symbol_zap_roundtrip h s h1 h3 hc,
   fun h s h3 hc => make_string_zap_roundtrip h s h3 hc,
   fun h pre b suf v hpos => storage_integer_roundtrip h pre b suf v hpos,
   fun h pre b suf s hpos => storage_symbol_roundtrip h pre b suf s hpos,
   fun h pre b suf s hpos => storage_string_roundtrip h pre b suf s hpos⟩

/-- Concrete instances of the C4 round trips: `#\A`, the short integer -5,
the symbol "abc", the string "hi", and a long integer, symbol and string
stored in a single-block heap. -/
theorem c4_roundtrip_witness :
    (bool_of (make_bool true) = true ∧ bool_p (make_bool true) = true) ∧
    ((-32768 : Int) ≤ 65 ∧ (65 : Int) ≤ 32767 ∧
      char_of (make_char 65) = 65) ∧
    ((-32768 : Int) ≤ -5 ∧ (-5 : Int) ≤ 32767 ∧
      integer_of dswDemoHeap (make_int_zap (-5)) = -5) ∧
    ((∀ c ∈ [97, 98, 99], 0 < c ∧ c < 256) ∧
      symbol_of dswDemoHeap (make_symbol_zap [97, 98, 99]) = [97, 98, 99]) ∧
    string_of dswDemoHeap (make_string_zap [104, 105]) = [104, 105] ∧
    integer_of { dswDemoHeap with
        blocks := [set_data_storage_integer ⟨4, 0, false, .nodata, .nil⟩ 123456] }
      (.stor 0) = 123456 ∧
    symbol_of { dswDemoHeap with
        blocks := [set_data_storage_symbol ⟨4, 0, false, .nodata, .nil⟩
          [108, 97, 109, 98, 100, 97]] }
      (.stor 0) = [108, 97, 109, 98, 100, 97] ∧
    string_of { dswDemoHeap with
        blocks := [set_data_storage_string ⟨4, 0, false, .nodata, .nil⟩
          [104, 101, 108, 108, 111]] }
      (.stor 0) = [104, 101, 108, 108, 111] :=
  ⟨c4_roundtrip.1 true,
   ⟨by decide, by decide, (c4_roundtrip.2.1 65 (by decide) (by decide)).1⟩,
   ⟨by decide, by decide,
     (c4_roundtrip.2.2.1 dswDemoHeap (-5) (by decide) (by decide)).1⟩,
   ⟨by decide,
     (c4_roundtrip.2.2.2.1 dswDemoHeap [97, 98, 99] (by decide) (by decide)
       (by decide)).1⟩,
   (c4_roundtrip.2.2.2.2.1 dswDemoHeap [104, 105] (by decide) (by decide)).1,
   (c4_roundtrip.2.2.2.2.2.1 dswDemoHeap [] ⟨4, 0, false, .nodata, .nil⟩ []
     123456 (by simp)).1,
   (c4_roundtrip.2.2.2.2.2.2.1 dswDemoHeap [] ⟨4, 0, false, .nodata, .nil⟩ []
     [108, 97, 109, 98, 100, 97] (by simp)).1,
   (c4_roundtrip.2.2.2.2.2.2.2 dswDemoHeap [] ⟨4, 0, false, .nodata, .nil⟩ []
     [104, 101, 108, 108, 111] (by simp)).1⟩

/- ==========================================================================
   The evaluator (MAIN.C `evaluation_loop`, HELP.C helpers).

   The parser builds trees of cons boxes and the loop inspects them through
   `car`/`cdr`; expressions and runtime values are therefore modelled as
   trees.  An `SExp` is NIL, an atom (the zap/storage values: booleans,
   characters, integers, strings, symbols), or a cons box carrying its hint
   bits (`.plain`, `.procH`, `.envH` for PROC_SPECIAL/ENV_SPECIAL of
   MEMORY.C).  `equal_p` (MAGIC.C), pointer identity or same-type same
   stored value, becomes structural equality on trees.

   Two effects stay outside the tree model: the destructive writes of
   `set_variable_w`/`define_variable_w` (heap mutation invisible through the
   registers; the `define` case updates the env register, which the C's
   in-place `set_first_frame_w` achieves through the heap), and the bodies
   of the built-in procedures — `apply_builtin`'s behaviour is a parameter
   (`Ext`), as is the keyword table behind `reserved_p`, since the loop's
   control structure is independent of both and the theorems quantify over
   them.  `goto_recoverable_error` (the longjmp out of the loop, also taken
   by `ERROR_LABEL`) is `none`.
   ========================================================================== -/

/-! ### C6: the `div_zap` branch of `apply_builtin` (part_000 92-120).
The C code divides in `double`; `flq` is round-to-nearest with a 53-bit
significand over the rationals (the IEEE double rounding at these
magnitudes - no overflow or subnormals within the `long` range). -/

/-- Round-to-nearest, 53-bit significand: scale the significand into
rounding position by the binade exponent, round, scale back; exact on 0. -/
def flq (q : ℚ) : ℚ :=
  if q = 0 then 0
  else (round (q / 2 ^ (Int.log 2 |q| - 52)) : ℚ) * 2 ^ (Int.log 2 |q| - 52)

/-- The division loop (part_000 107-116): `xf=xf/(double)integer_of(car(args))`
iterated over the remaining arguments, each quotient rounded by the
hardware. -/
def divFold : ℚ → List Int → ℚ
  | xf, [] => xf
  | xf, c :: rest => divFold (flq (xf / flq (c : ℚ))) rest

/-- The `(long int)` conversion of the floored quotient (part_000 118):
converting a `double` to `long` is defined in C only when the (already
integral) value is representable in the machine's 32-bit `long`;
outside that range the conversion is undefined, modelled as `none`. -/
def castLong (z : Int) : Option Int :=
  if -2147483648 ≤ z ∧ z ≤ 2147483647 then some z else none

/-- The whole `div_zap` branch on the integer values of its arguments:
`xf=(double)integer_of(car(args))`, then either `floor(1.0/xf)` for a
single argument or the division loop and `floor(xf)`, and finally the
`(long int)` cast of the floored double that `make_int` stores.  `none`
is the empty-argument syntax-error path (`goto_recoverable_error`) or an
out-of-range cast. -/
def divBuiltin : List Int → Option Int
  | [] => none
  | [a] => castLong ⌊flq (1 / flq (a : ℚ))⌋
  | a :: rest => castLong ⌊divFold (flq (a : ℚ)) rest⌋

lemma two_zpow_pos (n : ℤ) : (0:ℚ) < 2 ^ n := zpow_pos (by norm_num) n

/-- Rounding error bound: half an ulp, at most `|q| * 2 ^ (-53)`. -/
lemma flq_err (q : ℚ) (hq : q ≠ 0) :
    |flq q - q| ≤ |q| * (2:ℚ) ^ (-53 : ℤ) := by
  have habs : (0:ℚ) < |q| := abs_pos.mpr hq
  set e := Int.log 2 |q| with he
  have hle : (2:ℚ) ^ e ≤ |q| := Int.zpow_log_le_self (by norm_num) habs
  rw [flq, if_neg hq]
  set m := q / 2 ^ (e - 52) with hm
  have h2 : (2:ℚ) ^ (e - 52) ≠ 0 := ne_of_gt (two_zpow_pos _)
  have hqm : q = m * 2 ^ (e - 52) := by
    rw [hm, div_mul_cancel₀ _ h2]
  have step1 : |((round m : ℚ)) * 2 ^ (e - 52) - q| =
      |((round m : ℚ)) - m| * 2 ^ (e - 52) := by
    nth_rewrite 1 [hqm]
    rw [← sub_mul, abs_mul, abs_of_pos (two_zpow_pos _)]
  have step2 : |((round m : ℚ)) - m| ≤ 1 / 2 := by
    rw [abs_sub_comm]
    exact abs_sub_round m
  have step3 : (1/2 : ℚ) * 2 ^ (e - 52) = 2 ^ (e - 53) := by
    rw [show e - 53 = (-1) + (e - 52) by ring,
        zpow_add₀ (by norm_num : (2:ℚ) ≠ 0)]
    norm_num
  have step4 : (2:ℚ) ^ (e - 53) ≤ |q| * 2 ^ (-53 : ℤ) := by
    rw [show e - 53 = e + (-53) by ring,
        zpow_add₀ (by norm_num : (2:ℚ) ≠ 0)]
    exact mul_le_mul_of_nonneg_right hle (le_of_lt (two_zpow_pos _))
  calc |((round m : ℚ)) * 2 ^ (e - 52) - q|
      = |((round m : ℚ)) - m| * 2 ^ (e - 52) := step1
    _ ≤ (1/2) * 2 ^ (e - 52) :=
        mul_le_mul_of_nonneg_right step2 (le_of_lt (two_zpow_pos _))
    _ = 2 ^ (e - 53) := step3
    _ ≤ |q| * 2 ^ (-53 : ℤ) := step4

/-- Doubles hold integers below `2 ^ 53` exactly. -/
lemma flq_intCast (z : ℤ) (hz : |z| < 2 ^ 53) : flq (z : ℚ) = z := by
  rcases eq_or_ne z 0 with h0 | h0
  · subst h0
    simp [flq]
  · have hq0 : ((z:ℚ)) ≠ 0 := Int.cast_ne_zero.mpr h0
    have habs1 : (1:ℚ) ≤ |(z:ℚ)| := by
      rw [← Int.cast_abs]
      exact_mod_cast Int.one_le_abs h0
    set e := Int.log 2 |(z:ℚ)| with he
    have he0 : 0 ≤ e := by
      rw [he, Int.log_of_one_le_right _ habs1]
      positivity
    have he52 : e ≤ 52 := by
      by_contra hgt
      push_neg at hgt
      have h1 : (2:ℚ) ^ (53:ℤ) ≤ 2 ^ e :=
        zpow_le_zpow_right₀ (by norm_num) (by omega)
      have h2 : (2:ℚ) ^ e ≤ |(z:ℚ)| :=
        Int.zpow_log_le_self (by norm_num) (abs_pos.mpr hq0)
      have h3 : |(z:ℚ)| < 2 ^ (53:ℤ) := by
        rw [← Int.cast_abs]
        have : ((|z|:ℤ):ℚ) < ((2^53 : ℤ):ℚ) := by exact_mod_cast hz
        calc ((|z|:ℤ):ℚ) < ((2^53 : ℤ):ℚ) := this
          _ = 2 ^ (53:ℤ) := by norm_num
      linarith
    set n : ℕ := (52 - e).toNat with hn
    have hn' : (n : ℤ) = 52 - e := by
      rw [hn]
      omega
    have hcast : ((z * 2 ^ n : ℤ) : ℚ) = (z:ℚ) * (2:ℚ) ^ ((n:ℤ)) := by
      push_cast
      rw [zpow_natCast]
    have hmint : (z:ℚ) / 2 ^ (e - 52) = ((z * 2 ^ n : ℤ) : ℚ) := by
      rw [hcast, hn', div_eq_mul_inv, ← zpow_neg, neg_sub]
    rw [flq, if_neg hq0, ← he, hmint, round_intCast, hcast, hn', mul_assoc,
        ← zpow_add₀ (by norm_num : (2:ℚ) ≠ 0),
        show (52 - e) + (e - 52) = 0 by ring, zpow_zero, mul_one]

/-- A rational with denominator `b` that is not an integer keeps distance
at least `1 / |b|` from every integer. -/
lemma rat_int_dist (a b z : ℤ) (hb : b ≠ 0) (hne : (a:ℚ) / b ≠ (z:ℚ)) :
    1 / |(b:ℚ)| ≤ |(a:ℚ)/b - z| := by
  have hbq : (b:ℚ) ≠ 0 := Int.cast_ne_zero.mpr hb
  have hbpos : (0:ℚ) < |(b:ℚ)| := abs_pos.mpr hbq
  have hnum : a - z * b ≠ 0 := by
    intro h
    apply hne
    have h' : a = z * b := by omega
    rw [h']
    push_cast
    rw [mul_div_assoc, div_self hbq, mul_one]
  have h1 : (1:ℚ) ≤ |((a - z*b : ℤ):ℚ)| := by
    rw [← Int.cast_abs]
    exact_mod_cast Int.one_le_abs hnum
  have heq : (a:ℚ)/b - z = ((a - z*b : ℤ):ℚ) / b := by
    push_cast
    field_simp
    ring
  rw [heq, abs_div]
  gcongr

/-- The crux: for `long`-range operands the rounded quotient never
crosses an integer, so flooring it equals flooring the exact quotient. -/
lemma floor_flq_div (a b : ℤ) (ha : |a| ≤ 2 ^ 31) (hb0 : b ≠ 0) :
    ⌊flq ((a:ℚ) / (b:ℚ))⌋ = ⌊(a:ℚ) / (b:ℚ)⌋ := by
  rcases eq_or_ne a 0 with h0 | h0
  · subst h0
    simp [flq]
  · have hbq : (b:ℚ) ≠ 0 := Int.cast_ne_zero.mpr hb0
    have haq : (a:ℚ) ≠ 0 := Int.cast_ne_zero.mpr h0
    have hbpos : (0:ℚ) < |(b:ℚ)| := abs_pos.mpr hbq
    have hb1 : (1:ℚ) ≤ |(b:ℚ)| := by
      rw [← Int.cast_abs]
      exact_mod_cast Int.one_le_abs hb0
    have haabs : |(a:ℚ)| < 2 ^ (53:ℕ) := by
      rw [← Int.cast_abs]
      have : ((|a|:ℤ):ℚ) ≤ ((2^31 : ℤ):ℚ) := by exact_mod_cast ha
      calc ((|a|:ℤ):ℚ) ≤ ((2^31 : ℤ):ℚ) := this
        _ < 2 ^ (53:ℕ) := by norm_num
    set q : ℚ := (a:ℚ) / (b:ℚ) with hqdef
    have hq0 : q ≠ 0 := div_ne_zero haq hbq
    have habsq : |q| = |(a:ℚ)| / |(b:ℚ)| := by rw [hqdef, abs_div]
    have hqlea : |q| ≤ |(a:ℚ)| := by
      rw [habsq]
      exact div_le_self (abs_nonneg _) hb1
    have herr2 : |flq q - q| < 1 / |(b:ℚ)| := by
      have h1 : |q| * (2:ℚ) ^ (-53 : ℤ) < 1 / |(b:ℚ)| := by
        rw [habsq, div_mul_eq_mul_div, div_lt_div_iff₀ hbpos hbpos]
        have hlt : |(a:ℚ)| * (2:ℚ) ^ (-53 : ℤ) < 1 := by
          have hp : (2:ℚ) ^ (-53 : ℤ) * 2 ^ (53:ℤ) = 1 := by
            rw [← zpow_add₀ (by norm_num : (2:ℚ) ≠ 0)]
            norm_num
          have hq53 : (2:ℚ) ^ (53:ℤ) = 2 ^ (53:ℕ) := by norm_num
          have hpos : (0:ℚ) < 2 ^ (-53:ℤ) := two_zpow_pos _
          calc |(a:ℚ)| * (2:ℚ) ^ (-53 : ℤ)
              < 2 ^ (53:ℕ) * (2:ℚ) ^ (-53 : ℤ) :=
                mul_lt_mul_of_pos_right haabs hpos
            _ = 1 := by rw [← hq53, mul_comm, hp]
        calc |(a:ℚ)| * (2:ℚ) ^ (-53 : ℤ) * |(b:ℚ)|
            < 1 * |(b:ℚ)| := mul_lt_mul_of_pos_right hlt hbpos
          _ = 1 * |(b:ℚ)| := rfl
      exact lt_of_le_of_lt (flq_err q hq0) h1
    rcases eq_or_ne q ((⌊q⌋ : ℤ) : ℚ) with hint | hnint
    · have hz : |⌊q⌋| < 2 ^ 53 := by
        have : |((⌊q⌋:ℤ):ℚ)| < 2 ^ (53:ℕ) := by
          rw [← hint]
          exact lt_of_le_of_lt hqlea haabs
        rw [← Int.cast_abs] at this
        exact_mod_cast this
      rw [show flq q = q by rw [hint, flq_intCast _ hz, ← hint]]
    · have hfr1 : 1 / |(b:ℚ)| ≤ q - ⌊q⌋ := by
        have hd := rat_int_dist a b ⌊q⌋ hb0 (by rw [← hqdef]; exact hnint)
        rw [← hqdef] at hd
        rwa [abs_of_nonneg (sub_nonneg.mpr (Int.floor_le q))] at hd
      have hfr2 : 1 / |(b:ℚ)| ≤ ((⌊q⌋ : ℚ) + 1) - q := by
        have hne2 : q ≠ ((⌊q⌋ + 1 : ℤ) : ℚ) := by
          intro h
          have hlt := Int.lt_floor_add_one q
          push_cast at h
          linarith
        have hd := rat_int_dist a b (⌊q⌋ + 1) hb0 (by rw [← hqdef]; exact hne2)
        rw [← hqdef] at hd
        have hlt : q - ((⌊q⌋ + 1 : ℤ) : ℚ) < 0 := by
          have := Int.lt_floor_add_one q
          push_cast
          linarith
        rw [abs_of_neg hlt] at hd
        push_cast at hd ⊢
        linarith
      have h1 : q - flq q ≤ |flq q - q| := by
        rw [abs_sub_comm]
        exact le_abs_self _
      have h2 : flq q - q ≤ |flq q - q| := le_abs_self _
      rw [Int.floor_eq_iff]
      constructor
      · linarith
      · linarith

namespace Ev

inductive Hint where
  | plain
  | procH
  | envH
deriving DecidableEq, Repr

inductive SExp where
  | nil
  | boolv (b : Bool)
  | ch (c : Int)
  | int (z : Int)
  | strv (s : List Nat)
  | symv (s : List Nat)
  | cons (h : Hint) (a d : SExp)
deriving DecidableEq, Repr

/-- `cbox_p` (MEMORY.C): the value is a pointer into the cons-box region. -/
def cbox_p : SExp → Bool
  | .cons _ _ _ => true
  | _ => false

/-- `hint_procedure_p` (MEMORY.C): the cons box carries the procedure hint. -/
def hint_procedure_p : SExp → Bool
  | .cons .procH _ _ => true
  | _ => false

/-- `hint_environment_p` (MEMORY.C). -/
def hint_environment_p : SExp → Bool
  | .cons .envH _ _ => true
  | _ => false

/-- `car` (MEMORY.C); the C asserts `cbox_p`, the non-box case is the
assert-violating read, rendered as NIL. -/
def car : SExp → SExp
  | .cons _ a _ => a
  | _ => .nil

/-- `cdr` (MEMORY.C). -/
def cdr : SExp → SExp
  | .cons _ _ d => d
  | _ => .nil

/-- `number_p`/`integer_p` (MAGIC.C): same test. -/
def number_p : SExp → Bool
  | .int _ => true
  | _ => false

def integer_p : SExp → Bool
  | .int _ => true
  | _ => false

def bool_p : SExp → Bool
  | .boolv _ => true
  | _ => false

def string_p : SExp → Bool
  | .strv _ => true
  | _ => false

def char_p : SExp → Bool
  | .ch _ => true
  | _ => false

def symbol_p : SExp → Bool
  | .symv _ => true
  | _ => false

/-- `equal_p` (MAGIC.C 972-999): pointer identity, or same storage type and
same stored value; structural equality on the tree model. -/
def equal_p (a b : SExp) : Bool := a == b

/-! The interned keyword values of MAGIC.C (`*_zap`), as symbol trees with
their ASCII names, and the two interned booleans. -/

def quote_zap : SExp := .symv [113, 117, 111, 116, 101]
def define_zap : SExp := .symv [100, 101, 102, 105, 110, 101]
def let_zap : SExp := .symv [108, 101, 116]
def and_zap : SExp := .symv [97, 110, 100]
def or_zap : SExp := .symv [111, 114]
def setw_zap : SExp := .symv [115, 101, 116, 33]
def if_zap : SExp := .symv [105, 102]
def cond_zap : SExp := .symv [99, 111, 110, 100]
def lambda_zap : SExp := .symv [108, 97, 109, 98, 100, 97]
def else_zap : SExp := .symv [101, 108, 115, 101]
def true_zap : SExp := .boolv true
def false_zap : SExp := .boolv false

/-- `list_p` (HELP.C 427-433): NIL-terminated chain of cons boxes. -/
def list_p : SExp → Bool
  | .nil => true
  | .cons _ _ d => list_p d
  | _ => false

/-- `length` (HELP.C 436-444); asserts `list_p`, walks cdr-wise. -/
def length : SExp → Nat
  | .cons _ _ d => length d + 1
  | _ => 0

/-- `symbol_list_p` (HELP.C 269-276). -/
def symbol_list_p : SExp → Bool
  | .nil => true
  | .cons _ a d => symbol_p a && symbol_list_p d
  | _ => false

/-- `symbol_compound_p` (HELP.C 279-286): chain of symbols, possibly
terminated by a symbol instead of NIL. -/
def symbol_compound_p : SExp → Bool
  | .nil => true
  | .cons _ a d => if symbol_p a then symbol_compound_p d else false
  | x => symbol_p x

/-- The inner scan of `unique_vars_p` (HELP.C 248-266): walk the rest of
the chain until a cons box whose car equals `x`, or the chain's tail. -/
def mem_rest (x : SExp) : SExp → SExp
  | .cons h a d => if equal_p x a then .cons h a d else mem_rest x d
  | t => t

/-- `unique_vars_p` (HELP.C 248-266). -/
def unique_vars_p : SExp → Bool
  | .cons _ x d =>
      match mem_rest x d with
      | .cons _ _ _ => false
      | t =>
          if symbol_p t then
            if equal_p x t then false else unique_vars_p d
          else unique_vars_p d
  | _ => true

/-- The loop of `list_of_clauses_p` (HELP.C 290-303) with its `len`
counter: each clause is a non-NIL proper list, and a clause headed `else`
must be the last one, not the first one, and have at least two elements. -/
def list_of_clauses_go : SExp → Nat → Bool
  | .nil, _ => true
  | .cons _ a d, len =>
      if !(a == .nil) && list_p a &&
         (!(car a == else_zap) ||
          (d == .nil && !(len == 0) && decide (2 ≤ length a))) then
        list_of_clauses_go d (len + 1)
      else false
  | _, _ => false

/-- `list_of_clauses_p` (HELP.C 290-303). -/
def list_of_clauses_p (cur : SExp) : Bool := list_of_clauses_go cur 0

/-- `assoc_list_p` (HELP.C 306-324). -/
def assoc_list_p : SExp → Bool
  | .nil => true
  | .cons _ a d =>
      match a with
      | .cons _ x rest =>
          if symbol_p x then
            match rest with
            | .cons _ _ tl => if tl == .nil then assoc_list_p d else false
            | _ => false
          else false
      | _ => false
  | _ => false

/-! Environment, binding, procedure and expression accessors (HELP.C). -/

def first_frame (cur : SExp) : SExp := cdr cur
def parent (cur : SExp) : SExp := car cur
def binding_variable (cur : SExp) : SExp := car cur
def binding_value (cur : SExp) : SExp := cdr cur

/-- `binding_in_frame` (HELP.C 70-81). -/
def binding_in_frame (var : SExp) : SExp → SExp
  | .cons _ b rest =>
      if equal_p var (binding_variable b) then b else binding_in_frame var rest
  | _ => .nil

/-- `binding_in_env` (HELP.C 84-93): search every frame, outermost last. -/
def binding_in_env (var : SExp) : SExp → SExp
  | .cons _ par frame =>
      match binding_in_frame var frame with
      | .nil => binding_in_env var par
      | b => b
  | _ => .nil

def operator (cur : SExp) : SExp := car cur
def operands (cur : SExp) : SExp := cdr cur
def first_arg (cur : SExp) : SExp := car (cdr cur)
def second_arg (cur : SExp) : SExp := car (cdr (cdr cur))
def third_arg (cur : SExp) : SExp := car (cdr (cdr (cdr cur)))

def proc_env (cur : SExp) : SExp := cdr cur
def proc_text (cur : SExp) : SExp := car cur
def proc_body (cur : SExp) : SExp := cdr (cdr (car cur))
def proc_params (cur : SExp) : SExp := car (cdr (car cur))

/-- `clauses` (HELP.C 368-395): an `if` is turned into an explicit clause
list, a `cond`'s operands are already one. -/
def clauses (expr : SExp) : SExp :=
  if operator expr == if_zap then
    let thenClause : SExp :=
      .cons .plain (first_arg expr) (.cons .plain (second_arg expr) .nil)
    let rest : SExp :=
      if length expr == 4 then
        .cons .plain
          (.cons .plain else_zap (.cons .plain (third_arg expr) .nil)) .nil
      else .nil
    .cons .plain thenClause rest
  else operands expr

/-- The per-pair tail of `separate_assoc` (HELP.C 338-365): the var list. -/
def sep_vars : SExp → SExp
  | .cons _ asc d => .cons .plain (car asc) (sep_vars d)
  | _ => .nil

/-- The val list of `separate_assoc`. -/
def sep_vals : SExp → SExp
  | .cons _ asc d => .cons .plain (car (cdr asc)) (sep_vals d)
  | _ => .nil

/-- `separate_assoc` (HELP.C 338-365): (var-list . val-list). -/
def separate_assoc (l : SExp) : SExp := .cons .plain (sep_vars l) (sep_vals l)

/-- The pairwise loop and tail handling of `make_frame` (HELP.C 110-153);
`none` is the mismatch error exit. -/
def make_frame_tail : SExp → SExp → Option SExp
  | .cons _ x xs, .cons _ v vs =>
      (make_frame_tail xs vs).map fun bs =>
        SExp.cons .plain (.cons .plain x v) bs
  | vars, vals =>
      if symbol_p vars then some (.cons .plain (.cons .plain vars vals) .nil)
      else if vars == .nil && vals == .nil then some .nil
      else none

/-- `make_frame` (HELP.C 110-153). -/
def make_frame (vars vals : SExp) : Option SExp :=
  if symbol_p vars then some (.cons .plain (.cons .plain vars vals) .nil)
  else
    match vars, vals with
    | .cons hx x xs, .cons hv v vs =>
        make_frame_tail (.cons hx x xs) (.cons hv v vs)
    | _, _ => none

/-- `extend_environment` (HELP.C 186-201). -/
def extend_environment (vars vals base : SExp) : Option SExp :=
  if vars == .nil && vals == .nil then some base
  else (make_frame vars vals).map fun f => .cons .envH base f

/-! ### The state machine (MAIN.C 87-117 labels, 237-913 loop) -/

def START_LABEL : Nat := 0
def SELF_EVAL_P_LABEL : Nat := 1
def VARIABLE_P_LABEL : Nat := 2
def FORGET_ABOUT_IT_LABEL : Nat := 3
def QUOTED_P_LABEL : Nat := 4
def SP_DEFINITION_P_LABEL : Nat := 5
def LET_P_LABEL : Nat := 6
def AND_P_LABEL : Nat := 7
def OR_P_LABEL : Nat := 8
def ASSIGNMENT_P_LABEL : Nat := 9
def CONDITIONAL_P_LABEL : Nat := 10
def LAMBDA_P_LABEL : Nat := 11
def APPLICATION_P_LABEL : Nat := 12
def UNKNOWN_EXPR_LABEL : Nat := 13
def LIST_OF_VALUES_LABEL : Nat := 14
def LIST_OF_VALUES_CONT_LABEL : Nat := 15
def LIST_OF_VALUES_COLLECT_START_LABEL : Nat := 16
def LIST_OF_VALUES_COLLECT_LABEL : Nat := 17
def LIST_OF_VALUES_COLLECT_STOP_LABEL : Nat := 18
def MICRO_APPLY_LABEL : Nat := 19
def DEFINITION_CONT_LABEL : Nat := 20
def AND_CONT_LABEL : Nat := 21
def OR_CONT_LABEL : Nat := 22
def ASSIGNMENT_CONT_LABEL : Nat := 23
def CONDITIONAL_CONT_LABEL : Nat := 24
def EVAL_SEQUENCE_LABEL : Nat := 25
def EVAL_SEQUENCE_CONT_LABEL : Nat := 26
def ERROR_LABEL : Nat := 27
def END_LABEL : Nat := 28

/-- The loop's registers (MAIN.C 54-59, 237-240): the continuation label,
the seven pointer registers (`oper` is the loop's local variable set at
`START_LABEL` and read by the dispatch chain), both stacks (head = top of
stack), and the process-wide `syntaxcheck` flag. -/
structure EState where
  cont : Nat
  exp : SExp := .nil
  val : SExp := .nil
  env : SExp := .nil
  funr : SExp := .nil
  argl : SExp := .nil
  unev : SExp := .nil
  oper : SExp := .nil
  pstack : List SExp := []
  lstack : List Nat := []
  sc : Bool := true
deriving Repr

/-- The loop's externals: `apply_builtin` (BUILTIN module) takes the
syntaxcheck flag (which a builtin like `synchecktoggle` may change) and
returns the result value with the new flag, `none` for its
`goto_recoverable_error` exits; `reserved` is `reserved_p` (MAGIC.C 452-459,
membership in the keyword table built by `init_magic`). -/
structure Ext where
  applyB : Bool → SExp → SExp → Option (SExp × Bool)
  reserved : SExp → Bool

/-- `UNKNOWN_EXPR_LABEL` (MAIN.C 592-599). -/
def stepUNKNOWN (s : EState) : Option EState :=
  some { s with cont := ERROR_LABEL }

/-- `APPLICATION_P_LABEL` (MAIN.C 578-591), falling through to
`UNKNOWN_EXPR_LABEL`. -/
def stepAPPLICATION (s : EState) : Option EState :=
  if !s.sc || list_p s.exp then
    some { s with exp := car s.exp,
                  pstack := operands s.exp :: s.env :: s.pstack,
                  lstack := LIST_OF_VALUES_LABEL :: s.lstack,
                  cont := START_LABEL }
  else stepUNKNOWN s

/-- `LAMBDA_P_LABEL` (MAIN.C 554-576). -/
def stepLAMBDA (ext : Ext) (s : EState) : Option EState :=
  if s.oper == lambda_zap then
    if s.sc && (!list_p s.exp || decide (length s.exp < 3) ||
        !symbol_compound_p (first_arg s.exp) ||
        !unique_vars_p (first_arg s.exp)) then
      some { s with cont := ERROR_LABEL }
    else
      match s.lstack with
      | l :: lrest =>
          some { s with val := .cons .procH s.exp s.env, cont := l,
                        lstack := lrest }
      | [] => none
  else stepAPPLICATION s

/-- `CONDITIONAL_P_LABEL` (MAIN.C 525-551). -/
def stepCOND (ext : Ext) (s : EState) : Option EState :=
  if s.oper == if_zap || s.oper == cond_zap then
    if s.sc && !(list_p s.exp &&
        ((car s.exp == if_zap &&
            (length s.exp == 3 || length s.exp == 4)) ||
         (car s.exp == cond_zap && decide (2 ≤ length s.exp) &&
            list_of_clauses_p (operands s.exp)))) then
      some { s with cont := ERROR_LABEL }
    else
      let cl := clauses s.exp
      let clause1 := car cl
      some { s with exp := car clause1,
                    pstack := cdr clause1 :: cdr cl :: s.env :: s.exp ::
                      s.pstack,
                    lstack := CONDITIONAL_CONT_LABEL :: s.lstack,
                    cont := START_LABEL }
  else stepLAMBDA ext s

/-- `ASSIGNMENT_P_LABEL` (MAIN.C 489-523). -/
def stepASSIGN (ext : Ext) (s : EState) : Option EState :=
  if s.oper == setw_zap then
    if s.sc && (!list_p s.exp || !(length s.exp == 3) ||
        !symbol_p (first_arg s.exp)) then
      some { s with cont := ERROR_LABEL }
    else if ext.reserved (first_arg s.exp) then
      some { s with cont := ERROR_LABEL }
    else
      let b := binding_in_env (first_arg s.exp) s.env
      if b == .nil then some { s with val := b, cont := ERROR_LABEL }
      else
        some { s with val := b, exp := second_arg s.exp,
                      pstack := first_arg s.exp :: b :: s.env :: s.pstack,
                      lstack := ASSIGNMENT_CONT_LABEL :: s.lstack,
                      cont := START_LABEL }
  else stepCOND ext s

/-- `OR_P_LABEL` (MAIN.C 458-487). -/
def stepOR (ext : Ext) (s : EState) : Option EState :=
  if s.oper == or_zap then
    if s.sc && !list_p s.exp then some { s with cont := ERROR_LABEL }
    else
      let e := operands s.exp
      if e == .nil then
        match s.lstack with
        | l :: lrest =>
            some { s with exp := e, val := false_zap, cont := l,
                          lstack := lrest }
        | [] => none
      else if !(cdr e == .nil) then
        some { s with exp := car e,
                      pstack := cdr e :: s.env :: s.pstack,
                      lstack := OR_CONT_LABEL :: s.lstack,
                      cont := START_LABEL }
      else some { s with exp := car e, cont := START_LABEL }
  else stepASSIGN ext s

/-- `AND_P_LABEL` (MAIN.C 425-456). -/
def stepAND (ext : Ext) (s : EState) : Option EState :=
  if s.oper == and_zap then
    if s.sc && !list_p s.exp then some { s with cont := ERROR_LABEL }
    else
      let e := operands s.exp
      if e == .nil then
        match s.lstack with
        | l :: lrest =>
            some { s with exp := e, val := true_zap, cont := l,
                          lstack := lrest }
        | [] => none
      else if !(cdr e == .nil) then
        some { s with exp := car e,
                      pstack := cdr e :: s.env :: s.pstack,
                      lstack := AND_CONT_LABEL :: s.lstack,
                      cont := START_LABEL }
      else some { s with exp := car e, cont := START_LABEL }
  else stepOR ext s

/-- `LET_P_LABEL` (MAIN.C 392-423): translate into an application of a
lambda; control continues at `APPLICATION_P_LABEL` without a new dispatch. -/
def stepLET (ext : Ext) (s : EState) : Option EState :=
  if s.oper == let_zap then
    if s.sc && (!list_p s.exp || decide (length s.exp < 3) ||
        !assoc_list_p (first_arg s.exp)) then
      some { s with cont := ERROR_LABEL }
    else
      let argl := separate_assoc (first_arg s.exp)
      let val1 := SExp.cons .plain (car argl) (cdr (operands s.exp))
      let val2 := SExp.cons .plain lambda_zap val1
      some { s with exp := SExp.cons .plain val2 (cdr argl), argl := argl,
                    val := val2, cont := APPLICATION_P_LABEL }
  else stepAND ext s

/-- The sugared-define translation inside `SP_DEFINITION_P_LABEL`
(MAIN.C 341-359): `(define (f . params) . body)` becomes
`(define f (lambda params . body))`, built cell by cell. -/
def sugarDefine (e : SExp) : SExp :=
  let val1 := SExp.cons .plain (cdr (first_arg e)) (cdr (operands e))
  let val2 := SExp.cons .plain lambda_zap val1
  let val3 := SExp.cons .plain val2 .nil
  let val4 := SExp.cons .plain (car (first_arg e)) val3
  SExp.cons .plain define_zap val4

/-- `SP_DEFINITION_P_LABEL` (MAIN.C 329-390). -/
def stepDEFINE (ext : Ext) (s : EState) : Option EState :=
  if s.oper == define_zap then
    if s.sc && (!list_p s.exp || decide (length s.exp < 3)) then
      some { s with cont := ERROR_LABEL }
    else
      let e := if symbol_list_p (first_arg s.exp) then sugarDefine s.exp
               else s.exp
      if s.sc && (!(length e == 3) || !symbol_p (first_arg e)) then
        some { s with exp := e, cont := ERROR_LABEL }
      else if ext.reserved (first_arg e) then
        some { s with exp := e, cont := ERROR_LABEL }
      else
        let b := binding_in_frame (first_arg e) (first_frame s.env)
        some { s with exp := second_arg e, val := b,
                      pstack := first_arg e :: b :: s.env :: s.pstack,
                      lstack := DEFINITION_CONT_LABEL :: s.lstack,
                      cont := START_LABEL }
  else stepLET ext s

/-- `QUOTED_P_LABEL` (MAIN.C 311-327). -/
def stepQUOTED (ext : Ext) (s : EState) : Option EState :=
  if s.oper == quote_zap then
    if s.sc && (!list_p s.exp || !(length s.exp == 2)) then
      some { s with cont := ERROR_LABEL }
    else
      match s.lstack with
      | l :: lrest =>
          some { s with val := first_arg s.exp, cont := l, lstack := lrest }
      | [] => none
  else stepDEFINE ext s

/-- `FORGET_ABOUT_IT_LABEL` (MAIN.C 302-309). -/
def stepFORGET (s : EState) : Option EState :=
  some { s with cont := UNKNOWN_EXPR_LABEL }

/-- `VARIABLE_P_LABEL` (MAIN.C 273-300). -/
def stepVARIABLE (ext : Ext) (s : EState) : Option EState :=
  if symbol_p s.exp then
    if ext.reserved s.exp then
      match s.lstack with
      | l :: lrest =>
          some { s with val := .cons .procH s.exp .nil, cont := l,
                        lstack := lrest }
      | [] => none
    else
      let b := binding_in_env s.exp s.env
      if b == .nil then some { s with val := b, cont := ERROR_LABEL }
      else
        match s.lstack with
        | l :: lrest =>
            some { s with val := binding_value b, cont := l, lstack := lrest }
        | [] => none
  else stepFORGET s

/-- `SELF_EVAL_P_LABEL` (MAIN.C 260-271). -/
def stepSELF (ext : Ext) (s : EState) : Option EState :=
  if number_p s.exp || bool_p s.exp || s.exp == .nil || string_p s.exp ||
      char_p s.exp then
    match s.lstack with
    | l :: lrest => some { s with val := s.exp, cont := l, lstack := lrest }
    | [] => none
  else stepVARIABLE ext s

/-- `START_LABEL` (MAIN.C 246-258). -/
def stepSTART (ext : Ext) (s : EState) : Option EState :=
  if cbox_p s.exp then
    some { s with oper := operator s.exp, cont := QUOTED_P_LABEL }
  else stepSELF ext s

/-- `MICRO_APPLY_LABEL` (MAIN.C 701-720): builtin when the procedure
box's cdr is NIL, compound otherwise. -/
def stepAPPLY (ext : Ext) (s : EState) : Option EState :=
  if cdr s.funr == .nil then
    match ext.applyB s.sc (car s.funr) s.argl with
    | some (v, sc') =>
        match s.lstack with
        | l :: lrest =>
            some { s with val := v, sc := sc', cont := l, lstack := lrest }
        | [] => none
    | none => none
  else
    match extend_environment (proc_params s.funr) s.argl (proc_env s.funr) with
    | some env =>
        some { s with env := env, exp := proc_body s.funr,
                      cont := EVAL_SEQUENCE_LABEL }
    | none => none

/-- `LIST_OF_VALUES_COLLECT_STOP_LABEL` (MAIN.C 691-699), falling through
into `MICRO_APPLY_LABEL`. -/
def stepCollectStop (ext : Ext) (s : EState) : Option EState :=
  match s.pstack with
  | f :: rest => stepAPPLY ext { s with funr := f, pstack := rest }
  | [] => none

/-- `LIST_OF_VALUES_COLLECT_LABEL` (MAIN.C 679-689). -/
def stepCollect (s : EState) : Option EState :=
  match s.pstack with
  | p :: rest =>
      let u := SExp.cons .plain p s.argl
      match s.lstack with
      | l :: lrest =>
          some { s with unev := u, argl := u, pstack := rest, cont := l,
                        lstack := lrest }
      | [] => none
  | [] => none

/-- `LIST_OF_VALUES_COLLECT_START_LABEL` (MAIN.C 669-677), falling
through into the collect loop. -/
def stepCollectStart (s : EState) : Option EState :=
  stepCollect { s with argl := .nil, pstack := s.val :: s.pstack }

/-- `LIST_OF_VALUES_CONT_LABEL` (MAIN.C 645-667). -/
def stepLOVCont (s : EState) : Option EState :=
  match s.pstack with
  | e :: env :: rest =>
      if cdr e == .nil then
        some { s with exp := car e, env := env,
                      pstack := s.val :: rest,
                      lstack := LIST_OF_VALUES_COLLECT_START_LABEL ::
                        LIST_OF_VALUES_COLLECT_LABEL :: s.lstack,
                      cont := START_LABEL }
      else
        some { s with exp := car e, env := env,
                      pstack := cdr e :: env :: s.val :: rest,
                      lstack := LIST_OF_VALUES_CONT_LABEL ::
                        LIST_OF_VALUES_COLLECT_LABEL :: s.lstack,
                      cont := START_LABEL }
  | _ => none

/-- `LIST_OF_VALUES_LABEL` (MAIN.C 606-643). -/
def stepLOV (s : EState) : Option EState :=
  match s.pstack with
  | e :: env :: rest =>
      let f := s.val
      if s.sc && !hint_procedure_p f then
        some { s with exp := e, env := env, funr := f, pstack := rest,
                      cont := ERROR_LABEL }
      else if e == .nil then
        some { s with exp := e, env := env, funr := f, argl := .nil,
                      pstack := rest, cont := MICRO_APPLY_LABEL }
      else if !(cdr e == .nil) then
        some { s with exp := car e, env := env, funr := f,
                      pstack := cdr e :: env :: f :: rest,
                      lstack := LIST_OF_VALUES_CONT_LABEL ::
                        LIST_OF_VALUES_COLLECT_STOP_LABEL :: s.lstack,
                      cont := START_LABEL }
      else
        some { s with exp := car e, env := env, funr := f,
                      pstack := f :: rest,
                      lstack := LIST_OF_VALUES_COLLECT_START_LABEL ::
                        LIST_OF_VALUES_COLLECT_STOP_LABEL :: s.lstack,
                      cont := START_LABEL }
  | _ => none

/-- `DEFINITION_CONT_LABEL` (MAIN.C 726-748).  The `define` case updates
the env register's first frame (`define_variable_w`, HELP.C 157-167); a
`set!`-style rebind (`set_variable_w`) mutates a binding cell in the heap
and leaves the registers as they are. -/
def stepDefCont (s : EState) : Option EState :=
  match s.pstack with
  | e :: u :: env :: rest =>
      if !(u == binding_in_frame e (first_frame env)) then
        some { s with exp := e, unev := u, env := env, pstack := rest,
                      cont := ERROR_LABEL }
      else
        let env' :=
          if u == .nil then
            SExp.cons .envH (parent env)
              (.cons .plain (.cons .plain e s.val) (first_frame env))
          else env
        match s.lstack with
        | l :: lrest =>
            some { s with exp := e, unev := u, env := env', val := .nil,
                          pstack := rest, cont := l, lstack := lrest }
        | [] => none
  | _ => none

/-- `AND_CONT_LABEL` (MAIN.C 750-772). -/
def stepAndCont (s : EState) : Option EState :=
  match s.pstack with
  | e :: env :: rest =>
      if s.val == false_zap then
        match s.lstack with
        | l :: lrest =>
            some { s with exp := e, env := env, pstack := rest, cont := l,
                          lstack := lrest }
        | [] => none
      else if !(cdr e == .nil) then
        some { s with exp := car e, env := env,
                      pstack := cdr e :: env :: rest,
                      lstack := AND_CONT_LABEL :: s.lstack,
                      cont := START_LABEL }
      else
        some { s with exp := car e, env := env, pstack := rest,
                      cont := START_LABEL }
  | _ => none

/-- `OR_CONT_LABEL` (MAIN.C 774-796). -/
def stepOrCont (s : EState) : Option EState :=
  match s.pstack with
  | e :: env :: rest =>
      if !(s.val == false_zap) then
        match s.lstack with
        | l :: lrest =>
            some { s with exp := e, env := env, pstack := rest, cont := l,
                          lstack := lrest }
        | [] => none
      else if !(cdr e == .nil) then
        some { s with exp := car e, env := env,
                      pstack := cdr e :: env :: rest,
                      lstack := OR_CONT_LABEL :: s.lstack,
                      cont := START_LABEL }
      else
        some { s with exp := car e, env := env, pstack := rest,
                      cont := START_LABEL }
  | _ => none

/-- `ASSIGNMENT_CONT_LABEL` (MAIN.C 798-820); the rebind itself
(`set_variable_w`) is heap mutation outside the register model. -/
def stepAssignCont (s : EState) : Option EState :=
  match s.pstack with
  | e :: u :: env :: rest =>
      if !(u == binding_in_env e env) then
        some { s with exp := e, unev := u, env := env, pstack := rest,
                      cont := ERROR_LABEL }
      else
        match s.lstack with
        | l :: lrest =>
            some { s with exp := e, unev := u, env := env, val := .nil,
                          pstack := rest, cont := l, lstack := lrest }
        | [] => none
  | _ => none

/-- `CONDITIONAL_CONT_LABEL` (MAIN.C 822-861); below the three popped
slots sits the original expression, pushed by `CONDITIONAL_P_LABEL`. -/
def stepCondCont (s : EState) : Option EState :=
  match s.pstack with
  | e :: u :: env :: rest =>
      if !(s.val == false_zap) then
        match rest with
        | _ :: rest2 =>
            if !(e == .nil) then
              some { s with exp := e, unev := u, env := env, pstack := rest2,
                            cont := EVAL_SEQUENCE_LABEL }
            else
              match s.lstack with
              | l :: lrest =>
                  some { s with exp := e, unev := u, env := env,
                                pstack := rest2, cont := l, lstack := lrest }
              | [] => none
        | [] => none
      else if u == .nil then
        match rest with
        | _ :: rest2 =>
            some { s with exp := e, unev := u, env := env, pstack := rest2,
                          cont := ERROR_LABEL }
        | [] => none
      else if car (car u) == else_zap then
        match rest with
        | _ :: rest2 =>
            some { s with exp := cdr (car u), unev := u, env := env,
                          pstack := rest2, cont := EVAL_SEQUENCE_LABEL }
        | [] => none
      else
        some { s with exp := car (car u), unev := u, env := env,
                      pstack := cdr (car u) :: cdr u :: env :: rest,
                      lstack := CONDITIONAL_CONT_LABEL :: s.lstack,
                      cont := START_LABEL }
  | _ => none

/-- `EVAL_SEQUENCE_LABEL` (MAIN.C 867-881). -/
def stepEvalSeq (s : EState) : Option EState :=
  if !(cdr s.exp == .nil) then
    some { s with exp := car s.exp,
                  pstack := cdr s.exp :: s.env :: s.pstack,
                  lstack := EVAL_SEQUENCE_CONT_LABEL :: s.lstack,
                  cont := START_LABEL }
  else some { s with exp := car s.exp, cont := START_LABEL }

/-- `EVAL_SEQUENCE_CONT_LABEL` (MAIN.C 883-897). -/
def stepEvalSeqCont (s : EState) : Option EState :=
  match s.pstack with
  | e :: env :: rest =>
      if !(cdr e == .nil) then
        some { s with exp := car e, env := env,
                      pstack := cdr e :: env :: rest,
                      lstack := EVAL_SEQUENCE_CONT_LABEL :: s.lstack,
                      cont := START_LABEL }
      else
        some { s with exp := car e, env := env, pstack := rest,
                      cont := START_LABEL }
  | _ => none

/-- One execution of the loop's switch (MAIN.C 241-911): dispatch on the
continuation label; `ERROR_LABEL` and an unknown label call
`goto_recoverable_error`. -/
def step (ext : Ext) (s : EState) : Option EState :=
  if s.cont = START_LABEL then stepSTART ext s
  else if s.cont = SELF_EVAL_P_LABEL then stepSELF ext s
  else if s.cont = VARIABLE_P_LABEL then stepVARIABLE ext s
  else if s.cont = FORGET_ABOUT_IT_LABEL then stepFORGET s
  else if s.cont = QUOTED_P_LABEL then stepQUOTED ext s
  else if s.cont = SP_DEFINITION_P_LABEL then stepDEFINE ext s
  else if s.cont = LET_P_LABEL then stepLET ext s
  else if s.cont = AND_P_LABEL then stepAND ext s
  else if s.cont = OR_P_LABEL then stepOR ext s
  else if s.cont = ASSIGNMENT_P_LABEL then stepASSIGN ext s
  else if s.cont = CONDITIONAL_P_LABEL then stepCOND ext s
  else if s.cont = LAMBDA_P_LABEL then stepLAMBDA ext s
  else if s.cont = APPLICATION_P_LABEL then stepAPPLICATION s
  else if s.cont = UNKNOWN_EXPR_LABEL then stepUNKNOWN s
  else if s.cont = LIST_OF_VALUES_LABEL then stepLOV s
  else if s.cont = LIST_OF_VALUES_CONT_LABEL then stepLOVCont s
  else if s.cont = LIST_OF_VALUES_COLLECT_START_LABEL then stepCollectStart s
  else if s.cont = LIST_OF_VALUES_COLLECT_LABEL then stepCollect s
  else if s.cont = LIST_OF_VALUES_COLLECT_STOP_LABEL then stepCollectStop ext s
  else if s.cont = MICRO_APPLY_LABEL then stepAPPLY ext s
  else if s.cont = DEFINITION_CONT_LABEL then stepDefCont s
  else if s.cont = AND_CONT_LABEL then stepAndCont s
  else if s.cont = OR_CONT_LABEL then stepOrCont s
  else if s.cont = ASSIGNMENT_CONT_LABEL then stepAssignCont s
  else if s.cont = CONDITIONAL_CONT_LABEL then stepCondCont s
  else if s.cont = EVAL_SEQUENCE_LABEL then stepEvalSeq s
  else if s.cont = EVAL_SEQUENCE_CONT_LABEL then stepEvalSeqCont s
  else none

/-- Iterated stepping. -/
def stepN (ext : Ext) : Nat → EState → Option EState
  | 0, s => some s
  | n + 1, s => (step ext s).bind (stepN ext n)

/-- The do-while of `evaluation_loop`: run until the continuation is
`END_LABEL`; `none` when the fuel runs out or the loop aborts through
`goto_recoverable_error`. -/
def run (ext : Ext) : Nat → EState → Option EState
  | 0, _ => none
  | n + 1, s =>
      if s.cont = END_LABEL then some s else (step ext s).bind (run ext n)

/-- `evaluation_loop` (MAIN.C 237-913): entered from `micro_eval` with
empty stacks, `END_LABEL` pushed, control at `START_LABEL`. -/
def evalLoop (ext : Ext) (fuel : Nat) (e env : SExp) (sc : Bool) :
    Option EState :=
  run ext fuel
    { cont := START_LABEL, exp := e, env := env, sc := sc,
      lstack := [END_LABEL], pstack := [] }

/-- The `synchecktoggle_zap` branch of `apply_builtin1` (part_000 551-559):
under syntax checking a non-empty argument list is a syntax error
(`goto_recoverable_error`); otherwise `syntaxcheck = !syntaxcheck` and the
returned value is `make_bool(!syntaxcheck)` built AFTER the flip. -/
def synchecktoggle (sc : Bool) (args : SExp) : Option (SExp × Bool) :=
  if sc && !(args == .nil) then none
  else
    let sc' := !sc
    some (.boolv (!sc'), sc')

/-- A proper list as an `SExp` chain. -/
def ofList : List SExp → SExp
  | [] => .nil
  | e :: rest => .cons .plain e (ofList rest)

/-- The rule `list_of_clauses_p` actually enforces, stated declaratively
over a clause list (`notFirst` records whether a clause is preceded by
another): every clause is a non-NIL proper list; a clause headed `else`
must be last, must not be first, and must have at least two elements;
other clauses may have any positive length. -/
def clausesOkA : List SExp → Bool → Bool
  | [], _ => true
  | [c], notFirst =>
      !(c == .nil) && list_p c &&
        (!(car c == else_zap) || (notFirst && decide (2 ≤ length c)))
  | c :: rest, _ =>
      !(c == .nil) && list_p c && !(car c == else_zap) &&
        clausesOkA rest true

/-- The clause rule as claim C7 words it (spec-modelled, for comparison
with the code's checker): a non-empty list of clauses, every non-final
clause with head distinct from `else`, only the final clause possibly
headed `else`, and every clause with at least two elements. -/
def specClausesOk : List SExp → Bool
  | [] => false
  | [c] => list_p c && decide (2 ≤ length c)
  | c :: rest =>
      list_p c && decide (2 ≤ length c) && !(car c == else_zap) &&
        specClausesOk rest

lemma ofList_beq_nil (cs : List SExp) :
    (ofList cs == SExp.nil) = (cs == []) := by
  cases cs <;> rfl

lemma list_of_clauses_go_cons (h : Hint) (a d : SExp) (len : Nat) :
    list_of_clauses_go (.cons h a d) len =
      if !(a == SExp.nil) && list_p a &&
         (!(car a == else_zap) ||
          (d == SExp.nil && !(len == 0) && decide (2 ≤ length a))) then
        list_of_clauses_go d (len + 1)
      else false := rfl

lemma list_of_clauses_go_eq : ∀ (cs : List SExp) (len : Nat),
    list_of_clauses_go (ofList cs) len = clausesOkA cs (!(len == 0)) := by
  intro cs
  induction cs with
  | nil => intro len; rfl
  | cons c rest ih =>
      intro len
      cases rest with
      | nil =>
          show list_of_clauses_go (.cons .plain c (ofList [])) len = _
          simp only [ofList, list_of_clauses_go, clausesOkA]
          cases hn : (c == SExp.nil) <;>
            cases hl : list_p c <;>
              cases he : (car c == else_zap) <;>
                cases h0 : (len == 0) <;>
                  cases h2 : decide (2 ≤ length c) <;>
                    simp [hn, hl, he, h0, h2]
      | cons c2 rest2 =>
          show list_of_clauses_go (.cons .plain c (ofList (c2 :: rest2)))
            len = _
          rw [list_of_clauses_go_cons, ih (len + 1)]
          simp only [clausesOkA]
          cases hn : (c == SExp.nil) <;>
            cases hl : list_p c <;>
              cases he : (car c == else_zap) <;>
                simp [ofList, hn, hl, he]

/-! ### Composable evaluation runs -/

lemma stepN_add (ext : Ext) : ∀ (a b : Nat) (s : EState),
    stepN ext (a + b) s = (stepN ext a s).bind (stepN ext b) := by
  intro a
  induction a with
  | zero =>
      intro b s
      rw [Nat.zero_add]
      rfl
  | succ a ih =>
      intro b s
      have h1 : a + 1 + b = (a + b) + 1 := by omega
      rw [h1]
      show (step ext s).bind (stepN ext (a + b)) =
        ((step ext s).bind (stepN ext a)).bind (stepN ext b)
      cases step ext s with
      | none => rfl
      | some s1 =>
          show stepN ext (a + b) s1 = (stepN ext a s1).bind (stepN ext b)
          exact ih b s1

/-- The machine, entered at `START_LABEL` on expression `e` in environment
`env` with flag `sc`, finishes in `n` switch executions with value `v` and
flag `sc'`: whatever else is in the registers and on the stacks, it pops
the top label, restores the pointer stack, and delivers `v`. -/
def EvalsTo (ext : Ext) (n : Nat) (e env : SExp) (sc : Bool) (v : SExp)
    (sc' : Bool) : Prop :=
  ∀ (s : EState) (l : Nat) (ls : List Nat),
    s.cont = START_LABEL → s.exp = e → s.env = env → s.sc = sc →
    s.lstack = l :: ls →
    ∃ s', stepN ext n s = some s' ∧ s'.cont = l ∧ s'.lstack = ls ∧
      s'.pstack = s.pstack ∧ s'.val = v ∧ s'.sc = sc'

/-- The `and`-chain protocol of AND_P_LABEL / AND_CONT_LABEL (MAIN.C
425-456, 750-772) over a non-empty operand chain: the last operand's value
is the result; a false operand value stops the chain at once (no judgment
about the remaining operands is needed); a non-false value continues. -/
inductive AndEval (ext : Ext) (env : SExp) :
    SExp → Bool → SExp → Bool → Prop where
  | last (h : Hint) (e : SExp) (sc : Bool) (v : SExp) (sc' : Bool) (n : Nat)
      (he : EvalsTo ext n e env sc v sc') :
      AndEval ext env (.cons h e .nil) sc v sc'
  | stop (h : Hint) (e rest : SExp) (sc sc' : Bool) (n : Nat)
      (he : EvalsTo ext n e env sc false_zap sc') (hrest : rest ≠ .nil) :
      AndEval ext env (.cons h e rest) sc false_zap sc'
  | go (h : Hint) (e rest : SExp) (sc sc1 sc2 : Bool) (v1 v : SExp) (n : Nat)
      (he : EvalsTo ext n e env sc v1 sc1) (hv1 : v1 ≠ false_zap)
      (hrest : rest ≠ .nil) (hnext : AndEval ext env rest sc1 v sc2) :
      AndEval ext env (.cons h e rest) sc v sc2

/-! ### Step reductions for the and-chain -/

lemma step_at_START (ext : Ext) (s : EState) (hc : s.cont = START_LABEL) :
    step ext s = stepSTART ext s := by
  simp [step, hc, START_LABEL]

lemma step_at_QUOTED (ext : Ext) (s : EState) (hc : s.cont = QUOTED_P_LABEL) :
    step ext s = stepQUOTED ext s := by
  simp [step, hc, START_LABEL, SELF_EVAL_P_LABEL, VARIABLE_P_LABEL,
    FORGET_ABOUT_IT_LABEL, QUOTED_P_LABEL]

lemma step_at_ANDCONT (ext : Ext) (s : EState)
    (hc : s.cont = AND_CONT_LABEL) : step ext s = stepAndCont s := by
  simp [step, hc, START_LABEL, SELF_EVAL_P_LABEL, VARIABLE_P_LABEL,
    FORGET_ABOUT_IT_LABEL, QUOTED_P_LABEL, SP_DEFINITION_P_LABEL,
    LET_P_LABEL, AND_P_LABEL, OR_P_LABEL, ASSIGNMENT_P_LABEL,
    CONDITIONAL_P_LABEL, LAMBDA_P_LABEL, APPLICATION_P_LABEL,
    UNKNOWN_EXPR_LABEL, LIST_OF_VALUES_LABEL, LIST_OF_VALUES_CONT_LABEL,
    LIST_OF_VALUES_COLLECT_START_LABEL, LIST_OF_VALUES_COLLECT_LABEL,
    LIST_OF_VALUES_COLLECT_STOP_LABEL, MICRO_APPLY_LABEL,
    DEFINITION_CONT_LABEL, AND_CONT_LABEL]

lemma stepSTART_cbox (ext : Ext) (s : EState) (hcb : cbox_p s.exp = true) :
    stepSTART ext s =
      some { s with oper := operator s.exp, cont := QUOTED_P_LABEL } := by
  rw [stepSTART, if_pos hcb]

lemma stepQUOTED_and (ext : Ext) (s : EState) (hop : s.oper = and_zap) :
    stepQUOTED ext s = stepAND ext s := by
  rw [stepQUOTED, stepDEFINE, stepLET, hop]
  rw [if_neg (by decide), if_neg (by decide), if_neg (by decide)]

lemma stepAND_nil (ext : Ext) (s : EState) (l : Nat) (ls : List Nat)
    (hop : s.oper = and_zap) (hlp : list_p s.exp = true)
    (hops : operands s.exp = .nil) (hls : s.lstack = l :: ls) :
    stepAND ext s =
      some { s with exp := operands s.exp, val := true_zap, cont := l,
                    lstack := ls } := by
  simp [stepAND, hop, hlp, hops, hls]

lemma stepAND_last (ext : Ext) (s : EState) (hop : s.oper = and_zap)
    (hlp : list_p s.exp = true) (hops : operands s.exp ≠ .nil)
    (hlast : cdr (operands s.exp) = .nil) :
    stepAND ext s =
      some { s with exp := car (operands s.exp), cont := START_LABEL } := by
  simp [stepAND, hop, hlp, hops, hlast]

lemma stepAND_push (ext : Ext) (s : EState) (hop : s.oper = and_zap)
    (hlp : list_p s.exp = true) (hops : operands s.exp ≠ .nil)
    (hmore : cdr (operands s.exp) ≠ .nil) :
    stepAND ext s =
      some { s with exp := car (operands s.exp),
                    pstack := cdr (operands s.exp) :: s.env :: s.pstack,
                    lstack := AND_CONT_LABEL :: s.lstack,
                    cont := START_LABEL } := by
  simp [stepAND, hop, hlp, hops, hmore]

lemma stepAndCont_stop (s : EState) (e env' : SExp) (P : List SExp)
    (l : Nat) (ls : List Nat) (hp : s.pstack = e :: env' :: P)
    (hv : s.val = false_zap) (hls : s.lstack = l :: ls) :
    stepAndCont s =
      some { s with exp := e, env := env', pstack := P, cont := l,
                    lstack := ls } := by
  simp [stepAndCont, hp, hv, hls]

lemma stepAndCont_go_last (s : EState) (e env' : SExp) (P : List SExp)
    (hp : s.pstack = e :: env' :: P) (hv : s.val ≠ false_zap)
    (hlast : cdr e = .nil) :
    stepAndCont s =
      some { s with exp := car e, env := env', pstack := P,
                    cont := START_LABEL } := by
  simp [stepAndCont, hp, hv, hlast]

lemma stepAndCont_go_more (s : EState) (e env' : SExp) (P : List SExp)
    (hp : s.pstack = e :: env' :: P) (hv : s.val ≠ false_zap)
    (hmore : cdr e ≠ .nil) :
    stepAndCont s =
      some { s with exp := car e, env := env',
                    pstack := cdr e :: env' :: P,
                    lstack := AND_CONT_LABEL :: s.lstack,
                    cont := START_LABEL } := by
  simp [stepAndCont, hp, hv, hmore]

lemma AndEval.shape {ext : Ext} {env ops : SExp} {sc : Bool} {v : SExp}
    {sc' : Bool} (h : AndEval ext env ops sc v sc') : cbox_p ops = true := by
  cases h <;> rfl

lemma evalsTo_self (ext : Ext) (e env : SExp) (sc : Bool)
    (hnc : cbox_p e = false)
    (hself : (number_p e || bool_p e || e == SExp.nil || string_p e ||
      char_p e) = true) : EvalsTo ext 1 e env sc e sc := by
  intro s l ls hc he henv hsc hls
  refine ⟨{ s with val := e, cont := l, lstack := ls }, ?_, rfl, rfl, rfl,
    rfl, hsc⟩
  show (step ext s).bind (stepN ext 0) = _
  rw [step_at_START ext s hc]
  have h1 : stepSTART ext s =
      some { s with val := e, cont := l, lstack := ls } := by
    simp [stepSTART, stepSELF, he, hnc, hself, hls]
  rw [h1]
  rfl

lemma step_at_END (ext : Ext) (s : EState) (hc : s.cont = END_LABEL) :
    step ext s = none := by
  simp [step, hc, START_LABEL, SELF_EVAL_P_LABEL, VARIABLE_P_LABEL,
    FORGET_ABOUT_IT_LABEL, QUOTED_P_LABEL, SP_DEFINITION_P_LABEL,
    LET_P_LABEL, AND_P_LABEL, OR_P_LABEL, ASSIGNMENT_P_LABEL,
    CONDITIONAL_P_LABEL, LAMBDA_P_LABEL, APPLICATION_P_LABEL,
    UNKNOWN_EXPR_LABEL, LIST_OF_VALUES_LABEL, LIST_OF_VALUES_CONT_LABEL,
    LIST_OF_VALUES_COLLECT_START_LABEL, LIST_OF_VALUES_COLLECT_LABEL,
    LIST_OF_VALUES_COLLECT_STOP_LABEL, MICRO_APPLY_LABEL,
    DEFINITION_CONT_LABEL, AND_CONT_LABEL, OR_CONT_LABEL,
    ASSIGNMENT_CONT_LABEL, CONDITIONAL_CONT_LABEL, EVAL_SEQUENCE_LABEL,
    EVAL_SEQUENCE_CONT_LABEL, END_LABEL]

lemma run_of_stepN (ext : Ext) : ∀ (n : Nat) (s s' : EState),
    stepN ext n s = some s' → s'.cont = END_LABEL →
    run ext (n + 1) s = some s' := by
  intro n
  induction n with
  | zero =>
      intro s s' h1 h2
      cases h1
      show (if s.cont = END_LABEL then some s
        else (step ext s).bind (run ext 0)) = some s
      rw [if_pos h2]
  | succ n ih =>
      intro s s' h1 h2
      have h1' : (step ext s).bind (stepN ext n) = some s' := h1
      cases hs : step ext s with
      | none => rw [hs] at h1'; cases h1'
      | some s1 =>
          rw [hs] at h1'
          have hcont : ¬(s.cont = END_LABEL) := by
            intro hx
            rw [step_at_END ext s hx] at hs
            cases hs
          show (if s.cont = END_LABEL then some s
            else (step ext s).bind (run ext (n + 1))) = some s'
          rw [if_neg hcont, hs]
          exact ih s1 s' h1' h2

lemma and_chain (ext : Ext) (env : SExp) :
    ∀ (ops : SExp) (sc : Bool) (v : SExp) (sc' : Bool),
    AndEval ext env ops sc v sc' →
    ∃ n : Nat, ∀ (s : EState) (l : Nat) (ls : List Nat) (P : List SExp),
      s.cont = START_LABEL → s.env = env → s.sc = sc → s.exp = car ops →
      ((cdr ops = SExp.nil ∧ s.pstack = P ∧ s.lstack = l :: ls) ∨
       (cdr ops ≠ SExp.nil ∧ s.pstack = cdr ops :: env :: P ∧
         s.lstack = AND_CONT_LABEL :: l :: ls)) →
      ∃ s', stepN ext n s = some s' ∧ s'.cont = l ∧ s'.lstack = ls ∧
        s'.pstack = P ∧ s'.val = v ∧ s'.sc = sc' := by
  intro ops sc v sc' hae
  induction hae with
  | last h e sc0 v0 sc0' n he =>
      refine ⟨n, ?_⟩
      intro s l ls P hc henv hsc hexp hsh
      rcases hsh with ⟨_, hp, hls⟩ | ⟨hne, _, _⟩
      · obtain ⟨s', h1, h2, h3, h4, h5, h6⟩ := he s l ls hc hexp henv hsc hls
        exact ⟨s', h1, h2, h3, by rw [h4, hp], h5, h6⟩
      · exact absurd rfl hne
  | stop h e rest sc0 sc0' n he hrest =>
      refine ⟨n + 1, ?_⟩
      intro s l ls P hc henv hsc hexp hsh
      rcases hsh with ⟨hnil, _, _⟩ | ⟨_, hp, hls⟩
      · exact absurd hnil hrest
      · obtain ⟨s3, h1, h2, h3, h4, h5, h6⟩ :=
          he s AND_CONT_LABEL (l :: ls) hc hexp henv hsc hls
        have hstep : step ext s3 =
            some { s3 with exp := rest, env := env, pstack := P,
                           cont := l, lstack := ls } := by
          rw [step_at_ANDCONT ext s3 h2]
          exact stepAndCont_stop s3 rest env P l ls
            (by rw [h4]; exact hp) h5 h3
        refine ⟨{ s3 with exp := rest, env := env, pstack := P,
                          cont := l, lstack := ls }, ?_, rfl, rfl, rfl,
          h5, h6⟩
        rw [stepN_add ext n 1 s, h1]
        show (step ext s3).bind (stepN ext 0) = _
        rw [hstep]
        rfl
  | go h e rest sc0 sc1 sc2 v1 v0 n he hv1 hrest hnext ih =>
      obtain ⟨n2, ih2⟩ := ih
      refine ⟨n + 1 + n2, ?_⟩
      intro s l ls P hc henv hsc hexp hsh
      rcases hsh with ⟨hnil, _, _⟩ | ⟨_, hp, hls⟩
      · exact absurd hnil hrest
      · obtain ⟨s3, h1, h2, h3, h4, h5, h6⟩ :=
          he s AND_CONT_LABEL (l :: ls) hc hexp henv hsc hls
        have hvne : s3.val ≠ false_zap := by rw [h5]; exact hv1
        by_cases hlastc : cdr rest = SExp.nil
        · have hstep : step ext s3 =
              some { s3 with exp := car rest, env := env, pstack := P,
                             cont := START_LABEL } := by
            rw [step_at_ANDCONT ext s3 h2]
            exact stepAndCont_go_last s3 rest env P
              (by rw [h4]; exact hp) hvne hlastc
          obtain ⟨s', k1, k2, k3, k4, k5, k6⟩ :=
            ih2 { s3 with exp := car rest, env := env, pstack := P,
                          cont := START_LABEL }
              l ls P rfl rfl h6 rfl (Or.inl ⟨hlastc, rfl, h3⟩)
          refine ⟨s', ?_, k2, k3, k4, k5, k6⟩
          rw [stepN_add ext (n + 1) n2 s, stepN_add ext n 1 s, h1]
          show ((step ext s3).bind (stepN ext 0)).bind (stepN ext n2) = _
          rw [hstep]
          show stepN ext n2 _ = some s'
          exact k1
        · have hstep : step ext s3 =
              some { s3 with exp := car rest, env := env,
                             pstack := cdr rest :: env :: P,
                             lstack := AND_CONT_LABEL :: s3.lstack,
                             cont := START_LABEL } := by
            rw [step_at_ANDCONT ext s3 h2]
            exact stepAndCont_go_more s3 rest env P
              (by rw [h4]; exact hp) hvne hlastc
          obtain ⟨s', k1, k2, k3, k4, k5, k6⟩ :=
            ih2 { s3 with exp := car rest, env := env,
                          pstack := cdr rest :: env :: P,
                          lstack := AND_CONT_LABEL :: s3.lstack,
                          cont := START_LABEL }
              l ls P rfl rfl h6 rfl (Or.inr ⟨hlastc, rfl, by rw [h3]⟩)
          refine ⟨s', ?_, k2, k3, k4, k5, k6⟩
          rw [stepN_add ext (n + 1) n2 s, stepN_add ext n 1 s, h1]
          show ((step ext s3).bind (stepN ext 0)).bind (stepN ext n2) = _
          rw [hstep]
          show stepN ext n2 _ = some s'
          exact k1

/-! ### The stack-balance invariant (C9): each continuation label on the
label stack owns the pointer-stack entries it will pop when control
returns to it. -/

def owns (l : Nat) : Nat :=
  if l = LIST_OF_VALUES_LABEL then 2
  else if l = LIST_OF_VALUES_CONT_LABEL then 2
  else if l = LIST_OF_VALUES_COLLECT_LABEL then 1
  else if l = LIST_OF_VALUES_COLLECT_STOP_LABEL then 1
  else if l = DEFINITION_CONT_LABEL then 3
  else if l = AND_CONT_LABEL then 2
  else if l = OR_CONT_LABEL then 2
  else if l = ASSIGNMENT_CONT_LABEL then 3
  else if l = CONDITIONAL_CONT_LABEL then 4
  else if l = EVAL_SEQUENCE_CONT_LABEL then 2
  else 0

def lweight (ls : List Nat) : Nat := (ls.map owns).sum

lemma lweight_nil : lweight [] = 0 := rfl

lemma lweight_cons (l : Nat) (ls : List Nat) :
    lweight (l :: ls) = owns l + lweight ls := by
  simp [lweight]

/-- The label stack of a loop activation: some pushed labels above the
`END_LABEL` pushed at entry, none of them `END_LABEL` itself. -/
def GoodL (ls : List Nat) : Prop :=
  ∃ pref, ls = pref ++ [END_LABEL] ∧ END_LABEL ∉ pref

/-- The balance invariant: the pointer stack holds exactly the entries
owed to the pending labels plus those the current label is about to pop;
at `END_LABEL` both stacks are empty. -/
def Inv (s : EState) : Prop :=
  s.pstack.length = lweight s.lstack + owns s.cont ∧
  (s.cont = END_LABEL → s.lstack = [] ∧ s.pstack = []) ∧
  (s.cont ≠ END_LABEL → GoodL s.lstack)

lemma inv_popL (s' s : EState) (l : Nat) (ls : List Nat)
    (hgl : GoodL s.lstack) (hls : s.lstack = l :: ls) (hc' : s'.cont = l)
    (hl' : s'.lstack = ls)
    (hbal : s'.pstack.length = owns l + lweight ls) : Inv s' := by
  obtain ⟨pref, hpe, hnm⟩ := hgl
  rw [hls] at hpe
  cases pref with
  | nil =>
      simp only [List.nil_append, List.cons.injEq] at hpe
      obtain ⟨hl, hlsnil⟩ := hpe
      have hbal0 : s'.pstack.length = 0 := by
        rw [hbal, hl, hlsnil]
        rfl
      have hp0 : s'.pstack = [] := List.length_eq_zero.mp hbal0
      refine ⟨?_, fun _ => ⟨by rw [hl', hlsnil], hp0⟩,
        fun hne => absurd (by rw [hc', hl]) hne⟩
      rw [hbal, hc', hl', Nat.add_comm]
  | cons p pref2 =>
      simp only [List.cons_append, List.cons.injEq] at hpe
      obtain ⟨hl, hls2⟩ := hpe
      simp only [List.mem_cons, not_or] at hnm
      have hlne : l ≠ END_LABEL := by
        rw [hl]
        exact fun hx => hnm.1 hx.symm
      refine ⟨by rw [hbal, hc', hl', Nat.add_comm], ?_, ?_⟩
      · intro hx
        rw [hc'] at hx
        exact absurd hx hlne
      · intro _
        exact ⟨pref2, by rw [hl', hls2], hnm.2⟩

lemma inv_keep (s' s : EState) (hgl : GoodL s.lstack) (pre2 : List Nat)
    (hl' : s'.lstack = pre2 ++ s.lstack) (hpre2 : END_LABEL ∉ pre2)
    (hc' : s'.cont ≠ END_LABEL)
    (hbal : s'.pstack.length = lweight s'.lstack + owns s'.cont) :
    Inv s' := by
  obtain ⟨pref, hpe, hnm⟩ := hgl
  refine ⟨hbal, fun hx => absurd hx hc', fun _ => ?_⟩
  refine ⟨pre2 ++ pref, ?_, ?_⟩
  · rw [hl', hpe, List.append_assoc]
  · intro hx
    rcases List.mem_append.mp hx with h | h
    · exact hpre2 h
    · exact hnm h

lemma step_at_SELF (ext : Ext) (s : EState) (hc : s.cont = SELF_EVAL_P_LABEL) :
    step ext s = stepSELF ext s := by
  simp [step, hc, START_LABEL, SELF_EVAL_P_LABEL, VARIABLE_P_LABEL, FORGET_ABOUT_IT_LABEL, QUOTED_P_LABEL, SP_DEFINITION_P_LABEL, LET_P_LABEL, AND_P_LABEL, OR_P_LABEL, ASSIGNMENT_P_LABEL, CONDITIONAL_P_LABEL, LAMBDA_P_LABEL, APPLICATION_P_LABEL, UNKNOWN_EXPR_LABEL, LIST_OF_VALUES_LABEL, LIST_OF_VALUES_CONT_LABEL, LIST_OF_VALUES_COLLECT_START_LABEL, LIST_OF_VALUES_COLLECT_LABEL, LIST_OF_VALUES_COLLECT_STOP_LABEL, MICRO_APPLY_LABEL, DEFINITION_CONT_LABEL, AND_CONT_LABEL, OR_CONT_LABEL, ASSIGNMENT_CONT_LABEL, CONDITIONAL_CONT_LABEL, EVAL_SEQUENCE_LABEL, EVAL_SEQUENCE_CONT_LABEL, ERROR_LABEL, END_LABEL]

lemma step_at_VARIABLE (ext : Ext) (s : EState) (hc : s.cont = VARIABLE_P_LABEL) :
    step ext s = stepVARIABLE ext s := by
  simp [step, hc, START_LABEL, SELF_EVAL_P_LABEL, VARIABLE_P_LABEL, FORGET_ABOUT_IT_LABEL, QUOTED_P_LABEL, SP_DEFINITION_P_LABEL, LET_P_LABEL, AND_P_LABEL, OR_P_LABEL, ASSIGNMENT_P_LABEL, CONDITIONAL_P_LABEL, LAMBDA_P_LABEL, APPLICATION_P_LABEL, UNKNOWN_EXPR_LABEL, LIST_OF_VALUES_LABEL, LIST_OF_VALUES_CONT_LABEL, LIST_OF_VALUES_COLLECT_START_LABEL, LIST_OF_VALUES_COLLECT_LABEL, LIST_OF_VALUES_COLLECT_STOP_LABEL, MICRO_APPLY_LABEL, DEFINITION_CONT_LABEL, AND_CONT_LABEL, OR_CONT_LABEL, ASSIGNMENT_CONT_LABEL, CONDITIONAL_CONT_LABEL, EVAL_SEQUENCE_LABEL, EVAL_SEQUENCE_CONT_LABEL, ERROR_LABEL, END_LABEL]

lemma step_at_FORGET (ext : Ext) (s : EState) (hc : s.cont = FORGET_ABOUT_IT_LABEL) :
    step ext s = stepFORGET s := by
  simp [step, hc, START_LABEL, SELF_EVAL_P_LABEL, VARIABLE_P_LABEL, FORGET_ABOUT_IT_LABEL, QUOTED_P_LABEL, SP_DEFINITION_P_LABEL, LET_P_LABEL, AND_P_LABEL, OR_P_LABEL, ASSIGNMENT_P_LABEL, CONDITIONAL_P_LABEL, LAMBDA_P_LABEL, APPLICATION_P_LABEL, UNKNOWN_EXPR_LABEL, LIST_OF_VALUES_LABEL, LIST_OF_VALUES_CONT_LABEL, LIST_OF_VALUES_COLLECT_START_LABEL, LIST_OF_VALUES_COLLECT_LABEL, LIST_OF_VALUES_COLLECT_STOP_LABEL, MICRO_APPLY_LABEL, DEFINITION_CONT_LABEL, AND_CONT_LABEL, OR_CONT_LABEL, ASSIGNMENT_CONT_LABEL, CONDITIONAL_CONT_LABEL, EVAL_SEQUENCE_LABEL, EVAL_SEQUENCE_CONT_LABEL, ERROR_LABEL, END_LABEL]

lemma step_at_DEFINE (ext : Ext) (s : EState) (hc : s.cont = SP_DEFINITION_P_LABEL) :
    step ext s = stepDEFINE ext s := by
  simp [step, hc, START_LABEL, SELF_EVAL_P_LABEL, VARIABLE_P_LABEL, FORGET_ABOUT_IT_LABEL, QUOTED_P_LABEL, SP_DEFINITION_P_LABEL, LET_P_LABEL, AND_P_LABEL, OR_P_LABEL, ASSIGNMENT_P_LABEL, CONDITIONAL_P_LABEL, LAMBDA_P_LABEL, APPLICATION_P_LABEL, UNKNOWN_EXPR_LABEL, LIST_OF_VALUES_LABEL, LIST_OF_VALUES_CONT_LABEL, LIST_OF_VALUES_COLLECT_START_LABEL, LIST_OF_VALUES_COLLECT_LABEL, LIST_OF_VALUES_COLLECT_STOP_LABEL, MICRO_APPLY_LABEL, DEFINITION_CONT_LABEL, AND_CONT_LABEL, OR_CONT_LABEL, ASSIGNMENT_CONT_LABEL, CONDITIONAL_CONT_LABEL, EVAL_SEQUENCE_LABEL, EVAL_SEQUENCE_CONT_LABEL, ERROR_LABEL, END_LABEL]

lemma step_at_LET (ext : Ext) (s : EState) (hc : s.cont = LET_P_LABEL) :
    step ext s = stepLET ext s := by
  simp [step, hc, START_LABEL, SELF_EVAL_P_LABEL, VARIABLE_P_LABEL, FORGET_ABOUT_IT_LABEL, QUOTED_P_LABEL, SP_DEFINITION_P_LABEL, LET_P_LABEL, AND_P_LABEL, OR_P_LABEL, ASSIGNMENT_P_LABEL, CONDITIONAL_P_LABEL, LAMBDA_P_LABEL, APPLICATION_P_LABEL, UNKNOWN_EXPR_LABEL, LIST_OF_VALUES_LABEL, LIST_OF_VALUES_CONT_LABEL, LIST_OF_VALUES_COLLECT_START_LABEL, LIST_OF_VALUES_COLLECT_LABEL, LIST_OF_VALUES_COLLECT_STOP_LABEL, MICRO_APPLY_LABEL, DEFINITION_CONT_LABEL, AND_CONT_LABEL, OR_CONT_LABEL, ASSIGNMENT_CONT_LABEL, CONDITIONAL_CONT_LABEL, EVAL_SEQUENCE_LABEL, EVAL_SEQUENCE_CONT_LABEL, ERROR_LABEL, END_LABEL]

lemma step_at_ANDP (ext : Ext) (s : EState) (hc : s.cont = AND_P_LABEL) :
    step ext s = stepAND ext s := by
  simp [step, hc, START_LABEL, SELF_EVAL_P_LABEL, VARIABLE_P_LABEL, FORGET_ABOUT_IT_LABEL, QUOTED_P_LABEL, SP_DEFINITION_P_LABEL, LET_P_LABEL, AND_P_LABEL, OR_P_LABEL, ASSIGNMENT_P_LABEL, CONDITIONAL_P_LABEL, LAMBDA_P_LABEL, APPLICATION_P_LABEL, UNKNOWN_EXPR_LABEL, LIST_OF_VALUES_LABEL, LIST_OF_VALUES_CONT_LABEL, LIST_OF_VALUES_COLLECT_START_LABEL, LIST_OF_VALUES_COLLECT_LABEL, LIST_OF_VALUES_COLLECT_STOP_LABEL, MICRO_APPLY_LABEL, DEFINITION_CONT_LABEL, AND_CONT_LABEL, OR_CONT_LABEL, ASSIGNMENT_CONT_LABEL, CONDITIONAL_CONT_LABEL, EVAL_SEQUENCE_LABEL, EVAL_SEQUENCE_CONT_LABEL, ERROR_LABEL, END_LABEL]

lemma step_at_ORP (ext : Ext) (s : EState) (hc : s.cont = OR_P_LABEL) :
    step ext s = stepOR ext s := by
  simp [step, hc, START_LABEL, SELF_EVAL_P_LABEL, VARIABLE_P_LABEL, FORGET_ABOUT_IT_LABEL, QUOTED_P_LABEL, SP_DEFINITION_P_LABEL, LET_P_LABEL, AND_P_LABEL, OR_P_LABEL, ASSIGNMENT_P_LABEL, CONDITIONAL_P_LABEL, LAMBDA_P_LABEL, APPLICATION_P_LABEL, UNKNOWN_EXPR_LABEL, LIST_OF_VALUES_LABEL, LIST_OF_VALUES_CONT_LABEL, LIST_OF_VALUES_COLLECT_START_LABEL, LIST_OF_VALUES_COLLECT_LABEL, LIST_OF_VALUES_COLLECT_STOP_LABEL, MICRO_APPLY_LABEL, DEFINITION_CONT_LABEL, AND_CONT_LABEL, OR_CONT_LABEL, ASSIGNMENT_CONT_LABEL, CONDITIONAL_CONT_LABEL, EVAL_SEQUENCE_LABEL, EVAL_SEQUENCE_CONT_LABEL, ERROR_LABEL, END_LABEL]

lemma step_at_ASSIGN (ext : Ext) (s : EState) (hc : s.cont = ASSIGNMENT_P_LABEL) :
    step ext s = stepASSIGN ext s := by
  simp [step, hc, START_LABEL, SELF_EVAL_P_LABEL, VARIABLE_P_LABEL, FORGET_ABOUT_IT_LABEL, QUOTED_P_LABEL, SP_DEFINITION_P_LABEL, LET_P_LABEL, AND_P_LABEL, OR_P_LABEL, ASSIGNMENT_P_LABEL, CONDITIONAL_P_LABEL, LAMBDA_P_LABEL, APPLICATION_P_LABEL, UNKNOWN_EXPR_LABEL, LIST_OF_VALUES_LABEL, LIST_OF_VALUES_CONT_LABEL, LIST_OF_VALUES_COLLECT_START_LABEL, LIST_OF_VALUES_COLLECT_LABEL, LIST_OF_VALUES_COLLECT_STOP_LABEL, MICRO_APPLY_LABEL, DEFINITION_CONT_LABEL, AND_CONT_LABEL, OR_CONT_LABEL, ASSIGNMENT_CONT_LABEL, CONDITIONAL_CONT_LABEL, EVAL_SEQUENCE_LABEL, EVAL_SEQUENCE_CONT_LABEL, ERROR_LABEL, END_LABEL]

lemma step_at_CONDITIONAL (ext : Ext) (s : EState) (hc : s.cont = CONDITIONAL_P_LABEL) :
    step ext s = stepCOND ext s := by
  simp [step, hc, START_LABEL, SELF_EVAL_P_LABEL, VARIABLE_P_LABEL, FORGET_ABOUT_IT_LABEL, QUOTED_P_LABEL, SP_DEFINITION_P_LABEL, LET_P_LABEL, AND_P_LABEL, OR_P_LABEL, ASSIGNMENT_P_LABEL, CONDITIONAL_P_LABEL, LAMBDA_P_LABEL, APPLICATION_P_LABEL, UNKNOWN_EXPR_LABEL, LIST_OF_VALUES_LABEL, LIST_OF_VALUES_CONT_LABEL, LIST_OF_VALUES_COLLECT_START_LABEL, LIST_OF_VALUES_COLLECT_LABEL, LIST_OF_VALUES_COLLECT_STOP_LABEL, MICRO_APPLY_LABEL, DEFINITION_CONT_LABEL, AND_CONT_LABEL, OR_CONT_LABEL, ASSIGNMENT_CONT_LABEL, CONDITIONAL_CONT_LABEL, EVAL_SEQUENCE_LABEL, EVAL_SEQUENCE_CONT_LABEL, ERROR_LABEL, END_LABEL]

lemma step_at_LAMBDA (ext : Ext) (s : EState) (hc : s.cont = LAMBDA_P_LABEL) :
    step ext s = stepLAMBDA ext s := by
  simp [step, hc, START_LABEL, SELF_EVAL_P_LABEL, VARIABLE_P_LABEL, FORGET_ABOUT_IT_LABEL, QUOTED_P_LABEL, SP_DEFINITION_P_LABEL, LET_P_LABEL, AND_P_LABEL, OR_P_LABEL, ASSIGNMENT_P_LABEL, CONDITIONAL_P_LABEL, LAMBDA_P_LABEL, APPLICATION_P_LABEL, UNKNOWN_EXPR_LABEL, LIST_OF_VALUES_LABEL, LIST_OF_VALUES_CONT_LABEL, LIST_OF_VALUES_COLLECT_START_LABEL, LIST_OF_VALUES_COLLECT_LABEL, LIST_OF_VALUES_COLLECT_STOP_LABEL, MICRO_APPLY_LABEL, DEFINITION_CONT_LABEL, AND_CONT_LABEL, OR_CONT_LABEL, ASSIGNMENT_CONT_LABEL, CONDITIONAL_CONT_LABEL, EVAL_SEQUENCE_LABEL, EVAL_SEQUENCE_CONT_LABEL, ERROR_LABEL, END_LABEL]

lemma step_at_APPLICATION (ext : Ext) (s : EState) (hc : s.cont = APPLICATION_P_LABEL) :
    step ext s = stepAPPLICATION s := by
  simp [step, hc, START_LABEL, SELF_EVAL_P_LABEL, VARIABLE_P_LABEL, FORGET_ABOUT_IT_LABEL, QUOTED_P_LABEL, SP_DEFINITION_P_LABEL, LET_P_LABEL, AND_P_LABEL, OR_P_LABEL, ASSIGNMENT_P_LABEL, CONDITIONAL_P_LABEL, LAMBDA_P_LABEL, APPLICATION_P_LABEL, UNKNOWN_EXPR_LABEL, LIST_OF_VALUES_LABEL, LIST_OF_VALUES_CONT_LABEL, LIST_OF_VALUES_COLLECT_START_LABEL, LIST_OF_VALUES_COLLECT_LABEL, LIST_OF_VALUES_COLLECT_STOP_LABEL, MICRO_APPLY_LABEL, DEFINITION_CONT_LABEL, AND_CONT_LABEL, OR_CONT_LABEL, ASSIGNMENT_CONT_LABEL, CONDITIONAL_CONT_LABEL, EVAL_SEQUENCE_LABEL, EVAL_SEQUENCE_CONT_LABEL, ERROR_LABEL, END_LABEL]

lemma step_at_UNKNOWN (ext : Ext) (s : EState) (hc : s.cont = UNKNOWN_EXPR_LABEL) :
    step ext s = stepUNKNOWN s := by
  simp [step, hc, START_LABEL, SELF_EVAL_P_LABEL, VARIABLE_P_LABEL, FORGET_ABOUT_IT_LABEL, QUOTED_P_LABEL, SP_DEFINITION_P_LABEL, LET_P_LABEL, AND_P_LABEL, OR_P_LABEL, ASSIGNMENT_P_LABEL, CONDITIONAL_P_LABEL, LAMBDA_P_LABEL, APPLICATION_P_LABEL, UNKNOWN_EXPR_LABEL, LIST_OF_VALUES_LABEL, LIST_OF_VALUES_CONT_LABEL, LIST_OF_VALUES_COLLECT_START_LABEL, LIST_OF_VALUES_COLLECT_LABEL, LIST_OF_VALUES_COLLECT_STOP_LABEL, MICRO_APPLY_LABEL, DEFINITION_CONT_LABEL, AND_CONT_LABEL, OR_CONT_LABEL, ASSIGNMENT_CONT_LABEL, CONDITIONAL_CONT_LABEL, EVAL_SEQUENCE_LABEL, EVAL_SEQUENCE_CONT_LABEL, ERROR_LABEL, END_LABEL]

lemma step_at_LOV (ext : Ext) (s : EState) (hc : s.cont = LIST_OF_VALUES_LABEL) :
    step ext s = stepLOV s := by
  simp [step, hc, START_LABEL, SELF_EVAL_P_LABEL, VARIABLE_P_LABEL, FORGET_ABOUT_IT_LABEL, QUOTED_P_LABEL, SP_DEFINITION_P_LABEL, LET_P_LABEL, AND_P_LABEL, OR_P_LABEL, ASSIGNMENT_P_LABEL, CONDITIONAL_P_LABEL, LAMBDA_P_LABEL, APPLICATION_P_LABEL, UNKNOWN_EXPR_LABEL, LIST_OF_VALUES_LABEL, LIST_OF_VALUES_CONT_LABEL, LIST_OF_VALUES_COLLECT_START_LABEL, LIST_OF_VALUES_COLLECT_LABEL, LIST_OF_VALUES_COLLECT_STOP_LABEL, MICRO_APPLY_LABEL, DEFINITION_CONT_LABEL, AND_CONT_LABEL, OR_CONT_LABEL, ASSIGNMENT_CONT_LABEL, CONDITIONAL_CONT_LABEL, EVAL_SEQUENCE_LABEL, EVAL_SEQUENCE_CONT_LABEL, ERROR_LABEL, END_LABEL]

lemma step_at_LOVCONT (ext : Ext) (s : EState) (hc : s.cont = LIST_OF_VALUES_CONT_LABEL) :
    step ext s = stepLOVCont s := by
  simp [step, hc, START_LABEL, SELF_EVAL_P_LABEL, VARIABLE_P_LABEL, FORGET_ABOUT_IT_LABEL, QUOTED_P_LABEL, SP_DEFINITION_P_LABEL, LET_P_LABEL, AND_P_LABEL, OR_P_LABEL, ASSIGNMENT_P_LABEL, CONDITIONAL_P_LABEL, LAMBDA_P_LABEL, APPLICATION_P_LABEL, UNKNOWN_EXPR_LABEL, LIST_OF_VALUES_LABEL, LIST_OF_VALUES_CONT_LABEL, LIST_OF_VALUES_COLLECT_START_LABEL, LIST_OF_VALUES_COLLECT_LABEL, LIST_OF_VALUES_COLLECT_STOP_LABEL, MICRO_APPLY_LABEL, DEFINITION_CONT_LABEL, AND_CONT_LABEL, OR_CONT_LABEL, ASSIGNMENT_CONT_LABEL, CONDITIONAL_CONT_LABEL, EVAL_SEQUENCE_LABEL, EVAL_SEQUENCE_CONT_LABEL, ERROR_LABEL, END_LABEL]

lemma step_at_CSTART (ext : Ext) (s : EState) (hc : s.cont = LIST_OF_VALUES_COLLECT_START_LABEL) :
    step ext s = stepCollectStart s := by
  simp [step, hc, START_LABEL, SELF_EVAL_P_LABEL, VARIABLE_P_LABEL, FORGET_ABOUT_IT_LABEL, QUOTED_P_LABEL, SP_DEFINITION_P_LABEL, LET_P_LABEL, AND_P_LABEL, OR_P_LABEL, ASSIGNMENT_P_LABEL, CONDITIONAL_P_LABEL, LAMBDA_P_LABEL, APPLICATION_P_LABEL, UNKNOWN_EXPR_LABEL, LIST_OF_VALUES_LABEL, LIST_OF_VALUES_CONT_LABEL, LIST_OF_VALUES_COLLECT_START_LABEL, LIST_OF_VALUES_COLLECT_LABEL, LIST_OF_VALUES_COLLECT_STOP_LABEL, MICRO_APPLY_LABEL, DEFINITION_CONT_LABEL, AND_CONT_LABEL, OR_CONT_LABEL, ASSIGNMENT_CONT_LABEL, CONDITIONAL_CONT_LABEL, EVAL_SEQUENCE_LABEL, EVAL_SEQUENCE_CONT_LABEL, ERROR_LABEL, END_LABEL]

lemma step_at_COLLECT (ext : Ext) (s : EState) (hc : s.cont = LIST_OF_VALUES_COLLECT_LABEL) :
    step ext s = stepCollect s := by
  simp [step, hc, START_LABEL, SELF_EVAL_P_LABEL, VARIABLE_P_LABEL, FORGET_ABOUT_IT_LABEL, QUOTED_P_LABEL, SP_DEFINITION_P_LABEL, LET_P_LABEL, AND_P_LABEL, OR_P_LABEL, ASSIGNMENT_P_LABEL, CONDITIONAL_P_LABEL, LAMBDA_P_LABEL, APPLICATION_P_LABEL, UNKNOWN_EXPR_LABEL, LIST_OF_VALUES_LABEL, LIST_OF_VALUES_CONT_LABEL, LIST_OF_VALUES_COLLECT_START_LABEL, LIST_OF_VALUES_COLLECT_LABEL, LIST_OF_VALUES_COLLECT_STOP_LABEL, MICRO_APPLY_LABEL, DEFINITION_CONT_LABEL, AND_CONT_LABEL, OR_CONT_LABEL, ASSIGNMENT_CONT_LABEL, CONDITIONAL_CONT_LABEL, EVAL_SEQUENCE_LABEL, EVAL_SEQUENCE_CONT_LABEL, ERROR_LABEL, END_LABEL]

lemma step_at_CSTOP (ext : Ext) (s : EState) (hc : s.cont = LIST_OF_VALUES_COLLECT_STOP_LABEL) :
    step ext s = stepCollectStop ext s := by
  simp [step, hc, START_LABEL, SELF_EVAL_P_LABEL, VARIABLE_P_LABEL, FORGET_ABOUT_IT_LABEL, QUOTED_P_LABEL, SP_DEFINITION_P_LABEL, LET_P_LABEL, AND_P_LABEL, OR_P_LABEL, ASSIGNMENT_P_LABEL, CONDITIONAL_P_LABEL, LAMBDA_P_LABEL, APPLICATION_P_LABEL, UNKNOWN_EXPR_LABEL, LIST_OF_VALUES_LABEL, LIST_OF_VALUES_CONT_LABEL, LIST_OF_VALUES_COLLECT_START_LABEL, LIST_OF_VALUES_COLLECT_LABEL, LIST_OF_VALUES_COLLECT_STOP_LABEL, MICRO_APPLY_LABEL, DEFINITION_CONT_LABEL, AND_CONT_LABEL, OR_CONT_LABEL, ASSIGNMENT_CONT_LABEL, CONDITIONAL_CONT_LABEL, EVAL_SEQUENCE_LABEL, EVAL_SEQUENCE_CONT_LABEL, ERROR_LABEL, END_LABEL]

lemma step_at_APPLY (ext : Ext) (s : EState) (hc : s.cont = MICRO_APPLY_LABEL) :
    step ext s = stepAPPLY ext s := by
  simp [step, hc, START_LABEL, SELF_EVAL_P_LABEL, VARIABLE_P_LABEL, FORGET_ABOUT_IT_LABEL, QUOTED_P_LABEL, SP_DEFINITION_P_LABEL, LET_P_LABEL, AND_P_LABEL, OR_P_LABEL, ASSIGNMENT_P_LABEL, CONDITIONAL_P_LABEL, LAMBDA_P_LABEL, APPLICATION_P_LABEL, UNKNOWN_EXPR_LABEL, LIST_OF_VALUES_LABEL, LIST_OF_VALUES_CONT_LABEL, LIST_OF_VALUES_COLLECT_START_LABEL, LIST_OF_VALUES_COLLECT_LABEL, LIST_OF_VALUES_COLLECT_STOP_LABEL, MICRO_APPLY_LABEL, DEFINITION_CONT_LABEL, AND_CONT_LABEL, OR_CONT_LABEL, ASSIGNMENT_CONT_LABEL, CONDITIONAL_CONT_LABEL, EVAL_SEQUENCE_LABEL, EVAL_SEQUENCE_CONT_LABEL, ERROR_LABEL, END_LABEL]

lemma step_at_DEFCONT (ext : Ext) (s : EState) (hc : s.cont = DEFINITION_CONT_LABEL) :
    step ext s = stepDefCont s := by
  simp [step, hc, START_LABEL, SELF_EVAL_P_LABEL, VARIABLE_P_LABEL, FORGET_ABOUT_IT_LABEL, QUOTED_P_LABEL, SP_DEFINITION_P_LABEL, LET_P_LABEL, AND_P_LABEL, OR_P_LABEL, ASSIGNMENT_P_LABEL, CONDITIONAL_P_LABEL, LAMBDA_P_LABEL, APPLICATION_P_LABEL, UNKNOWN_EXPR_LABEL, LIST_OF_VALUES_LABEL, LIST_OF_VALUES_CONT_LABEL, LIST_OF_VALUES_COLLECT_START_LABEL, LIST_OF_VALUES_COLLECT_LABEL, LIST_OF_VALUES_COLLECT_STOP_LABEL, MICRO_APPLY_LABEL, DEFINITION_CONT_LABEL, AND_CONT_LABEL, OR_CONT_LABEL, ASSIGNMENT_CONT_LABEL, CONDITIONAL_CONT_LABEL, EVAL_SEQUENCE_LABEL, EVAL_SEQUENCE_CONT_LABEL, ERROR_LABEL, END_LABEL]

lemma step_at_ORCONT (ext : Ext) (s : EState) (hc : s.cont = OR_CONT_LABEL) :
    step ext s = stepOrCont s := by
  simp [step, hc, START_LABEL, SELF_EVAL_P_LABEL, VARIABLE_P_LABEL, FORGET_ABOUT_IT_LABEL, QUOTED_P_LABEL, SP_DEFINITION_P_LABEL, LET_P_LABEL, AND_P_LABEL, OR_P_LABEL, ASSIGNMENT_P_LABEL, CONDITIONAL_P_LABEL, LAMBDA_P_LABEL, APPLICATION_P_LABEL, UNKNOWN_EXPR_LABEL, LIST_OF_VALUES_LABEL, LIST_OF_VALUES_CONT_LABEL, LIST_OF_VALUES_COLLECT_START_LABEL, LIST_OF_VALUES_COLLECT_LABEL, LIST_OF_VALUES_COLLECT_STOP_LABEL, MICRO_APPLY_LABEL, DEFINITION_CONT_LABEL, AND_CONT_LABEL, OR_CONT_LABEL, ASSIGNMENT_CONT_LABEL, CONDITIONAL_CONT_LABEL, EVAL_SEQUENCE_LABEL, EVAL_SEQUENCE_CONT_LABEL, ERROR_LABEL, END_LABEL]

lemma step_at_ASSIGNCONT (ext : Ext) (s : EState) (hc : s.cont = ASSIGNMENT_CONT_LABEL) :
    step ext s = stepAssignCont s := by
  simp [step, hc, START_LABEL, SELF_EVAL_P_LABEL, VARIABLE_P_LABEL, FORGET_ABOUT_IT_LABEL, QUOTED_P_LABEL, SP_DEFINITION_P_LABEL, LET_P_LABEL, AND_P_LABEL, OR_P_LABEL, ASSIGNMENT_P_LABEL, CONDITIONAL_P_LABEL, LAMBDA_P_LABEL, APPLICATION_P_LABEL, UNKNOWN_EXPR_LABEL, LIST_OF_VALUES_LABEL, LIST_OF_VALUES_CONT_LABEL, LIST_OF_VALUES_COLLECT_START_LABEL, LIST_OF_VALUES_COLLECT_LABEL, LIST_OF_VALUES_COLLECT_STOP_LABEL, MICRO_APPLY_LABEL, DEFINITION_CONT_LABEL, AND_CONT_LABEL, OR_CONT_LABEL, ASSIGNMENT_CONT_LABEL, CONDITIONAL_CONT_LABEL, EVAL_SEQUENCE_LABEL, EVAL_SEQUENCE_CONT_LABEL, ERROR_LABEL, END_LABEL]

lemma step_at_CONDCONT (ext : Ext) (s : EState) (hc : s.cont = CONDITIONAL_CONT_LABEL) :
    step ext s = stepCondCont s := by
  simp [step, hc, START_LABEL, SELF_EVAL_P_LABEL, VARIABLE_P_LABEL, FORGET_ABOUT_IT_LABEL, QUOTED_P_LABEL, SP_DEFINITION_P_LABEL, LET_P_LABEL, AND_P_LABEL, OR_P_LABEL, ASSIGNMENT_P_LABEL, CONDITIONAL_P_LABEL, LAMBDA_P_LABEL, APPLICATION_P_LABEL, UNKNOWN_EXPR_LABEL, LIST_OF_VALUES_LABEL, LIST_OF_VALUES_CONT_LABEL, LIST_OF_VALUES_COLLECT_START_LABEL, LIST_OF_VALUES_COLLECT_LABEL, LIST_OF_VALUES_COLLECT_STOP_LABEL, MICRO_APPLY_LABEL, DEFINITION_CONT_LABEL, AND_CONT_LABEL, OR_CONT_LABEL, ASSIGNMENT_CONT_LABEL, CONDITIONAL_CONT_LABEL, EVAL_SEQUENCE_LABEL, EVAL_SEQUENCE_CONT_LABEL, ERROR_LABEL, END_LABEL]

lemma step_at_EVSEQ (ext : Ext) (s : EState) (hc : s.cont = EVAL_SEQUENCE_LABEL) :
    step ext s = stepEvalSeq s := by
  simp [step, hc, START_LABEL, SELF_EVAL_P_LABEL, VARIABLE_P_LABEL, FORGET_ABOUT_IT_LABEL, QUOTED_P_LABEL, SP_DEFINITION_P_LABEL, LET_P_LABEL, AND_P_LABEL, OR_P_LABEL, ASSIGNMENT_P_LABEL, CONDITIONAL_P_LABEL, LAMBDA_P_LABEL, APPLICATION_P_LABEL, UNKNOWN_EXPR_LABEL, LIST_OF_VALUES_LABEL, LIST_OF_VALUES_CONT_LABEL, LIST_OF_VALUES_COLLECT_START_LABEL, LIST_OF_VALUES_COLLECT_LABEL, LIST_OF_VALUES_COLLECT_STOP_LABEL, MICRO_APPLY_LABEL, DEFINITION_CONT_LABEL, AND_CONT_LABEL, OR_CONT_LABEL, ASSIGNMENT_CONT_LABEL, CONDITIONAL_CONT_LABEL, EVAL_SEQUENCE_LABEL, EVAL_SEQUENCE_CONT_LABEL, ERROR_LABEL, END_LABEL]

lemma step_at_EVSEQCONT (ext : Ext) (s : EState) (hc : s.cont = EVAL_SEQUENCE_CONT_LABEL) :
    step ext s = stepEvalSeqCont s := by
  simp [step, hc, START_LABEL, SELF_EVAL_P_LABEL, VARIABLE_P_LABEL, FORGET_ABOUT_IT_LABEL, QUOTED_P_LABEL, SP_DEFINITION_P_LABEL, LET_P_LABEL, AND_P_LABEL, OR_P_LABEL, ASSIGNMENT_P_LABEL, CONDITIONAL_P_LABEL, LAMBDA_P_LABEL, APPLICATION_P_LABEL, UNKNOWN_EXPR_LABEL, LIST_OF_VALUES_LABEL, LIST_OF_VALUES_CONT_LABEL, LIST_OF_VALUES_COLLECT_START_LABEL, LIST_OF_VALUES_COLLECT_LABEL, LIST_OF_VALUES_COLLECT_STOP_LABEL, MICRO_APPLY_LABEL, DEFINITION_CONT_LABEL, AND_CONT_LABEL, OR_CONT_LABEL, ASSIGNMENT_CONT_LABEL, CONDITIONAL_CONT_LABEL, EVAL_SEQUENCE_LABEL, EVAL_SEQUENCE_CONT_LABEL, ERROR_LABEL, END_LABEL]

lemma step_at_ERROR (ext : Ext) (s : EState) (hc : s.cont = ERROR_LABEL) :
    step ext s = none := by
  simp [step, hc, START_LABEL, SELF_EVAL_P_LABEL, VARIABLE_P_LABEL, FORGET_ABOUT_IT_LABEL, QUOTED_P_LABEL, SP_DEFINITION_P_LABEL, LET_P_LABEL, AND_P_LABEL, OR_P_LABEL, ASSIGNMENT_P_LABEL, CONDITIONAL_P_LABEL, LAMBDA_P_LABEL, APPLICATION_P_LABEL, UNKNOWN_EXPR_LABEL, LIST_OF_VALUES_LABEL, LIST_OF_VALUES_CONT_LABEL, LIST_OF_VALUES_COLLECT_START_LABEL, LIST_OF_VALUES_COLLECT_LABEL, LIST_OF_VALUES_COLLECT_STOP_LABEL, MICRO_APPLY_LABEL, DEFINITION_CONT_LABEL, AND_CONT_LABEL, OR_CONT_LABEL, ASSIGNMENT_CONT_LABEL, CONDITIONAL_CONT_LABEL, EVAL_SEQUENCE_LABEL, EVAL_SEQUENCE_CONT_LABEL, ERROR_LABEL, END_LABEL]

/-! ### Per-label preservation of the balance invariant -/

lemma inv_UNKNOWNP (s s' : EState)
    (hbal : s.pstack.length = lweight s.lstack) (hgl : GoodL s.lstack)
    (hs : stepUNKNOWN s = some s') : Inv s' := by
  cases hs
  refine inv_keep _ s hgl [] rfl (by simp) (by simp [START_LABEL, SELF_EVAL_P_LABEL, VARIABLE_P_LABEL, FORGET_ABOUT_IT_LABEL, QUOTED_P_LABEL, SP_DEFINITION_P_LABEL, LET_P_LABEL, AND_P_LABEL, OR_P_LABEL, ASSIGNMENT_P_LABEL, CONDITIONAL_P_LABEL, LAMBDA_P_LABEL, APPLICATION_P_LABEL, UNKNOWN_EXPR_LABEL, LIST_OF_VALUES_LABEL, LIST_OF_VALUES_CONT_LABEL, LIST_OF_VALUES_COLLECT_START_LABEL, LIST_OF_VALUES_COLLECT_LABEL, LIST_OF_VALUES_COLLECT_STOP_LABEL, MICRO_APPLY_LABEL, DEFINITION_CONT_LABEL, AND_CONT_LABEL, OR_CONT_LABEL, ASSIGNMENT_CONT_LABEL, CONDITIONAL_CONT_LABEL, EVAL_SEQUENCE_LABEL, EVAL_SEQUENCE_CONT_LABEL, ERROR_LABEL, END_LABEL]) ?_
  simp [owns, lweight_cons, START_LABEL, SELF_EVAL_P_LABEL, VARIABLE_P_LABEL, FORGET_ABOUT_IT_LABEL, QUOTED_P_LABEL, SP_DEFINITION_P_LABEL, LET_P_LABEL, AND_P_LABEL, OR_P_LABEL, ASSIGNMENT_P_LABEL, CONDITIONAL_P_LABEL, LAMBDA_P_LABEL, APPLICATION_P_LABEL, UNKNOWN_EXPR_LABEL, LIST_OF_VALUES_LABEL, LIST_OF_VALUES_CONT_LABEL, LIST_OF_VALUES_COLLECT_START_LABEL, LIST_OF_VALUES_COLLECT_LABEL, LIST_OF_VALUES_COLLECT_STOP_LABEL, MICRO_APPLY_LABEL, DEFINITION_CONT_LABEL, AND_CONT_LABEL, OR_CONT_LABEL, ASSIGNMENT_CONT_LABEL, CONDITIONAL_CONT_LABEL, EVAL_SEQUENCE_LABEL, EVAL_SEQUENCE_CONT_LABEL, ERROR_LABEL, END_LABEL]
  all_goals omega

lemma inv_APPLICATIONP (s s' : EState)
    (hbal : s.pstack.length = lweight s.lstack) (hgl : GoodL s.lstack)
    (hs : stepAPPLICATION s = some s') : Inv s' := by
  simp only [stepAPPLICATION] at hs
  split_ifs at hs
  all_goals first
    | exact inv_UNKNOWNP s s' hbal hgl hs
    | (cases hs
       refine inv_keep _ s hgl [LIST_OF_VALUES_LABEL] rfl (by simp [START_LABEL, SELF_EVAL_P_LABEL, VARIABLE_P_LABEL, FORGET_ABOUT_IT_LABEL, QUOTED_P_LABEL, SP_DEFINITION_P_LABEL, LET_P_LABEL, AND_P_LABEL, OR_P_LABEL, ASSIGNMENT_P_LABEL, CONDITIONAL_P_LABEL, LAMBDA_P_LABEL, APPLICATION_P_LABEL, UNKNOWN_EXPR_LABEL, LIST_OF_VALUES_LABEL, LIST_OF_VALUES_CONT_LABEL, LIST_OF_VALUES_COLLECT_START_LABEL, LIST_OF_VALUES_COLLECT_LABEL, LIST_OF_VALUES_COLLECT_STOP_LABEL, MICRO_APPLY_LABEL, DEFINITION_CONT_LABEL, AND_CONT_LABEL, OR_CONT_LABEL, ASSIGNMENT_CONT_LABEL, CONDITIONAL_CONT_LABEL, EVAL_SEQUENCE_LABEL, EVAL_SEQUENCE_CONT_LABEL, ERROR_LABEL, END_LABEL])
         (by simp [START_LABEL, SELF_EVAL_P_LABEL, VARIABLE_P_LABEL, FORGET_ABOUT_IT_LABEL, QUOTED_P_LABEL, SP_DEFINITION_P_LABEL, LET_P_LABEL, AND_P_LABEL, OR_P_LABEL, ASSIGNMENT_P_LABEL, CONDITIONAL_P_LABEL, LAMBDA_P_LABEL, APPLICATION_P_LABEL, UNKNOWN_EXPR_LABEL, LIST_OF_VALUES_LABEL, LIST_OF_VALUES_CONT_LABEL, LIST_OF_VALUES_COLLECT_START_LABEL, LIST_OF_VALUES_COLLECT_LABEL, LIST_OF_VALUES_COLLECT_STOP_LABEL, MICRO_APPLY_LABEL, DEFINITION_CONT_LABEL, AND_CONT_LABEL, OR_CONT_LABEL, ASSIGNMENT_CONT_LABEL, CONDITIONAL_CONT_LABEL, EVAL_SEQUENCE_LABEL, EVAL_SEQUENCE_CONT_LABEL, ERROR_LABEL, END_LABEL]) ?_
       simp [owns, lweight_cons, START_LABEL, SELF_EVAL_P_LABEL, VARIABLE_P_LABEL, FORGET_ABOUT_IT_LABEL, QUOTED_P_LABEL, SP_DEFINITION_P_LABEL, LET_P_LABEL, AND_P_LABEL, OR_P_LABEL, ASSIGNMENT_P_LABEL, CONDITIONAL_P_LABEL, LAMBDA_P_LABEL, APPLICATION_P_LABEL, UNKNOWN_EXPR_LABEL, LIST_OF_VALUES_LABEL, LIST_OF_VALUES_CONT_LABEL, LIST_OF_VALUES_COLLECT_START_LABEL, LIST_OF_VALUES_COLLECT_LABEL, LIST_OF_VALUES_COLLECT_STOP_LABEL, MICRO_APPLY_LABEL, DEFINITION_CONT_LABEL, AND_CONT_LABEL, OR_CONT_LABEL, ASSIGNMENT_CONT_LABEL, CONDITIONAL_CONT_LABEL, EVAL_SEQUENCE_LABEL, EVAL_SEQUENCE_CONT_LABEL, ERROR_LABEL, END_LABEL]
       all_goals omega)

lemma inv_LAMBDAP (ext : Ext) (s s' : EState)
    (hbal : s.pstack.length = lweight s.lstack) (hgl : GoodL s.lstack)
    (hs : stepLAMBDA ext s = some s') : Inv s' := by
  simp only [stepLAMBDA] at hs
  split_ifs at hs
  all_goals first
    | exact inv_APPLICATIONP s s' hbal hgl hs
    | (cases hs
       refine inv_keep _ s hgl [] rfl (by simp) (by simp [START_LABEL, SELF_EVAL_P_LABEL, VARIABLE_P_LABEL, FORGET_ABOUT_IT_LABEL, QUOTED_P_LABEL, SP_DEFINITION_P_LABEL, LET_P_LABEL, AND_P_LABEL, OR_P_LABEL, ASSIGNMENT_P_LABEL, CONDITIONAL_P_LABEL, LAMBDA_P_LABEL, APPLICATION_P_LABEL, UNKNOWN_EXPR_LABEL, LIST_OF_VALUES_LABEL, LIST_OF_VALUES_CONT_LABEL, LIST_OF_VALUES_COLLECT_START_LABEL, LIST_OF_VALUES_COLLECT_LABEL, LIST_OF_VALUES_COLLECT_STOP_LABEL, MICRO_APPLY_LABEL, DEFINITION_CONT_LABEL, AND_CONT_LABEL, OR_CONT_LABEL, ASSIGNMENT_CONT_LABEL, CONDITIONAL_CONT_LABEL, EVAL_SEQUENCE_LABEL, EVAL_SEQUENCE_CONT_LABEL, ERROR_LABEL, END_LABEL]) ?_
       simp [owns, lweight_cons, START_LABEL, SELF_EVAL_P_LABEL, VARIABLE_P_LABEL, FORGET_ABOUT_IT_LABEL, QUOTED_P_LABEL, SP_DEFINITION_P_LABEL, LET_P_LABEL, AND_P_LABEL, OR_P_LABEL, ASSIGNMENT_P_LABEL, CONDITIONAL_P_LABEL, LAMBDA_P_LABEL, APPLICATION_P_LABEL, UNKNOWN_EXPR_LABEL, LIST_OF_VALUES_LABEL, LIST_OF_VALUES_CONT_LABEL, LIST_OF_VALUES_COLLECT_START_LABEL, LIST_OF_VALUES_COLLECT_LABEL, LIST_OF_VALUES_COLLECT_STOP_LABEL, MICRO_APPLY_LABEL, DEFINITION_CONT_LABEL, AND_CONT_LABEL, OR_CONT_LABEL, ASSIGNMENT_CONT_LABEL, CONDITIONAL_CONT_LABEL, EVAL_SEQUENCE_LABEL, EVAL_SEQUENCE_CONT_LABEL, ERROR_LABEL, END_LABEL]
       all_goals omega)
    | (cases hls : s.lstack with
       | nil =>
           rw [hls] at hs
           exact absurd hs (by simp)
       | cons l lrest =>
           rw [hls] at hs
           cases hs
           refine inv_popL _ s l lrest hgl hls rfl rfl ?_
           show s.pstack.length = owns l + lweight lrest
           rw [hls, lweight_cons] at hbal
           omega)

lemma inv_CONDPP (ext : Ext) (s s' : EState)
    (hbal : s.pstack.length = lweight s.lstack) (hgl : GoodL s.lstack)
    (hs : stepCOND ext s = some s') : Inv s' := by
  simp only [stepCOND] at hs
  split_ifs at hs
  all_goals first
    | exact inv_LAMBDAP ext s s' hbal hgl hs
    | (cases hs
       refine inv_keep _ s hgl [] rfl (by simp) (by simp [START_LABEL, SELF_EVAL_P_LABEL, VARIABLE_P_LABEL, FORGET_ABOUT_IT_LABEL, QUOTED_P_LABEL, SP_DEFINITION_P_LABEL, LET_P_LABEL, AND_P_LABEL, OR_P_LABEL, ASSIGNMENT_P_LABEL, CONDITIONAL_P_LABEL, LAMBDA_P_LABEL, APPLICATION_P_LABEL, UNKNOWN_EXPR_LABEL, LIST_OF_VALUES_LABEL, LIST_OF_VALUES_CONT_LABEL, LIST_OF_VALUES_COLLECT_START_LABEL, LIST_OF_VALUES_COLLECT_LABEL, LIST_OF_VALUES_COLLECT_STOP_LABEL, MICRO_APPLY_LABEL, DEFINITION_CONT_LABEL, AND_CONT_LABEL, OR_CONT_LABEL, ASSIGNMENT_CONT_LABEL, CONDITIONAL_CONT_LABEL, EVAL_SEQUENCE_LABEL, EVAL_SEQUENCE_CONT_LABEL, ERROR_LABEL, END_LABEL]) ?_
       simp [owns, lweight_cons, START_LABEL, SELF_EVAL_P_LABEL, VARIABLE_P_LABEL, FORGET_ABOUT_IT_LABEL, QUOTED_P_LABEL, SP_DEFINITION_P_LABEL, LET_P_LABEL, AND_P_LABEL, OR_P_LABEL, ASSIGNMENT_P_LABEL, CONDITIONAL_P_LABEL, LAMBDA_P_LABEL, APPLICATION_P_LABEL, UNKNOWN_EXPR_LABEL, LIST_OF_VALUES_LABEL, LIST_OF_VALUES_CONT_LABEL, LIST_OF_VALUES_COLLECT_START_LABEL, LIST_OF_VALUES_COLLECT_LABEL, LIST_OF_VALUES_COLLECT_STOP_LABEL, MICRO_APPLY_LABEL, DEFINITION_CONT_LABEL, AND_CONT_LABEL, OR_CONT_LABEL, ASSIGNMENT_CONT_LABEL, CONDITIONAL_CONT_LABEL, EVAL_SEQUENCE_LABEL, EVAL_SEQUENCE_CONT_LABEL, ERROR_LABEL, END_LABEL]
       all_goals omega)
    | (cases hs
       refine inv_keep _ s hgl [CONDITIONAL_CONT_LABEL] rfl (by simp [START_LABEL, SELF_EVAL_P_LABEL, VARIABLE_P_LABEL, FORGET_ABOUT_IT_LABEL, QUOTED_P_LABEL, SP_DEFINITION_P_LABEL, LET_P_LABEL, AND_P_LABEL, OR_P_LABEL, ASSIGNMENT_P_LABEL, CONDITIONAL_P_LABEL, LAMBDA_P_LABEL, APPLICATION_P_LABEL, UNKNOWN_EXPR_LABEL, LIST_OF_VALUES_LABEL, LIST_OF_VALUES_CONT_LABEL, LIST_OF_VALUES_COLLECT_START_LABEL, LIST_OF_VALUES_COLLECT_LABEL, LIST_OF_VALUES_COLLECT_STOP_LABEL, MICRO_APPLY_LABEL, DEFINITION_CONT_LABEL, AND_CONT_LABEL, OR_CONT_LABEL, ASSIGNMENT_CONT_LABEL, CONDITIONAL_CONT_LABEL, EVAL_SEQUENCE_LABEL, EVAL_SEQUENCE_CONT_LABEL, ERROR_LABEL, END_LABEL])
         (by simp [START_LABEL, SELF_EVAL_P_LABEL, VARIABLE_P_LABEL, FORGET_ABOUT_IT_LABEL, QUOTED_P_LABEL, SP_DEFINITION_P_LABEL, LET_P_LABEL, AND_P_LABEL, OR_P_LABEL, ASSIGNMENT_P_LABEL, CONDITIONAL_P_LABEL, LAMBDA_P_LABEL, APPLICATION_P_LABEL, UNKNOWN_EXPR_LABEL, LIST_OF_VALUES_LABEL, LIST_OF_VALUES_CONT_LABEL, LIST_OF_VALUES_COLLECT_START_LABEL, LIST_OF_VALUES_COLLECT_LABEL, LIST_OF_VALUES_COLLECT_STOP_LABEL, MICRO_APPLY_LABEL, DEFINITION_CONT_LABEL, AND_CONT_LABEL, OR_CONT_LABEL, ASSIGNMENT_CONT_LABEL, CONDITIONAL_CONT_LABEL, EVAL_SEQUENCE_LABEL, EVAL_SEQUENCE_CONT_LABEL, ERROR_LABEL, END_LABEL]) ?_
       simp [owns, lweight_cons, START_LABEL, SELF_EVAL_P_LABEL, VARIABLE_P_LABEL, FORGET_ABOUT_IT_LABEL, QUOTED_P_LABEL, SP_DEFINITION_P_LABEL, LET_P_LABEL, AND_P_LABEL, OR_P_LABEL, ASSIGNMENT_P_LABEL, CONDITIONAL_P_LABEL, LAMBDA_P_LABEL, APPLICATION_P_LABEL, UNKNOWN_EXPR_LABEL, LIST_OF_VALUES_LABEL, LIST_OF_VALUES_CONT_LABEL, LIST_OF_VALUES_COLLECT_START_LABEL, LIST_OF_VALUES_COLLECT_LABEL, LIST_OF_VALUES_COLLECT_STOP_LABEL, MICRO_APPLY_LABEL, DEFINITION_CONT_LABEL, AND_CONT_LABEL, OR_CONT_LABEL, ASSIGNMENT_CONT_LABEL, CONDITIONAL_CONT_LABEL, EVAL_SEQUENCE_LABEL, EVAL_SEQUENCE_CONT_LABEL, ERROR_LABEL, END_LABEL]
       all_goals omega)

lemma inv_ASSIGNP (ext : Ext) (s s' : EState)
    (hbal : s.pstack.length = lweight s.lstack) (hgl : GoodL s.lstack)
    (hs : stepASSIGN ext s = some s') : Inv s' := by
  simp only [stepASSIGN] at hs
  split_ifs at hs
  all_goals first
    | exact inv_CONDPP ext s s' hbal hgl hs
    | (cases hs
       refine inv_keep _ s hgl [] rfl (by simp) (by simp [START_LABEL, SELF_EVAL_P_LABEL, VARIABLE_P_LABEL, FORGET_ABOUT_IT_LABEL, QUOTED_P_LABEL, SP_DEFINITION_P_LABEL, LET_P_LABEL, AND_P_LABEL, OR_P_LABEL, ASSIGNMENT_P_LABEL, CONDITIONAL_P_LABEL, LAMBDA_P_LABEL, APPLICATION_P_LABEL, UNKNOWN_EXPR_LABEL, LIST_OF_VALUES_LABEL, LIST_OF_VALUES_CONT_LABEL, LIST_OF_VALUES_COLLECT_START_LABEL, LIST_OF_VALUES_COLLECT_LABEL, LIST_OF_VALUES_COLLECT_STOP_LABEL, MICRO_APPLY_LABEL, DEFINITION_CONT_LABEL, AND_CONT_LABEL, OR_CONT_LABEL, ASSIGNMENT_CONT_LABEL, CONDITIONAL_CONT_LABEL, EVAL_SEQUENCE_LABEL, EVAL_SEQUENCE_CONT_LABEL, ERROR_LABEL, END_LABEL]) ?_
       simp [owns, lweight_cons, START_LABEL, SELF_EVAL_P_LABEL, VARIABLE_P_LABEL, FORGET_ABOUT_IT_LABEL, QUOTED_P_LABEL, SP_DEFINITION_P_LABEL, LET_P_LABEL, AND_P_LABEL, OR_P_LABEL, ASSIGNMENT_P_LABEL, CONDITIONAL_P_LABEL, LAMBDA_P_LABEL, APPLICATION_P_LABEL, UNKNOWN_EXPR_LABEL, LIST_OF_VALUES_LABEL, LIST_OF_VALUES_CONT_LABEL, LIST_OF_VALUES_COLLECT_START_LABEL, LIST_OF_VALUES_COLLECT_LABEL, LIST_OF_VALUES_COLLECT_STOP_LABEL, MICRO_APPLY_LABEL, DEFINITION_CONT_LABEL, AND_CONT_LABEL, OR_CONT_LABEL, ASSIGNMENT_CONT_LABEL, CONDITIONAL_CONT_LABEL, EVAL_SEQUENCE_LABEL, EVAL_SEQUENCE_CONT_LABEL, ERROR_LABEL, END_LABEL]
       all_goals omega)
    | (cases hs
       refine inv_keep _ s hgl [ASSIGNMENT_CONT_LABEL] rfl (by simp [START_LABEL, SELF_EVAL_P_LABEL, VARIABLE_P_LABEL, FORGET_ABOUT_IT_LABEL, QUOTED_P_LABEL, SP_DEFINITION_P_LABEL, LET_P_LABEL, AND_P_LABEL, OR_P_LABEL, ASSIGNMENT_P_LABEL, CONDITIONAL_P_LABEL, LAMBDA_P_LABEL, APPLICATION_P_LABEL, UNKNOWN_EXPR_LABEL, LIST_OF_VALUES_LABEL, LIST_OF_VALUES_CONT_LABEL, LIST_OF_VALUES_COLLECT_START_LABEL, LIST_OF_VALUES_COLLECT_LABEL, LIST_OF_VALUES_COLLECT_STOP_LABEL, MICRO_APPLY_LABEL, DEFINITION_CONT_LABEL, AND_CONT_LABEL, OR_CONT_LABEL, ASSIGNMENT_CONT_LABEL, CONDITIONAL_CONT_LABEL, EVAL_SEQUENCE_LABEL, EVAL_SEQUENCE_CONT_LABEL, ERROR_LABEL, END_LABEL])
         (by simp [START_LABEL, SELF_EVAL_P_LABEL, VARIABLE_P_LABEL, FORGET_ABOUT_IT_LABEL, QUOTED_P_LABEL, SP_DEFINITION_P_LABEL, LET_P_LABEL, AND_P_LABEL, OR_P_LABEL, ASSIGNMENT_P_LABEL, CONDITIONAL_P_LABEL, LAMBDA_P_LABEL, APPLICATION_P_LABEL, UNKNOWN_EXPR_LABEL, LIST_OF_VALUES_LABEL, LIST_OF_VALUES_CONT_LABEL, LIST_OF_VALUES_COLLECT_START_LABEL, LIST_OF_VALUES_COLLECT_LABEL, LIST_OF_VALUES_COLLECT_STOP_LABEL, MICRO_APPLY_LABEL, DEFINITION_CONT_LABEL, AND_CONT_LABEL, OR_CONT_LABEL, ASSIGNMENT_CONT_LABEL, CONDITIONAL_CONT_LABEL, EVAL_SEQUENCE_LABEL, EVAL_SEQUENCE_CONT_LABEL, ERROR_LABEL, END_LABEL]) ?_
       simp [owns, lweight_cons, START_LABEL, SELF_EVAL_P_LABEL, VARIABLE_P_LABEL, FORGET_ABOUT_IT_LABEL, QUOTED_P_LABEL, SP_DEFINITION_P_LABEL, LET_P_LABEL, AND_P_LABEL, OR_P_LABEL, ASSIGNMENT_P_LABEL, CONDITIONAL_P_LABEL, LAMBDA_P_LABEL, APPLICATION_P_LABEL, UNKNOWN_EXPR_LABEL, LIST_OF_VALUES_LABEL, LIST_OF_VALUES_CONT_LABEL, LIST_OF_VALUES_COLLECT_START_LABEL, LIST_OF_VALUES_COLLECT_LABEL, LIST_OF_VALUES_COLLECT_STOP_LABEL, MICRO_APPLY_LABEL, DEFINITION_CONT_LABEL, AND_CONT_LABEL, OR_CONT_LABEL, ASSIGNMENT_CONT_LABEL, CONDITIONAL_CONT_LABEL, EVAL_SEQUENCE_LABEL, EVAL_SEQUENCE_CONT_LABEL, ERROR_LABEL, END_LABEL]
       all_goals omega)

lemma inv_ORPP (ext : Ext) (s s' : EState)
    (hbal : s.pstack.length = lweight s.lstack) (hgl : GoodL s.lstack)
    (hs : stepOR ext s = some s') : Inv s' := by
  simp only [stepOR] at hs
  split_ifs at hs
  all_goals first
    | exact inv_ASSIGNP ext s s' hbal hgl hs
    | (cases hs
       refine inv_keep _ s hgl [] rfl (by simp) (by simp [START_LABEL, SELF_EVAL_P_LABEL, VARIABLE_P_LABEL, FORGET_ABOUT_IT_LABEL, QUOTED_P_LABEL, SP_DEFINITION_P_LABEL, LET_P_LABEL, AND_P_LABEL, OR_P_LABEL, ASSIGNMENT_P_LABEL, CONDITIONAL_P_LABEL, LAMBDA_P_LABEL, APPLICATION_P_LABEL, UNKNOWN_EXPR_LABEL, LIST_OF_VALUES_LABEL, LIST_OF_VALUES_CONT_LABEL, LIST_OF_VALUES_COLLECT_START_LABEL, LIST_OF_VALUES_COLLECT_LABEL, LIST_OF_VALUES_COLLECT_STOP_LABEL, MICRO_APPLY_LABEL, DEFINITION_CONT_LABEL, AND_CONT_LABEL, OR_CONT_LABEL, ASSIGNMENT_CONT_LABEL, CONDITIONAL_CONT_LABEL, EVAL_SEQUENCE_LABEL, EVAL_SEQUENCE_CONT_LABEL, ERROR_LABEL, END_LABEL]) ?_
       simp [owns, lweight_cons, START_LABEL, SELF_EVAL_P_LABEL, VARIABLE_P_LABEL, FORGET_ABOUT_IT_LABEL, QUOTED_P_LABEL, SP_DEFINITION_P_LABEL, LET_P_LABEL, AND_P_LABEL, OR_P_LABEL, ASSIGNMENT_P_LABEL, CONDITIONAL_P_LABEL, LAMBDA_P_LABEL, APPLICATION_P_LABEL, UNKNOWN_EXPR_LABEL, LIST_OF_VALUES_LABEL, LIST_OF_VALUES_CONT_LABEL, LIST_OF_VALUES_COLLECT_START_LABEL, LIST_OF_VALUES_COLLECT_LABEL, LIST_OF_VALUES_COLLECT_STOP_LABEL, MICRO_APPLY_LABEL, DEFINITION_CONT_LABEL, AND_CONT_LABEL, OR_CONT_LABEL, ASSIGNMENT_CONT_LABEL, CONDITIONAL_CONT_LABEL, EVAL_SEQUENCE_LABEL, EVAL_SEQUENCE_CONT_LABEL, ERROR_LABEL, END_LABEL]
       all_goals omega)
    | (cases hs
       refine inv_keep _ s hgl [OR_CONT_LABEL] rfl (by simp [START_LABEL, SELF_EVAL_P_LABEL, VARIABLE_P_LABEL, FORGET_ABOUT_IT_LABEL, QUOTED_P_LABEL, SP_DEFINITION_P_LABEL, LET_P_LABEL, AND_P_LABEL, OR_P_LABEL, ASSIGNMENT_P_LABEL, CONDITIONAL_P_LABEL, LAMBDA_P_LABEL, APPLICATION_P_LABEL, UNKNOWN_EXPR_LABEL, LIST_OF_VALUES_LABEL, LIST_OF_VALUES_CONT_LABEL, LIST_OF_VALUES_COLLECT_START_LABEL, LIST_OF_VALUES_COLLECT_LABEL, LIST_OF_VALUES_COLLECT_STOP_LABEL, MICRO_APPLY_LABEL, DEFINITION_CONT_LABEL, AND_CONT_LABEL, OR_CONT_LABEL, ASSIGNMENT_CONT_LABEL, CONDITIONAL_CONT_LABEL, EVAL_SEQUENCE_LABEL, EVAL_SEQUENCE_CONT_LABEL, ERROR_LABEL, END_LABEL])
         (by simp [START_LABEL, SELF_EVAL_P_LABEL, VARIABLE_P_LABEL, FORGET_ABOUT_IT_LABEL, QUOTED_P_LABEL, SP_DEFINITION_P_LABEL, LET_P_LABEL, AND_P_LABEL, OR_P_LABEL, ASSIGNMENT_P_LABEL, CONDITIONAL_P_LABEL, LAMBDA_P_LABEL, APPLICATION_P_LABEL, UNKNOWN_EXPR_LABEL, LIST_OF_VALUES_LABEL, LIST_OF_VALUES_CONT_LABEL, LIST_OF_VALUES_COLLECT_START_LABEL, LIST_OF_VALUES_COLLECT_LABEL, LIST_OF_VALUES_COLLECT_STOP_LABEL, MICRO_APPLY_LABEL, DEFINITION_CONT_LABEL, AND_CONT_LABEL, OR_CONT_LABEL, ASSIGNMENT_CONT_LABEL, CONDITIONAL_CONT_LABEL, EVAL_SEQUENCE_LABEL, EVAL_SEQUENCE_CONT_LABEL, ERROR_LABEL, END_LABEL]) ?_
       simp [owns, lweight_cons, START_LABEL, SELF_EVAL_P_LABEL, VARIABLE_P_LABEL, FORGET_ABOUT_IT_LABEL, QUOTED_P_LABEL, SP_DEFINITION_P_LABEL, LET_P_LABEL, AND_P_LABEL, OR_P_LABEL, ASSIGNMENT_P_LABEL, CONDITIONAL_P_LABEL, LAMBDA_P_LABEL, APPLICATION_P_LABEL, UNKNOWN_EXPR_LABEL, LIST_OF_VALUES_LABEL, LIST_OF_VALUES_CONT_LABEL, LIST_OF_VALUES_COLLECT_START_LABEL, LIST_OF_VALUES_COLLECT_LABEL, LIST_OF_VALUES_COLLECT_STOP_LABEL, MICRO_APPLY_LABEL, DEFINITION_CONT_LABEL, AND_CONT_LABEL, OR_CONT_LABEL, ASSIGNMENT_CONT_LABEL, CONDITIONAL_CONT_LABEL, EVAL_SEQUENCE_LABEL, EVAL_SEQUENCE_CONT_LABEL, ERROR_LABEL, END_LABEL]
       all_goals omega)
    | (cases hls : s.lstack with
       | nil =>
           rw [hls] at hs
           exact absurd hs (by simp)
       | cons l lrest =>
           rw [hls] at hs
           cases hs
           refine inv_popL _ s l lrest hgl hls rfl rfl ?_
           show s.pstack.length = owns l + lweight lrest
           rw [hls, lweight_cons] at hbal
           omega)

lemma inv_ANDPP (ext : Ext) (s s' : EState)
    (hbal : s.pstack.length = lweight s.lstack) (hgl : GoodL s.lstack)
    (hs : stepAND ext s = some s') : Inv s' := by
  simp only [stepAND] at hs
  split_ifs at hs
  all_goals first
    | exact inv_ORPP ext s s' hbal hgl hs
    | (cases hs
       refine inv_keep _ s hgl [] rfl (by simp) (by simp [START_LABEL, SELF_EVAL_P_LABEL, VARIABLE_P_LABEL, FORGET_ABOUT_IT_LABEL, QUOTED_P_LABEL, SP_DEFINITION_P_LABEL, LET_P_LABEL, AND_P_LABEL, OR_P_LABEL, ASSIGNMENT_P_LABEL, CONDITIONAL_P_LABEL, LAMBDA_P_LABEL, APPLICATION_P_LABEL, UNKNOWN_EXPR_LABEL, LIST_OF_VALUES_LABEL, LIST_OF_VALUES_CONT_LABEL, LIST_OF_VALUES_COLLECT_START_LABEL, LIST_OF_VALUES_COLLECT_LABEL, LIST_OF_VALUES_COLLECT_STOP_LABEL, MICRO_APPLY_LABEL, DEFINITION_CONT_LABEL, AND_CONT_LABEL, OR_CONT_LABEL, ASSIGNMENT_CONT_LABEL, CONDITIONAL_CONT_LABEL, EVAL_SEQUENCE_LABEL, EVAL_SEQUENCE_CONT_LABEL, ERROR_LABEL, END_LABEL]) ?_
       simp [owns, lweight_cons, START_LABEL, SELF_EVAL_P_LABEL, VARIABLE_P_LABEL, FORGET_ABOUT_IT_LABEL, QUOTED_P_LABEL, SP_DEFINITION_P_LABEL, LET_P_LABEL, AND_P_LABEL, OR_P_LABEL, ASSIGNMENT_P_LABEL, CONDITIONAL_P_LABEL, LAMBDA_P_LABEL, APPLICATION_P_LABEL, UNKNOWN_EXPR_LABEL, LIST_OF_VALUES_LABEL, LIST_OF_VALUES_CONT_LABEL, LIST_OF_VALUES_COLLECT_START_LABEL, LIST_OF_VALUES_COLLECT_LABEL, LIST_OF_VALUES_COLLECT_STOP_LABEL, MICRO_APPLY_LABEL, DEFINITION_CONT_LABEL, AND_CONT_LABEL, OR_CONT_LABEL, ASSIGNMENT_CONT_LABEL, CONDITIONAL_CONT_LABEL, EVAL_SEQUENCE_LABEL, EVAL_SEQUENCE_CONT_LABEL, ERROR_LABEL, END_LABEL]
       all_goals omega)
    | (cases hs
       refine inv_keep _ s hgl [AND_CONT_LABEL] rfl (by simp [START_LABEL, SELF_EVAL_P_LABEL, VARIABLE_P_LABEL, FORGET_ABOUT_IT_LABEL, QUOTED_P_LABEL, SP_DEFINITION_P_LABEL, LET_P_LABEL, AND_P_LABEL, OR_P_LABEL, ASSIGNMENT_P_LABEL, CONDITIONAL_P_LABEL, LAMBDA_P_LABEL, APPLICATION_P_LABEL, UNKNOWN_EXPR_LABEL, LIST_OF_VALUES_LABEL, LIST_OF_VALUES_CONT_LABEL, LIST_OF_VALUES_COLLECT_START_LABEL, LIST_OF_VALUES_COLLECT_LABEL, LIST_OF_VALUES_COLLECT_STOP_LABEL, MICRO_APPLY_LABEL, DEFINITION_CONT_LABEL, AND_CONT_LABEL, OR_CONT_LABEL, ASSIGNMENT_CONT_LABEL, CONDITIONAL_CONT_LABEL, EVAL_SEQUENCE_LABEL, EVAL_SEQUENCE_CONT_LABEL, ERROR_LABEL, END_LABEL])
         (by simp [START_LABEL, SELF_EVAL_P_LABEL, VARIABLE_P_LABEL, FORGET_ABOUT_IT_LABEL, QUOTED_P_LABEL, SP_DEFINITION_P_LABEL, LET_P_LABEL, AND_P_LABEL, OR_P_LABEL, ASSIGNMENT_P_LABEL, CONDITIONAL_P_LABEL, LAMBDA_P_LABEL, APPLICATION_P_LABEL, UNKNOWN_EXPR_LABEL, LIST_OF_VALUES_LABEL, LIST_OF_VALUES_CONT_LABEL, LIST_OF_VALUES_COLLECT_START_LABEL, LIST_OF_VALUES_COLLECT_LABEL, LIST_OF_VALUES_COLLECT_STOP_LABEL, MICRO_APPLY_LABEL, DEFINITION_CONT_LABEL, AND_CONT_LABEL, OR_CONT_LABEL, ASSIGNMENT_CONT_LABEL, CONDITIONAL_CONT_LABEL, EVAL_SEQUENCE_LABEL, EVAL_SEQUENCE_CONT_LABEL, ERROR_LABEL, END_LABEL]) ?_
       simp [owns, lweight_cons, START_LABEL, SELF_EVAL_P_LABEL, VARIABLE_P_LABEL, FORGET_ABOUT_IT_LABEL, QUOTED_P_LABEL, SP_DEFINITION_P_LABEL, LET_P_LABEL, AND_P_LABEL, OR_P_LABEL, ASSIGNMENT_P_LABEL, CONDITIONAL_P_LABEL, LAMBDA_P_LABEL, APPLICATION_P_LABEL, UNKNOWN_EXPR_LABEL, LIST_OF_VALUES_LABEL, LIST_OF_VALUES_CONT_LABEL, LIST_OF_VALUES_COLLECT_START_LABEL, LIST_OF_VALUES_COLLECT_LABEL, LIST_OF_VALUES_COLLECT_STOP_LABEL, MICRO_APPLY_LABEL, DEFINITION_CONT_LABEL, AND_CONT_LABEL, OR_CONT_LABEL, ASSIGNMENT_CONT_LABEL, CONDITIONAL_CONT_LABEL, EVAL_SEQUENCE_LABEL, EVAL_SEQUENCE_CONT_LABEL, ERROR_LABEL, END_LABEL]
       all_goals omega)
    | (cases hls : s.lstack with
       | nil =>
           rw [hls] at hs
           exact absurd hs (by simp)
       | cons l lrest =>
           rw [hls] at hs
           cases hs
           refine inv_popL _ s l lrest hgl hls rfl rfl ?_
           show s.pstack.length = owns l + lweight lrest
           rw [hls, lweight_cons] at hbal
           omega)

lemma inv_LETP (ext : Ext) (s s' : EState)
    (hbal : s.pstack.length = lweight s.lstack) (hgl : GoodL s.lstack)
    (hs : stepLET ext s = some s') : Inv s' := by
  simp only [stepLET] at hs
  split_ifs at hs
  all_goals first
    | exact inv_ANDPP ext s s' hbal hgl hs
    | (cases hs
       refine inv_keep _ s hgl [] rfl (by simp) (by simp [START_LABEL, SELF_EVAL_P_LABEL, VARIABLE_P_LABEL, FORGET_ABOUT_IT_LABEL, QUOTED_P_LABEL, SP_DEFINITION_P_LABEL, LET_P_LABEL, AND_P_LABEL, OR_P_LABEL, ASSIGNMENT_P_LABEL, CONDITIONAL_P_LABEL, LAMBDA_P_LABEL, APPLICATION_P_LABEL, UNKNOWN_EXPR_LABEL, LIST_OF_VALUES_LABEL, LIST_OF_VALUES_CONT_LABEL, LIST_OF_VALUES_COLLECT_START_LABEL, LIST_OF_VALUES_COLLECT_LABEL, LIST_OF_VALUES_COLLECT_STOP_LABEL, MICRO_APPLY_LABEL, DEFINITION_CONT_LABEL, AND_CONT_LABEL, OR_CONT_LABEL, ASSIGNMENT_CONT_LABEL, CONDITIONAL_CONT_LABEL, EVAL_SEQUENCE_LABEL, EVAL_SEQUENCE_CONT_LABEL, ERROR_LABEL, END_LABEL]) ?_
       simp [owns, lweight_cons, START_LABEL, SELF_EVAL_P_LABEL, VARIABLE_P_LABEL, FORGET_ABOUT_IT_LABEL, QUOTED_P_LABEL, SP_DEFINITION_P_LABEL, LET_P_LABEL, AND_P_LABEL, OR_P_LABEL, ASSIGNMENT_P_LABEL, CONDITIONAL_P_LABEL, LAMBDA_P_LABEL, APPLICATION_P_LABEL, UNKNOWN_EXPR_LABEL, LIST_OF_VALUES_LABEL, LIST_OF_VALUES_CONT_LABEL, LIST_OF_VALUES_COLLECT_START_LABEL, LIST_OF_VALUES_COLLECT_LABEL, LIST_OF_VALUES_COLLECT_STOP_LABEL, MICRO_APPLY_LABEL, DEFINITION_CONT_LABEL, AND_CONT_LABEL, OR_CONT_LABEL, ASSIGNMENT_CONT_LABEL, CONDITIONAL_CONT_LABEL, EVAL_SEQUENCE_LABEL, EVAL_SEQUENCE_CONT_LABEL, ERROR_LABEL, END_LABEL]
       all_goals omega)

lemma inv_DEFINEP (ext : Ext) (s s' : EState)
    (hbal : s.pstack.length = lweight s.lstack) (hgl : GoodL s.lstack)
    (hs : stepDEFINE ext s = some s') : Inv s' := by
  simp only [stepDEFINE] at hs
  split_ifs at hs
  all_goals first
    | exact inv_LETP ext s s' hbal hgl hs
    | (cases hs
       refine inv_keep _ s hgl [] rfl (by simp) (by simp [START_LABEL, SELF_EVAL_P_LABEL, VARIABLE_P_LABEL, FORGET_ABOUT_IT_LABEL, QUOTED_P_LABEL, SP_DEFINITION_P_LABEL, LET_P_LABEL, AND_P_LABEL, OR_P_LABEL, ASSIGNMENT_P_LABEL, CONDITIONAL_P_LABEL, LAMBDA_P_LABEL, APPLICATION_P_LABEL, UNKNOWN_EXPR_LABEL, LIST_OF_VALUES_LABEL, LIST_OF_VALUES_CONT_LABEL, LIST_OF_VALUES_COLLECT_START_LABEL, LIST_OF_VALUES_COLLECT_LABEL, LIST_OF_VALUES_COLLECT_STOP_LABEL, MICRO_APPLY_LABEL, DEFINITION_CONT_LABEL, AND_CONT_LABEL, OR_CONT_LABEL, ASSIGNMENT_CONT_LABEL, CONDITIONAL_CONT_LABEL, EVAL_SEQUENCE_LABEL, EVAL_SEQUENCE_CONT_LABEL, ERROR_LABEL, END_LABEL]) ?_
       simp [owns, lweight_cons, START_LABEL, SELF_EVAL_P_LABEL, VARIABLE_P_LABEL, FORGET_ABOUT_IT_LABEL, QUOTED_P_LABEL, SP_DEFINITION_P_LABEL, LET_P_LABEL, AND_P_LABEL, OR_P_LABEL, ASSIGNMENT_P_LABEL, CONDITIONAL_P_LABEL, LAMBDA_P_LABEL, APPLICATION_P_LABEL, UNKNOWN_EXPR_LABEL, LIST_OF_VALUES_LABEL, LIST_OF_VALUES_CONT_LABEL, LIST_OF_VALUES_COLLECT_START_LABEL, LIST_OF_VALUES_COLLECT_LABEL, LIST_OF_VALUES_COLLECT_STOP_LABEL, MICRO_APPLY_LABEL, DEFINITION_CONT_LABEL, AND_CONT_LABEL, OR_CONT_LABEL, ASSIGNMENT_CONT_LABEL, CONDITIONAL_CONT_LABEL, EVAL_SEQUENCE_LABEL, EVAL_SEQUENCE_CONT_LABEL, ERROR_LABEL, END_LABEL]
       all_goals omega)
    | (cases hs
       refine inv_keep _ s hgl [DEFINITION_CONT_LABEL] rfl (by simp [START_LABEL, SELF_EVAL_P_LABEL, VARIABLE_P_LABEL, FORGET_ABOUT_IT_LABEL, QUOTED_P_LABEL, SP_DEFINITION_P_LABEL, LET_P_LABEL, AND_P_LABEL, OR_P_LABEL, ASSIGNMENT_P_LABEL, CONDITIONAL_P_LABEL, LAMBDA_P_LABEL, APPLICATION_P_LABEL, UNKNOWN_EXPR_LABEL, LIST_OF_VALUES_LABEL, LIST_OF_VALUES_CONT_LABEL, LIST_OF_VALUES_COLLECT_START_LABEL, LIST_OF_VALUES_COLLECT_LABEL, LIST_OF_VALUES_COLLECT_STOP_LABEL, MICRO_APPLY_LABEL, DEFINITION_CONT_LABEL, AND_CONT_LABEL, OR_CONT_LABEL, ASSIGNMENT_CONT_LABEL, CONDITIONAL_CONT_LABEL, EVAL_SEQUENCE_LABEL, EVAL_SEQUENCE_CONT_LABEL, ERROR_LABEL, END_LABEL])
         (by simp [START_LABEL, SELF_EVAL_P_LABEL, VARIABLE_P_LABEL, FORGET_ABOUT_IT_LABEL, QUOTED_P_LABEL, SP_DEFINITION_P_LABEL, LET_P_LABEL, AND_P_LABEL, OR_P_LABEL, ASSIGNMENT_P_LABEL, CONDITIONAL_P_LABEL, LAMBDA_P_LABEL, APPLICATION_P_LABEL, UNKNOWN_EXPR_LABEL, LIST_OF_VALUES_LABEL, LIST_OF_VALUES_CONT_LABEL, LIST_OF_VALUES_COLLECT_START_LABEL, LIST_OF_VALUES_COLLECT_LABEL, LIST_OF_VALUES_COLLECT_STOP_LABEL, MICRO_APPLY_LABEL, DEFINITION_CONT_LABEL, AND_CONT_LABEL, OR_CONT_LABEL, ASSIGNMENT_CONT_LABEL, CONDITIONAL_CONT_LABEL, EVAL_SEQUENCE_LABEL, EVAL_SEQUENCE_CONT_LABEL, ERROR_LABEL, END_LABEL]) ?_
       simp [owns, lweight_cons, START_LABEL, SELF_EVAL_P_LABEL, VARIABLE_P_LABEL, FORGET_ABOUT_IT_LABEL, QUOTED_P_LABEL, SP_DEFINITION_P_LABEL, LET_P_LABEL, AND_P_LABEL, OR_P_LABEL, ASSIGNMENT_P_LABEL, CONDITIONAL_P_LABEL, LAMBDA_P_LABEL, APPLICATION_P_LABEL, UNKNOWN_EXPR_LABEL, LIST_OF_VALUES_LABEL, LIST_OF_VALUES_CONT_LABEL, LIST_OF_VALUES_COLLECT_START_LABEL, LIST_OF_VALUES_COLLECT_LABEL, LIST_OF_VALUES_COLLECT_STOP_LABEL, MICRO_APPLY_LABEL, DEFINITION_CONT_LABEL, AND_CONT_LABEL, OR_CONT_LABEL, ASSIGNMENT_CONT_LABEL, CONDITIONAL_CONT_LABEL, EVAL_SEQUENCE_LABEL, EVAL_SEQUENCE_CONT_LABEL, ERROR_LABEL, END_LABEL]
       all_goals omega)

lemma inv_QUOTEDP (ext : Ext) (s s' : EState)
    (hbal : s.pstack.length = lweight s.lstack) (hgl : GoodL s.lstack)
    (hs : stepQUOTED ext s = some s') : Inv s' := by
  simp only [stepQUOTED] at hs
  split_ifs at hs
  all_goals first
    | exact inv_DEFINEP ext s s' hbal hgl hs
    | (cases hs
       refine inv_keep _ s hgl [] rfl (by simp) (by simp [START_LABEL, SELF_EVAL_P_LABEL, VARIABLE_P_LABEL, FORGET_ABOUT_IT_LABEL, QUOTED_P_LABEL, SP_DEFINITION_P_LABEL, LET_P_LABEL, AND_P_LABEL, OR_P_LABEL, ASSIGNMENT_P_LABEL, CONDITIONAL_P_LABEL, LAMBDA_P_LABEL, APPLICATION_P_LABEL, UNKNOWN_EXPR_LABEL, LIST_OF_VALUES_LABEL, LIST_OF_VALUES_CONT_LABEL, LIST_OF_VALUES_COLLECT_START_LABEL, LIST_OF_VALUES_COLLECT_LABEL, LIST_OF_VALUES_COLLECT_STOP_LABEL, MICRO_APPLY_LABEL, DEFINITION_CONT_LABEL, AND_CONT_LABEL, OR_CONT_LABEL, ASSIGNMENT_CONT_LABEL, CONDITIONAL_CONT_LABEL, EVAL_SEQUENCE_LABEL, EVAL_SEQUENCE_CONT_LABEL, ERROR_LABEL, END_LABEL]) ?_
       simp [owns, lweight_cons, START_LABEL, SELF_EVAL_P_LABEL, VARIABLE_P_LABEL, FORGET_ABOUT_IT_LABEL, QUOTED_P_LABEL, SP_DEFINITION_P_LABEL, LET_P_LABEL, AND_P_LABEL, OR_P_LABEL, ASSIGNMENT_P_LABEL, CONDITIONAL_P_LABEL, LAMBDA_P_LABEL, APPLICATION_P_LABEL, UNKNOWN_EXPR_LABEL, LIST_OF_VALUES_LABEL, LIST_OF_VALUES_CONT_LABEL, LIST_OF_VALUES_COLLECT_START_LABEL, LIST_OF_VALUES_COLLECT_LABEL, LIST_OF_VALUES_COLLECT_STOP_LABEL, MICRO_APPLY_LABEL, DEFINITION_CONT_LABEL, AND_CONT_LABEL, OR_CONT_LABEL, ASSIGNMENT_CONT_LABEL, CONDITIONAL_CONT_LABEL, EVAL_SEQUENCE_LABEL, EVAL_SEQUENCE_CONT_LABEL, ERROR_LABEL, END_LABEL]
       all_goals omega)
    | (cases hls : s.lstack with
       | nil =>
           rw [hls] at hs
           exact absurd hs (by simp)
       | cons l lrest =>
           rw [hls] at hs
           cases hs
           refine inv_popL _ s l lrest hgl hls rfl rfl ?_
           show s.pstack.length = owns l + lweight lrest
           rw [hls, lweight_cons] at hbal
           omega)

lemma inv_FORGETP (s s' : EState)
    (hbal : s.pstack.length = lweight s.lstack) (hgl : GoodL s.lstack)
    (hs : stepFORGET s = some s') : Inv s' := by
  cases hs
  refine inv_keep _ s hgl [] rfl (by simp) (by simp [START_LABEL, SELF_EVAL_P_LABEL, VARIABLE_P_LABEL, FORGET_ABOUT_IT_LABEL, QUOTED_P_LABEL, SP_DEFINITION_P_LABEL, LET_P_LABEL, AND_P_LABEL, OR_P_LABEL, ASSIGNMENT_P_LABEL, CONDITIONAL_P_LABEL, LAMBDA_P_LABEL, APPLICATION_P_LABEL, UNKNOWN_EXPR_LABEL, LIST_OF_VALUES_LABEL, LIST_OF_VALUES_CONT_LABEL, LIST_OF_VALUES_COLLECT_START_LABEL, LIST_OF_VALUES_COLLECT_LABEL, LIST_OF_VALUES_COLLECT_STOP_LABEL, MICRO_APPLY_LABEL, DEFINITION_CONT_LABEL, AND_CONT_LABEL, OR_CONT_LABEL, ASSIGNMENT_CONT_LABEL, CONDITIONAL_CONT_LABEL, EVAL_SEQUENCE_LABEL, EVAL_SEQUENCE_CONT_LABEL, ERROR_LABEL, END_LABEL]) ?_
  simp [owns, lweight_cons, START_LABEL, SELF_EVAL_P_LABEL, VARIABLE_P_LABEL, FORGET_ABOUT_IT_LABEL, QUOTED_P_LABEL, SP_DEFINITION_P_LABEL, LET_P_LABEL, AND_P_LABEL, OR_P_LABEL, ASSIGNMENT_P_LABEL, CONDITIONAL_P_LABEL, LAMBDA_P_LABEL, APPLICATION_P_LABEL, UNKNOWN_EXPR_LABEL, LIST_OF_VALUES_LABEL, LIST_OF_VALUES_CONT_LABEL, LIST_OF_VALUES_COLLECT_START_LABEL, LIST_OF_VALUES_COLLECT_LABEL, LIST_OF_VALUES_COLLECT_STOP_LABEL, MICRO_APPLY_LABEL, DEFINITION_CONT_LABEL, AND_CONT_LABEL, OR_CONT_LABEL, ASSIGNMENT_CONT_LABEL, CONDITIONAL_CONT_LABEL, EVAL_SEQUENCE_LABEL, EVAL_SEQUENCE_CONT_LABEL, ERROR_LABEL, END_LABEL]
  all_goals omega

lemma inv_VARIABLEP (ext : Ext) (s s' : EState)
    (hbal : s.pstack.length = lweight s.lstack) (hgl : GoodL s.lstack)
    (hs : stepVARIABLE ext s = some s') : Inv s' := by
  simp only [stepVARIABLE] at hs
  split_ifs at hs
  all_goals first
    | exact inv_FORGETP s s' hbal hgl hs
    | (cases hs
       refine inv_keep _ s hgl [] rfl (by simp) (by simp [START_LABEL, SELF_EVAL_P_LABEL, VARIABLE_P_LABEL, FORGET_ABOUT_IT_LABEL, QUOTED_P_LABEL, SP_DEFINITION_P_LABEL, LET_P_LABEL, AND_P_LABEL, OR_P_LABEL, ASSIGNMENT_P_LABEL, CONDITIONAL_P_LABEL, LAMBDA_P_LABEL, APPLICATION_P_LABEL, UNKNOWN_EXPR_LABEL, LIST_OF_VALUES_LABEL, LIST_OF_VALUES_CONT_LABEL, LIST_OF_VALUES_COLLECT_START_LABEL, LIST_OF_VALUES_COLLECT_LABEL, LIST_OF_VALUES_COLLECT_STOP_LABEL, MICRO_APPLY_LABEL, DEFINITION_CONT_LABEL, AND_CONT_LABEL, OR_CONT_LABEL, ASSIGNMENT_CONT_LABEL, CONDITIONAL_CONT_LABEL, EVAL_SEQUENCE_LABEL, EVAL_SEQUENCE_CONT_LABEL, ERROR_LABEL, END_LABEL]) ?_
       simp [owns, lweight_cons, START_LABEL, SELF_EVAL_P_LABEL, VARIABLE_P_LABEL, FORGET_ABOUT_IT_LABEL, QUOTED_P_LABEL, SP_DEFINITION_P_LABEL, LET_P_LABEL, AND_P_LABEL, OR_P_LABEL, ASSIGNMENT_P_LABEL, CONDITIONAL_P_LABEL, LAMBDA_P_LABEL, APPLICATION_P_LABEL, UNKNOWN_EXPR_LABEL, LIST_OF_VALUES_LABEL, LIST_OF_VALUES_CONT_LABEL, LIST_OF_VALUES_COLLECT_START_LABEL, LIST_OF_VALUES_COLLECT_LABEL, LIST_OF_VALUES_COLLECT_STOP_LABEL, MICRO_APPLY_LABEL, DEFINITION_CONT_LABEL, AND_CONT_LABEL, OR_CONT_LABEL, ASSIGNMENT_CONT_LABEL, CONDITIONAL_CONT_LABEL, EVAL_SEQUENCE_LABEL, EVAL_SEQUENCE_CONT_LABEL, ERROR_LABEL, END_LABEL]
       all_goals omega)
    | (cases hls : s.lstack with
       | nil =>
           rw [hls] at hs
           exact absurd hs (by simp)
       | cons l lrest =>
           rw [hls] at hs
           cases hs
           refine inv_popL _ s l lrest hgl hls rfl rfl ?_
           show s.pstack.length = owns l + lweight lrest
           rw [hls, lweight_cons] at hbal
           omega)

lemma inv_SELFP (ext : Ext) (s s' : EState)
    (hbal : s.pstack.length = lweight s.lstack) (hgl : GoodL s.lstack)
    (hs : stepSELF ext s = some s') : Inv s' := by
  simp only [stepSELF] at hs
  split_ifs at hs
  all_goals first
    | exact inv_VARIABLEP ext s s' hbal hgl hs
    | (cases hls : s.lstack with
       | nil =>
           rw [hls] at hs
           exact absurd hs (by simp)
       | cons l lrest =>
           rw [hls] at hs
           cases hs
           refine inv_popL _ s l lrest hgl hls rfl rfl ?_
           show s.pstack.length = owns l + lweight lrest
           rw [hls, lweight_cons] at hbal
           omega)

lemma inv_STARTP (ext : Ext) (s s' : EState)
    (hbal : s.pstack.length = lweight s.lstack) (hgl : GoodL s.lstack)
    (hs : stepSTART ext s = some s') : Inv s' := by
  simp only [stepSTART] at hs
  split_ifs at hs
  all_goals first
    | exact inv_SELFP ext s s' hbal hgl hs
    | (cases hs
       refine inv_keep _ s hgl [] rfl (by simp) (by simp [START_LABEL, SELF_EVAL_P_LABEL, VARIABLE_P_LABEL, FORGET_ABOUT_IT_LABEL, QUOTED_P_LABEL, SP_DEFINITION_P_LABEL, LET_P_LABEL, AND_P_LABEL, OR_P_LABEL, ASSIGNMENT_P_LABEL, CONDITIONAL_P_LABEL, LAMBDA_P_LABEL, APPLICATION_P_LABEL, UNKNOWN_EXPR_LABEL, LIST_OF_VALUES_LABEL, LIST_OF_VALUES_CONT_LABEL, LIST_OF_VALUES_COLLECT_START_LABEL, LIST_OF_VALUES_COLLECT_LABEL, LIST_OF_VALUES_COLLECT_STOP_LABEL, MICRO_APPLY_LABEL, DEFINITION_CONT_LABEL, AND_CONT_LABEL, OR_CONT_LABEL, ASSIGNMENT_CONT_LABEL, CONDITIONAL_CONT_LABEL, EVAL_SEQUENCE_LABEL, EVAL_SEQUENCE_CONT_LABEL, ERROR_LABEL, END_LABEL]) ?_
       simp [owns, lweight_cons, START_LABEL, SELF_EVAL_P_LABEL, VARIABLE_P_LABEL, FORGET_ABOUT_IT_LABEL, QUOTED_P_LABEL, SP_DEFINITION_P_LABEL, LET_P_LABEL, AND_P_LABEL, OR_P_LABEL, ASSIGNMENT_P_LABEL, CONDITIONAL_P_LABEL, LAMBDA_P_LABEL, APPLICATION_P_LABEL, UNKNOWN_EXPR_LABEL, LIST_OF_VALUES_LABEL, LIST_OF_VALUES_CONT_LABEL, LIST_OF_VALUES_COLLECT_START_LABEL, LIST_OF_VALUES_COLLECT_LABEL, LIST_OF_VALUES_COLLECT_STOP_LABEL, MICRO_APPLY_LABEL, DEFINITION_CONT_LABEL, AND_CONT_LABEL, OR_CONT_LABEL, ASSIGNMENT_CONT_LABEL, CONDITIONAL_CONT_LABEL, EVAL_SEQUENCE_LABEL, EVAL_SEQUENCE_CONT_LABEL, ERROR_LABEL, END_LABEL]
       all_goals omega)

/-! ### Preservation at the remaining labels (list-of-values machinery,
apply, and the continuation handlers) -/

lemma inv_LOVP (s s' : EState)
    (hbal : s.pstack.length = lweight s.lstack + 2) (hgl : GoodL s.lstack)
    (hs : stepLOV s = some s') : Inv s' := by
  rcases hp : s.pstack with _ | ⟨e, _ | ⟨env, rest⟩⟩
  · simp [stepLOV, hp] at hs
  · simp [stepLOV, hp] at hs
  · rw [hp] at hbal
    simp only [List.length_cons] at hbal
    simp only [stepLOV, hp] at hs
    split_ifs at hs
    · cases hs
      refine inv_keep _ s hgl [] rfl (by simp) (by simp [START_LABEL, SELF_EVAL_P_LABEL, VARIABLE_P_LABEL, FORGET_ABOUT_IT_LABEL, QUOTED_P_LABEL, SP_DEFINITION_P_LABEL, LET_P_LABEL, AND_P_LABEL, OR_P_LABEL, ASSIGNMENT_P_LABEL, CONDITIONAL_P_LABEL, LAMBDA_P_LABEL, APPLICATION_P_LABEL, UNKNOWN_EXPR_LABEL, LIST_OF_VALUES_LABEL, LIST_OF_VALUES_CONT_LABEL, LIST_OF_VALUES_COLLECT_START_LABEL, LIST_OF_VALUES_COLLECT_LABEL, LIST_OF_VALUES_COLLECT_STOP_LABEL, MICRO_APPLY_LABEL, DEFINITION_CONT_LABEL, AND_CONT_LABEL, OR_CONT_LABEL, ASSIGNMENT_CONT_LABEL, CONDITIONAL_CONT_LABEL, EVAL_SEQUENCE_LABEL, EVAL_SEQUENCE_CONT_LABEL, ERROR_LABEL, END_LABEL]) ?_
      simp [owns, lweight_cons, START_LABEL, SELF_EVAL_P_LABEL, VARIABLE_P_LABEL, FORGET_ABOUT_IT_LABEL, QUOTED_P_LABEL, SP_DEFINITION_P_LABEL, LET_P_LABEL, AND_P_LABEL, OR_P_LABEL, ASSIGNMENT_P_LABEL, CONDITIONAL_P_LABEL, LAMBDA_P_LABEL, APPLICATION_P_LABEL, UNKNOWN_EXPR_LABEL, LIST_OF_VALUES_LABEL, LIST_OF_VALUES_CONT_LABEL, LIST_OF_VALUES_COLLECT_START_LABEL, LIST_OF_VALUES_COLLECT_LABEL, LIST_OF_VALUES_COLLECT_STOP_LABEL, MICRO_APPLY_LABEL, DEFINITION_CONT_LABEL, AND_CONT_LABEL, OR_CONT_LABEL, ASSIGNMENT_CONT_LABEL, CONDITIONAL_CONT_LABEL, EVAL_SEQUENCE_LABEL, EVAL_SEQUENCE_CONT_LABEL, ERROR_LABEL, END_LABEL]
      all_goals omega
    · cases hs
      refine inv_keep _ s hgl [] rfl (by simp) (by simp [START_LABEL, SELF_EVAL_P_LABEL, VARIABLE_P_LABEL, FORGET_ABOUT_IT_LABEL, QUOTED_P_LABEL, SP_DEFINITION_P_LABEL, LET_P_LABEL, AND_P_LABEL, OR_P_LABEL, ASSIGNMENT_P_LABEL, CONDITIONAL_P_LABEL, LAMBDA_P_LABEL, APPLICATION_P_LABEL, UNKNOWN_EXPR_LABEL, LIST_OF_VALUES_LABEL, LIST_OF_VALUES_CONT_LABEL, LIST_OF_VALUES_COLLECT_START_LABEL, LIST_OF_VALUES_COLLECT_LABEL, LIST_OF_VALUES_COLLECT_STOP_LABEL, MICRO_APPLY_LABEL, DEFINITION_CONT_LABEL, AND_CONT_LABEL, OR_CONT_LABEL, ASSIGNMENT_CONT_LABEL, CONDITIONAL_CONT_LABEL, EVAL_SEQUENCE_LABEL, EVAL_SEQUENCE_CONT_LABEL, ERROR_LABEL, END_LABEL]) ?_
      simp [owns, lweight_cons, START_LABEL, SELF_EVAL_P_LABEL, VARIABLE_P_LABEL, FORGET_ABOUT_IT_LABEL, QUOTED_P_LABEL, SP_DEFINITION_P_LABEL, LET_P_LABEL, AND_P_LABEL, OR_P_LABEL, ASSIGNMENT_P_LABEL, CONDITIONAL_P_LABEL, LAMBDA_P_LABEL, APPLICATION_P_LABEL, UNKNOWN_EXPR_LABEL, LIST_OF_VALUES_LABEL, LIST_OF_VALUES_CONT_LABEL, LIST_OF_VALUES_COLLECT_START_LABEL, LIST_OF_VALUES_COLLECT_LABEL, LIST_OF_VALUES_COLLECT_STOP_LABEL, MICRO_APPLY_LABEL, DEFINITION_CONT_LABEL, AND_CONT_LABEL, OR_CONT_LABEL, ASSIGNMENT_CONT_LABEL, CONDITIONAL_CONT_LABEL, EVAL_SEQUENCE_LABEL, EVAL_SEQUENCE_CONT_LABEL, ERROR_LABEL, END_LABEL]
      all_goals omega
    · cases hs
      refine inv_keep _ s hgl [LIST_OF_VALUES_CONT_LABEL, LIST_OF_VALUES_COLLECT_STOP_LABEL] rfl (by simp [START_LABEL, SELF_EVAL_P_LABEL, VARIABLE_P_LABEL, FORGET_ABOUT_IT_LABEL, QUOTED_P_LABEL, SP_DEFINITION_P_LABEL, LET_P_LABEL, AND_P_LABEL, OR_P_LABEL, ASSIGNMENT_P_LABEL, CONDITIONAL_P_LABEL, LAMBDA_P_LABEL, APPLICATION_P_LABEL, UNKNOWN_EXPR_LABEL, LIST_OF_VALUES_LABEL, LIST_OF_VALUES_CONT_LABEL, LIST_OF_VALUES_COLLECT_START_LABEL, LIST_OF_VALUES_COLLECT_LABEL, LIST_OF_VALUES_COLLECT_STOP_LABEL, MICRO_APPLY_LABEL, DEFINITION_CONT_LABEL, AND_CONT_LABEL, OR_CONT_LABEL, ASSIGNMENT_CONT_LABEL, CONDITIONAL_CONT_LABEL, EVAL_SEQUENCE_LABEL, EVAL_SEQUENCE_CONT_LABEL, ERROR_LABEL, END_LABEL]) (by simp [START_LABEL, SELF_EVAL_P_LABEL, VARIABLE_P_LABEL, FORGET_ABOUT_IT_LABEL, QUOTED_P_LABEL, SP_DEFINITION_P_LABEL, LET_P_LABEL, AND_P_LABEL, OR_P_LABEL, ASSIGNMENT_P_LABEL, CONDITIONAL_P_LABEL, LAMBDA_P_LABEL, APPLICATION_P_LABEL, UNKNOWN_EXPR_LABEL, LIST_OF_VALUES_LABEL, LIST_OF_VALUES_CONT_LABEL, LIST_OF_VALUES_COLLECT_START_LABEL, LIST_OF_VALUES_COLLECT_LABEL, LIST_OF_VALUES_COLLECT_STOP_LABEL, MICRO_APPLY_LABEL, DEFINITION_CONT_LABEL, AND_CONT_LABEL, OR_CONT_LABEL, ASSIGNMENT_CONT_LABEL, CONDITIONAL_CONT_LABEL, EVAL_SEQUENCE_LABEL, EVAL_SEQUENCE_CONT_LABEL, ERROR_LABEL, END_LABEL]) ?_
      simp [owns, lweight_cons, START_LABEL, SELF_EVAL_P_LABEL, VARIABLE_P_LABEL, FORGET_ABOUT_IT_LABEL, QUOTED_P_LABEL, SP_DEFINITION_P_LABEL, LET_P_LABEL, AND_P_LABEL, OR_P_LABEL, ASSIGNMENT_P_LABEL, CONDITIONAL_P_LABEL, LAMBDA_P_LABEL, APPLICATION_P_LABEL, UNKNOWN_EXPR_LABEL, LIST_OF_VALUES_LABEL, LIST_OF_VALUES_CONT_LABEL, LIST_OF_VALUES_COLLECT_START_LABEL, LIST_OF_VALUES_COLLECT_LABEL, LIST_OF_VALUES_COLLECT_STOP_LABEL, MICRO_APPLY_LABEL, DEFINITION_CONT_LABEL, AND_CONT_LABEL, OR_CONT_LABEL, ASSIGNMENT_CONT_LABEL, CONDITIONAL_CONT_LABEL, EVAL_SEQUENCE_LABEL, EVAL_SEQUENCE_CONT_LABEL, ERROR_LABEL, END_LABEL]
      all_goals omega
    · cases hs
      refine inv_keep _ s hgl [LIST_OF_VALUES_COLLECT_START_LABEL, LIST_OF_VALUES_COLLECT_STOP_LABEL] rfl (by simp [START_LABEL, SELF_EVAL_P_LABEL, VARIABLE_P_LABEL, FORGET_ABOUT_IT_LABEL, QUOTED_P_LABEL, SP_DEFINITION_P_LABEL, LET_P_LABEL, AND_P_LABEL, OR_P_LABEL, ASSIGNMENT_P_LABEL, CONDITIONAL_P_LABEL, LAMBDA_P_LABEL, APPLICATION_P_LABEL, UNKNOWN_EXPR_LABEL, LIST_OF_VALUES_LABEL, LIST_OF_VALUES_CONT_LABEL, LIST_OF_VALUES_COLLECT_START_LABEL, LIST_OF_VALUES_COLLECT_LABEL, LIST_OF_VALUES_COLLECT_STOP_LABEL, MICRO_APPLY_LABEL, DEFINITION_CONT_LABEL, AND_CONT_LABEL, OR_CONT_LABEL, ASSIGNMENT_CONT_LABEL, CONDITIONAL_CONT_LABEL, EVAL_SEQUENCE_LABEL, EVAL_SEQUENCE_CONT_LABEL, ERROR_LABEL, END_LABEL]) (by simp [START_LABEL, SELF_EVAL_P_LABEL, VARIABLE_P_LABEL, FORGET_ABOUT_IT_LABEL, QUOTED_P_LABEL, SP_DEFINITION_P_LABEL, LET_P_LABEL, AND_P_LABEL, OR_P_LABEL, ASSIGNMENT_P_LABEL, CONDITIONAL_P_LABEL, LAMBDA_P_LABEL, APPLICATION_P_LABEL, UNKNOWN_EXPR_LABEL, LIST_OF_VALUES_LABEL, LIST_OF_VALUES_CONT_LABEL, LIST_OF_VALUES_COLLECT_START_LABEL, LIST_OF_VALUES_COLLECT_LABEL, LIST_OF_VALUES_COLLECT_STOP_LABEL, MICRO_APPLY_LABEL, DEFINITION_CONT_LABEL, AND_CONT_LABEL, OR_CONT_LABEL, ASSIGNMENT_CONT_LABEL, CONDITIONAL_CONT_LABEL, EVAL_SEQUENCE_LABEL, EVAL_SEQUENCE_CONT_LABEL, ERROR_LABEL, END_LABEL]) ?_
      simp [owns, lweight_cons, START_LABEL, SELF_EVAL_P_LABEL, VARIABLE_P_LABEL, FORGET_ABOUT_IT_LABEL, QUOTED_P_LABEL, SP_DEFINITION_P_LABEL, LET_P_LABEL, AND_P_LABEL, OR_P_LABEL, ASSIGNMENT_P_LABEL, CONDITIONAL_P_LABEL, LAMBDA_P_LABEL, APPLICATION_P_LABEL, UNKNOWN_EXPR_LABEL, LIST_OF_VALUES_LABEL, LIST_OF_VALUES_CONT_LABEL, LIST_OF_VALUES_COLLECT_START_LABEL, LIST_OF_VALUES_COLLECT_LABEL, LIST_OF_VALUES_COLLECT_STOP_LABEL, MICRO_APPLY_LABEL, DEFINITION_CONT_LABEL, AND_CONT_LABEL, OR_CONT_LABEL, ASSIGNMENT_CONT_LABEL, CONDITIONAL_CONT_LABEL, EVAL_SEQUENCE_LABEL, EVAL_SEQUENCE_CONT_LABEL, ERROR_LABEL, END_LABEL]
      all_goals omega

lemma inv_LOVCONTP (s s' : EState)
    (hbal : s.pstack.length = lweight s.lstack + 2) (hgl : GoodL s.lstack)
    (hs : stepLOVCont s = some s') : Inv s' := by
  rcases hp : s.pstack with _ | ⟨e, _ | ⟨env, rest⟩⟩
  · simp [stepLOVCont, hp] at hs
  · simp [stepLOVCont, hp] at hs
  · rw [hp] at hbal
    simp only [List.length_cons] at hbal
    simp only [stepLOVCont, hp] at hs
    split_ifs at hs
    · cases hs
      refine inv_keep _ s hgl [LIST_OF_VALUES_COLLECT_START_LABEL, LIST_OF_VALUES_COLLECT_LABEL] rfl (by simp [START_LABEL, SELF_EVAL_P_LABEL, VARIABLE_P_LABEL, FORGET_ABOUT_IT_LABEL, QUOTED_P_LABEL, SP_DEFINITION_P_LABEL, LET_P_LABEL, AND_P_LABEL, OR_P_LABEL, ASSIGNMENT_P_LABEL, CONDITIONAL_P_LABEL, LAMBDA_P_LABEL, APPLICATION_P_LABEL, UNKNOWN_EXPR_LABEL, LIST_OF_VALUES_LABEL, LIST_OF_VALUES_CONT_LABEL, LIST_OF_VALUES_COLLECT_START_LABEL, LIST_OF_VALUES_COLLECT_LABEL, LIST_OF_VALUES_COLLECT_STOP_LABEL, MICRO_APPLY_LABEL, DEFINITION_CONT_LABEL, AND_CONT_LABEL, OR_CONT_LABEL, ASSIGNMENT_CONT_LABEL, CONDITIONAL_CONT_LABEL, EVAL_SEQUENCE_LABEL, EVAL_SEQUENCE_CONT_LABEL, ERROR_LABEL, END_LABEL]) (by simp [START_LABEL, SELF_EVAL_P_LABEL, VARIABLE_P_LABEL, FORGET_ABOUT_IT_LABEL, QUOTED_P_LABEL, SP_DEFINITION_P_LABEL, LET_P_LABEL, AND_P_LABEL, OR_P_LABEL, ASSIGNMENT_P_LABEL, CONDITIONAL_P_LABEL, LAMBDA_P_LABEL, APPLICATION_P_LABEL, UNKNOWN_EXPR_LABEL, LIST_OF_VALUES_LABEL, LIST_OF_VALUES_CONT_LABEL, LIST_OF_VALUES_COLLECT_START_LABEL, LIST_OF_VALUES_COLLECT_LABEL, LIST_OF_VALUES_COLLECT_STOP_LABEL, MICRO_APPLY_LABEL, DEFINITION_CONT_LABEL, AND_CONT_LABEL, OR_CONT_LABEL, ASSIGNMENT_CONT_LABEL, CONDITIONAL_CONT_LABEL, EVAL_SEQUENCE_LABEL, EVAL_SEQUENCE_CONT_LABEL, ERROR_LABEL, END_LABEL]) ?_
      simp [owns, lweight_cons, START_LABEL, SELF_EVAL_P_LABEL, VARIABLE_P_LABEL, FORGET_ABOUT_IT_LABEL, QUOTED_P_LABEL, SP_DEFINITION_P_LABEL, LET_P_LABEL, AND_P_LABEL, OR_P_LABEL, ASSIGNMENT_P_LABEL, CONDITIONAL_P_LABEL, LAMBDA_P_LABEL, APPLICATION_P_LABEL, UNKNOWN_EXPR_LABEL, LIST_OF_VALUES_LABEL, LIST_OF_VALUES_CONT_LABEL, LIST_OF_VALUES_COLLECT_START_LABEL, LIST_OF_VALUES_COLLECT_LABEL, LIST_OF_VALUES_COLLECT_STOP_LABEL, MICRO_APPLY_LABEL, DEFINITION_CONT_LABEL, AND_CONT_LABEL, OR_CONT_LABEL, ASSIGNMENT_CONT_LABEL, CONDITIONAL_CONT_LABEL, EVAL_SEQUENCE_LABEL, EVAL_SEQUENCE_CONT_LABEL, ERROR_LABEL, END_LABEL]
      all_goals omega
    · cases hs
      refine inv_keep _ s hgl [LIST_OF_VALUES_CONT_LABEL, LIST_OF_VALUES_COLLECT_LABEL] rfl (by simp [START_LABEL, SELF_EVAL_P_LABEL, VARIABLE_P_LABEL, FORGET_ABOUT_IT_LABEL, QUOTED_P_LABEL, SP_DEFINITION_P_LABEL, LET_P_LABEL, AND_P_LABEL, OR_P_LABEL, ASSIGNMENT_P_LABEL, CONDITIONAL_P_LABEL, LAMBDA_P_LABEL, APPLICATION_P_LABEL, UNKNOWN_EXPR_LABEL, LIST_OF_VALUES_LABEL, LIST_OF_VALUES_CONT_LABEL, LIST_OF_VALUES_COLLECT_START_LABEL, LIST_OF_VALUES_COLLECT_LABEL, LIST_OF_VALUES_COLLECT_STOP_LABEL, MICRO_APPLY_LABEL, DEFINITION_CONT_LABEL, AND_CONT_LABEL, OR_CONT_LABEL, ASSIGNMENT_CONT_LABEL, CONDITIONAL_CONT_LABEL, EVAL_SEQUENCE_LABEL, EVAL_SEQUENCE_CONT_LABEL, ERROR_LABEL, END_LABEL]) (by simp [START_LABEL, SELF_EVAL_P_LABEL, VARIABLE_P_LABEL, FORGET_ABOUT_IT_LABEL, QUOTED_P_LABEL, SP_DEFINITION_P_LABEL, LET_P_LABEL, AND_P_LABEL, OR_P_LABEL, ASSIGNMENT_P_LABEL, CONDITIONAL_P_LABEL, LAMBDA_P_LABEL, APPLICATION_P_LABEL, UNKNOWN_EXPR_LABEL, LIST_OF_VALUES_LABEL, LIST_OF_VALUES_CONT_LABEL, LIST_OF_VALUES_COLLECT_START_LABEL, LIST_OF_VALUES_COLLECT_LABEL, LIST_OF_VALUES_COLLECT_STOP_LABEL, MICRO_APPLY_LABEL, DEFINITION_CONT_LABEL, AND_CONT_LABEL, OR_CONT_LABEL, ASSIGNMENT_CONT_LABEL, CONDITIONAL_CONT_LABEL, EVAL_SEQUENCE_LABEL, EVAL_SEQUENCE_CONT_LABEL, ERROR_LABEL, END_LABEL]) ?_
      simp [owns, lweight_cons, START_LABEL, SELF_EVAL_P_LABEL, VARIABLE_P_LABEL, FORGET_ABOUT_IT_LABEL, QUOTED_P_LABEL, SP_DEFINITION_P_LABEL, LET_P_LABEL, AND_P_LABEL, OR_P_LABEL, ASSIGNMENT_P_LABEL, CONDITIONAL_P_LABEL, LAMBDA_P_LABEL, APPLICATION_P_LABEL, UNKNOWN_EXPR_LABEL, LIST_OF_VALUES_LABEL, LIST_OF_VALUES_CONT_LABEL, LIST_OF_VALUES_COLLECT_START_LABEL, LIST_OF_VALUES_COLLECT_LABEL, LIST_OF_VALUES_COLLECT_STOP_LABEL, MICRO_APPLY_LABEL, DEFINITION_CONT_LABEL, AND_CONT_LABEL, OR_CONT_LABEL, ASSIGNMENT_CONT_LABEL, CONDITIONAL_CONT_LABEL, EVAL_SEQUENCE_LABEL, EVAL_SEQUENCE_CONT_LABEL, ERROR_LABEL, END_LABEL]
      all_goals omega

lemma inv_COLLECTP (s s' : EState)
    (hbal : s.pstack.length = lweight s.lstack + 1) (hgl : GoodL s.lstack)
    (hs : stepCollect s = some s') : Inv s' := by
  rcases hp : s.pstack with _ | ⟨p, rest⟩
  · simp [stepCollect, hp] at hs
  · rw [hp] at hbal
    simp only [List.length_cons] at hbal
    simp only [stepCollect, hp] at hs
    rcases hls : s.lstack with _ | ⟨l, lrest⟩
    · rw [hls] at hs
      simp at hs
    · rw [hls] at hs
      rw [hls, lweight_cons] at hbal
      cases hs
      refine inv_popL _ s l lrest hgl hls rfl rfl ?_
      show rest.length = owns l + lweight lrest
      omega

lemma inv_CSTARTP (s s' : EState)
    (hbal : s.pstack.length = lweight s.lstack) (hgl : GoodL s.lstack)
    (hs : stepCollectStart s = some s') : Inv s' := by
  simp only [stepCollectStart] at hs
  refine inv_COLLECTP { s with argl := SExp.nil, pstack := s.val :: s.pstack } s' ?_ ?_ hs
  · show s.pstack.length + 1 = lweight s.lstack + 1
    omega
  · exact hgl

lemma inv_APPLYP (ext : Ext) (s s' : EState)
    (hbal : s.pstack.length = lweight s.lstack) (hgl : GoodL s.lstack)
    (hs : stepAPPLY ext s = some s') : Inv s' := by
  simp only [stepAPPLY] at hs
  split_ifs at hs
  · rcases hb : ext.applyB s.sc (car s.funr) s.argl with _ | ⟨v, sc2⟩
    · rw [hb] at hs
      simp at hs
    · rw [hb] at hs
      rcases hls : s.lstack with _ | ⟨l, lrest⟩
      · rw [hls] at hs
        simp at hs
      · rw [hls] at hs
        rw [hls, lweight_cons] at hbal
        cases hs
        refine inv_popL _ s l lrest hgl hls rfl rfl ?_
        show s.pstack.length = owns l + lweight lrest
        omega
  · rcases he : extend_environment (proc_params s.funr) s.argl (proc_env s.funr) with _ | env2
    · rw [he] at hs
      simp at hs
    · rw [he] at hs
      cases hs
      refine inv_keep _ s hgl [] rfl (by simp) (by simp [START_LABEL, SELF_EVAL_P_LABEL, VARIABLE_P_LABEL, FORGET_ABOUT_IT_LABEL, QUOTED_P_LABEL, SP_DEFINITION_P_LABEL, LET_P_LABEL, AND_P_LABEL, OR_P_LABEL, ASSIGNMENT_P_LABEL, CONDITIONAL_P_LABEL, LAMBDA_P_LABEL, APPLICATION_P_LABEL, UNKNOWN_EXPR_LABEL, LIST_OF_VALUES_LABEL, LIST_OF_VALUES_CONT_LABEL, LIST_OF_VALUES_COLLECT_START_LABEL, LIST_OF_VALUES_COLLECT_LABEL, LIST_OF_VALUES_COLLECT_STOP_LABEL, MICRO_APPLY_LABEL, DEFINITION_CONT_LABEL, AND_CONT_LABEL, OR_CONT_LABEL, ASSIGNMENT_CONT_LABEL, CONDITIONAL_CONT_LABEL, EVAL_SEQUENCE_LABEL, EVAL_SEQUENCE_CONT_LABEL, ERROR_LABEL, END_LABEL]) ?_
      simp [owns, lweight_cons, START_LABEL, SELF_EVAL_P_LABEL, VARIABLE_P_LABEL, FORGET_ABOUT_IT_LABEL, QUOTED_P_LABEL, SP_DEFINITION_P_LABEL, LET_P_LABEL, AND_P_LABEL, OR_P_LABEL, ASSIGNMENT_P_LABEL, CONDITIONAL_P_LABEL, LAMBDA_P_LABEL, APPLICATION_P_LABEL, UNKNOWN_EXPR_LABEL, LIST_OF_VALUES_LABEL, LIST_OF_VALUES_CONT_LABEL, LIST_OF_VALUES_COLLECT_START_LABEL, LIST_OF_VALUES_COLLECT_LABEL, LIST_OF_VALUES_COLLECT_STOP_LABEL, MICRO_APPLY_LABEL, DEFINITION_CONT_LABEL, AND_CONT_LABEL, OR_CONT_LABEL, ASSIGNMENT_CONT_LABEL, CONDITIONAL_CONT_LABEL, EVAL_SEQUENCE_LABEL, EVAL_SEQUENCE_CONT_LABEL, ERROR_LABEL, END_LABEL]
      all_goals omega

lemma inv_CSTOPP (ext : Ext) (s s' : EState)
    (hbal : s.pstack.length = lweight s.lstack + 1) (hgl : GoodL s.lstack)
    (hs : stepCollectStop ext s = some s') : Inv s' := by
  rcases hp : s.pstack with _ | ⟨f, rest⟩
  · simp [stepCollectStop, hp] at hs
  · rw [hp] at hbal
    simp only [List.length_cons] at hbal
    simp only [stepCollectStop, hp] at hs
    refine inv_APPLYP ext { s with funr := f, pstack := rest } s' ?_ ?_ hs
    · show rest.length = lweight s.lstack
      omega
    · exact hgl

lemma inv_DEFCONTP (s s' : EState)
    (hbal : s.pstack.length = lweight s.lstack + 3) (hgl : GoodL s.lstack)
    (hs : stepDefCont s = some s') : Inv s' := by
  rcases hp : s.pstack with _ | ⟨e, _ | ⟨u, _ | ⟨env, rest⟩⟩⟩
  · simp [stepDefCont, hp] at hs
  · simp [stepDefCont, hp] at hs
  · simp [stepDefCont, hp] at hs
  · rw [hp] at hbal
    simp only [List.length_cons] at hbal
    simp only [stepDefCont, hp] at hs
    split_ifs at hs
    · cases hs
      refine inv_keep _ s hgl [] rfl (by simp) (by simp [START_LABEL, SELF_EVAL_P_LABEL, VARIABLE_P_LABEL, FORGET_ABOUT_IT_LABEL, QUOTED_P_LABEL, SP_DEFINITION_P_LABEL, LET_P_LABEL, AND_P_LABEL, OR_P_LABEL, ASSIGNMENT_P_LABEL, CONDITIONAL_P_LABEL, LAMBDA_P_LABEL, APPLICATION_P_LABEL, UNKNOWN_EXPR_LABEL, LIST_OF_VALUES_LABEL, LIST_OF_VALUES_CONT_LABEL, LIST_OF_VALUES_COLLECT_START_LABEL, LIST_OF_VALUES_COLLECT_LABEL, LIST_OF_VALUES_COLLECT_STOP_LABEL, MICRO_APPLY_LABEL, DEFINITION_CONT_LABEL, AND_CONT_LABEL, OR_CONT_LABEL, ASSIGNMENT_CONT_LABEL, CONDITIONAL_CONT_LABEL, EVAL_SEQUENCE_LABEL, EVAL_SEQUENCE_CONT_LABEL, ERROR_LABEL, END_LABEL]) ?_
      simp [owns, lweight_cons, START_LABEL, SELF_EVAL_P_LABEL, VARIABLE_P_LABEL, FORGET_ABOUT_IT_LABEL, QUOTED_P_LABEL, SP_DEFINITION_P_LABEL, LET_P_LABEL, AND_P_LABEL, OR_P_LABEL, ASSIGNMENT_P_LABEL, CONDITIONAL_P_LABEL, LAMBDA_P_LABEL, APPLICATION_P_LABEL, UNKNOWN_EXPR_LABEL, LIST_OF_VALUES_LABEL, LIST_OF_VALUES_CONT_LABEL, LIST_OF_VALUES_COLLECT_START_LABEL, LIST_OF_VALUES_COLLECT_LABEL, LIST_OF_VALUES_COLLECT_STOP_LABEL, MICRO_APPLY_LABEL, DEFINITION_CONT_LABEL, AND_CONT_LABEL, OR_CONT_LABEL, ASSIGNMENT_CONT_LABEL, CONDITIONAL_CONT_LABEL, EVAL_SEQUENCE_LABEL, EVAL_SEQUENCE_CONT_LABEL, ERROR_LABEL, END_LABEL]
      all_goals omega
    · rcases hls : s.lstack with _ | ⟨l, lrest⟩
      · rw [hls] at hs
        simp at hs
      · rw [hls] at hs
        rw [hls, lweight_cons] at hbal
        cases hs
        refine inv_popL _ s l lrest hgl hls rfl rfl ?_
        show rest.length = owns l + lweight lrest
        omega
    · rcases hls : s.lstack with _ | ⟨l, lrest⟩
      · rw [hls] at hs
        simp at hs
      · rw [hls] at hs
        rw [hls, lweight_cons] at hbal
        cases hs
        refine inv_popL _ s l lrest hgl hls rfl rfl ?_
        show rest.length = owns l + lweight lrest
        omega

lemma inv_ANDCONTP (s s' : EState)
    (hbal : s.pstack.length = lweight s.lstack + 2) (hgl : GoodL s.lstack)
    (hs : stepAndCont s = some s') : Inv s' := by
  rcases hp : s.pstack with _ | ⟨e, _ | ⟨env, rest⟩⟩
  · simp [stepAndCont, hp] at hs
  · simp [stepAndCont, hp] at hs
  · rw [hp] at hbal
    simp only [List.length_cons] at hbal
    simp only [stepAndCont, hp] at hs
    split_ifs at hs
    · rcases hls : s.lstack with _ | ⟨l, lrest⟩
      · rw [hls] at hs
        simp at hs
      · rw [hls] at hs
        rw [hls, lweight_cons] at hbal
        cases hs
        refine inv_popL _ s l lrest hgl hls rfl rfl ?_
        show rest.length = owns l + lweight lrest
        omega
    · cases hs
      refine inv_keep _ s hgl [AND_CONT_LABEL] rfl (by simp [START_LABEL, SELF_EVAL_P_LABEL, VARIABLE_P_LABEL, FORGET_ABOUT_IT_LABEL, QUOTED_P_LABEL, SP_DEFINITION_P_LABEL, LET_P_LABEL, AND_P_LABEL, OR_P_LABEL, ASSIGNMENT_P_LABEL, CONDITIONAL_P_LABEL, LAMBDA_P_LABEL, APPLICATION_P_LABEL, UNKNOWN_EXPR_LABEL, LIST_OF_VALUES_LABEL, LIST_OF_VALUES_CONT_LABEL, LIST_OF_VALUES_COLLECT_START_LABEL, LIST_OF_VALUES_COLLECT_LABEL, LIST_OF_VALUES_COLLECT_STOP_LABEL, MICRO_APPLY_LABEL, DEFINITION_CONT_LABEL, AND_CONT_LABEL, OR_CONT_LABEL, ASSIGNMENT_CONT_LABEL, CONDITIONAL_CONT_LABEL, EVAL_SEQUENCE_LABEL, EVAL_SEQUENCE_CONT_LABEL, ERROR_LABEL, END_LABEL]) (by simp [START_LABEL, SELF_EVAL_P_LABEL, VARIABLE_P_LABEL, FORGET_ABOUT_IT_LABEL, QUOTED_P_LABEL, SP_DEFINITION_P_LABEL, LET_P_LABEL, AND_P_LABEL, OR_P_LABEL, ASSIGNMENT_P_LABEL, CONDITIONAL_P_LABEL, LAMBDA_P_LABEL, APPLICATION_P_LABEL, UNKNOWN_EXPR_LABEL, LIST_OF_VALUES_LABEL, LIST_OF_VALUES_CONT_LABEL, LIST_OF_VALUES_COLLECT_START_LABEL, LIST_OF_VALUES_COLLECT_LABEL, LIST_OF_VALUES_COLLECT_STOP_LABEL, MICRO_APPLY_LABEL, DEFINITION_CONT_LABEL, AND_CONT_LABEL, OR_CONT_LABEL, ASSIGNMENT_CONT_LABEL, CONDITIONAL_CONT_LABEL, EVAL_SEQUENCE_LABEL, EVAL_SEQUENCE_CONT_LABEL, ERROR_LABEL, END_LABEL]) ?_
      simp [owns, lweight_cons, START_LABEL, SELF_EVAL_P_LABEL, VARIABLE_P_LABEL, FORGET_ABOUT_IT_LABEL, QUOTED_P_LABEL, SP_DEFINITION_P_LABEL, LET_P_LABEL, AND_P_LABEL, OR_P_LABEL, ASSIGNMENT_P_LABEL, CONDITIONAL_P_LABEL, LAMBDA_P_LABEL, APPLICATION_P_LABEL, UNKNOWN_EXPR_LABEL, LIST_OF_VALUES_LABEL, LIST_OF_VALUES_CONT_LABEL, LIST_OF_VALUES_COLLECT_START_LABEL, LIST_OF_VALUES_COLLECT_LABEL, LIST_OF_VALUES_COLLECT_STOP_LABEL, MICRO_APPLY_LABEL, DEFINITION_CONT_LABEL, AND_CONT_LABEL, OR_CONT_LABEL, ASSIGNMENT_CONT_LABEL, CONDITIONAL_CONT_LABEL, EVAL_SEQUENCE_LABEL, EVAL_SEQUENCE_CONT_LABEL, ERROR_LABEL, END_LABEL]
      all_goals omega
    · cases hs
      refine inv_keep _ s hgl [] rfl (by simp) (by simp [START_LABEL, SELF_EVAL_P_LABEL, VARIABLE_P_LABEL, FORGET_ABOUT_IT_LABEL, QUOTED_P_LABEL, SP_DEFINITION_P_LABEL, LET_P_LABEL, AND_P_LABEL, OR_P_LABEL, ASSIGNMENT_P_LABEL, CONDITIONAL_P_LABEL, LAMBDA_P_LABEL, APPLICATION_P_LABEL, UNKNOWN_EXPR_LABEL, LIST_OF_VALUES_LABEL, LIST_OF_VALUES_CONT_LABEL, LIST_OF_VALUES_COLLECT_START_LABEL, LIST_OF_VALUES_COLLECT_LABEL, LIST_OF_VALUES_COLLECT_STOP_LABEL, MICRO_APPLY_LABEL, DEFINITION_CONT_LABEL, AND_CONT_LABEL, OR_CONT_LABEL, ASSIGNMENT_CONT_LABEL, CONDITIONAL_CONT_LABEL, EVAL_SEQUENCE_LABEL, EVAL_SEQUENCE_CONT_LABEL, ERROR_LABEL, END_LABEL]) ?_
      simp [owns, lweight_cons, START_LABEL, SELF_EVAL_P_LABEL, VARIABLE_P_LABEL, FORGET_ABOUT_IT_LABEL, QUOTED_P_LABEL, SP_DEFINITION_P_LABEL, LET_P_LABEL, AND_P_LABEL, OR_P_LABEL, ASSIGNMENT_P_LABEL, CONDITIONAL_P_LABEL, LAMBDA_P_LABEL, APPLICATION_P_LABEL, UNKNOWN_EXPR_LABEL, LIST_OF_VALUES_LABEL, LIST_OF_VALUES_CONT_LABEL, LIST_OF_VALUES_COLLECT_START_LABEL, LIST_OF_VALUES_COLLECT_LABEL, LIST_OF_VALUES_COLLECT_STOP_LABEL, MICRO_APPLY_LABEL, DEFINITION_CONT_LABEL, AND_CONT_LABEL, OR_CONT_LABEL, ASSIGNMENT_CONT_LABEL, CONDITIONAL_CONT_LABEL, EVAL_SEQUENCE_LABEL, EVAL_SEQUENCE_CONT_LABEL, ERROR_LABEL, END_LABEL]
      all_goals omega

lemma inv_ORCONTP (s s' : EState)
    (hbal : s.pstack.length = lweight s.lstack + 2) (hgl : GoodL s.lstack)
    (hs : stepOrCont s = some s') : Inv s' := by
  rcases hp : s.pstack with _ | ⟨e, _ | ⟨env, rest⟩⟩
  · simp [stepOrCont, hp] at hs
  · simp [stepOrCont, hp] at hs
  · rw [hp] at hbal
    simp only [List.length_cons] at hbal
    simp only [stepOrCont, hp] at hs
    split_ifs at hs
    · rcases hls : s.lstack with _ | ⟨l, lrest⟩
      · rw [hls] at hs
        simp at hs
      · rw [hls] at hs
        rw [hls, lweight_cons] at hbal
        cases hs
        refine inv_popL _ s l lrest hgl hls rfl rfl ?_
        show rest.length = owns l + lweight lrest
        omega
    · cases hs
      refine inv_keep _ s hgl [OR_CONT_LABEL] rfl (by simp [START_LABEL, SELF_EVAL_P_LABEL, VARIABLE_P_LABEL, FORGET_ABOUT_IT_LABEL, QUOTED_P_LABEL, SP_DEFINITION_P_LABEL, LET_P_LABEL, AND_P_LABEL, OR_P_LABEL, ASSIGNMENT_P_LABEL, CONDITIONAL_P_LABEL, LAMBDA_P_LABEL, APPLICATION_P_LABEL, UNKNOWN_EXPR_LABEL, LIST_OF_VALUES_LABEL, LIST_OF_VALUES_CONT_LABEL, LIST_OF_VALUES_COLLECT_START_LABEL, LIST_OF_VALUES_COLLECT_LABEL, LIST_OF_VALUES_COLLECT_STOP_LABEL, MICRO_APPLY_LABEL, DEFINITION_CONT_LABEL, AND_CONT_LABEL, OR_CONT_LABEL, ASSIGNMENT_CONT_LABEL, CONDITIONAL_CONT_LABEL, EVAL_SEQUENCE_LABEL, EVAL_SEQUENCE_CONT_LABEL, ERROR_LABEL, END_LABEL]) (by simp [START_LABEL, SELF_EVAL_P_LABEL, VARIABLE_P_LABEL, FORGET_ABOUT_IT_LABEL, QUOTED_P_LABEL, SP_DEFINITION_P_LABEL, LET_P_LABEL, AND_P_LABEL, OR_P_LABEL, ASSIGNMENT_P_LABEL, CONDITIONAL_P_LABEL, LAMBDA_P_LABEL, APPLICATION_P_LABEL, UNKNOWN_EXPR_LABEL, LIST_OF_VALUES_LABEL, LIST_OF_VALUES_CONT_LABEL, LIST_OF_VALUES_COLLECT_START_LABEL, LIST_OF_VALUES_COLLECT_LABEL, LIST_OF_VALUES_COLLECT_STOP_LABEL, MICRO_APPLY_LABEL, DEFINITION_CONT_LABEL, AND_CONT_LABEL, OR_CONT_LABEL, ASSIGNMENT_CONT_LABEL, CONDITIONAL_CONT_LABEL, EVAL_SEQUENCE_LABEL, EVAL_SEQUENCE_CONT_LABEL, ERROR_LABEL, END_LABEL]) ?_
      simp [owns, lweight_cons, START_LABEL, SELF_EVAL_P_LABEL, VARIABLE_P_LABEL, FORGET_ABOUT_IT_LABEL, QUOTED_P_LABEL, SP_DEFINITION_P_LABEL, LET_P_LABEL, AND_P_LABEL, OR_P_LABEL, ASSIGNMENT_P_LABEL, CONDITIONAL_P_LABEL, LAMBDA_P_LABEL, APPLICATION_P_LABEL, UNKNOWN_EXPR_LABEL, LIST_OF_VALUES_LABEL, LIST_OF_VALUES_CONT_LABEL, LIST_OF_VALUES_COLLECT_START_LABEL, LIST_OF_VALUES_COLLECT_LABEL, LIST_OF_VALUES_COLLECT_STOP_LABEL, MICRO_APPLY_LABEL, DEFINITION_CONT_LABEL, AND_CONT_LABEL, OR_CONT_LABEL, ASSIGNMENT_CONT_LABEL, CONDITIONAL_CONT_LABEL, EVAL_SEQUENCE_LABEL, EVAL_SEQUENCE_CONT_LABEL, ERROR_LABEL, END_LABEL]
      all_goals omega
    · cases hs
      refine inv_keep _ s hgl [] rfl (by simp) (by simp [START_LABEL, SELF_EVAL_P_LABEL, VARIABLE_P_LABEL, FORGET_ABOUT_IT_LABEL, QUOTED_P_LABEL, SP_DEFINITION_P_LABEL, LET_P_LABEL, AND_P_LABEL, OR_P_LABEL, ASSIGNMENT_P_LABEL, CONDITIONAL_P_LABEL, LAMBDA_P_LABEL, APPLICATION_P_LABEL, UNKNOWN_EXPR_LABEL, LIST_OF_VALUES_LABEL, LIST_OF_VALUES_CONT_LABEL, LIST_OF_VALUES_COLLECT_START_LABEL, LIST_OF_VALUES_COLLECT_LABEL, LIST_OF_VALUES_COLLECT_STOP_LABEL, MICRO_APPLY_LABEL, DEFINITION_CONT_LABEL, AND_CONT_LABEL, OR_CONT_LABEL, ASSIGNMENT_CONT_LABEL, CONDITIONAL_CONT_LABEL, EVAL_SEQUENCE_LABEL, EVAL_SEQUENCE_CONT_LABEL, ERROR_LABEL, END_LABEL]) ?_
      simp [owns, lweight_cons, START_LABEL, SELF_EVAL_P_LABEL, VARIABLE_P_LABEL, FORGET_ABOUT_IT_LABEL, QUOTED_P_LABEL, SP_DEFINITION_P_LABEL, LET_P_LABEL, AND_P_LABEL, OR_P_LABEL, ASSIGNMENT_P_LABEL, CONDITIONAL_P_LABEL, LAMBDA_P_LABEL, APPLICATION_P_LABEL, UNKNOWN_EXPR_LABEL, LIST_OF_VALUES_LABEL, LIST_OF_VALUES_CONT_LABEL, LIST_OF_VALUES_COLLECT_START_LABEL, LIST_OF_VALUES_COLLECT_LABEL, LIST_OF_VALUES_COLLECT_STOP_LABEL, MICRO_APPLY_LABEL, DEFINITION_CONT_LABEL, AND_CONT_LABEL, OR_CONT_LABEL, ASSIGNMENT_CONT_LABEL, CONDITIONAL_CONT_LABEL, EVAL_SEQUENCE_LABEL, EVAL_SEQUENCE_CONT_LABEL, ERROR_LABEL, END_LABEL]
      all_goals omega

lemma inv_ASSIGNCONTP (s s' : EState)
    (hbal : s.pstack.length = lweight s.lstack + 3) (hgl : GoodL s.lstack)
    (hs : stepAssignCont s = some s') : Inv s' := by
  rcases hp : s.pstack with _ | ⟨e, _ | ⟨u, _ | ⟨env, rest⟩⟩⟩
  · simp [stepAssignCont, hp] at hs
  · simp [stepAssignCont, hp] at hs
  · simp [stepAssignCont, hp] at hs
  · rw [hp] at hbal
    simp only [List.length_cons] at hbal
    simp only [stepAssignCont, hp] at hs
    split_ifs at hs
    · cases hs
      refine inv_keep _ s hgl [] rfl (by simp) (by simp [START_LABEL, SELF_EVAL_P_LABEL, VARIABLE_P_LABEL, FORGET_ABOUT_IT_LABEL, QUOTED_P_LABEL, SP_DEFINITION_P_LABEL, LET_P_LABEL, AND_P_LABEL, OR_P_LABEL, ASSIGNMENT_P_LABEL, CONDITIONAL_P_LABEL, LAMBDA_P_LABEL, APPLICATION_P_LABEL, UNKNOWN_EXPR_LABEL, LIST_OF_VALUES_LABEL, LIST_OF_VALUES_CONT_LABEL, LIST_OF_VALUES_COLLECT_START_LABEL, LIST_OF_VALUES_COLLECT_LABEL, LIST_OF_VALUES_COLLECT_STOP_LABEL, MICRO_APPLY_LABEL, DEFINITION_CONT_LABEL, AND_CONT_LABEL, OR_CONT_LABEL, ASSIGNMENT_CONT_LABEL, CONDITIONAL_CONT_LABEL, EVAL_SEQUENCE_LABEL, EVAL_SEQUENCE_CONT_LABEL, ERROR_LABEL, END_LABEL]) ?_
      simp [owns, lweight_cons, START_LABEL, SELF_EVAL_P_LABEL, VARIABLE_P_LABEL, FORGET_ABOUT_IT_LABEL, QUOTED_P_LABEL, SP_DEFINITION_P_LABEL, LET_P_LABEL, AND_P_LABEL, OR_P_LABEL, ASSIGNMENT_P_LABEL, CONDITIONAL_P_LABEL, LAMBDA_P_LABEL, APPLICATION_P_LABEL, UNKNOWN_EXPR_LABEL, LIST_OF_VALUES_LABEL, LIST_OF_VALUES_CONT_LABEL, LIST_OF_VALUES_COLLECT_START_LABEL, LIST_OF_VALUES_COLLECT_LABEL, LIST_OF_VALUES_COLLECT_STOP_LABEL, MICRO_APPLY_LABEL, DEFINITION_CONT_LABEL, AND_CONT_LABEL, OR_CONT_LABEL, ASSIGNMENT_CONT_LABEL, CONDITIONAL_CONT_LABEL, EVAL_SEQUENCE_LABEL, EVAL_SEQUENCE_CONT_LABEL, ERROR_LABEL, END_LABEL]
      all_goals omega
    · rcases hls : s.lstack with _ | ⟨l, lrest⟩
      · rw [hls] at hs
        simp at hs
      · rw [hls] at hs
        rw [hls, lweight_cons] at hbal
        cases hs
        refine inv_popL _ s l lrest hgl hls rfl rfl ?_
        show rest.length = owns l + lweight lrest
        omega

lemma inv_CONDCONTP (s s' : EState)
    (hbal : s.pstack.length = lweight s.lstack + 4) (hgl : GoodL s.lstack)
    (hs : stepCondCont s = some s') : Inv s' := by
  rcases hp : s.pstack with _ | ⟨e, _ | ⟨u, _ | ⟨env, rest⟩⟩⟩
  · simp [stepCondCont, hp] at hs
  · simp [stepCondCont, hp] at hs
  · simp [stepCondCont, hp] at hs
  · rw [hp] at hbal
    simp only [List.length_cons] at hbal
    simp only [stepCondCont, hp] at hs
    split_ifs at hs
    · rcases hr : rest with _ | ⟨x, rest2⟩
      · rw [hr] at hs
        simp at hs
      · rw [hr] at hs
        rw [hr] at hbal
        simp only [List.length_cons] at hbal
        cases hs
        refine inv_keep _ s hgl [] rfl (by simp) (by simp [START_LABEL, SELF_EVAL_P_LABEL, VARIABLE_P_LABEL, FORGET_ABOUT_IT_LABEL, QUOTED_P_LABEL, SP_DEFINITION_P_LABEL, LET_P_LABEL, AND_P_LABEL, OR_P_LABEL, ASSIGNMENT_P_LABEL, CONDITIONAL_P_LABEL, LAMBDA_P_LABEL, APPLICATION_P_LABEL, UNKNOWN_EXPR_LABEL, LIST_OF_VALUES_LABEL, LIST_OF_VALUES_CONT_LABEL, LIST_OF_VALUES_COLLECT_START_LABEL, LIST_OF_VALUES_COLLECT_LABEL, LIST_OF_VALUES_COLLECT_STOP_LABEL, MICRO_APPLY_LABEL, DEFINITION_CONT_LABEL, AND_CONT_LABEL, OR_CONT_LABEL, ASSIGNMENT_CONT_LABEL, CONDITIONAL_CONT_LABEL, EVAL_SEQUENCE_LABEL, EVAL_SEQUENCE_CONT_LABEL, ERROR_LABEL, END_LABEL]) ?_
        simp [owns, lweight_cons, START_LABEL, SELF_EVAL_P_LABEL, VARIABLE_P_LABEL, FORGET_ABOUT_IT_LABEL, QUOTED_P_LABEL, SP_DEFINITION_P_LABEL, LET_P_LABEL, AND_P_LABEL, OR_P_LABEL, ASSIGNMENT_P_LABEL, CONDITIONAL_P_LABEL, LAMBDA_P_LABEL, APPLICATION_P_LABEL, UNKNOWN_EXPR_LABEL, LIST_OF_VALUES_LABEL, LIST_OF_VALUES_CONT_LABEL, LIST_OF_VALUES_COLLECT_START_LABEL, LIST_OF_VALUES_COLLECT_LABEL, LIST_OF_VALUES_COLLECT_STOP_LABEL, MICRO_APPLY_LABEL, DEFINITION_CONT_LABEL, AND_CONT_LABEL, OR_CONT_LABEL, ASSIGNMENT_CONT_LABEL, CONDITIONAL_CONT_LABEL, EVAL_SEQUENCE_LABEL, EVAL_SEQUENCE_CONT_LABEL, ERROR_LABEL, END_LABEL]
        all_goals omega
    · rcases hr : rest with _ | ⟨x, rest2⟩
      · rw [hr] at hs
        simp at hs
      · rw [hr] at hs
        rw [hr] at hbal
        simp only [List.length_cons] at hbal
        rcases hls : s.lstack with _ | ⟨l, lrest⟩
        · rw [hls] at hs
          simp at hs
        · rw [hls] at hs
          rw [hls, lweight_cons] at hbal
          cases hs
          refine inv_popL _ s l lrest hgl hls rfl rfl ?_
          show rest2.length = owns l + lweight lrest
          omega
    · rcases hr : rest with _ | ⟨x, rest2⟩
      · rw [hr] at hs
        simp at hs
      · rw [hr] at hs
        rw [hr] at hbal
        simp only [List.length_cons] at hbal
        cases hs
        refine inv_keep _ s hgl [] rfl (by simp) (by simp [START_LABEL, SELF_EVAL_P_LABEL, VARIABLE_P_LABEL, FORGET_ABOUT_IT_LABEL, QUOTED_P_LABEL, SP_DEFINITION_P_LABEL, LET_P_LABEL, AND_P_LABEL, OR_P_LABEL, ASSIGNMENT_P_LABEL, CONDITIONAL_P_LABEL, LAMBDA_P_LABEL, APPLICATION_P_LABEL, UNKNOWN_EXPR_LABEL, LIST_OF_VALUES_LABEL, LIST_OF_VALUES_CONT_LABEL, LIST_OF_VALUES_COLLECT_START_LABEL, LIST_OF_VALUES_COLLECT_LABEL, LIST_OF_VALUES_COLLECT_STOP_LABEL, MICRO_APPLY_LABEL, DEFINITION_CONT_LABEL, AND_CONT_LABEL, OR_CONT_LABEL, ASSIGNMENT_CONT_LABEL, CONDITIONAL_CONT_LABEL, EVAL_SEQUENCE_LABEL, EVAL_SEQUENCE_CONT_LABEL, ERROR_LABEL, END_LABEL]) ?_
        simp [owns, lweight_cons, START_LABEL, SELF_EVAL_P_LABEL, VARIABLE_P_LABEL, FORGET_ABOUT_IT_LABEL, QUOTED_P_LABEL, SP_DEFINITION_P_LABEL, LET_P_LABEL, AND_P_LABEL, OR_P_LABEL, ASSIGNMENT_P_LABEL, CONDITIONAL_P_LABEL, LAMBDA_P_LABEL, APPLICATION_P_LABEL, UNKNOWN_EXPR_LABEL, LIST_OF_VALUES_LABEL, LIST_OF_VALUES_CONT_LABEL, LIST_OF_VALUES_COLLECT_START_LABEL, LIST_OF_VALUES_COLLECT_LABEL, LIST_OF_VALUES_COLLECT_STOP_LABEL, MICRO_APPLY_LABEL, DEFINITION_CONT_LABEL, AND_CONT_LABEL, OR_CONT_LABEL, ASSIGNMENT_CONT_LABEL, CONDITIONAL_CONT_LABEL, EVAL_SEQUENCE_LABEL, EVAL_SEQUENCE_CONT_LABEL, ERROR_LABEL, END_LABEL]
        all_goals omega
    · rcases hr : rest with _ | ⟨x, rest2⟩
      · rw [hr] at hs
        simp at hs
      · rw [hr] at hs
        rw [hr] at hbal
        simp only [List.length_cons] at hbal
        cases hs
        refine inv_keep _ s hgl [] rfl (by simp) (by simp [START_LABEL, SELF_EVAL_P_LABEL, VARIABLE_P_LABEL, FORGET_ABOUT_IT_LABEL, QUOTED_P_LABEL, SP_DEFINITION_P_LABEL, LET_P_LABEL, AND_P_LABEL, OR_P_LABEL, ASSIGNMENT_P_LABEL, CONDITIONAL_P_LABEL, LAMBDA_P_LABEL, APPLICATION_P_LABEL, UNKNOWN_EXPR_LABEL, LIST_OF_VALUES_LABEL, LIST_OF_VALUES_CONT_LABEL, LIST_OF_VALUES_COLLECT_START_LABEL, LIST_OF_VALUES_COLLECT_LABEL, LIST_OF_VALUES_COLLECT_STOP_LABEL, MICRO_APPLY_LABEL, DEFINITION_CONT_LABEL, AND_CONT_LABEL, OR_CONT_LABEL, ASSIGNMENT_CONT_LABEL, CONDITIONAL_CONT_LABEL, EVAL_SEQUENCE_LABEL, EVAL_SEQUENCE_CONT_LABEL, ERROR_LABEL, END_LABEL]) ?_
        simp [owns, lweight_cons, START_LABEL, SELF_EVAL_P_LABEL, VARIABLE_P_LABEL, FORGET_ABOUT_IT_LABEL, QUOTED_P_LABEL, SP_DEFINITION_P_LABEL, LET_P_LABEL, AND_P_LABEL, OR_P_LABEL, ASSIGNMENT_P_LABEL, CONDITIONAL_P_LABEL, LAMBDA_P_LABEL, APPLICATION_P_LABEL, UNKNOWN_EXPR_LABEL, LIST_OF_VALUES_LABEL, LIST_OF_VALUES_CONT_LABEL, LIST_OF_VALUES_COLLECT_START_LABEL, LIST_OF_VALUES_COLLECT_LABEL, LIST_OF_VALUES_COLLECT_STOP_LABEL, MICRO_APPLY_LABEL, DEFINITION_CONT_LABEL, AND_CONT_LABEL, OR_CONT_LABEL, ASSIGNMENT_CONT_LABEL, CONDITIONAL_CONT_LABEL, EVAL_SEQUENCE_LABEL, EVAL_SEQUENCE_CONT_LABEL, ERROR_LABEL, END_LABEL]
        all_goals omega
    · cases hs
      refine inv_keep _ s hgl [CONDITIONAL_CONT_LABEL] rfl (by simp [START_LABEL, SELF_EVAL_P_LABEL, VARIABLE_P_LABEL, FORGET_ABOUT_IT_LABEL, QUOTED_P_LABEL, SP_DEFINITION_P_LABEL, LET_P_LABEL, AND_P_LABEL, OR_P_LABEL, ASSIGNMENT_P_LABEL, CONDITIONAL_P_LABEL, LAMBDA_P_LABEL, APPLICATION_P_LABEL, UNKNOWN_EXPR_LABEL, LIST_OF_VALUES_LABEL, LIST_OF_VALUES_CONT_LABEL, LIST_OF_VALUES_COLLECT_START_LABEL, LIST_OF_VALUES_COLLECT_LABEL, LIST_OF_VALUES_COLLECT_STOP_LABEL, MICRO_APPLY_LABEL, DEFINITION_CONT_LABEL, AND_CONT_LABEL, OR_CONT_LABEL, ASSIGNMENT_CONT_LABEL, CONDITIONAL_CONT_LABEL, EVAL_SEQUENCE_LABEL, EVAL_SEQUENCE_CONT_LABEL, ERROR_LABEL, END_LABEL]) (by simp [START_LABEL, SELF_EVAL_P_LABEL, VARIABLE_P_LABEL, FORGET_ABOUT_IT_LABEL, QUOTED_P_LABEL, SP_DEFINITION_P_LABEL, LET_P_LABEL, AND_P_LABEL, OR_P_LABEL, ASSIGNMENT_P_LABEL, CONDITIONAL_P_LABEL, LAMBDA_P_LABEL, APPLICATION_P_LABEL, UNKNOWN_EXPR_LABEL, LIST_OF_VALUES_LABEL, LIST_OF_VALUES_CONT_LABEL, LIST_OF_VALUES_COLLECT_START_LABEL, LIST_OF_VALUES_COLLECT_LABEL, LIST_OF_VALUES_COLLECT_STOP_LABEL, MICRO_APPLY_LABEL, DEFINITION_CONT_LABEL, AND_CONT_LABEL, OR_CONT_LABEL, ASSIGNMENT_CONT_LABEL, CONDITIONAL_CONT_LABEL, EVAL_SEQUENCE_LABEL, EVAL_SEQUENCE_CONT_LABEL, ERROR_LABEL, END_LABEL]) ?_
      simp [owns, lweight_cons, START_LABEL, SELF_EVAL_P_LABEL, VARIABLE_P_LABEL, FORGET_ABOUT_IT_LABEL, QUOTED_P_LABEL, SP_DEFINITION_P_LABEL, LET_P_LABEL, AND_P_LABEL, OR_P_LABEL, ASSIGNMENT_P_LABEL, CONDITIONAL_P_LABEL, LAMBDA_P_LABEL, APPLICATION_P_LABEL, UNKNOWN_EXPR_LABEL, LIST_OF_VALUES_LABEL, LIST_OF_VALUES_CONT_LABEL, LIST_OF_VALUES_COLLECT_START_LABEL, LIST_OF_VALUES_COLLECT_LABEL, LIST_OF_VALUES_COLLECT_STOP_LABEL, MICRO_APPLY_LABEL, DEFINITION_CONT_LABEL, AND_CONT_LABEL, OR_CONT_LABEL, ASSIGNMENT_CONT_LABEL, CONDITIONAL_CONT_LABEL, EVAL_SEQUENCE_LABEL, EVAL_SEQUENCE_CONT_LABEL, ERROR_LABEL, END_LABEL]
      all_goals omega

lemma inv_EVSEQP (s s' : EState)
    (hbal : s.pstack.length = lweight s.lstack) (hgl : GoodL s.lstack)
    (hs : stepEvalSeq s = some s') : Inv s' := by
  simp only [stepEvalSeq] at hs
  split_ifs at hs
  · cases hs
    refine inv_keep _ s hgl [EVAL_SEQUENCE_CONT_LABEL] rfl (by simp [START_LABEL, SELF_EVAL_P_LABEL, VARIABLE_P_LABEL, FORGET_ABOUT_IT_LABEL, QUOTED_P_LABEL, SP_DEFINITION_P_LABEL, LET_P_LABEL, AND_P_LABEL, OR_P_LABEL, ASSIGNMENT_P_LABEL, CONDITIONAL_P_LABEL, LAMBDA_P_LABEL, APPLICATION_P_LABEL, UNKNOWN_EXPR_LABEL, LIST_OF_VALUES_LABEL, LIST_OF_VALUES_CONT_LABEL, LIST_OF_VALUES_COLLECT_START_LABEL, LIST_OF_VALUES_COLLECT_LABEL, LIST_OF_VALUES_COLLECT_STOP_LABEL, MICRO_APPLY_LABEL, DEFINITION_CONT_LABEL, AND_CONT_LABEL, OR_CONT_LABEL, ASSIGNMENT_CONT_LABEL, CONDITIONAL_CONT_LABEL, EVAL_SEQUENCE_LABEL, EVAL_SEQUENCE_CONT_LABEL, ERROR_LABEL, END_LABEL]) (by simp [START_LABEL, SELF_EVAL_P_LABEL, VARIABLE_P_LABEL, FORGET_ABOUT_IT_LABEL, QUOTED_P_LABEL, SP_DEFINITION_P_LABEL, LET_P_LABEL, AND_P_LABEL, OR_P_LABEL, ASSIGNMENT_P_LABEL, CONDITIONAL_P_LABEL, LAMBDA_P_LABEL, APPLICATION_P_LABEL, UNKNOWN_EXPR_LABEL, LIST_OF_VALUES_LABEL, LIST_OF_VALUES_CONT_LABEL, LIST_OF_VALUES_COLLECT_START_LABEL, LIST_OF_VALUES_COLLECT_LABEL, LIST_OF_VALUES_COLLECT_STOP_LABEL, MICRO_APPLY_LABEL, DEFINITION_CONT_LABEL, AND_CONT_LABEL, OR_CONT_LABEL, ASSIGNMENT_CONT_LABEL, CONDITIONAL_CONT_LABEL, EVAL_SEQUENCE_LABEL, EVAL_SEQUENCE_CONT_LABEL, ERROR_LABEL, END_LABEL]) ?_
    simp [owns, lweight_cons, START_LABEL, SELF_EVAL_P_LABEL, VARIABLE_P_LABEL, FORGET_ABOUT_IT_LABEL, QUOTED_P_LABEL, SP_DEFINITION_P_LABEL, LET_P_LABEL, AND_P_LABEL, OR_P_LABEL, ASSIGNMENT_P_LABEL, CONDITIONAL_P_LABEL, LAMBDA_P_LABEL, APPLICATION_P_LABEL, UNKNOWN_EXPR_LABEL, LIST_OF_VALUES_LABEL, LIST_OF_VALUES_CONT_LABEL, LIST_OF_VALUES_COLLECT_START_LABEL, LIST_OF_VALUES_COLLECT_LABEL, LIST_OF_VALUES_COLLECT_STOP_LABEL, MICRO_APPLY_LABEL, DEFINITION_CONT_LABEL, AND_CONT_LABEL, OR_CONT_LABEL, ASSIGNMENT_CONT_LABEL, CONDITIONAL_CONT_LABEL, EVAL_SEQUENCE_LABEL, EVAL_SEQUENCE_CONT_LABEL, ERROR_LABEL, END_LABEL]
    all_goals omega
  · cases hs
    refine inv_keep _ s hgl [] rfl (by simp) (by simp [START_LABEL, SELF_EVAL_P_LABEL, VARIABLE_P_LABEL, FORGET_ABOUT_IT_LABEL, QUOTED_P_LABEL, SP_DEFINITION_P_LABEL, LET_P_LABEL, AND_P_LABEL, OR_P_LABEL, ASSIGNMENT_P_LABEL, CONDITIONAL_P_LABEL, LAMBDA_P_LABEL, APPLICATION_P_LABEL, UNKNOWN_EXPR_LABEL, LIST_OF_VALUES_LABEL, LIST_OF_VALUES_CONT_LABEL, LIST_OF_VALUES_COLLECT_START_LABEL, LIST_OF_VALUES_COLLECT_LABEL, LIST_OF_VALUES_COLLECT_STOP_LABEL, MICRO_APPLY_LABEL, DEFINITION_CONT_LABEL, AND_CONT_LABEL, OR_CONT_LABEL, ASSIGNMENT_CONT_LABEL, CONDITIONAL_CONT_LABEL, EVAL_SEQUENCE_LABEL, EVAL_SEQUENCE_CONT_LABEL, ERROR_LABEL, END_LABEL]) ?_
    simp [owns, lweight_cons, START_LABEL, SELF_EVAL_P_LABEL, VARIABLE_P_LABEL, FORGET_ABOUT_IT_LABEL, QUOTED_P_LABEL, SP_DEFINITION_P_LABEL, LET_P_LABEL, AND_P_LABEL, OR_P_LABEL, ASSIGNMENT_P_LABEL, CONDITIONAL_P_LABEL, LAMBDA_P_LABEL, APPLICATION_P_LABEL, UNKNOWN_EXPR_LABEL, LIST_OF_VALUES_LABEL, LIST_OF_VALUES_CONT_LABEL, LIST_OF_VALUES_COLLECT_START_LABEL, LIST_OF_VALUES_COLLECT_LABEL, LIST_OF_VALUES_COLLECT_STOP_LABEL, MICRO_APPLY_LABEL, DEFINITION_CONT_LABEL, AND_CONT_LABEL, OR_CONT_LABEL, ASSIGNMENT_CONT_LABEL, CONDITIONAL_CONT_LABEL, EVAL_SEQUENCE_LABEL, EVAL_SEQUENCE_CONT_LABEL, ERROR_LABEL, END_LABEL]
    all_goals omega

lemma inv_EVSEQCONTP (s s' : EState)
    (hbal : s.pstack.length = lweight s.lstack + 2) (hgl : GoodL s.lstack)
    (hs : stepEvalSeqCont s = some s') : Inv s' := by
  rcases hp : s.pstack with _ | ⟨e, _ | ⟨env, rest⟩⟩
  · simp [stepEvalSeqCont, hp] at hs
  · simp [stepEvalSeqCont, hp] at hs
  · rw [hp] at hbal
    simp only [List.length_cons] at hbal
    simp only [stepEvalSeqCont, hp] at hs
    split_ifs at hs
    · cases hs
      refine inv_keep _ s hgl [EVAL_SEQUENCE_CONT_LABEL] rfl (by simp [START_LABEL, SELF_EVAL_P_LABEL, VARIABLE_P_LABEL, FORGET_ABOUT_IT_LABEL, QUOTED_P_LABEL, SP_DEFINITION_P_LABEL, LET_P_LABEL, AND_P_LABEL, OR_P_LABEL, ASSIGNMENT_P_LABEL, CONDITIONAL_P_LABEL, LAMBDA_P_LABEL, APPLICATION_P_LABEL, UNKNOWN_EXPR_LABEL, LIST_OF_VALUES_LABEL, LIST_OF_VALUES_CONT_LABEL, LIST_OF_VALUES_COLLECT_START_LABEL, LIST_OF_VALUES_COLLECT_LABEL, LIST_OF_VALUES_COLLECT_STOP_LABEL, MICRO_APPLY_LABEL, DEFINITION_CONT_LABEL, AND_CONT_LABEL, OR_CONT_LABEL, ASSIGNMENT_CONT_LABEL, CONDITIONAL_CONT_LABEL, EVAL_SEQUENCE_LABEL, EVAL_SEQUENCE_CONT_LABEL, ERROR_LABEL, END_LABEL]) (by simp [START_LABEL, SELF_EVAL_P_LABEL, VARIABLE_P_LABEL, FORGET_ABOUT_IT_LABEL, QUOTED_P_LABEL, SP_DEFINITION_P_LABEL, LET_P_LABEL, AND_P_LABEL, OR_P_LABEL, ASSIGNMENT_P_LABEL, CONDITIONAL_P_LABEL, LAMBDA_P_LABEL, APPLICATION_P_LABEL, UNKNOWN_EXPR_LABEL, LIST_OF_VALUES_LABEL, LIST_OF_VALUES_CONT_LABEL, LIST_OF_VALUES_COLLECT_START_LABEL, LIST_OF_VALUES_COLLECT_LABEL, LIST_OF_VALUES_COLLECT_STOP_LABEL, MICRO_APPLY_LABEL, DEFINITION_CONT_LABEL, AND_CONT_LABEL, OR_CONT_LABEL, ASSIGNMENT_CONT_LABEL, CONDITIONAL_CONT_LABEL, EVAL_SEQUENCE_LABEL, EVAL_SEQUENCE_CONT_LABEL, ERROR_LABEL, END_LABEL]) ?_
      simp [owns, lweight_cons, START_LABEL, SELF_EVAL_P_LABEL, VARIABLE_P_LABEL, FORGET_ABOUT_IT_LABEL, QUOTED_P_LABEL, SP_DEFINITION_P_LABEL, LET_P_LABEL, AND_P_LABEL, OR_P_LABEL, ASSIGNMENT_P_LABEL, CONDITIONAL_P_LABEL, LAMBDA_P_LABEL, APPLICATION_P_LABEL, UNKNOWN_EXPR_LABEL, LIST_OF_VALUES_LABEL, LIST_OF_VALUES_CONT_LABEL, LIST_OF_VALUES_COLLECT_START_LABEL, LIST_OF_VALUES_COLLECT_LABEL, LIST_OF_VALUES_COLLECT_STOP_LABEL, MICRO_APPLY_LABEL, DEFINITION_CONT_LABEL, AND_CONT_LABEL, OR_CONT_LABEL, ASSIGNMENT_CONT_LABEL, CONDITIONAL_CONT_LABEL, EVAL_SEQUENCE_LABEL, EVAL_SEQUENCE_CONT_LABEL, ERROR_LABEL, END_LABEL]
      all_goals omega
    · cases hs
      refine inv_keep _ s hgl [] rfl (by simp) (by simp [START_LABEL, SELF_EVAL_P_LABEL, VARIABLE_P_LABEL, FORGET_ABOUT_IT_LABEL, QUOTED_P_LABEL, SP_DEFINITION_P_LABEL, LET_P_LABEL, AND_P_LABEL, OR_P_LABEL, ASSIGNMENT_P_LABEL, CONDITIONAL_P_LABEL, LAMBDA_P_LABEL, APPLICATION_P_LABEL, UNKNOWN_EXPR_LABEL, LIST_OF_VALUES_LABEL, LIST_OF_VALUES_CONT_LABEL, LIST_OF_VALUES_COLLECT_START_LABEL, LIST_OF_VALUES_COLLECT_LABEL, LIST_OF_VALUES_COLLECT_STOP_LABEL, MICRO_APPLY_LABEL, DEFINITION_CONT_LABEL, AND_CONT_LABEL, OR_CONT_LABEL, ASSIGNMENT_CONT_LABEL, CONDITIONAL_CONT_LABEL, EVAL_SEQUENCE_LABEL, EVAL_SEQUENCE_CONT_LABEL, ERROR_LABEL, END_LABEL]) ?_
      simp [owns, lweight_cons, START_LABEL, SELF_EVAL_P_LABEL, VARIABLE_P_LABEL, FORGET_ABOUT_IT_LABEL, QUOTED_P_LABEL, SP_DEFINITION_P_LABEL, LET_P_LABEL, AND_P_LABEL, OR_P_LABEL, ASSIGNMENT_P_LABEL, CONDITIONAL_P_LABEL, LAMBDA_P_LABEL, APPLICATION_P_LABEL, UNKNOWN_EXPR_LABEL, LIST_OF_VALUES_LABEL, LIST_OF_VALUES_CONT_LABEL, LIST_OF_VALUES_COLLECT_START_LABEL, LIST_OF_VALUES_COLLECT_LABEL, LIST_OF_VALUES_COLLECT_STOP_LABEL, MICRO_APPLY_LABEL, DEFINITION_CONT_LABEL, AND_CONT_LABEL, OR_CONT_LABEL, ASSIGNMENT_CONT_LABEL, CONDITIONAL_CONT_LABEL, EVAL_SEQUENCE_LABEL, EVAL_SEQUENCE_CONT_LABEL, ERROR_LABEL, END_LABEL]
      all_goals omega

/-! ### One step preserves the invariant; a normally terminating run
ends with both stacks empty. -/

lemma step_inv (ext : Ext) (s s' : EState) (hinv : Inv s)
    (hne0 : s.cont ≠ END_LABEL) (hs : step ext s = some s') : Inv s' := by
  obtain ⟨hbal, _, hgl0⟩ := hinv
  have hgl := hgl0 hne0
  by_cases hL1 : s.cont = START_LABEL
  · rw [step_at_START ext s hL1] at hs
    refine inv_STARTP ext s s' ?_ hgl hs
    rw [hbal, hL1]
    simp [owns, START_LABEL, SELF_EVAL_P_LABEL, VARIABLE_P_LABEL, FORGET_ABOUT_IT_LABEL, QUOTED_P_LABEL, SP_DEFINITION_P_LABEL, LET_P_LABEL, AND_P_LABEL, OR_P_LABEL, ASSIGNMENT_P_LABEL, CONDITIONAL_P_LABEL, LAMBDA_P_LABEL, APPLICATION_P_LABEL, UNKNOWN_EXPR_LABEL, LIST_OF_VALUES_LABEL, LIST_OF_VALUES_CONT_LABEL, LIST_OF_VALUES_COLLECT_START_LABEL, LIST_OF_VALUES_COLLECT_LABEL, LIST_OF_VALUES_COLLECT_STOP_LABEL, MICRO_APPLY_LABEL, DEFINITION_CONT_LABEL, AND_CONT_LABEL, OR_CONT_LABEL, ASSIGNMENT_CONT_LABEL, CONDITIONAL_CONT_LABEL, EVAL_SEQUENCE_LABEL, EVAL_SEQUENCE_CONT_LABEL, ERROR_LABEL, END_LABEL]
  by_cases hL2 : s.cont = SELF_EVAL_P_LABEL
  · rw [step_at_SELF ext s hL2] at hs
    refine inv_SELFP ext s s' ?_ hgl hs
    rw [hbal, hL2]
    simp [owns, START_LABEL, SELF_EVAL_P_LABEL, VARIABLE_P_LABEL, FORGET_ABOUT_IT_LABEL, QUOTED_P_LABEL, SP_DEFINITION_P_LABEL, LET_P_LABEL, AND_P_LABEL, OR_P_LABEL, ASSIGNMENT_P_LABEL, CONDITIONAL_P_LABEL, LAMBDA_P_LABEL, APPLICATION_P_LABEL, UNKNOWN_EXPR_LABEL, LIST_OF_VALUES_LABEL, LIST_OF_VALUES_CONT_LABEL, LIST_OF_VALUES_COLLECT_START_LABEL, LIST_OF_VALUES_COLLECT_LABEL, LIST_OF_VALUES_COLLECT_STOP_LABEL, MICRO_APPLY_LABEL, DEFINITION_CONT_LABEL, AND_CONT_LABEL, OR_CONT_LABEL, ASSIGNMENT_CONT_LABEL, CONDITIONAL_CONT_LABEL, EVAL_SEQUENCE_LABEL, EVAL_SEQUENCE_CONT_LABEL, ERROR_LABEL, END_LABEL]
  by_cases hL3 : s.cont = VARIABLE_P_LABEL
  · rw [step_at_VARIABLE ext s hL3] at hs
    refine inv_VARIABLEP ext s s' ?_ hgl hs
    rw [hbal, hL3]
    simp [owns, START_LABEL, SELF_EVAL_P_LABEL, VARIABLE_P_LABEL, FORGET_ABOUT_IT_LABEL, QUOTED_P_LABEL, SP_DEFINITION_P_LABEL, LET_P_LABEL, AND_P_LABEL, OR_P_LABEL, ASSIGNMENT_P_LABEL, CONDITIONAL_P_LABEL, LAMBDA_P_LABEL, APPLICATION_P_LABEL, UNKNOWN_EXPR_LABEL, LIST_OF_VALUES_LABEL, LIST_OF_VALUES_CONT_LABEL, LIST_OF_VALUES_COLLECT_START_LABEL, LIST_OF_VALUES_COLLECT_LABEL, LIST_OF_VALUES_COLLECT_STOP_LABEL, MICRO_APPLY_LABEL, DEFINITION_CONT_LABEL, AND_CONT_LABEL, OR_CONT_LABEL, ASSIGNMENT_CONT_LABEL, CONDITIONAL_CONT_LABEL, EVAL_SEQUENCE_LABEL, EVAL_SEQUENCE_CONT_LABEL, ERROR_LABEL, END_LABEL]
  by_cases hL4 : s.cont = FORGET_ABOUT_IT_LABEL
  · rw [step_at_FORGET ext s hL4] at hs
    refine inv_FORGETP s s' ?_ hgl hs
    rw [hbal, hL4]
    simp [owns, START_LABEL, SELF_EVAL_P_LABEL, VARIABLE_P_LABEL, FORGET_ABOUT_IT_LABEL, QUOTED_P_LABEL, SP_DEFINITION_P_LABEL, LET_P_LABEL, AND_P_LABEL, OR_P_LABEL, ASSIGNMENT_P_LABEL, CONDITIONAL_P_LABEL, LAMBDA_P_LABEL, APPLICATION_P_LABEL, UNKNOWN_EXPR_LABEL, LIST_OF_VALUES_LABEL, LIST_OF_VALUES_CONT_LABEL, LIST_OF_VALUES_COLLECT_START_LABEL, LIST_OF_VALUES_COLLECT_LABEL, LIST_OF_VALUES_COLLECT_STOP_LABEL, MICRO_APPLY_LABEL, DEFINITION_CONT_LABEL, AND_CONT_LABEL, OR_CONT_LABEL, ASSIGNMENT_CONT_LABEL, CONDITIONAL_CONT_LABEL, EVAL_SEQUENCE_LABEL, EVAL_SEQUENCE_CONT_LABEL, ERROR_LABEL, END_LABEL]
  by_cases hL5 : s.cont = QUOTED_P_LABEL
  · rw [step_at_QUOTED ext s hL5] at hs
    refine inv_QUOTEDP ext s s' ?_ hgl hs
    rw [hbal, hL5]
    simp [owns, START_LABEL, SELF_EVAL_P_LABEL, VARIABLE_P_LABEL, FORGET_ABOUT_IT_LABEL, QUOTED_P_LABEL, SP_DEFINITION_P_LABEL, LET_P_LABEL, AND_P_LABEL, OR_P_LABEL, ASSIGNMENT_P_LABEL, CONDITIONAL_P_LABEL, LAMBDA_P_LABEL, APPLICATION_P_LABEL, UNKNOWN_EXPR_LABEL, LIST_OF_VALUES_LABEL, LIST_OF_VALUES_CONT_LABEL, LIST_OF_VALUES_COLLECT_START_LABEL, LIST_OF_VALUES_COLLECT_LABEL, LIST_OF_VALUES_COLLECT_STOP_LABEL, MICRO_APPLY_LABEL, DEFINITION_CONT_LABEL, AND_CONT_LABEL, OR_CONT_LABEL, ASSIGNMENT_CONT_LABEL, CONDITIONAL_CONT_LABEL, EVAL_SEQUENCE_LABEL, EVAL_SEQUENCE_CONT_LABEL, ERROR_LABEL, END_LABEL]
  by_cases hL6 : s.cont = SP_DEFINITION_P_LABEL
  · rw [step_at_DEFINE ext s hL6] at hs
    refine inv_DEFINEP ext s s' ?_ hgl hs
    rw [hbal, hL6]
    simp [owns, START_LABEL, SELF_EVAL_P_LABEL, VARIABLE_P_LABEL, FORGET_ABOUT_IT_LABEL, QUOTED_P_LABEL, SP_DEFINITION_P_LABEL, LET_P_LABEL, AND_P_LABEL, OR_P_LABEL, ASSIGNMENT_P_LABEL, CONDITIONAL_P_LABEL, LAMBDA_P_LABEL, APPLICATION_P_LABEL, UNKNOWN_EXPR_LABEL, LIST_OF_VALUES_LABEL, LIST_OF_VALUES_CONT_LABEL, LIST_OF_VALUES_COLLECT_START_LABEL, LIST_OF_VALUES_COLLECT_LABEL, LIST_OF_VALUES_COLLECT_STOP_LABEL, MICRO_APPLY_LABEL, DEFINITION_CONT_LABEL, AND_CONT_LABEL, OR_CONT_LABEL, ASSIGNMENT_CONT_LABEL, CONDITIONAL_CONT_LABEL, EVAL_SEQUENCE_LABEL, EVAL_SEQUENCE_CONT_LABEL, ERROR_LABEL, END_LABEL]
  by_cases hL7 : s.cont = LET_P_LABEL
  · rw [step_at_LET ext s hL7] at hs
    refine inv_LETP ext s s' ?_ hgl hs
    rw [hbal, hL7]
    simp [owns, START_LABEL, SELF_EVAL_P_LABEL, VARIABLE_P_LABEL, FORGET_ABOUT_IT_LABEL, QUOTED_P_LABEL, SP_DEFINITION_P_LABEL, LET_P_LABEL, AND_P_LABEL, OR_P_LABEL, ASSIGNMENT_P_LABEL, CONDITIONAL_P_LABEL, LAMBDA_P_LABEL, APPLICATION_P_LABEL, UNKNOWN_EXPR_LABEL, LIST_OF_VALUES_LABEL, LIST_OF_VALUES_CONT_LABEL, LIST_OF_VALUES_COLLECT_START_LABEL, LIST_OF_VALUES_COLLECT_LABEL, LIST_OF_VALUES_COLLECT_STOP_LABEL, MICRO_APPLY_LABEL, DEFINITION_CONT_LABEL, AND_CONT_LABEL, OR_CONT_LABEL, ASSIGNMENT_CONT_LABEL, CONDITIONAL_CONT_LABEL, EVAL_SEQUENCE_LABEL, EVAL_SEQUENCE_CONT_LABEL, ERROR_LABEL, END_LABEL]
  by_cases hL8 : s.cont = AND_P_LABEL
  · rw [step_at_ANDP ext s hL8] at hs
    refine inv_ANDPP ext s s' ?_ hgl hs
    rw [hbal, hL8]
    simp [owns, START_LABEL, SELF_EVAL_P_LABEL, VARIABLE_P_LABEL, FORGET_ABOUT_IT_LABEL, QUOTED_P_LABEL, SP_DEFINITION_P_LABEL, LET_P_LABEL, AND_P_LABEL, OR_P_LABEL, ASSIGNMENT_P_LABEL, CONDITIONAL_P_LABEL, LAMBDA_P_LABEL, APPLICATION_P_LABEL, UNKNOWN_EXPR_LABEL, LIST_OF_VALUES_LABEL, LIST_OF_VALUES_CONT_LABEL, LIST_OF_VALUES_COLLECT_START_LABEL, LIST_OF_VALUES_COLLECT_LABEL, LIST_OF_VALUES_COLLECT_STOP_LABEL, MICRO_APPLY_LABEL, DEFINITION_CONT_LABEL, AND_CONT_LABEL, OR_CONT_LABEL, ASSIGNMENT_CONT_LABEL, CONDITIONAL_CONT_LABEL, EVAL_SEQUENCE_LABEL, EVAL_SEQUENCE_CONT_LABEL, ERROR_LABEL, END_LABEL]
  by_cases hL9 : s.cont = OR_P_LABEL
  · rw [step_at_ORP ext s hL9] at hs
    refine inv_ORPP ext s s' ?_ hgl hs
    rw [hbal, hL9]
    simp [owns, START_LABEL, SELF_EVAL_P_LABEL, VARIABLE_P_LABEL, FORGET_ABOUT_IT_LABEL, QUOTED_P_LABEL, SP_DEFINITION_P_LABEL, LET_P_LABEL, AND_P_LABEL, OR_P_LABEL, ASSIGNMENT_P_LABEL, CONDITIONAL_P_LABEL, LAMBDA_P_LABEL, APPLICATION_P_LABEL, UNKNOWN_EXPR_LABEL, LIST_OF_VALUES_LABEL, LIST_OF_VALUES_CONT_LABEL, LIST_OF_VALUES_COLLECT_START_LABEL, LIST_OF_VALUES_COLLECT_LABEL, LIST_OF_VALUES_COLLECT_STOP_LABEL, MICRO_APPLY_LABEL, DEFINITION_CONT_LABEL, AND_CONT_LABEL, OR_CONT_LABEL, ASSIGNMENT_CONT_LABEL, CONDITIONAL_CONT_LABEL, EVAL_SEQUENCE_LABEL, EVAL_SEQUENCE_CONT_LABEL, ERROR_LABEL, END_LABEL]
  by_cases hL10 : s.cont = ASSIGNMENT_P_LABEL
  · rw [step_at_ASSIGN ext s hL10] at hs
    refine inv_ASSIGNP ext s s' ?_ hgl hs
    rw [hbal, hL10]
    simp [owns, START_LABEL, SELF_EVAL_P_LABEL, VARIABLE_P_LABEL, FORGET_ABOUT_IT_LABEL, QUOTED_P_LABEL, SP_DEFINITION_P_LABEL, LET_P_LABEL, AND_P_LABEL, OR_P_LABEL, ASSIGNMENT_P_LABEL, CONDITIONAL_P_LABEL, LAMBDA_P_LABEL, APPLICATION_P_LABEL, UNKNOWN_EXPR_LABEL, LIST_OF_VALUES_LABEL, LIST_OF_VALUES_CONT_LABEL, LIST_OF_VALUES_COLLECT_START_LABEL, LIST_OF_VALUES_COLLECT_LABEL, LIST_OF_VALUES_COLLECT_STOP_LABEL, MICRO_APPLY_LABEL, DEFINITION_CONT_LABEL, AND_CONT_LABEL, OR_CONT_LABEL, ASSIGNMENT_CONT_LABEL, CONDITIONAL_CONT_LABEL, EVAL_SEQUENCE_LABEL, EVAL_SEQUENCE_CONT_LABEL, ERROR_LABEL, END_LABEL]
  by_cases hL11 : s.cont = CONDITIONAL_P_LABEL
  · rw [step_at_CONDITIONAL ext s hL11] at hs
    refine inv_CONDPP ext s s' ?_ hgl hs
    rw [hbal, hL11]
    simp [owns, START_LABEL, SELF_EVAL_P_LABEL, VARIABLE_P_LABEL, FORGET_ABOUT_IT_LABEL, QUOTED_P_LABEL, SP_DEFINITION_P_LABEL, LET_P_LABEL, AND_P_LABEL, OR_P_LABEL, ASSIGNMENT_P_LABEL, CONDITIONAL_P_LABEL, LAMBDA_P_LABEL, APPLICATION_P_LABEL, UNKNOWN_EXPR_LABEL, LIST_OF_VALUES_LABEL, LIST_OF_VALUES_CONT_LABEL, LIST_OF_VALUES_COLLECT_START_LABEL, LIST_OF_VALUES_COLLECT_LABEL, LIST_OF_VALUES_COLLECT_STOP_LABEL, MICRO_APPLY_LABEL, DEFINITION_CONT_LABEL, AND_CONT_LABEL, OR_CONT_LABEL, ASSIGNMENT_CONT_LABEL, CONDITIONAL_CONT_LABEL, EVAL_SEQUENCE_LABEL, EVAL_SEQUENCE_CONT_LABEL, ERROR_LABEL, END_LABEL]
  by_cases hL12 : s.cont = LAMBDA_P_LABEL
  · rw [step_at_LAMBDA ext s hL12] at hs
    refine inv_LAMBDAP ext s s' ?_ hgl hs
    rw [hbal, hL12]
    simp [owns, START_LABEL, SELF_EVAL_P_LABEL, VARIABLE_P_LABEL, FORGET_ABOUT_IT_LABEL, QUOTED_P_LABEL, SP_DEFINITION_P_LABEL, LET_P_LABEL, AND_P_LABEL, OR_P_LABEL, ASSIGNMENT_P_LABEL, CONDITIONAL_P_LABEL, LAMBDA_P_LABEL, APPLICATION_P_LABEL, UNKNOWN_EXPR_LABEL, LIST_OF_VALUES_LABEL, LIST_OF_VALUES_CONT_LABEL, LIST_OF_VALUES_COLLECT_START_LABEL, LIST_OF_VALUES_COLLECT_LABEL, LIST_OF_VALUES_COLLECT_STOP_LABEL, MICRO_APPLY_LABEL, DEFINITION_CONT_LABEL, AND_CONT_LABEL, OR_CONT_LABEL, ASSIGNMENT_CONT_LABEL, CONDITIONAL_CONT_LABEL, EVAL_SEQUENCE_LABEL, EVAL_SEQUENCE_CONT_LABEL, ERROR_LABEL, END_LABEL]
  by_cases hL13 : s.cont = APPLICATION_P_LABEL
  · rw [step_at_APPLICATION ext s hL13] at hs
    refine inv_APPLICATIONP s s' ?_ hgl hs
    rw [hbal, hL13]
    simp [owns, START_LABEL, SELF_EVAL_P_LABEL, VARIABLE_P_LABEL, FORGET_ABOUT_IT_LABEL, QUOTED_P_LABEL, SP_DEFINITION_P_LABEL, LET_P_LABEL, AND_P_LABEL, OR_P_LABEL, ASSIGNMENT_P_LABEL, CONDITIONAL_P_LABEL, LAMBDA_P_LABEL, APPLICATION_P_LABEL, UNKNOWN_EXPR_LABEL, LIST_OF_VALUES_LABEL, LIST_OF_VALUES_CONT_LABEL, LIST_OF_VALUES_COLLECT_START_LABEL, LIST_OF_VALUES_COLLECT_LABEL, LIST_OF_VALUES_COLLECT_STOP_LABEL, MICRO_APPLY_LABEL, DEFINITION_CONT_LABEL, AND_CONT_LABEL, OR_CONT_LABEL, ASSIGNMENT_CONT_LABEL, CONDITIONAL_CONT_LABEL, EVAL_SEQUENCE_LABEL, EVAL_SEQUENCE_CONT_LABEL, ERROR_LABEL, END_LABEL]
  by_cases hL14 : s.cont = UNKNOWN_EXPR_LABEL
  · rw [step_at_UNKNOWN ext s hL14] at hs
    refine inv_UNKNOWNP s s' ?_ hgl hs
    rw [hbal, hL14]
    simp [owns, START_LABEL, SELF_EVAL_P_LABEL, VARIABLE_P_LABEL, FORGET_ABOUT_IT_LABEL, QUOTED_P_LABEL, SP_DEFINITION_P_LABEL, LET_P_LABEL, AND_P_LABEL, OR_P_LABEL, ASSIGNMENT_P_LABEL, CONDITIONAL_P_LABEL, LAMBDA_P_LABEL, APPLICATION_P_LABEL, UNKNOWN_EXPR_LABEL, LIST_OF_VALUES_LABEL, LIST_OF_VALUES_CONT_LABEL, LIST_OF_VALUES_COLLECT_START_LABEL, LIST_OF_VALUES_COLLECT_LABEL, LIST_OF_VALUES_COLLECT_STOP_LABEL, MICRO_APPLY_LABEL, DEFINITION_CONT_LABEL, AND_CONT_LABEL, OR_CONT_LABEL, ASSIGNMENT_CONT_LABEL, CONDITIONAL_CONT_LABEL, EVAL_SEQUENCE_LABEL, EVAL_SEQUENCE_CONT_LABEL, ERROR_LABEL, END_LABEL]
  by_cases hL15 : s.cont = LIST_OF_VALUES_LABEL
  · rw [step_at_LOV ext s hL15] at hs
    refine inv_LOVP s s' ?_ hgl hs
    rw [hbal, hL15]
    simp [owns, START_LABEL, SELF_EVAL_P_LABEL, VARIABLE_P_LABEL, FORGET_ABOUT_IT_LABEL, QUOTED_P_LABEL, SP_DEFINITION_P_LABEL, LET_P_LABEL, AND_P_LABEL, OR_P_LABEL, ASSIGNMENT_P_LABEL, CONDITIONAL_P_LABEL, LAMBDA_P_LABEL, APPLICATION_P_LABEL, UNKNOWN_EXPR_LABEL, LIST_OF_VALUES_LABEL, LIST_OF_VALUES_CONT_LABEL, LIST_OF_VALUES_COLLECT_START_LABEL, LIST_OF_VALUES_COLLECT_LABEL, LIST_OF_VALUES_COLLECT_STOP_LABEL, MICRO_APPLY_LABEL, DEFINITION_CONT_LABEL, AND_CONT_LABEL, OR_CONT_LABEL, ASSIGNMENT_CONT_LABEL, CONDITIONAL_CONT_LABEL, EVAL_SEQUENCE_LABEL, EVAL_SEQUENCE_CONT_LABEL, ERROR_LABEL, END_LABEL]
  by_cases hL16 : s.cont = LIST_OF_VALUES_CONT_LABEL
  · rw [step_at_LOVCONT ext s hL16] at hs
    refine inv_LOVCONTP s s' ?_ hgl hs
    rw [hbal, hL16]
    simp [owns, START_LABEL, SELF_EVAL_P_LABEL, VARIABLE_P_LABEL, FORGET_ABOUT_IT_LABEL, QUOTED_P_LABEL, SP_DEFINITION_P_LABEL, LET_P_LABEL, AND_P_LABEL, OR_P_LABEL, ASSIGNMENT_P_LABEL, CONDITIONAL_P_LABEL, LAMBDA_P_LABEL, APPLICATION_P_LABEL, UNKNOWN_EXPR_LABEL, LIST_OF_VALUES_LABEL, LIST_OF_VALUES_CONT_LABEL, LIST_OF_VALUES_COLLECT_START_LABEL, LIST_OF_VALUES_COLLECT_LABEL, LIST_OF_VALUES_COLLECT_STOP_LABEL, MICRO_APPLY_LABEL, DEFINITION_CONT_LABEL, AND_CONT_LABEL, OR_CONT_LABEL, ASSIGNMENT_CONT_LABEL, CONDITIONAL_CONT_LABEL, EVAL_SEQUENCE_LABEL, EVAL_SEQUENCE_CONT_LABEL, ERROR_LABEL, END_LABEL]
  by_cases hL17 : s.cont = LIST_OF_VALUES_COLLECT_START_LABEL
  · rw [step_at_CSTART ext s hL17] at hs
    refine inv_CSTARTP s s' ?_ hgl hs
    rw [hbal, hL17]
    simp [owns, START_LABEL, SELF_EVAL_P_LABEL, VARIABLE_P_LABEL, FORGET_ABOUT_IT_LABEL, QUOTED_P_LABEL, SP_DEFINITION_P_LABEL, LET_P_LABEL, AND_P_LABEL, OR_P_LABEL, ASSIGNMENT_P_LABEL, CONDITIONAL_P_LABEL, LAMBDA_P_LABEL, APPLICATION_P_LABEL, UNKNOWN_EXPR_LABEL, LIST_OF_VALUES_LABEL, LIST_OF_VALUES_CONT_LABEL, LIST_OF_VALUES_COLLECT_START_LABEL, LIST_OF_VALUES_COLLECT_LABEL, LIST_OF_VALUES_COLLECT_STOP_LABEL, MICRO_APPLY_LABEL, DEFINITION_CONT_LABEL, AND_CONT_LABEL, OR_CONT_LABEL, ASSIGNMENT_CONT_LABEL, CONDITIONAL_CONT_LABEL, EVAL_SEQUENCE_LABEL, EVAL_SEQUENCE_CONT_LABEL, ERROR_LABEL, END_LABEL]
  by_cases hL18 : s.cont = LIST_OF_VALUES_COLLECT_LABEL
  · rw [step_at_COLLECT ext s hL18] at hs
    refine inv_COLLECTP s s' ?_ hgl hs
    rw [hbal, hL18]
    simp [owns, START_LABEL, SELF_EVAL_P_LABEL, VARIABLE_P_LABEL, FORGET_ABOUT_IT_LABEL, QUOTED_P_LABEL, SP_DEFINITION_P_LABEL, LET_P_LABEL, AND_P_LABEL, OR_P_LABEL, ASSIGNMENT_P_LABEL, CONDITIONAL_P_LABEL, LAMBDA_P_LABEL, APPLICATION_P_LABEL, UNKNOWN_EXPR_LABEL, LIST_OF_VALUES_LABEL, LIST_OF_VALUES_CONT_LABEL, LIST_OF_VALUES_COLLECT_START_LABEL, LIST_OF_VALUES_COLLECT_LABEL, LIST_OF_VALUES_COLLECT_STOP_LABEL, MICRO_APPLY_LABEL, DEFINITION_CONT_LABEL, AND_CONT_LABEL, OR_CONT_LABEL, ASSIGNMENT_CONT_LABEL, CONDITIONAL_CONT_LABEL, EVAL_SEQUENCE_LABEL, EVAL_SEQUENCE_CONT_LABEL, ERROR_LABEL, END_LABEL]
  by_cases hL19 : s.cont = LIST_OF_VALUES_COLLECT_STOP_LABEL
  · rw [step_at_CSTOP ext s hL19] at hs
    refine inv_CSTOPP ext s s' ?_ hgl hs
    rw [hbal, hL19]
    simp [owns, START_LABEL, SELF_EVAL_P_LABEL, VARIABLE_P_LABEL, FORGET_ABOUT_IT_LABEL, QUOTED_P_LABEL, SP_DEFINITION_P_LABEL, LET_P_LABEL, AND_P_LABEL, OR_P_LABEL, ASSIGNMENT_P_LABEL, CONDITIONAL_P_LABEL, LAMBDA_P_LABEL, APPLICATION_P_LABEL, UNKNOWN_EXPR_LABEL, LIST_OF_VALUES_LABEL, LIST_OF_VALUES_CONT_LABEL, LIST_OF_VALUES_COLLECT_START_LABEL, LIST_OF_VALUES_COLLECT_LABEL, LIST_OF_VALUES_COLLECT_STOP_LABEL, MICRO_APPLY_LABEL, DEFINITION_CONT_LABEL, AND_CONT_LABEL, OR_CONT_LABEL, ASSIGNMENT_CONT_LABEL, CONDITIONAL_CONT_LABEL, EVAL_SEQUENCE_LABEL, EVAL_SEQUENCE_CONT_LABEL, ERROR_LABEL, END_LABEL]
  by_cases hL20 : s.cont = MICRO_APPLY_LABEL
  · rw [step_at_APPLY ext s hL20] at hs
    refine inv_APPLYP ext s s' ?_ hgl hs
    rw [hbal, hL20]
    simp [owns, START_LABEL, SELF_EVAL_P_LABEL, VARIABLE_P_LABEL, FORGET_ABOUT_IT_LABEL, QUOTED_P_LABEL, SP_DEFINITION_P_LABEL, LET_P_LABEL, AND_P_LABEL, OR_P_LABEL, ASSIGNMENT_P_LABEL, CONDITIONAL_P_LABEL, LAMBDA_P_LABEL, APPLICATION_P_LABEL, UNKNOWN_EXPR_LABEL, LIST_OF_VALUES_LABEL, LIST_OF_VALUES_CONT_LABEL, LIST_OF_VALUES_COLLECT_START_LABEL, LIST_OF_VALUES_COLLECT_LABEL, LIST_OF_VALUES_COLLECT_STOP_LABEL, MICRO_APPLY_LABEL, DEFINITION_CONT_LABEL, AND_CONT_LABEL, OR_CONT_LABEL, ASSIGNMENT_CONT_LABEL, CONDITIONAL_CONT_LABEL, EVAL_SEQUENCE_LABEL, EVAL_SEQUENCE_CONT_LABEL, ERROR_LABEL, END_LABEL]
  by_cases hL21 : s.cont = DEFINITION_CONT_LABEL
  · rw [step_at_DEFCONT ext s hL21] at hs
    refine inv_DEFCONTP s s' ?_ hgl hs
    rw [hbal, hL21]
    simp [owns, START_LABEL, SELF_EVAL_P_LABEL, VARIABLE_P_LABEL, FORGET_ABOUT_IT_LABEL, QUOTED_P_LABEL, SP_DEFINITION_P_LABEL, LET_P_LABEL, AND_P_LABEL, OR_P_LABEL, ASSIGNMENT_P_LABEL, CONDITIONAL_P_LABEL, LAMBDA_P_LABEL, APPLICATION_P_LABEL, UNKNOWN_EXPR_LABEL, LIST_OF_VALUES_LABEL, LIST_OF_VALUES_CONT_LABEL, LIST_OF_VALUES_COLLECT_START_LABEL, LIST_OF_VALUES_COLLECT_LABEL, LIST_OF_VALUES_COLLECT_STOP_LABEL, MICRO_APPLY_LABEL, DEFINITION_CONT_LABEL, AND_CONT_LABEL, OR_CONT_LABEL, ASSIGNMENT_CONT_LABEL, CONDITIONAL_CONT_LABEL, EVAL_SEQUENCE_LABEL, EVAL_SEQUENCE_CONT_LABEL, ERROR_LABEL, END_LABEL]
  by_cases hL22 : s.cont = AND_CONT_LABEL
  · rw [step_at_ANDCONT ext s hL22] at hs
    refine inv_ANDCONTP s s' ?_ hgl hs
    rw [hbal, hL22]
    simp [owns, START_LABEL, SELF_EVAL_P_LABEL, VARIABLE_P_LABEL, FORGET_ABOUT_IT_LABEL, QUOTED_P_LABEL, SP_DEFINITION_P_LABEL, LET_P_LABEL, AND_P_LABEL, OR_P_LABEL, ASSIGNMENT_P_LABEL, CONDITIONAL_P_LABEL, LAMBDA_P_LABEL, APPLICATION_P_LABEL, UNKNOWN_EXPR_LABEL, LIST_OF_VALUES_LABEL, LIST_OF_VALUES_CONT_LABEL, LIST_OF_VALUES_COLLECT_START_LABEL, LIST_OF_VALUES_COLLECT_LABEL, LIST_OF_VALUES_COLLECT_STOP_LABEL, MICRO_APPLY_LABEL, DEFINITION_CONT_LABEL, AND_CONT_LABEL, OR_CONT_LABEL, ASSIGNMENT_CONT_LABEL, CONDITIONAL_CONT_LABEL, EVAL_SEQUENCE_LABEL, EVAL_SEQUENCE_CONT_LABEL, ERROR_LABEL, END_LABEL]
  by_cases hL23 : s.cont = OR_CONT_LABEL
  · rw [step_at_ORCONT ext s hL23] at hs
    refine inv_ORCONTP s s' ?_ hgl hs
    rw [hbal, hL23]
    simp [owns, START_LABEL, SELF_EVAL_P_LABEL, VARIABLE_P_LABEL, FORGET_ABOUT_IT_LABEL, QUOTED_P_LABEL, SP_DEFINITION_P_LABEL, LET_P_LABEL, AND_P_LABEL, OR_P_LABEL, ASSIGNMENT_P_LABEL, CONDITIONAL_P_LABEL, LAMBDA_P_LABEL, APPLICATION_P_LABEL, UNKNOWN_EXPR_LABEL, LIST_OF_VALUES_LABEL, LIST_OF_VALUES_CONT_LABEL, LIST_OF_VALUES_COLLECT_START_LABEL, LIST_OF_VALUES_COLLECT_LABEL, LIST_OF_VALUES_COLLECT_STOP_LABEL, MICRO_APPLY_LABEL, DEFINITION_CONT_LABEL, AND_CONT_LABEL, OR_CONT_LABEL, ASSIGNMENT_CONT_LABEL, CONDITIONAL_CONT_LABEL, EVAL_SEQUENCE_LABEL, EVAL_SEQUENCE_CONT_LABEL, ERROR_LABEL, END_LABEL]
  by_cases hL24 : s.cont = ASSIGNMENT_CONT_LABEL
  · rw [step_at_ASSIGNCONT ext s hL24] at hs
    refine inv_ASSIGNCONTP s s' ?_ hgl hs
    rw [hbal, hL24]
    simp [owns, START_LABEL, SELF_EVAL_P_LABEL, VARIABLE_P_LABEL, FORGET_ABOUT_IT_LABEL, QUOTED_P_LABEL, SP_DEFINITION_P_LABEL, LET_P_LABEL, AND_P_LABEL, OR_P_LABEL, ASSIGNMENT_P_LABEL, CONDITIONAL_P_LABEL, LAMBDA_P_LABEL, APPLICATION_P_LABEL, UNKNOWN_EXPR_LABEL, LIST_OF_VALUES_LABEL, LIST_OF_VALUES_CONT_LABEL, LIST_OF_VALUES_COLLECT_START_LABEL, LIST_OF_VALUES_COLLECT_LABEL, LIST_OF_VALUES_COLLECT_STOP_LABEL, MICRO_APPLY_LABEL, DEFINITION_CONT_LABEL, AND_CONT_LABEL, OR_CONT_LABEL, ASSIGNMENT_CONT_LABEL, CONDITIONAL_CONT_LABEL, EVAL_SEQUENCE_LABEL, EVAL_SEQUENCE_CONT_LABEL, ERROR_LABEL, END_LABEL]
  by_cases hL25 : s.cont = CONDITIONAL_CONT_LABEL
  · rw [step_at_CONDCONT ext s hL25] at hs
    refine inv_CONDCONTP s s' ?_ hgl hs
    rw [hbal, hL25]
    simp [owns, START_LABEL, SELF_EVAL_P_LABEL, VARIABLE_P_LABEL, FORGET_ABOUT_IT_LABEL, QUOTED_P_LABEL, SP_DEFINITION_P_LABEL, LET_P_LABEL, AND_P_LABEL, OR_P_LABEL, ASSIGNMENT_P_LABEL, CONDITIONAL_P_LABEL, LAMBDA_P_LABEL, APPLICATION_P_LABEL, UNKNOWN_EXPR_LABEL, LIST_OF_VALUES_LABEL, LIST_OF_VALUES_CONT_LABEL, LIST_OF_VALUES_COLLECT_START_LABEL, LIST_OF_VALUES_COLLECT_LABEL, LIST_OF_VALUES_COLLECT_STOP_LABEL, MICRO_APPLY_LABEL, DEFINITION_CONT_LABEL, AND_CONT_LABEL, OR_CONT_LABEL, ASSIGNMENT_CONT_LABEL, CONDITIONAL_CONT_LABEL, EVAL_SEQUENCE_LABEL, EVAL_SEQUENCE_CONT_LABEL, ERROR_LABEL, END_LABEL]
  by_cases hL26 : s.cont = EVAL_SEQUENCE_LABEL
  · rw [step_at_EVSEQ ext s hL26] at hs
    refine inv_EVSEQP s s' ?_ hgl hs
    rw [hbal, hL26]
    simp [owns, START_LABEL, SELF_EVAL_P_LABEL, VARIABLE_P_LABEL, FORGET_ABOUT_IT_LABEL, QUOTED_P_LABEL, SP_DEFINITION_P_LABEL, LET_P_LABEL, AND_P_LABEL, OR_P_LABEL, ASSIGNMENT_P_LABEL, CONDITIONAL_P_LABEL, LAMBDA_P_LABEL, APPLICATION_P_LABEL, UNKNOWN_EXPR_LABEL, LIST_OF_VALUES_LABEL, LIST_OF_VALUES_CONT_LABEL, LIST_OF_VALUES_COLLECT_START_LABEL, LIST_OF_VALUES_COLLECT_LABEL, LIST_OF_VALUES_COLLECT_STOP_LABEL, MICRO_APPLY_LABEL, DEFINITION_CONT_LABEL, AND_CONT_LABEL, OR_CONT_LABEL, ASSIGNMENT_CONT_LABEL, CONDITIONAL_CONT_LABEL, EVAL_SEQUENCE_LABEL, EVAL_SEQUENCE_CONT_LABEL, ERROR_LABEL, END_LABEL]
  by_cases hL27 : s.cont = EVAL_SEQUENCE_CONT_LABEL
  · rw [step_at_EVSEQCONT ext s hL27] at hs
    refine inv_EVSEQCONTP s s' ?_ hgl hs
    rw [hbal, hL27]
    simp [owns, START_LABEL, SELF_EVAL_P_LABEL, VARIABLE_P_LABEL, FORGET_ABOUT_IT_LABEL, QUOTED_P_LABEL, SP_DEFINITION_P_LABEL, LET_P_LABEL, AND_P_LABEL, OR_P_LABEL, ASSIGNMENT_P_LABEL, CONDITIONAL_P_LABEL, LAMBDA_P_LABEL, APPLICATION_P_LABEL, UNKNOWN_EXPR_LABEL, LIST_OF_VALUES_LABEL, LIST_OF_VALUES_CONT_LABEL, LIST_OF_VALUES_COLLECT_START_LABEL, LIST_OF_VALUES_COLLECT_LABEL, LIST_OF_VALUES_COLLECT_STOP_LABEL, MICRO_APPLY_LABEL, DEFINITION_CONT_LABEL, AND_CONT_LABEL, OR_CONT_LABEL, ASSIGNMENT_CONT_LABEL, CONDITIONAL_CONT_LABEL, EVAL_SEQUENCE_LABEL, EVAL_SEQUENCE_CONT_LABEL, ERROR_LABEL, END_LABEL]
  simp [step, hL1, hL2, hL3, hL4, hL5, hL6, hL7, hL8, hL9, hL10, hL11, hL12, hL13, hL14, hL15, hL16, hL17, hL18, hL19, hL20, hL21, hL22, hL23, hL24, hL25, hL26, hL27] at hs

lemma run_inv (ext : Ext) : ∀ (fuel : Nat) (s s' : EState), Inv s →
    run ext fuel s = some s' →
    s'.cont = END_LABEL ∧ s'.lstack = [] ∧ s'.pstack = [] := by
  intro fuel
  induction fuel with
  | zero =>
      intro s s' _ hr
      simp [run] at hr
  | succ n ih =>
      intro s s' hinv hr
      simp only [run] at hr
      split_ifs at hr with hend
      · cases hr
        obtain ⟨_, he, _⟩ := hinv
        obtain ⟨hl, hp⟩ := he hend
        exact ⟨hend, hl, hp⟩
      · rcases hst : step ext s with _ | s2
        · rw [hst] at hr
          simp at hr
        · rw [hst] at hr
          exact ih s2 s' (step_inv ext s s2 hinv hend hst) hr

end Ev

/-- **C10**: `synchecktoggle` on an empty argument list negates the
syntax-check flag and returns the boolean the flag held BEFORE the call
(`make_bool(!syntaxcheck)` evaluated after `syntaxcheck=!syntaxcheck`
is the old value), together with the negated flag. -/
theorem c10_synchecktoggle (sc : Bool) :
    Ev.synchecktoggle sc .nil = some (.boolv sc, !sc) := by
  cases sc <;> rfl

/-- Dispatching the loop's switch at `CONDITIONAL_P_LABEL`. -/
lemma step_at_COND (ext : Ev.Ext) (s : Ev.EState)
    (hc : s.cont = Ev.CONDITIONAL_P_LABEL) :
    Ev.step ext s = Ev.stepCOND ext s := by
  simp [Ev.step, hc, Ev.START_LABEL, Ev.SELF_EVAL_P_LABEL,
    Ev.VARIABLE_P_LABEL, Ev.FORGET_ABOUT_IT_LABEL, Ev.QUOTED_P_LABEL,
    Ev.SP_DEFINITION_P_LABEL, Ev.LET_P_LABEL, Ev.AND_P_LABEL, Ev.OR_P_LABEL,
    Ev.ASSIGNMENT_P_LABEL, Ev.CONDITIONAL_P_LABEL]

/-- **C7** (corrected): at `CONDITIONAL_P_LABEL` with operator `cond` and
syntax checking on, the step raises the syntax error exactly when the
expression fails the checker's own rule — a proper list of length ≥ 2
whose operand list satisfies `list_of_clauses_p` — and that rule, made
explicit over a clause list, is `clausesOkA`: every clause a non-NIL
proper list, a clause headed `else` only in last position, never first,
and then with at least two elements; a non-`else` clause may have a
single element (the claim's "each clause has at least 2 elements" and its
tolerance of a leading `else` clause are both wrong, see the
counterexample). -/
theorem c7_cond_syntax :
    (∀ (ext : Ev.Ext) (s : Ev.EState),
      s.cont = Ev.CONDITIONAL_P_LABEL → s.oper = Ev.cond_zap →
      Ev.car s.exp = Ev.cond_zap → s.sc = true →
      ∃ s', Ev.step ext s = some s' ∧
        (s'.cont = Ev.ERROR_LABEL ↔
          ¬(Ev.list_p s.exp = true ∧ 2 ≤ Ev.length s.exp ∧
            Ev.list_of_clauses_p (Ev.operands s.exp) = true))) ∧
    (∀ cs : List Ev.SExp,
      Ev.list_of_clauses_p (Ev.ofList cs) = Ev.clausesOkA cs false) := by
  constructor
  · intro ext s hc hop hcar hsc
    rw [step_at_COND ext s hc]
    simp only [Ev.stepCOND, hop, hsc, hcar]
    have hif : (Ev.cond_zap == Ev.if_zap) = false := by decide
    have hcc : (Ev.cond_zap == Ev.cond_zap) = true := by decide
    rw [hif, hcc]
    simp only [Bool.false_and, Bool.false_or, Bool.true_and, Bool.true_or,
      Bool.or_true]
    cases hB : (Ev.list_p s.exp &&
        (decide (2 ≤ Ev.length s.exp) &&
          Ev.list_of_clauses_p (Ev.operands s.exp))) with
    | true =>
        simp only [Bool.not_true, Bool.not_false, Bool.false_eq_true,
          eq_self_iff_true, if_true, if_false]
        refine ⟨_, rfl, ?_⟩
        simp only [Bool.and_eq_true, decide_eq_true_eq] at hB
        exact iff_of_false (by simp [Ev.START_LABEL, Ev.ERROR_LABEL])
          (by push_neg; exact hB)
    | false =>
        simp only [Bool.not_true, Bool.not_false, Bool.false_eq_true,
          eq_self_iff_true, if_true, if_false]
        refine ⟨_, rfl, ?_⟩
        refine iff_of_true rfl ?_
        rintro ⟨h1, h2, h3⟩
        rw [h1, h3, decide_eq_true h2] at hB
        simp at hB
  · intro cs
    show Ev.list_of_clauses_go (Ev.ofList cs) 0 = Ev.clausesOkA cs false
    rw [Ev.list_of_clauses_go_eq]
    rfl

/-- An external-behaviour instance for concrete runs: every builtin
application errors and no symbol is reserved. -/
def demoExt : Ev.Ext := ⟨fun _ _ _ => none, fun _ => false⟩

/-- The clause `(#t)` and the expression `(cond (#t))`. -/
def condClause1 : Ev.SExp := Ev.ofList [.boolv true]
def condCE1 : Ev.SExp := .cons .plain Ev.cond_zap (Ev.ofList [condClause1])

/-- The clause `(else 1)` and the expression `(cond (else 1))`. -/
def condClause2 : Ev.SExp := Ev.ofList [Ev.else_zap, .int 1]
def condCE2 : Ev.SExp := .cons .plain Ev.cond_zap (Ev.ofList [condClause2])

/-- A machine state about to dispatch a `cond` expression. -/
def condState (e : Ev.SExp) : Ev.EState :=
  { cont := Ev.CONDITIONAL_P_LABEL, exp := e, oper := Ev.cond_zap,
    sc := true, lstack := [Ev.END_LABEL] }

/-- **C7 counterexample**: `(cond (#t))` violates the claimed clause shape
(its clause has one element) yet the checker accepts it and the step
proceeds without a syntax error; `(cond (else 1))` satisfies the claimed
shape (a final `else` clause of two elements) yet the checker rejects it
and the step raises the syntax error. -/
theorem c7_cond_syntax_counterexample :
    (Ev.specClausesOk [condClause1] = false ∧
      ∃ s', Ev.step demoExt (condState condCE1) = some s' ∧
        s'.cont ≠ Ev.ERROR_LABEL) ∧
    (Ev.specClausesOk [condClause2] = true ∧
      ∃ s', Ev.step demoExt (condState condCE2) = some s' ∧
        s'.cont = Ev.ERROR_LABEL) := by
  refine ⟨⟨by decide, ⟨_, rfl, by decide⟩⟩, ⟨by decide, ⟨_, rfl, by decide⟩⟩⟩

/-- Concrete use of the C7 characterization at `(cond (else 1))`: all four
hypotheses hold at `condState condCE2` and the conclusion follows. -/
theorem c7_cond_syntax_witness :
    (condState condCE2).cont = Ev.CONDITIONAL_P_LABEL ∧
    (condState condCE2).oper = Ev.cond_zap ∧
    Ev.car (condState condCE2).exp = Ev.cond_zap ∧
    (condState condCE2).sc = true ∧
    (∃ s', Ev.step demoExt (condState condCE2) = some s' ∧
      (s'.cont = Ev.ERROR_LABEL ↔
        ¬(Ev.list_p (condState condCE2).exp = true ∧
          2 ≤ Ev.length (condState condCE2).exp ∧
          Ev.list_of_clauses_p (Ev.operands (condState condCE2).exp) =
            true))) :=
  ⟨rfl, rfl, rfl, rfl,
    c7_cond_syntax.1 demoExt (condState condCE2) rfl rfl rfl rfl⟩

/-- **C5**: `(and)` with no operands finishes in two switch executions
with value true, flag and both stacks untouched; for a non-empty operand
chain the loop follows the `AndEval` protocol — the operands are
dispatched strictly left to right, the chain stops at the first operand
whose value is the false zap without dispatching the remaining operands
(nothing about them is assumed, so no later `(error "x")` can be reached),
and the result is the value of the last operand evaluated; a finished
`evaluation_loop` run on the `and` form therefore ends at `END_LABEL`
with that value and empty stacks. -/
theorem c5_and_shortcircuit :
    (∀ (ext : Ev.Ext) (env : Ev.SExp) (hh : Ev.Hint) (sc : Bool),
      Ev.EvalsTo ext 2 (.cons hh Ev.and_zap .nil) env sc Ev.true_zap sc) ∧
    (∀ (ext : Ev.Ext) (env ops : Ev.SExp) (sc : Bool) (v : Ev.SExp)
        (sc' : Bool), Ev.AndEval ext env ops sc v sc' →
      Ev.list_p ops = true → ∀ hh : Ev.Hint,
      ∃ n, Ev.EvalsTo ext n (.cons hh Ev.and_zap ops) env sc v sc') ∧
    (∀ (ext : Ev.Ext) (env ops : Ev.SExp) (sc : Bool) (v : Ev.SExp)
        (sc' : Bool), Ev.AndEval ext env ops sc v sc' →
      Ev.list_p ops = true → ∀ hh : Ev.Hint,
      ∃ fuel s', Ev.evalLoop ext fuel (.cons hh Ev.and_zap ops) env sc =
          some s' ∧
        s'.val = v ∧ s'.pstack = [] ∧ s'.lstack = [] ∧ s'.sc = sc') := by
  have hB : ∀ (ext : Ev.Ext) (env ops : Ev.SExp) (sc : Bool) (v : Ev.SExp)
      (sc' : Bool), Ev.AndEval ext env ops sc v sc' →
      Ev.list_p ops = true → ∀ hh : Ev.Hint,
      ∃ n, Ev.EvalsTo ext n (.cons hh Ev.and_zap ops) env sc v sc' := by
    intro ext env ops sc v sc' hae hlp hh
    obtain ⟨n2, hchain⟩ := Ev.and_chain ext env ops sc v sc' hae
    refine ⟨2 + n2, ?_⟩
    intro s l ls hc he henv hsc hls
    have hcb : Ev.cbox_p s.exp = true := by rw [he]; rfl
    have h1 : Ev.step ext s = some { s with oper := Ev.operator s.exp, cont := Ev.QUOTED_P_LABEL } := by
      rw [Ev.step_at_START ext s hc]
      exact Ev.stepSTART_cbox ext s hcb
    have hopx : Ev.operator s.exp = Ev.and_zap := by rw [he]; rfl
    have hlpx : Ev.list_p s.exp = true := by
      rw [he]
      exact hlp
    have hcons : Ev.cbox_p ops = true := hae.shape
    have hopsne : Ev.operands s.exp ≠ Ev.SExp.nil := by
      rw [he]
      show ops ≠ Ev.SExp.nil
      intro hx
      rw [hx] at hcons
      exact absurd hcons (by decide)
    by_cases hmore : Ev.cdr ops = Ev.SExp.nil
    · have h2 : Ev.step ext { s with oper := Ev.operator s.exp, cont := Ev.QUOTED_P_LABEL } = some { s with oper := Ev.operator s.exp, exp := Ev.car (Ev.operands s.exp), cont := Ev.START_LABEL } := by
        rw [Ev.step_at_QUOTED ext _ rfl, Ev.stepQUOTED_and ext _ hopx]
        rw [Ev.stepAND_last ext { s with oper := Ev.operator s.exp, cont := Ev.QUOTED_P_LABEL } hopx hlpx hopsne (by rw [he]; exact hmore)]
      have hs2 : Ev.stepN ext 2 s = some { s with oper := Ev.operator s.exp, exp := Ev.car (Ev.operands s.exp), cont := Ev.START_LABEL } := by
        show (Ev.step ext s).bind (Ev.stepN ext 1) = _
        rw [h1]
        show (Ev.step ext _).bind (Ev.stepN ext 0) = _
        rw [h2]
        rfl
      obtain ⟨s', k1, k2, k3, k4, k5, k6⟩ :=
        hchain { s with oper := Ev.operator s.exp, exp := Ev.car (Ev.operands s.exp), cont := Ev.START_LABEL } l ls s.pstack rfl henv hsc
          (by show Ev.car (Ev.operands s.exp) = Ev.car ops; rw [he]; rfl)
          (Or.inl ⟨hmore, rfl, hls⟩)
      refine ⟨s', ?_, k2, k3, k4, k5, k6⟩
      rw [Ev.stepN_add ext 2 n2 s, hs2]
      exact k1
    · have h2 : Ev.step ext { s with oper := Ev.operator s.exp, cont := Ev.QUOTED_P_LABEL } = some { s with oper := Ev.operator s.exp, exp := Ev.car (Ev.operands s.exp), pstack := Ev.cdr (Ev.operands s.exp) :: s.env :: s.pstack, lstack := Ev.AND_CONT_LABEL :: s.lstack, cont := Ev.START_LABEL } := by
        rw [Ev.step_at_QUOTED ext _ rfl, Ev.stepQUOTED_and ext _ hopx]
        rw [Ev.stepAND_push ext { s with oper := Ev.operator s.exp, cont := Ev.QUOTED_P_LABEL } hopx hlpx hopsne (by rw [he]; exact hmore)]
      have hs2 : Ev.stepN ext 2 s = some { s with oper := Ev.operator s.exp, exp := Ev.car (Ev.operands s.exp), pstack := Ev.cdr (Ev.operands s.exp) :: s.env :: s.pstack, lstack := Ev.AND_CONT_LABEL :: s.lstack, cont := Ev.START_LABEL } := by
        show (Ev.step ext s).bind (Ev.stepN ext 1) = _
        rw [h1]
        show (Ev.step ext _).bind (Ev.stepN ext 0) = _
        rw [h2]
        rfl
      obtain ⟨s', k1, k2, k3, k4, k5, k6⟩ :=
        hchain { s with oper := Ev.operator s.exp, exp := Ev.car (Ev.operands s.exp), pstack := Ev.cdr (Ev.operands s.exp) :: s.env :: s.pstack, lstack := Ev.AND_CONT_LABEL :: s.lstack, cont := Ev.START_LABEL } l ls s.pstack rfl henv hsc
          (by show Ev.car (Ev.operands s.exp) = Ev.car ops; rw [he]; rfl)
          (Or.inr ⟨hmore, by show Ev.cdr (Ev.operands s.exp) :: s.env :: s.pstack = _; rw [he, henv]; rfl, by show Ev.AND_CONT_LABEL :: s.lstack = _; rw [hls]⟩)
      refine ⟨s', ?_, k2, k3, k4, k5, k6⟩
      rw [Ev.stepN_add ext 2 n2 s, hs2]
      exact k1
  refine ⟨?_, hB, ?_⟩
  · intro ext env hh sc
    intro s l ls hc he henv hsc hls
    have hcb : Ev.cbox_p s.exp = true := by rw [he]; rfl
    have h1 : Ev.step ext s = some { s with oper := Ev.operator s.exp, cont := Ev.QUOTED_P_LABEL } := by
      rw [Ev.step_at_START ext s hc]
      exact Ev.stepSTART_cbox ext s hcb
    have hopx : Ev.operator s.exp = Ev.and_zap := by rw [he]; rfl
    have h2 : Ev.step ext { s with oper := Ev.operator s.exp, cont := Ev.QUOTED_P_LABEL } = some { s with oper := Ev.operator s.exp, exp := Ev.operands s.exp, val := Ev.true_zap, cont := l, lstack := ls } := by
      rw [Ev.step_at_QUOTED ext _ rfl, Ev.stepQUOTED_and ext _ hopx]
      rw [Ev.stepAND_nil ext { s with oper := Ev.operator s.exp, cont := Ev.QUOTED_P_LABEL } l ls hopx (by rw [he]; rfl) (by rw [he]; rfl) hls]
    refine ⟨{ s with oper := Ev.operator s.exp, exp := Ev.operands s.exp, val := Ev.true_zap, cont := l, lstack := ls }, ?_, rfl, rfl, rfl, rfl, hsc⟩
    show (Ev.step ext s).bind (Ev.stepN ext 1) = _
    rw [h1]
    show (Ev.step ext _).bind (Ev.stepN ext 0) = _
    rw [h2]
    rfl
  · intro ext env ops sc v sc' hae hlp hh
    obtain ⟨n, hev⟩ := hB ext env ops sc v sc' hae hlp hh
    obtain ⟨s', k1, k2, k3, k4, k5, k6⟩ :=
      hev { cont := Ev.START_LABEL, exp := .cons hh Ev.and_zap ops, env := env, sc := sc, lstack := [Ev.END_LABEL], pstack := [] } Ev.END_LABEL [] rfl rfl rfl rfl rfl
    exact ⟨n + 1, s', Ev.run_of_stepN ext n _ s' k1 k2, k5, k4, k3, k6⟩

/-- A two-operand `and` whose second operand is an application of `error`:
the first operand is the false zap, so the chain stops after it; under
`demoExt` every builtin application aborts, so had the machine dispatched
the second operand's application it could only have failed. -/
def errApp : Ev.SExp :=
  .cons .plain (.symv [101, 114, 114, 111, 114])
    (.cons .plain (.strv [120]) .nil)

def andOpsDemo : Ev.SExp :=
  .cons .plain (.boolv false) (.cons .plain errApp .nil)

theorem c5_and_shortcircuit_witness :
    Ev.EvalsTo demoExt 2 (.cons .plain Ev.and_zap .nil) .nil true
      Ev.true_zap true ∧
    Ev.list_p andOpsDemo = true ∧
    (∃ n, Ev.EvalsTo demoExt n (.cons .plain Ev.and_zap andOpsDemo) .nil
      true Ev.false_zap true) ∧
    (∃ fuel s', Ev.evalLoop demoExt fuel
        (.cons .plain Ev.and_zap andOpsDemo) .nil true = some s' ∧
      s'.val = Ev.false_zap ∧ s'.pstack = [] ∧ s'.lstack = [] ∧
      s'.sc = true) :=
  have hae : Ev.AndEval demoExt .nil andOpsDemo true Ev.false_zap true :=
    Ev.AndEval.stop .plain (.boolv false) (.cons .plain errApp .nil) true
      true 1 (Ev.evalsTo_self demoExt (.boolv false) .nil true rfl rfl)
      (by decide)
  ⟨c5_and_shortcircuit.1 demoExt .nil .plain true, by decide,
   c5_and_shortcircuit.2.1 demoExt .nil andOpsDemo true Ev.false_zap true
     hae (by decide) .plain,
   c5_and_shortcircuit.2.2 demoExt .nil andOpsDemo true Ev.false_zap true
     hae (by decide) .plain⟩

theorem c2_mark_dsw_witness :
    ∃ h', markFrom dswDemoHeap (Val.cell 0)
        (2 * unmarkedCount dswDemoHeap + 1) = some h' ∧
      h'.ncells = dswDemoHeap.ncells ∧
      blocksShape h'.blocks = blocksShape dswDemoHeap.blocks ∧
      h'.cboxFree = dswDemoHeap.cboxFree ∧
      h'.storFree = dswDemoHeap.storFree ∧
      (∀ j, cellSlots h' j = cellSlots dswDemoHeap j) ∧
      (∀ c, ∃ k, k ≤ 3 ∧
        markLoopC dswDemoHeap (Val.cell 0) .nil c
          (2 * unmarkedCount dswDemoHeap + 1) = some (h', k)) :=
  c2_mark_dsw dswDemoHeap (Val.cell 0)
    (by
      intro i hi
      refine ⟨?_, ?_, ?_⟩
      · intro hx
        exact nomatch hx
      · exact trivial
      · exact trivial)
    (by
      intro d hd hx
      exact nomatch hx)
    Nat.zero_lt_one
    (by
      intro hx
      exact nomatch hx)
    (by
      intro w hx
      exact nomatch hx)


/-- **C9**: whenever `evaluation_loop` terminates normally by reaching
`END_LABEL`, the pointer stack and the label stack are exactly as at
entry from `micro_eval` - both empty, the entry `END_LABEL` popped - so
every state that pushes pointers or labels pops them on every non-error
path before the loop ends. -/
theorem c9_stack_balance (ext : Ev.Ext) (fuel : Nat) (e env : Ev.SExp)
    (sc : Bool) (s' : Ev.EState)
    (h : Ev.evalLoop ext fuel e env sc = some s') :
    s'.cont = Ev.END_LABEL ∧ s'.pstack = [] ∧ s'.lstack = [] := by
  have hinv : Ev.Inv { cont := Ev.START_LABEL, exp := e, env := env, sc := sc, lstack := [Ev.END_LABEL], pstack := [] } :=
    ⟨rfl, by simp [Ev.START_LABEL, Ev.END_LABEL], fun _ => ⟨[], rfl, by simp⟩⟩
  obtain ⟨h1, h2, h3⟩ := Ev.run_inv ext fuel _ s' hinv h
  exact ⟨h1, h3, h2⟩

/-- The balance theorem at a concrete run: evaluating `#t` under the
demo builtins finishes in two loop iterations with empty stacks. -/
theorem c9_stack_balance_witness :
    ∃ s', Ev.evalLoop demoExt 2 (Ev.SExp.boolv true) Ev.SExp.nil true = some s' ∧
      s'.cont = Ev.END_LABEL ∧ s'.pstack = [] ∧ s'.lstack = [] :=
  ⟨_, rfl, c9_stack_balance demoExt 2 (Ev.SExp.boolv true) Ev.SExp.nil true _ rfl⟩

/-- **C6** (amended): for integers `a`, `b` in the machine `long` range
`[-2^31, 2^31 - 1]` with `b` nonzero, except the single overflowing pair
`a = LONG_MIN`, `b = -1`, the `/` builtin applied to the two-element
argument list `(a b)` returns `floor(a / b)`, the quotient rounded
toward negative infinity: the `double` conversions of `a` and `b` are
exact below `2 ^ 53`, the rounded quotient stays closer to the exact
quotient than the `1 / |b|` gap to the nearest integer, and the floored
result lies inside the `long` range, so the final `(long int)` cast
preserves it. -/
theorem c6_div_floor (a b : Int)
    (ha1 : -2147483648 ≤ a) (ha2 : a ≤ 2147483647)
    (hb1 : -2147483648 ≤ b) (hb2 : b ≤ 2147483647)
    (hb0 : b ≠ 0) (hmin : ¬(a = -2147483648 ∧ b = -1)) :
    divBuiltin [a, b] = some ⌊(a : ℚ) / (b : ℚ)⌋ := by
  have e31 : (2147483648 : ℤ) = 2 ^ 31 := by norm_num
  have ha : |a| ≤ 2 ^ 31 := by
    rw [abs_le, ← e31]
    exact ⟨ha1, ha2.trans (by norm_num)⟩
  have hb : |b| ≤ 2 ^ 31 := by
    rw [abs_le, ← e31]
    exact ⟨hb1, hb2.trans (by norm_num)⟩
  have ha53 : |a| < 2 ^ 53 := lt_of_le_of_lt ha (by norm_num)
  have hb53 : |b| < 2 ^ 53 := lt_of_le_of_lt hb (by norm_num)
  have hbq : (b : ℚ) ≠ 0 := Int.cast_ne_zero.mpr hb0
  have hb1q : (1 : ℚ) ≤ |(b : ℚ)| := by
    rw [← Int.cast_abs]
    exact_mod_cast Int.one_le_abs hb0
  have haZ : |a| ≤ 2147483648 := by rw [e31]; exact ha
  have haq : |(a : ℚ)| ≤ (2147483648 : ℚ) := by
    rw [← Int.cast_abs]
    exact_mod_cast haZ
  have hqle : |(a : ℚ) / (b : ℚ)| ≤ |(a : ℚ)| := by
    rw [abs_div]
    exact div_le_self (abs_nonneg _) hb1q
  have hqabs : |(a : ℚ) / (b : ℚ)| ≤ (2147483648 : ℚ) := le_trans hqle haq
  have hlo : (-2147483648 : ℤ) ≤ ⌊(a : ℚ) / (b : ℚ)⌋ := by
    rw [Int.le_floor]
    push_cast
    linarith [neg_abs_le ((a : ℚ) / (b : ℚ))]
  have hhi : ⌊(a : ℚ) / (b : ℚ)⌋ ≤ 2147483647 := by
    by_contra hgt
    push_neg at hgt
    have hz : (2147483648 : ℤ) ≤ ⌊(a : ℚ) / (b : ℚ)⌋ := by omega
    have hq1 : ((2147483648 : ℤ) : ℚ) ≤ (a : ℚ) / (b : ℚ) := Int.le_floor.mp hz
    have hq2 : (a : ℚ) / (b : ℚ) ≤ ((2147483648 : ℤ) : ℚ) := by
      push_cast
      linarith [le_abs_self ((a : ℚ) / (b : ℚ))]
    have hqeq : (a : ℚ) / (b : ℚ) = ((2147483648 : ℤ) : ℚ) :=
      le_antisymm hq2 hq1
    rw [div_eq_iff hbq] at hqeq
    have habz : a = 2147483648 * b := by exact_mod_cast hqeq
    omega
  show castLong ⌊divFold (flq (a : ℚ)) [b]⌋ = some ⌊(a : ℚ) / (b : ℚ)⌋
  rw [divFold, divFold, flq_intCast a ha53, flq_intCast b hb53,
      floor_flq_div a b ha hb0]
  simp only [castLong]
  rw [if_pos ⟨hlo, hhi⟩]

/-- **C6 counterexample** to the claim as stated: `a = -2147483648` and
`b = -1` are machine `long`s with `b` nonzero, yet `floor(a/b) = 2 ^ 31`
exceeds `LONG_MAX`, so the final `(long int)` conversion of the floored
double (part_000 118) is out of range - undefined behaviour in C - and
the builtin cannot return `floor(a/b)`. -/
theorem c6_div_floor_counterexample :
    (-1 : Int) ≠ 0 ∧
    ⌊((-2147483648 : Int) : ℚ) / ((-1 : Int) : ℚ)⌋ = 2147483648 ∧
    divBuiltin [-2147483648, -1] = none := by
  have hfl : ⌊((-2147483648 : Int) : ℚ) / ((-1 : Int) : ℚ)⌋ = 2147483648 := by
    push_cast
    norm_num
  refine ⟨by decide, hfl, ?_⟩
  show castLong ⌊divFold (flq ((-2147483648 : Int) : ℚ)) [-1]⌋ = none
  rw [divFold, divFold, flq_intCast (-2147483648) (by decide),
      flq_intCast (-1) (by decide),
      floor_flq_div (-2147483648) (-1) (by decide) (by decide), hfl]
  decide

/-- The division theorem at a concrete input: `(/ 7 -2)` yields `-4`
(toward negative infinity, not the truncated `-3`). -/
theorem c6_div_floor_witness :
    (-2147483648 : Int) ≤ 7 ∧ (7 : Int) ≤ 2147483647 ∧
    (-2147483648 : Int) ≤ -2 ∧ (-2 : Int) ≤ 2147483647 ∧ (-2 : Int) ≠ 0 ∧
    ¬((7 : Int) = -2147483648 ∧ (-2 : Int) = -1) ∧
      divBuiltin [7, -2] = some (-4) := by
  refine ⟨by decide, by decide, by decide, by decide, by decide, by decide, ?_⟩
  rw [c6_div_floor 7 (-2) (by decide) (by decide) (by decide) (by decide)
      (by decide) (by decide)]
  norm_num

end MicroScheme
